import Mathlib

/-!
# Data-Analyzer: dataset ingestion, column statistics and the analysis engine

A shallow embedding of `backend/models/dataset.go`, of
`backend/services/analysis_engine.go` (chart validation, the chart data
projections and the analysis flow with its retry loop) and of the response
decoding of `backend/services/gemini.go` (`extractJSON`).

Conventions of the embedding.

* A Go `interface{}` cell of `Dataset.Rows` is a `Cell`: the ingestion code only
  ever stores a trimmed string or leaves the zero value `nil`.
* `float64` is idealised as an exact linearly ordered field `F` (`ℚ` when a
  column is evaluated, `ℝ` when a square root is needed).  `strconv.ParseFloat`
  and `math.Sqrt` are library functions; the definitions take them as the
  parameters `parseFloat` and `sqrt`.
* Where rounding, NaN or an infinity decides what the code returns, the numeric
  functions are run on the binary64 values themselves (`Binary64`, with
  round-to-nearest-even arithmetic, `Binary64.ParseFloat` and `Binary64.sqrt`).
* A Go `map[string]V` is an association list with at most one entry per key
  (`GoMap`): `GoMap.set` is `m[k] = v`, `GoMap.get?` is the lookup, the length
  is `len(m)`.
* Go `int` counters are natural numbers: they only count elements of slices.
* A call that can end in a run-time panic returns an `Outcome`. The conversion
  `int(x)` is truncation toward zero (`truncInt`, on a `FloorRing`), the verb
  `%.2f` of `fmt.Sprintf` is the parameter `fmtFixed2`, and the external
  service is the parameter `gemini`.
* The calls of the external service are observed on `ProcessAnalysisTrace`, the
  analysis flow with a log of its `GenerateCharts` calls; its outcome is proved
  to be the outcome of `ProcessAnalysis`.
-/

namespace DataAnalyzer

/-! ## Cells and Go maps -/

/-- A cell value stored in `Dataset.Rows`: the untyped `nil` or a string. -/
inductive Cell where
  | null : Cell
  | str (s : String) : Cell
deriving DecidableEq

/-- The text `fmt.Sprintf("%v", val)` of a cell. -/
def fmtV : Cell → String
  | Cell.null => "<nil>"
  | Cell.str s => s

/-- A Go `map[string]V`, kept as an association list with distinct keys. -/
abbrev GoMap (V : Type) := List (String × V)

/-- The assignment `m[k] = v`: overwrite the entry of `k` or add a new one. -/
def GoMap.set {V : Type} : GoMap V → String → V → GoMap V
  | [], k, v => [(k, v)]
  | (k', v') :: m, k, v =>
    if k' = k then (k, v) :: m else (k', v') :: GoMap.set m k v

/-- The lookup `m[k]` with its presence flag. -/
def GoMap.get? {V : Type} (m : GoMap V) (k : String) : Option V :=
  List.lookup k m

/-- The keys of a map, in first-insertion order. -/
def GoMap.keys {V : Type} (m : GoMap V) : List String :=
  m.map Prod.fst

/-! ## Summary statistics (`models.SummaryStats`, `calculateStats`) -/

/-- Per-column statistics; a Go pointer field is an `Option`. -/
structure SummaryStats (F : Type) where
  Min : Option F
  Max : Option F
  Mean : Option F
  Median : Option F
  StdDev : Option F
  UniqueCount : Option Nat
  NullCount : Nat
  TotalCount : Nat
deriving DecidableEq

/-- The locals of the scanning loop of `calculateStats`. -/
structure ScanState (F : Type) where
  nullCount : Nat
  numbers : List F
  uniqueStrings : GoMap Bool

/-- The null test of `calculateStats` on the string form of a value. -/
def isNullText (strVal : String) : Bool :=
  strVal == "" || strVal == "null" || strVal == "NULL"

/-- One iteration of `for _, val := range values` in `calculateStats`. -/
def scanStep {F : Type} (parseFloat : String → Option F)
    (st : ScanState F) (val : Cell) : ScanState F :=
  let strVal := fmtV val
  if isNullText strVal then
    { st with nullCount := st.nullCount + 1 }
  else
    match parseFloat strVal with
    | some num => { st with numbers := st.numbers ++ [num] }
    | none => { st with uniqueStrings := GoMap.set st.uniqueStrings strVal true }

/-- The whole scanning loop of `calculateStats`. -/
def scanValues {F : Type} (parseFloat : String → Option F)
    (values : List Cell) : ScanState F :=
  values.foldl (scanStep parseFloat) { nullCount := 0, numbers := [], uniqueStrings := [] }

section Numeric

variable {F : Type} [LinearOrderedField F]

/-- The library call `sort.Float64s`: ascending order. -/
def sortFloat64s (numbers : List F) : List F :=
  numbers.insertionSort (· ≤ ·)

/-- The element `numbers[i]` of a slice (read only at indices the guards keep in range). -/
def at_ (numbers : List F) (i : Nat) : F :=
  numbers.getD i 0

/-- The loop `for _, n := range numbers { sum += n }`. -/
def sumLoop (numbers : List F) : F :=
  numbers.foldl (fun sum n => sum + n) 0

/-- The loop `for _, n := range numbers { variance += math.Pow(n-mean, 2) }`. -/
def varianceLoop (numbers : List F) (mean : F) : F :=
  numbers.foldl (fun variance n => variance + (n - mean) ^ 2) 0

/-- The median computed by `calculateStats` from the sorted slice. -/
def medianOf (numbers : List F) : F :=
  if numbers.length % 2 = 0 then
    (at_ numbers (numbers.length / 2 - 1) + at_ numbers (numbers.length / 2)) / 2
  else
    at_ numbers (numbers.length / 2)

/-- The function `(*Dataset).calculateStats`. -/
def calculateStats (parseFloat : String → Option F) (sqrt : F → F)
    (columnName : String) (values : List Cell) : SummaryStats F :=
  let st := scanValues parseFloat values
  if st.numbers.length > 0 then
    let numbers := sortFloat64s st.numbers
    let min := at_ numbers 0
    let max := at_ numbers (numbers.length - 1)
    let sum := sumLoop numbers
    let mean := sum / (numbers.length : F)
    let median := medianOf numbers
    let variance := varianceLoop numbers mean
    let stdDev := sqrt (variance / (numbers.length : F))
    { Min := some min, Max := some max, Mean := some mean, Median := some median,
      StdDev := some stdDev, UniqueCount := none,
      NullCount := st.nullCount, TotalCount := values.length }
  else
    { Min := none, Max := none, Mean := none, Median := none, StdDev := none,
      UniqueCount := some st.uniqueStrings.length,
      NullCount := st.nullCount, TotalCount := values.length }

end Numeric

/-! ## A reference instance of the number parser -/

/-- The leading decimal digits of a character list and the rest. -/
def takeDigits : List Char → List Nat × List Char
  | [] => ([], [])
  | c :: cs =>
    if c.isDigit then ((c.toNat - 48) :: (takeDigits cs).1, (takeDigits cs).2)
    else ([], c :: cs)

/-- The number written by a list of decimal digits. -/
def digitsToNat (ds : List Nat) : Nat :=
  ds.foldl (fun a d => 10 * a + d) 0

/-- The exponent part of a decimal literal: empty, or `e`/`E`, a sign, digits. -/
def parseExponent : List Char → Option Int
  | [] => some 0
  | c :: r =>
    if c = 'e' ∨ c = 'E' then
      match r with
      | '-' :: r' =>
        if (takeDigits r').1 ≠ [] ∧ (takeDigits r').2 = [] then
          some (-(digitsToNat (takeDigits r').1 : Int)) else none
      | '+' :: r' =>
        if (takeDigits r').1 ≠ [] ∧ (takeDigits r').2 = [] then
          some (digitsToNat (takeDigits r').1 : Int) else none
      | _ =>
        if (takeDigits r).1 ≠ [] ∧ (takeDigits r).2 = [] then
          some (digitsToNat (takeDigits r).1 : Int) else none
    else none

/-- The unsigned part of a decimal literal: digits, optional point, optional exponent. -/
def parseUnsigned (cs : List Char) : Option ℚ :=
  let ip := (takeDigits cs).1
  let r := (takeDigits cs).2
  let fp := match r with
    | '.' :: r' => (takeDigits r').1
    | _ => []
  let r2 := match r with
    | '.' :: r' => (takeDigits r').2
    | _ => r
  if ip.length + fp.length = 0 then none
  else
    match parseExponent r2 with
    | none => none
    | some e => some ((digitsToNat (ip ++ fp) : ℚ) / 10 ^ fp.length * 10 ^ e)

/-- A reference instance of the parser parameter: the plain decimal literals of
`strconv.ParseFloat` (an optional sign, decimal digits with an optional point,
an optional decimal exponent) read with their exact rational value, without
rounding and without a range error. The theorems hold for every parser; this
one is used to run the definitions on concrete columns. -/
def parseDecimal (s : String) : Option ℚ :=
  match s.data with
  | '-' :: r => (parseUnsigned r).map (fun q => -q)
  | '+' :: r => parseUnsigned r
  | cs => parseUnsigned cs

/-! ## Ingestion (`parseCSV`, `parseExcel`, `inferTypesAndStats`) -/

/-- The predicate `unicode.IsSpace` used by `strings.TrimSpace`. -/
def IsSpace (c : Char) : Bool :=
  c = '\t' || c = '\n' || c.toNat = 0x0B || c.toNat = 0x0C || c = '\r' || c = ' ' ||
  c.toNat = 0x85 || c.toNat = 0xA0 || c.toNat = 0x1680 ||
  (0x2000 ≤ c.toNat && c.toNat ≤ 0x200A) || c.toNat = 0x2028 || c.toNat = 0x2029 ||
  c.toNat = 0x202F || c.toNat = 0x205F || c.toNat = 0x3000

/-- The library call `strings.TrimSpace`: drop leading and trailing white space. -/
def TrimSpace (s : String) : String :=
  String.mk ((s.data.dropWhile IsSpace).reverse.dropWhile IsSpace).reverse

/-- Column metadata (`models.ColumnInfo`); `Typ` is the Go field `Type`. -/
structure ColumnInfo where
  Name : String
  Typ : String
deriving DecidableEq

/-- The parsed dataset (`models.Dataset`). -/
structure Dataset (F : Type) where
  Columns : List ColumnInfo
  Rows : List (List Cell)
  Summary : GoMap (SummaryStats F)
deriving DecidableEq

/-- How an ingestion call can end without a dataset: a returned `error`, or the
run-time panic of an assignment past the end of a slice. -/
inductive Failure where
  | error (msg : String) : Failure
  | indexOutOfRange : Failure
deriving DecidableEq

deriving instance DecidableEq for Except

section Ingest

variable {F : Type} [LinearOrderedField F]

/-- The values of column `colIdx`: the inner loop of `inferTypesAndStats`
(and the body of `GetColumnData` once the index is known). -/
def columnValues (rows : List (List Cell)) (colIdx : Nat) : List Cell :=
  rows.filterMap (fun row => if colIdx < row.length then row.get? colIdx else none)

/-- One iteration of `for colIdx, col := range d.Columns` in `inferTypesAndStats`. -/
def inferStep (parseFloat : String → Option F) (sqrt : F → F)
    (d : Dataset F) (colIdx : Nat) (col : ColumnInfo) : Dataset F :=
  let values := columnValues d.Rows colIdx
  let stats := calculateStats parseFloat sqrt col.Name values
  { d with
    Summary := GoMap.set d.Summary col.Name stats
    Columns :=
      if stats.Mean.isSome then d.Columns.set colIdx { Name := col.Name, Typ := "number" }
      else d.Columns.set colIdx { Name := col.Name, Typ := "string" } }

/-- The loop `for colIdx, col := range d.Columns`, from index `colIdx` on. -/
def inferLoop (parseFloat : String → Option F) (sqrt : F → F) :
    Dataset F → Nat → List ColumnInfo → Dataset F
  | d, _, [] => d
  | d, colIdx, col :: rest =>
    inferLoop parseFloat sqrt (inferStep parseFloat sqrt d colIdx col) (colIdx + 1) rest

/-- The method `(*Dataset).inferTypesAndStats`. -/
def inferTypesAndStats (parseFloat : String → Option F) (sqrt : F → F)
    (d : Dataset F) : Dataset F :=
  if d.Columns.length = 0 ∨ d.Rows.length = 0 then d
  else inferLoop parseFloat sqrt d 0 d.Columns

/-- The column initialisation loop shared by `parseCSV` and `parseExcel`. -/
def initColumns (headers : List String) : List ColumnInfo :=
  headers.map (fun header => { Name := TrimSpace header, Typ := "string" })

/-- The inner loop `for j, val := range row` of `parseCSV`, from index `j` on:
`Rows[i][j] = strings.TrimSpace(val)`, a panic when `j` is past the slice. -/
def csvFill : List Cell → Nat → List String → Except Failure (List Cell)
  | cells, _, [] => Except.ok cells
  | cells, j, val :: rest =>
    if j < cells.length then csvFill (cells.set j (Cell.str (TrimSpace val))) (j + 1) rest
    else Except.error Failure.indexOutOfRange

/-- One row of `parseCSV`: `make([]interface{}, len(headers))`, then the inner loop. -/
def csvRow (k : Nat) (row : List String) : Except Failure (List Cell) :=
  csvFill (List.replicate k Cell.null) 0 row

/-- The outer loop `for i, row := range rows` of `parseCSV`. -/
def csvRows (k : Nat) : List (List String) → Except Failure (List (List Cell))
  | [] => Except.ok []
  | row :: rest =>
    match csvRow k row with
    | Except.error e => Except.error e
    | Except.ok cells =>
      match csvRows k rest with
      | Except.error e => Except.error e
      | Except.ok more => Except.ok (cells :: more)

/-- The library call `reader.ReadAll()` of `encoding/csv` on the tokenised
records of the file. A reader made by `csv.NewReader` has `FieldsPerRecord = 0`:
the first record fixes the field count and a later record with another count
is the error `ErrFieldCount`. -/
def csvReadAll (lines : List (List String)) : Except Failure (List (List String)) :=
  match lines with
  | [] => Except.ok []
  | first :: rest =>
    if rest.all (fun record => record.length == first.length) then Except.ok lines
    else Except.error (Failure.error "wrong number of fields")

/-- The part of `parseCSV` after `reader.ReadAll()` returned `records`. -/
def parseCSVRecords (parseFloat : String → Option F) (sqrt : F → F)
    (records : List (List String)) : Except Failure (Dataset F) :=
  match records with
  | [] => Except.error (Failure.error "empty CSV file")
  | headers :: rows =>
    match csvRows headers.length rows with
    | Except.error e => Except.error e
    | Except.ok cells =>
      Except.ok (inferTypesAndStats parseFloat sqrt
        { Columns := initColumns headers, Rows := cells, Summary := [] })

/-- The function `parseCSV`, from the tokenised records of an opened file. -/
def parseCSV (parseFloat : String → Option F) (sqrt : F → F)
    (lines : List (List String)) : Except Failure (Dataset F) :=
  match csvReadAll lines with
  | Except.error e => Except.error e
  | Except.ok records => parseCSVRecords parseFloat sqrt records

/-- A worksheet of an opened workbook: its name and its rows of cell texts. -/
structure Sheet where
  name : String
  rows : List (List String)

/-- The library call `f.GetSheetName(index)`: empty when there is no such sheet. -/
def GetSheetName (f : List Sheet) (index : Nat) : String :=
  match f.get? index with
  | some sheet => sheet.name
  | none => ""

/-- The library call `f.GetRows(sheetName)`. -/
def GetRows (f : List Sheet) (sheetName : String) : Except Failure (List (List String)) :=
  match f.find? (fun sheet => sheet.name == sheetName) with
  | some sheet => Except.ok sheet.rows
  | none => Except.error (Failure.error "sheet does not exist")

/-- The row loop of `parseExcel`: position `j` holds the trimmed cell when the
row has one and the empty string otherwise. -/
def excelRow (k : Nat) (row : List String) : List Cell :=
  (List.range k).map (fun j =>
    if j < row.length then Cell.str (TrimSpace (row.getD j "")) else Cell.str "")

/-- The function `parseExcel`, from the sheets of an opened workbook. -/
def parseExcel (parseFloat : String → Option F) (sqrt : F → F)
    (f : List Sheet) : Except Failure (Dataset F) :=
  let sheetName := GetSheetName f 0
  if sheetName = "" then Except.error (Failure.error "no sheets found in Excel file")
  else
    match GetRows f sheetName with
    | Except.error e => Except.error e
    | Except.ok rows =>
      match rows with
      | [] => Except.error (Failure.error "empty Excel file")
      | headers :: dataRows =>
        Except.ok (inferTypesAndStats parseFloat sqrt
          { Columns := initColumns headers,
            Rows := dataRows.map (excelRow headers.length),
            Summary := [] })

end Ingest

/-! ## Chart validation (`validateChartConfig`) -/

/-- A proposed chart (`models.ChartConfig`); `Typ` is the Go field `Type`. The
output field `Data` is filled after validation and is not read by the validator. -/
structure ChartConfig where
  Typ : String
  Title : String
  X : String
  Y : String
  Y2 : String
  Z : String
  Category : String
  Value : String
  GroupBy : String
  Stacked : Bool
  Aggregate : String
  Bins : Int
  Columns : List String

/-- The map `columnMap` built at the start of `validateChartConfig`. -/
def buildColumnMap (columns : List ColumnInfo) : GoMap Bool :=
  columns.foldl (fun columnMap col => GoMap.set columnMap col.Name true) []

/-- The read `columnMap[k]` of a `map[string]bool`: `false` for a missing key. -/
def columnMapAt (columnMap : GoMap Bool) (k : String) : Bool :=
  (GoMap.get? columnMap k).getD false

/-- The function `(*AnalysisEngine).validateChartConfig`. -/
def validateChartConfig {F : Type} (dataset : Dataset F) (chart : ChartConfig) : Bool :=
  let columnMap := buildColumnMap dataset.Columns
  if chart.Typ = "bar" ∨ chart.Typ = "line" ∨ chart.Typ = "area" ∨ chart.Typ = "scatter" ∨
      chart.Typ = "combo" then
    if chart.X ≠ "" ∧ !columnMapAt columnMap chart.X then false
    else if chart.Y ≠ "" ∧ !columnMapAt columnMap chart.Y then false
    else if chart.Y2 ≠ "" ∧ !columnMapAt columnMap chart.Y2 then false
    else if chart.GroupBy ≠ "" ∧ !columnMapAt columnMap chart.GroupBy then false
    else true
  else if chart.Typ = "pie" then
    if chart.Category ≠ "" ∧ !columnMapAt columnMap chart.Category then false
    else if chart.Value ≠ "" ∧ !columnMapAt columnMap chart.Value then false
    else true
  else if chart.Typ = "histogram" then
    if chart.X ≠ "" ∧ !columnMapAt columnMap chart.X then false
    else true
  else if chart.Typ = "boxplot" then
    if chart.Y ≠ "" ∧ !columnMapAt columnMap chart.Y then false
    else true
  else if chart.Typ = "bubble" then
    if chart.X ≠ "" ∧ !columnMapAt columnMap chart.X then false
    else if chart.Y ≠ "" ∧ !columnMapAt columnMap chart.Y then false
    else if chart.Z ≠ "" ∧ !columnMapAt columnMap chart.Z then false
    else true
  else if chart.Typ = "correlation" ∨ chart.Typ = "heatmap" then
    if chart.Columns.length = 0 then false
    else chart.Columns.all (fun col => columnMapAt columnMap col)
  else false

/-! ## Chart data (`generateChartData` and the projections)

A chart row is a Go `map[string]interface{}`. The model iterates a Go map in
first-insertion order; Go leaves the order of `range` over a map unspecified,
so statements about rows produced from a map are made up to that order. -/

/-- A value stored in a chart row: `nil`, a string, a `float64`, an `int` or a
`[]float64`. -/
inductive Value (F : Type) where
  | null : Value F
  | str (s : String) : Value F
  | num (x : F) : Value F
  | int (n : Int) : Value F
  | nums (xs : List F) : Value F
deriving DecidableEq

/-- A dataset cell stored unchanged in a chart row. -/
def Cell.toValue {F : Type} : Cell → Value F
  | Cell.null => Value.null
  | Cell.str s => Value.str s

/-- One element of `[]map[string]interface{}`. -/
abbrev ChartRow (F : Type) := GoMap (Value F)

/-- How a call of the analysis engine ends: a result, a returned `error`, or a
run-time panic. -/
inductive Outcome (α : Type) where
  | ok (a : α) : Outcome α
  | error (msg : String) : Outcome α
  | panic (msg : String) : Outcome α
deriving DecidableEq

/-- The search loop of `GetColumnData`: the index of the first column named
`columnName`, counted from `i`. -/
def findColumn : List ColumnInfo → String → Nat → Option Nat
  | [], _, _ => none
  | col :: rest, columnName, i =>
    if col.Name = columnName then some i else findColumn rest columnName (i + 1)

/-- The method `(*Dataset).GetColumnData`; the `nil` result is the empty slice. -/
def GetColumnData {F : Type} (d : Dataset F) (columnName : String) : List Cell :=
  match findColumn d.Columns columnName 0 with
  | none => []
  | some colIdx => columnValues d.Rows colIdx

/-- The method `toNumber` on a cell: a string is parsed, any other value is
parsed from its `%v` text. -/
def toNumber {F : Type} (parseFloat : String → Option F) : Cell → Option F
  | Cell.str v => parseFloat v
  | v => parseFloat (fmtV v)

/-- The loop `for _, val := range values` that extracts the numeric values. -/
def extractNumbers {F : Type} (parseFloat : String → Option F) (values : List Cell) : List F :=
  values.filterMap (toNumber parseFloat)

section Projections

variable {F : Type} [LinearOrderedField F]

/-- The point built by one iteration of `generateXYData`. -/
def xyPoint (parseFloat : String → Option F) (xCol yCol : String) (xVal yVal : Cell) :
    ChartRow F :=
  let point : ChartRow F := GoMap.set (GoMap.set [] xCol xVal.toValue) yCol yVal.toValue
  let point : ChartRow F :=
    match toNumber parseFloat xVal with
    | some xNum => GoMap.set point xCol (Value.num xNum)
    | none => point
  match toNumber parseFloat yVal with
  | some yNum => GoMap.set point yCol (Value.num yNum)
  | none => point

/-- The method `generateXYData`. -/
def generateXYData (parseFloat : String → Option F) (dataset : Dataset F)
    (xCol yCol : String) : List (ChartRow F) :=
  let xValues := GetColumnData dataset xCol
  let yValues := GetColumnData dataset yCol
  if xValues.length ≠ yValues.length then []
  else ((xValues.zip yValues).take 100).map (fun p => xyPoint parseFloat xCol yCol p.1 p.2)

/-- One iteration of the aggregation loop of `generatePieData`:
`aggregated[category] += value` when the value parses. -/
def pieStep (parseFloat : String → Option F) (aggregated : GoMap F) (entry : Cell × Cell) :
    GoMap F :=
  let category := fmtV entry.1
  match toNumber parseFloat entry.2 with
  | some value =>
    GoMap.set aggregated category ((GoMap.get? aggregated category).getD 0 + value)
  | none => aggregated

/-- The method `generatePieData`. -/
def generatePieData (parseFloat : String → Option F) (dataset : Dataset F)
    (categoryCol valueCol : String) : List (ChartRow F) :=
  let categoryValues := GetColumnData dataset categoryCol
  let valueValues := GetColumnData dataset valueCol
  if categoryValues.length ≠ valueValues.length then []
  else
    let aggregated := (categoryValues.zip valueValues).foldl (pieStep parseFloat) []
    aggregated.map (fun e =>
      GoMap.set (GoMap.set [] categoryCol (Value.str e.1)) valueCol (Value.num e.2))

/-- The `switch chart.Aggregate` of `generateAggregatedData` and of
`generateGroupedData` on a non-empty slice of values. -/
def applyAggregate (aggregate : String) (values : List F) : F :=
  if aggregate = "sum" then sumLoop values
  else if aggregate = "avg" then sumLoop values / (values.length : F)
  else if aggregate = "count" then (values.length : F)
  else if aggregate = "max" then
    values.foldl (fun result v => if v > result then v else result) (at_ values 0)
  else if aggregate = "min" then
    values.foldl (fun result v => if v < result then v else result) (at_ values 0)
  else sumLoop values

/-- One iteration of the collecting loop of `generateAggregatedData`. -/
def aggStep (parseFloat : String → Option F) (aggregated : GoMap (List F))
    (entry : Cell × Cell) : GoMap (List F) :=
  let xVal := fmtV entry.1
  match toNumber parseFloat entry.2 with
  | none => aggregated
  | some yVal => GoMap.set aggregated xVal ((GoMap.get? aggregated xVal).getD [] ++ [yVal])

/-- The method `generateAggregatedData`. -/
def generateAggregatedData (parseFloat : String → Option F) (dataset : Dataset F)
    (chart : ChartConfig) : List (ChartRow F) :=
  let xValues := GetColumnData dataset chart.X
  let yValues := GetColumnData dataset chart.Y
  if xValues.length ≠ yValues.length then []
  else
    let aggregated := (xValues.zip yValues).foldl (aggStep parseFloat) []
    aggregated.map (fun e =>
      GoMap.set (GoMap.set [] chart.X (Value.str e.1)) chart.Y
        (Value.num (applyAggregate chart.Aggregate e.2)))

/-- The maps `grouped` and `groups` of `generateGroupedData`. -/
structure GroupState (F : Type) where
  grouped : GoMap (GoMap (List F))
  groups : GoMap Bool

/-- One iteration of the first pass of `generateGroupedData`. -/
def groupStep (parseFloat : String → Option F) (st : GroupState F)
    (entry : Cell × Cell × Cell) : GroupState F :=
  let xVal := fmtV entry.1
  let groupVal := fmtV entry.2.2
  match toNumber parseFloat entry.2.1 with
  | none => st
  | some yVal =>
    let inner := (GoMap.get? st.grouped xVal).getD []
    let values := (GoMap.get? inner groupVal).getD []
    { grouped := GoMap.set st.grouped xVal (GoMap.set inner groupVal (values ++ [yVal])),
      groups := GoMap.set st.groups groupVal true }

/-- The point built for one x-value in the second pass of `generateGroupedData`. -/
def groupPoint (chart : ChartConfig) (groupList : List String) (xVal : String)
    (groupMap : GoMap (List F)) : ChartRow F :=
  groupList.foldl
    (fun point groupVal =>
      let values := (GoMap.get? groupMap groupVal).getD []
      if values.length = 0 then GoMap.set point groupVal (Value.int 0)
      else GoMap.set point groupVal (Value.num (applyAggregate chart.Aggregate values)))
    (GoMap.set [] chart.X (Value.str xVal))

/-- The method `generateGroupedData`. -/
def generateGroupedData (parseFloat : String → Option F) (dataset : Dataset F)
    (chart : ChartConfig) : List (ChartRow F) :=
  let xValues := GetColumnData dataset chart.X
  let yValues := GetColumnData dataset chart.Y
  let groupValues := GetColumnData dataset chart.GroupBy
  if xValues.length ≠ yValues.length ∨ xValues.length ≠ groupValues.length then []
  else
    let st := (xValues.zip (yValues.zip groupValues)).foldl (groupStep parseFloat)
      { grouped := [], groups := [] }
    let groupList := GoMap.keys st.groups
    st.grouped.map (fun e => groupPoint chart groupList e.1 e.2)

/-- The method `generateComboData`. -/
def generateComboData (parseFloat : String → Option F) (dataset : Dataset F)
    (chart : ChartConfig) : List (ChartRow F) :=
  let xValues := GetColumnData dataset chart.X
  let yValues := GetColumnData dataset chart.Y
  let y2Values := GetColumnData dataset chart.Y2
  if xValues.length ≠ yValues.length then []
  else
    ((xValues.zip yValues).take 100).enum.filterMap (fun e =>
      match toNumber parseFloat e.2.2 with
      | none => none
      | some yVal =>
        let point : ChartRow F :=
          GoMap.set (GoMap.set [] chart.X e.2.1.toValue) chart.Y (Value.num yVal)
        if chart.Y2 ≠ "" then
          match y2Values.get? e.1 with
          | some y2Cell =>
            match toNumber parseFloat y2Cell with
            | some y2Val => some (GoMap.set point chart.Y2 (Value.num y2Val))
            | none => some point
          | none => some point
        else some point)

/-- The method `generateBubbleData`. -/
def generateBubbleData (parseFloat : String → Option F) (dataset : Dataset F)
    (chart : ChartConfig) : List (ChartRow F) :=
  let xValues := GetColumnData dataset chart.X
  let yValues := GetColumnData dataset chart.Y
  let zValues := GetColumnData dataset chart.Z
  if xValues.length ≠ yValues.length ∨ xValues.length ≠ zValues.length then []
  else
    ((xValues.zip (yValues.zip zValues)).take 100).filterMap (fun e =>
      match toNumber parseFloat e.1, toNumber parseFloat e.2.1, toNumber parseFloat e.2.2 with
      | some xVal, some yVal, some zVal =>
        some (GoMap.set (GoMap.set (GoMap.set [] chart.X (Value.num xVal)) chart.Y
          (Value.num yVal)) chart.Z (Value.num zVal))
      | _, _, _ => none)

end Projections

section NumericProjections

variable {F : Type} [LinearOrderedField F] [FloorRing F]

/-- The conversion `int(x)` of a `float64`: truncation toward zero. -/
def truncInt (x : F) : Int :=
  if 0 ≤ x then ⌊x⌋ else ⌈x⌉

/-- The loop of `generateHistogramData` that finds `min` and `max`. -/
def minMaxLoop (numbers : List F) : F × F :=
  numbers.foldl
    (fun mm n => (if n < mm.1 then n else mm.1, if n > mm.2 then n else mm.2))
    (at_ numbers 0, at_ numbers 0)

/-- The clamped bin index computed for one value in `generateHistogramData`. -/
def binIndexOf (min binWidth : F) (bins : Int) (n : F) : Int :=
  let binIndex := truncInt ((n - min) / binWidth)
  let binIndex := if binIndex ≥ bins then bins - 1 else binIndex
  if binIndex < 0 then 0 else binIndex

/-- The statement `binCounts[binIndex]++`; `none` is the index-out-of-range panic. -/
def incrAt (binCounts : List Nat) (binIndex : Int) : Option (List Nat) :=
  if 0 ≤ binIndex ∧ binIndex.toNat < binCounts.length then
    some (binCounts.set binIndex.toNat (binCounts.getD binIndex.toNat 0 + 1))
  else none

/-- The counting loop of `generateHistogramData`. -/
def countLoop (min binWidth : F) (bins : Int) : List Nat → List F → Option (List Nat)
  | binCounts, [] => some binCounts
  | binCounts, n :: rest =>
    match incrAt binCounts (binIndexOf min binWidth bins n) with
    | none => none
    | some binCounts' => countLoop min binWidth bins binCounts' rest

/-- The row emitted for bin `i` by `generateHistogramData`; `fmtFixed2` is the
verb `%.2f` of `fmt.Sprintf`. -/
def histogramRow (fmtFixed2 : F → String) (min binWidth : F) (binCounts : List Nat)
    (i : Nat) : ChartRow F :=
  let binStart := min + (i : F) * binWidth
  let binEnd := min + ((i + 1 : Nat) : F) * binWidth
  [("bin", Value.str (fmtFixed2 binStart ++ "-" ++ fmtFixed2 binEnd)),
    ("count", Value.int (binCounts.getD i 0 : Nat)),
    ("start", Value.num binStart),
    ("end", Value.num binEnd)]

/-- The method `generateHistogramData`. `make([]int, bins)` panics on a
negative length. -/
def generateHistogramData (parseFloat : String → Option F) (fmtFixed2 : F → String)
    (dataset : Dataset F) (chart : ChartConfig) : Outcome (List (ChartRow F)) :=
  let values := GetColumnData dataset chart.X
  let numbers := extractNumbers parseFloat values
  if numbers.length = 0 then Outcome.ok []
  else
    let bins : Int := if chart.Bins = 0 then 20 else chart.Bins
    let min := (minMaxLoop numbers).1
    let max := (minMaxLoop numbers).2
    let binWidth := (max - min) / (bins : F)
    if bins < 0 then Outcome.panic "makeslice: len out of range"
    else
      match countLoop min binWidth bins (List.replicate bins.toNat 0) numbers with
      | none => Outcome.panic "index out of range"
      | some binCounts =>
        Outcome.ok ((List.range bins.toNat).map (histogramRow fmtFixed2 min binWidth binCounts))

end NumericProjections

section Boxplot

variable {F : Type} [LinearOrderedField F]

/-- The numbers reported by `generateBoxplotData`. -/
structure BoxplotValues (F : Type) where
  minVal : F
  q1 : F
  median : F
  q3 : F
  maxVal : F
  outliers : List F

/-- The computation of `generateBoxplotData` on the sorted slice `numbers`. -/
def boxplotValues (numbers : List F) : BoxplotValues F :=
  let n := numbers.length
  let q1Idx := n / 4
  let medianIdx := n / 2
  let q3Idx := 3 * n / 4
  let q1 := at_ numbers q1Idx
  let median := at_ numbers medianIdx
  let q3 := at_ numbers q3Idx
  let iqr := q3 - q1
  let lowerFence := q1 - 3 / 2 * iqr
  let upperFence := q3 + 3 / 2 * iqr
  let outliers := numbers.filter (fun n => n < lowerFence ∨ n > upperFence)
  let minVal := numbers.foldl
    (fun minVal n => if n ≥ lowerFence ∧ n < minVal then n else minVal) (at_ numbers 0)
  let maxVal := numbers.foldl
    (fun maxVal n => if n ≤ upperFence ∧ n > maxVal then n else maxVal) (at_ numbers (n - 1))
  { minVal := minVal, q1 := q1, median := median, q3 := q3, maxVal := maxVal,
    outliers := outliers }

/-- The method `generateBoxplotData`. -/
def generateBoxplotData (parseFloat : String → Option F) (dataset : Dataset F)
    (chart : ChartConfig) : List (ChartRow F) :=
  let values := GetColumnData dataset chart.Y
  let numbers := extractNumbers parseFloat values
  if numbers.length = 0 then []
  else
    let b := boxplotValues (sortFloat64s numbers)
    [[("min", Value.num b.minVal), ("q1", Value.num b.q1), ("median", Value.num b.median),
      ("q3", Value.num b.q3), ("max", Value.num b.maxVal), ("outliers", Value.nums b.outliers)]]

/-- The method `calculateCorrelation`. -/
def calculateCorrelation (sqrt : F → F) (x y : List F) : F :=
  if x.length ≠ y.length ∨ x.length = 0 then 0
  else
    let minLen := if y.length < x.length then y.length else x.length
    if minLen = 0 then 0
    else
      let sums := (List.range minLen).foldl
        (fun (s : F × F) i => (s.1 + at_ x i, s.2 + at_ y i)) (0, 0)
      let meanX := sums.1 / (minLen : F)
      let meanY := sums.2 / (minLen : F)
      let acc := (List.range minLen).foldl
        (fun (a : F × F × F) i =>
          (a.1 + (at_ x i - meanX) * (at_ y i - meanY),
            a.2.1 + (at_ x i - meanX) * (at_ x i - meanX),
            a.2.2 + (at_ y i - meanY) * (at_ y i - meanY)))
        (0, 0, 0)
      let denominator := sqrt (acc.2.1 * acc.2.2)
      if denominator = 0 then 0 else acc.1 / denominator

/-- The method `generateCorrelationData`. -/
def generateCorrelationData (parseFloat : String → Option F) (sqrt : F → F)
    (dataset : Dataset F) (chart : ChartConfig) : List (ChartRow F) :=
  if chart.Columns.length = 0 then []
  else
    let columnData : GoMap (List F) := chart.Columns.foldl
      (fun m colName =>
        GoMap.set m colName (extractNumbers parseFloat (GetColumnData dataset colName))) []
    chart.Columns.map (fun col1 =>
      chart.Columns.foldl
        (fun (row : ChartRow F) col2 =>
          GoMap.set row col2 (Value.num (calculateCorrelation sqrt
            ((GoMap.get? columnData col1).getD []) ((GoMap.get? columnData col2).getD []))))
        (GoMap.set [] "column" (Value.str col1)))

end Boxplot

section Engine

variable {F : Type} [LinearOrderedField F] [FloorRing F]

/-- The method `generateChartData`. -/
def generateChartData (parseFloat : String → Option F) (sqrt : F → F)
    (fmtFixed2 : F → String) (dataset : Dataset F) (chart : ChartConfig) :
    Outcome (List (ChartRow F)) :=
  if chart.Typ = "bar" ∨ chart.Typ = "line" ∨ chart.Typ = "area" then
    if chart.X ≠ "" ∧ chart.Y ≠ "" then
      if chart.GroupBy ≠ "" then Outcome.ok (generateGroupedData parseFloat dataset chart)
      else if chart.Aggregate ≠ "" then
        Outcome.ok (generateAggregatedData parseFloat dataset chart)
      else Outcome.ok (generateXYData parseFloat dataset chart.X chart.Y)
    else Outcome.ok []
  else if chart.Typ = "scatter" then
    if chart.X ≠ "" ∧ chart.Y ≠ "" then
      Outcome.ok (generateXYData parseFloat dataset chart.X chart.Y)
    else Outcome.ok []
  else if chart.Typ = "bubble" then
    if chart.X ≠ "" ∧ chart.Y ≠ "" ∧ chart.Z ≠ "" then
      Outcome.ok (generateBubbleData parseFloat dataset chart)
    else Outcome.ok []
  else if chart.Typ = "pie" then
    if chart.Category ≠ "" ∧ chart.Value ≠ "" then
      Outcome.ok (generatePieData parseFloat dataset chart.Category chart.Value)
    else Outcome.ok []
  else if chart.Typ = "combo" then
    if chart.X ≠ "" ∧ chart.Y ≠ "" then Outcome.ok (generateComboData parseFloat dataset chart)
    else Outcome.ok []
  else if chart.Typ = "histogram" then
    if chart.X ≠ "" then generateHistogramData parseFloat fmtFixed2 dataset chart
    else Outcome.ok []
  else if chart.Typ = "boxplot" then
    if chart.Y ≠ "" then Outcome.ok (generateBoxplotData parseFloat dataset chart)
    else Outcome.ok []
  else if chart.Typ = "correlation" ∨ chart.Typ = "heatmap" then
    if chart.Columns.length > 0 then
      Outcome.ok (generateCorrelationData parseFloat sqrt dataset chart)
    else Outcome.ok []
  else Outcome.ok []

/-! ## The analysis flow (`ProcessAnalysis`) -/

/-- A chart of the analysis result: the proposed `models.ChartConfig` with its
`Data` field filled by `generateChartData`. -/
structure ChartOut (F : Type) where
  config : ChartConfig
  Data : List (ChartRow F)

/-- The struct `ProcessAnalysisResult`. -/
structure ProcessAnalysisResult (F : Type) where
  Insights : String
  Charts : List (ChartOut F)
  ChartStatus : String
  ChartMessage : String
  RetryAttempts : Nat

/-- The external service `GeminiService` as the engine uses it. `GenerateCharts`
takes the number of the attempt as its first argument, so that two calls with
the same feedback may answer differently. -/
structure Gemini (F : Type) where
  Analyze : Dataset F → String → Except String String
  GenerateCharts : Nat → Dataset F → String → String → Except String (List ChartConfig)

/-- The library call `strings.Contains`. -/
def strContains (s substr : String) : Bool :=
  s.data.tails.any (fun t => substr.data.isPrefixOf t)

/-- The method `isChartGenerationFeasible`. -/
def isChartGenerationFeasible (dataset : Dataset F) : Bool :=
  if dataset.Rows.length ≤ 1 then false
  else if dataset.Columns.length = 0 then false
  else true

/-- The loop `for i := range chartConfigs` of `ProcessAnalysis`: the charts
that pass validation and get non-empty data, in proposal order. -/
def collectValidCharts (parseFloat : String → Option F) (sqrt : F → F)
    (fmtFixed2 : F → String) (dataset : Dataset F) :
    List ChartConfig → Outcome (List (ChartOut F))
  | [] => Outcome.ok []
  | chart :: rest =>
    if !validateChartConfig dataset chart then
      collectValidCharts parseFloat sqrt fmtFixed2 dataset rest
    else
      match generateChartData parseFloat sqrt fmtFixed2 dataset chart with
      | Outcome.panic msg => Outcome.panic msg
      | Outcome.error msg => Outcome.error msg
      | Outcome.ok data =>
        if data.length = 0 then collectValidCharts parseFloat sqrt fmtFixed2 dataset rest
        else
          match collectValidCharts parseFloat sqrt fmtFixed2 dataset rest with
          | Outcome.ok validCharts =>
            Outcome.ok ({ config := chart, Data := data } :: validCharts)
          | other => other

/-- The constant `maxAttempts` of `ProcessAnalysis`. -/
def maxAttempts : Nat := 3

/-- The message of the `failed` status. -/
def failedMessage : String :=
  "Visual representation could not be generated reliably for this prompt or your requirements."

/-- The retry loop of `ProcessAnalysis`, entered at `attempt` with `remaining`
iterations left before `attempt > maxAttempts`. -/
def retryLoop (gemini : Gemini F) (parseFloat : String → Option F) (sqrt : F → F)
    (fmtFixed2 : F → String) (dataset : Dataset F) (prompt : String) :
    Nat → Nat → String → ProcessAnalysisResult F → Outcome (ProcessAnalysisResult F)
  | 0, _, _, result =>
    Outcome.ok { result with ChartStatus := "failed", ChartMessage := failedMessage }
  | remaining + 1, attempt, lastError, result =>
    let result := { result with RetryAttempts := attempt }
    match gemini.GenerateCharts attempt dataset prompt lastError with
    | Except.error err =>
      if attempt < maxAttempts then
        let lastError :=
          if strContains err "JSON" || strContains err "json" then
            "Previous response did NOT include valid graph JSON. Error: " ++ err ++
              ". You MUST return ONLY valid JSON in the exact format specified, with no explanations, markdown, or code blocks."
          else err
        retryLoop gemini parseFloat sqrt fmtFixed2 dataset prompt remaining (attempt + 1)
          lastError result
      else
        Outcome.ok { result with ChartStatus := "failed", ChartMessage := failedMessage }
    | Except.ok chartConfigs =>
      match collectValidCharts parseFloat sqrt fmtFixed2 dataset chartConfigs with
      | Outcome.panic msg => Outcome.panic msg
      | Outcome.error msg => Outcome.error msg
      | Outcome.ok validCharts =>
        if validCharts.length > 0 then
          if validCharts.length = chartConfigs.length then
            Outcome.ok { result with Charts := validCharts, ChartStatus := "success" }
          else
            Outcome.ok { result with
              Charts := validCharts
              ChartStatus := "partial"
              ChartMessage := "Generated " ++ Nat.repr validCharts.length ++ " out of " ++
                Nat.repr chartConfigs.length ++ " requested charts" }
        else if attempt < maxAttempts then
          retryLoop gemini parseFloat sqrt fmtFixed2 dataset prompt remaining (attempt + 1)
            "No valid charts were generated. Please ensure column names match the schema exactly and chart types are appropriate for the data."
            result
        else
          retryLoop gemini parseFloat sqrt fmtFixed2 dataset prompt remaining (attempt + 1)
            lastError result

/-- The method `ProcessAnalysis`; a `nil` dataset pointer is `none`. -/
def ProcessAnalysis (gemini : Gemini F) (parseFloat : String → Option F) (sqrt : F → F)
    (fmtFixed2 : F → String) (dataset : Option (Dataset F)) (prompt : String) :
    Outcome (ProcessAnalysisResult F) :=
  match dataset with
  | none => Outcome.error "dataset cannot be nil"
  | some dataset =>
    if dataset.Rows.length = 0 then Outcome.error "dataset is empty"
    else if prompt = "" then Outcome.error "prompt cannot be empty"
    else
      match gemini.Analyze dataset prompt with
      | Except.error err => Outcome.error ("analysis step failed: " ++ err)
      | Except.ok insights =>
        if insights = "" then Outcome.error "analysis step returned empty insights"
        else
          let result : ProcessAnalysisResult F :=
            { Insights := insights, Charts := [], ChartStatus := "failed", ChartMessage := "",
              RetryAttempts := 0 }
          if !isChartGenerationFeasible dataset then
            Outcome.ok { result with
              ChartStatus := "not_feasible"
              ChartMessage := "Graph cannot be generated due to insufficient or incompatible data. The dataset may be too small, missing required columns, or lack numeric data." }
          else
            retryLoop gemini parseFloat sqrt fmtFixed2 dataset prompt maxAttempts 1 "" result

end Engine

/-! ## Reference views of a column -/

/-- The parsed numbers of a column, in cell order: the non-null values whose
string form parses. -/
def parsedNumbers {F : Type} (parseFloat : String → Option F) (values : List Cell) : List F :=
  values.filterMap (fun v => if isNullText (fmtV v) then none else parseFloat (fmtV v))

/-- The non-null string forms of a column that do not parse as a number. -/
def nonNumericTexts {F : Type} (parseFloat : String → Option F) (values : List Cell) :
    List String :=
  (values.map fmtV).filter (fun s => !isNullText s && (parseFloat s).isNone)

/-- The trimmed cell stored for a source text. -/
def cellOf (val : String) : Cell :=
  Cell.str (TrimSpace val)

/-- The statistics `inferTypesAndStats` computes for the column at index `colIdx`. -/
def columnStats {F : Type} [LinearOrderedField F] (parseFloat : String → Option F)
    (sqrt : F → F) (rows : List (List Cell)) (colIdx : Nat) (col : ColumnInfo) :
    SummaryStats F :=
  calculateStats parseFloat sqrt col.Name (columnValues rows colIdx)

/-- The columns from index `colIdx` on, each with the type its statistics give it. -/
def typedFrom {F : Type} [LinearOrderedField F] (parseFloat : String → Option F)
    (sqrt : F → F) (rows : List (List Cell)) : Nat → List ColumnInfo → List ColumnInfo
  | _, [] => []
  | colIdx, col :: rest =>
    { Name := col.Name,
      Typ := if (columnStats parseFloat sqrt rows colIdx col).Mean.isSome then "number"
        else "string" } :: typedFrom parseFloat sqrt rows (colIdx + 1) rest

/-- A referenced column field checks out, in the words of the specification:
it is left empty, or it equals some column name of the dataset exactly. -/
def fieldOk (names : List String) (field : String) : Prop :=
  field = "" ∨ field ∈ names

instance (names : List String) (field : String) : Decidable (fieldOk names field) := by
  unfold fieldOk
  infer_instance

/-- The validity of a chart in the words of the specification: the type is one
of the enum names and the fields the table lists for that type check out. -/
def specValid (names : List String) (chart : ChartConfig) : Prop :=
  ((chart.Typ = "bar" ∨ chart.Typ = "line" ∨ chart.Typ = "area" ∨ chart.Typ = "scatter" ∨
      chart.Typ = "combo") ∧
    fieldOk names chart.X ∧ fieldOk names chart.Y ∧ fieldOk names chart.Y2 ∧
    fieldOk names chart.GroupBy) ∨
  (chart.Typ = "pie" ∧ fieldOk names chart.Category ∧ fieldOk names chart.Value) ∨
  (chart.Typ = "histogram" ∧ fieldOk names chart.X) ∨
  (chart.Typ = "boxplot" ∧ fieldOk names chart.Y) ∨
  (chart.Typ = "bubble" ∧ fieldOk names chart.X ∧ fieldOk names chart.Y ∧
    fieldOk names chart.Z) ∨
  ((chart.Typ = "correlation" ∨ chart.Typ = "heatmap") ∧ chart.Columns ≠ [] ∧
    ∀ col ∈ chart.Columns, col ∈ names)

instance (names : List String) (chart : ChartConfig) : Decidable (specValid names chart) := by
  unfold specValid
  infer_instance

/-- The closed list of chart type names. -/
def chartTypeNames : List String :=
  ["bar", "line", "area", "scatter", "combo", "pie", "histogram", "boxplot", "bubble",
    "correlation", "heatmap"]

deriving instance DecidableEq for ChartConfig
deriving instance DecidableEq for ChartOut
deriving instance DecidableEq for ProcessAnalysisResult

/-- A column field names a column that does not exist: it is not empty and it
is no column name of the dataset. -/
def fieldMissing (names : List String) (field : String) : Prop :=
  field ≠ "" ∧ field ∉ names

instance (names : List String) (field : String) : Decidable (fieldMissing names field) := by
  unfold fieldMissing
  infer_instance

/-- Some column reference that the validator checks for the chart's type names
a column that does not exist. -/
def checkedFieldMissing (names : List String) (chart : ChartConfig) : Prop :=
  ((chart.Typ = "bar" ∨ chart.Typ = "line" ∨ chart.Typ = "area" ∨ chart.Typ = "scatter" ∨
      chart.Typ = "combo") ∧
    (fieldMissing names chart.X ∨ fieldMissing names chart.Y ∨ fieldMissing names chart.Y2 ∨
      fieldMissing names chart.GroupBy)) ∨
  (chart.Typ = "pie" ∧ (fieldMissing names chart.Category ∨ fieldMissing names chart.Value)) ∨
  (chart.Typ = "histogram" ∧ fieldMissing names chart.X) ∨
  (chart.Typ = "boxplot" ∧ fieldMissing names chart.Y) ∨
  (chart.Typ = "bubble" ∧
    (fieldMissing names chart.X ∨ fieldMissing names chart.Y ∨ fieldMissing names chart.Z)) ∨
  ((chart.Typ = "correlation" ∨ chart.Typ = "heatmap") ∧ ∃ col ∈ chart.Columns, col ∉ names)

instance (names : List String) (chart : ChartConfig) :
    Decidable (checkedFieldMissing names chart) := by
  unfold checkedFieldMissing
  infer_instance

/-- A dataset with the text column `c` and the numeric column `v`, three rows. -/
def sampleDataset : Dataset ℚ :=
  { Columns := [ColumnInfo.mk "c" "string", ColumnInfo.mk "v" "number"],
    Rows := [[Cell.str "A", Cell.str "1"], [Cell.str "B", Cell.str "x"],
      [Cell.str "A", Cell.str "2"]],
    Summary := [] }

/-- A chart proposal with the given type, `x`, `y`, aggregate and bins, and
with `category = c`, `value = v`. -/
def sampleChart (typ x y aggregate : String) (bins : Int) : ChartConfig :=
  { Typ := typ, Title := "", X := x, Y := y, Y2 := "", Z := "", Category := "c", Value := "v",
    GroupBy := "", Stacked := false, Aggregate := aggregate, Bins := bins, Columns := [] }

/-- A service stub: a fixed insight, and the same proposals at every attempt. -/
def stubGemini (proposals : List ChartConfig) : Gemini ℚ :=
  { Analyze := fun _ _ => Except.ok "insight",
    GenerateCharts := fun _ _ _ _ => Except.ok proposals }

/-- The value a projection stores for a cell that is converted when it parses:
its parsed number, or the original cell value. -/
def numberOrOriginal {F : Type} (parseFloat : String → Option F) (cell : Cell) : Value F :=
  match toNumber parseFloat cell with
  | some x => Value.num x
  | none => cell.toValue

/-- The cell of every source row in the first column named `columnName`. -/
def columnCells {F : Type} (dataset : Dataset F) (columnName : String) : List Cell :=
  dataset.Rows.map (fun row =>
    row.getD ((dataset.Columns.map (fun c => c.Name)).indexOf columnName) Cell.null)

/-- The (key text, number) pairs of the source rows whose value cell parses,
in row order. -/
def numericPairs {F : Type} (parseFloat : String → Option F) (entries : List (Cell × Cell)) :
    List (String × F) :=
  entries.filterMap (fun e => (toNumber parseFloat e.2).map (fun v => (fmtV e.1, v)))

/-- The numbers paired with the key `k`, in row order. -/
def valuesOf {F : Type} (pairs : List (String × F)) (k : String) : List F :=
  (pairs.filter (fun p => p.1 = k)).map Prod.snd

/-- A dataset with the single column `n` holding the values `0` to `99`. -/
def rangeDataset : Dataset ℚ :=
  { Columns := [ColumnInfo.mk "n" "number"],
    Rows := [
      [Cell.str "0"], [Cell.str "1"], [Cell.str "2"], [Cell.str "3"], [Cell.str "4"],
      [Cell.str "5"], [Cell.str "6"], [Cell.str "7"], [Cell.str "8"], [Cell.str "9"],
      [Cell.str "10"], [Cell.str "11"], [Cell.str "12"], [Cell.str "13"], [Cell.str "14"],
      [Cell.str "15"], [Cell.str "16"], [Cell.str "17"], [Cell.str "18"], [Cell.str "19"],
      [Cell.str "20"], [Cell.str "21"], [Cell.str "22"], [Cell.str "23"], [Cell.str "24"],
      [Cell.str "25"], [Cell.str "26"], [Cell.str "27"], [Cell.str "28"], [Cell.str "29"],
      [Cell.str "30"], [Cell.str "31"], [Cell.str "32"], [Cell.str "33"], [Cell.str "34"],
      [Cell.str "35"], [Cell.str "36"], [Cell.str "37"], [Cell.str "38"], [Cell.str "39"],
      [Cell.str "40"], [Cell.str "41"], [Cell.str "42"], [Cell.str "43"], [Cell.str "44"],
      [Cell.str "45"], [Cell.str "46"], [Cell.str "47"], [Cell.str "48"], [Cell.str "49"],
      [Cell.str "50"], [Cell.str "51"], [Cell.str "52"], [Cell.str "53"], [Cell.str "54"],
      [Cell.str "55"], [Cell.str "56"], [Cell.str "57"], [Cell.str "58"], [Cell.str "59"],
      [Cell.str "60"], [Cell.str "61"], [Cell.str "62"], [Cell.str "63"], [Cell.str "64"],
      [Cell.str "65"], [Cell.str "66"], [Cell.str "67"], [Cell.str "68"], [Cell.str "69"],
      [Cell.str "70"], [Cell.str "71"], [Cell.str "72"], [Cell.str "73"], [Cell.str "74"],
      [Cell.str "75"], [Cell.str "76"], [Cell.str "77"], [Cell.str "78"], [Cell.str "79"],
      [Cell.str "80"], [Cell.str "81"], [Cell.str "82"], [Cell.str "83"], [Cell.str "84"],
      [Cell.str "85"], [Cell.str "86"], [Cell.str "87"], [Cell.str "88"], [Cell.str "89"],
      [Cell.str "90"], [Cell.str "91"], [Cell.str "92"], [Cell.str "93"], [Cell.str "94"],
      [Cell.str "95"], [Cell.str "96"], [Cell.str "97"], [Cell.str "98"], [Cell.str "99"]],
    Summary := [] }

/-- A dataset with the single column `y` holding `3, 1, 2, 8, 5, 4, 7, 6`. -/
def eightDataset : Dataset ℚ :=
  { Columns := [ColumnInfo.mk "y" "number"],
    Rows := [[Cell.str "3"], [Cell.str "1"], [Cell.str "2"], [Cell.str "8"], [Cell.str "5"],
      [Cell.str "4"], [Cell.str "7"], [Cell.str "6"]],
    Summary := [] }

/-- A dataset with the single column `y` holding `1, 10, 11, 12, 13, 100`. -/
def outlierDataset : Dataset ℚ :=
  { Columns := [ColumnInfo.mk "y" "number"],
    Rows := [[Cell.str "1"], [Cell.str "10"], [Cell.str "11"], [Cell.str "12"],
      [Cell.str "13"], [Cell.str "100"]],
    Summary := [] }

/-- The arithmetic mean of a list. -/
def meanOf {F : Type} [LinearOrderedField F] (x : List F) : F :=
  x.sum / (x.length : F)

/-- The sum of the squared deviations of a list from its mean. -/
def sqSum {F : Type} [LinearOrderedField F] (x : List F) : F :=
  (x.map (fun v => (v - meanOf x) * (v - meanOf x))).sum

/-- The sum of the products of the paired deviations of two lists from their means. -/
def covSum {F : Type} [LinearOrderedField F] (x y : List F) : F :=
  ((x.zip y).map (fun p => (p.1 - meanOf x) * (p.2 - meanOf y))).sum

/-- The reference definition of the correlation, in the words of the
specification: `0` when a list is empty, when the lengths differ or when
either list has zero variance; otherwise `Σ(dx·dy) / sqrt(Σdx² · Σdy²)`. -/
def correlationRef {F : Type} [LinearOrderedField F] (sqrt : F → F) (x y : List F) : F :=
  if x.length = 0 ∨ y.length = 0 ∨ x.length ≠ y.length ∨ sqSum x = 0 ∨ sqSum y = 0 then 0
  else covSum x y / sqrt (sqSum x * sqSum y)

/-- The reference parser with its result read in the field `F`. -/
def parseDecimalIn (F : Type) [DivisionRing F] (s : String) : Option F :=
  (parseDecimal s).map (fun (q : ℚ) => (q : F))

/-- A dataset with the numeric column `a`, the column `b` whose second cell does
not parse, and the constant column `k`. -/
def threeColumnDataset (F : Type) : Dataset F :=
  { Columns := [ColumnInfo.mk "a" "number", ColumnInfo.mk "b" "number",
      ColumnInfo.mk "k" "number"],
    Rows := [[Cell.str "1", Cell.str "2", Cell.str "5"],
      [Cell.str "2", Cell.str "x", Cell.str "5"],
      [Cell.str "3", Cell.str "6", Cell.str "5"]],
    Summary := [] }

/-- A dataset with the text column `c` and the column `v` whose second cell does
not parse, with numbers read in the field `F`. -/
def textAndNumberDataset (F : Type) : Dataset F :=
  { Columns := [ColumnInfo.mk "c" "string", ColumnInfo.mk "v" "number"],
    Rows := [[Cell.str "A", Cell.str "1"], [Cell.str "B", Cell.str "x"],
      [Cell.str "A", Cell.str "2"]],
    Summary := [] }

/-- A correlation chart on the given columns. -/
def correlationChart (typ : String) (columns : List String) : ChartConfig :=
  { Typ := typ, Title := "", X := "", Y := "", Y2 := "", Z := "", Category := "", Value := "",
    GroupBy := "", Stacked := false, Aggregate := "", Bins := 0, Columns := columns }

/-! ## The calls of the chart proposal service

`ProcessAnalysis` with a log: next to the outcome, the calls of
`gemini.GenerateCharts` in the order they are made, each as the number of its
attempt and the text passed as `previousError`. -/

section EngineTrace

variable {F : Type} [LinearOrderedField F] [FloorRing F]

/-- The retry loop of `ProcessAnalysis` with the log of its `GenerateCharts`
calls. -/
def retryLoopTrace (gemini : Gemini F) (parseFloat : String → Option F) (sqrt : F → F)
    (fmtFixed2 : F → String) (dataset : Dataset F) (prompt : String) :
    Nat → Nat → String → ProcessAnalysisResult F →
      Outcome (ProcessAnalysisResult F) × List (Nat × String)
  | 0, _, _, result =>
    (Outcome.ok { result with ChartStatus := "failed", ChartMessage := failedMessage }, [])
  | remaining + 1, attempt, lastError, result =>
    let result := { result with RetryAttempts := attempt }
    match gemini.GenerateCharts attempt dataset prompt lastError with
    | Except.error err =>
      if attempt < maxAttempts then
        let lastError' :=
          if strContains err "JSON" || strContains err "json" then
            "Previous response did NOT include valid graph JSON. Error: " ++ err ++
              ". You MUST return ONLY valid JSON in the exact format specified, with no explanations, markdown, or code blocks."
          else err
        let rest := retryLoopTrace gemini parseFloat sqrt fmtFixed2 dataset prompt remaining
          (attempt + 1) lastError' result
        (rest.1, (attempt, lastError) :: rest.2)
      else
        (Outcome.ok { result with ChartStatus := "failed", ChartMessage := failedMessage },
          [(attempt, lastError)])
    | Except.ok chartConfigs =>
      match collectValidCharts parseFloat sqrt fmtFixed2 dataset chartConfigs with
      | Outcome.panic msg => (Outcome.panic msg, [(attempt, lastError)])
      | Outcome.error msg => (Outcome.error msg, [(attempt, lastError)])
      | Outcome.ok validCharts =>
        if validCharts.length > 0 then
          if validCharts.length = chartConfigs.length then
            (Outcome.ok { result with Charts := validCharts, ChartStatus := "success" },
              [(attempt, lastError)])
          else
            (Outcome.ok { result with
              Charts := validCharts
              ChartStatus := "partial"
              ChartMessage := "Generated " ++ Nat.repr validCharts.length ++ " out of " ++
                Nat.repr chartConfigs.length ++ " requested charts" },
              [(attempt, lastError)])
        else if attempt < maxAttempts then
          let rest := retryLoopTrace gemini parseFloat sqrt fmtFixed2 dataset prompt remaining
            (attempt + 1)
            "No valid charts were generated. Please ensure column names match the schema exactly and chart types are appropriate for the data."
            result
          (rest.1, (attempt, lastError) :: rest.2)
        else
          let rest := retryLoopTrace gemini parseFloat sqrt fmtFixed2 dataset prompt remaining
            (attempt + 1) lastError result
          (rest.1, (attempt, lastError) :: rest.2)

/-- The method `ProcessAnalysis` with the log of its `GenerateCharts` calls. -/
def ProcessAnalysisTrace (gemini : Gemini F) (parseFloat : String → Option F) (sqrt : F → F)
    (fmtFixed2 : F → String) (dataset : Option (Dataset F)) (prompt : String) :
    Outcome (ProcessAnalysisResult F) × List (Nat × String) :=
  match dataset with
  | none => (Outcome.error "dataset cannot be nil", [])
  | some dataset =>
    if dataset.Rows.length = 0 then (Outcome.error "dataset is empty", [])
    else if prompt = "" then (Outcome.error "prompt cannot be empty", [])
    else
      match gemini.Analyze dataset prompt with
      | Except.error err => (Outcome.error ("analysis step failed: " ++ err), [])
      | Except.ok insights =>
        if insights = "" then (Outcome.error "analysis step returned empty insights", [])
        else
          let result : ProcessAnalysisResult F :=
            { Insights := insights, Charts := [], ChartStatus := "failed", ChartMessage := "",
              RetryAttempts := 0 }
          if !isChartGenerationFeasible dataset then
            (Outcome.ok { result with
              ChartStatus := "not_feasible"
              ChartMessage := "Graph cannot be generated due to insufficient or incompatible data. The dataset may be too small, missing required columns, or lack numeric data." },
              [])
          else
            retryLoopTrace gemini parseFloat sqrt fmtFixed2 dataset prompt maxAttempts 1 ""
              result

/-- An attempt leaves no chart: the call of `GenerateCharts` returns an error,
or none of the charts it proposes survives validation and projection. -/
def attemptFails (gemini : Gemini F) (parseFloat : String → Option F) (sqrt : F → F)
    (fmtFixed2 : F → String) (dataset : Dataset F) (prompt : String) (call : Nat × String) :
    Prop :=
  (∃ err, gemini.GenerateCharts call.1 dataset prompt call.2 = Except.error err) ∨
  (∃ proposals, gemini.GenerateCharts call.1 dataset prompt call.2 = Except.ok proposals ∧
    collectValidCharts parseFloat sqrt fmtFixed2 dataset proposals = Outcome.ok [])

/-- An attempt leaves a surviving chart. -/
def attemptSurvives (gemini : Gemini F) (parseFloat : String → Option F) (sqrt : F → F)
    (fmtFixed2 : F → String) (dataset : Dataset F) (prompt : String) (call : Nat × String) :
    Prop :=
  ∃ proposals valid, gemini.GenerateCharts call.1 dataset prompt call.2 = Except.ok proposals ∧
    collectValidCharts parseFloat sqrt fmtFixed2 dataset proposals = Outcome.ok valid ∧
    valid ≠ []

/-- The surviving charts of a proposal in the words of the specification: the
proposed charts that pass the validator and whose projection is not empty, in
proposal order, each with the data of its projection. -/
def specSurvivors (parseFloat : String → Option F) (sqrt : F → F) (fmtFixed2 : F → String)
    (dataset : Dataset F) (proposals : List ChartConfig) : List (ChartOut F) :=
  proposals.filterMap (fun chart =>
    if validateChartConfig dataset chart then
      match generateChartData parseFloat sqrt fmtFixed2 dataset chart with
      | Outcome.ok data => if data.length = 0 then none else some { config := chart, Data := data }
      | _ => none
    else none)

/-- The result reported for an attempt that leaves the charts `valid` of a
proposal of `proposed` charts. -/
def survivingResult (insights : String) (valid : List (ChartOut F)) (proposed attempt : Nat) :
    ProcessAnalysisResult F :=
  { Insights := insights,
    Charts := valid,
    ChartStatus := if valid.length = proposed then "success" else "partial",
    ChartMessage :=
      if valid.length = proposed then ""
      else "Generated " ++ Nat.repr valid.length ++ " out of " ++ Nat.repr proposed ++
        " requested charts",
    RetryAttempts := attempt }

end EngineTrace

/-- A service stub: a fixed insight; the first attempt returns an error that
mentions JSON, every later attempt returns the given proposals. -/
def flakyGemini (proposals : List ChartConfig) : Gemini ℚ :=
  { Analyze := fun _ _ => Except.ok "insight",
    GenerateCharts := fun attempt _ _ _ =>
      if attempt = 1 then Except.error "invalid JSON response" else Except.ok proposals }

/-- The result of an analysis whose chart step is not feasible. -/
def notFeasibleResult (F : Type) (insights : String) : ProcessAnalysisResult F :=
  { Insights := insights,
    Charts := [],
    ChartStatus := "not_feasible",
    ChartMessage := "Graph cannot be generated due to insufficient or incompatible data. The dataset may be too small, missing required columns, or lack numeric data.",
    RetryAttempts := 0 }

/-- The sample dataset cut down to its first row. -/
def oneRowDataset : Dataset ℚ :=
  { Columns := [ColumnInfo.mk "c" "string", ColumnInfo.mk "v" "number"],
    Rows := [[Cell.str "A", Cell.str "1"]],
    Summary := [] }

/-- The sample dataset without any row. -/
def noRowDataset : Dataset ℚ :=
  { Columns := [ColumnInfo.mk "c" "string", ColumnInfo.mk "v" "number"],
    Rows := [],
    Summary := [] }

/-- The (x text, group text, number) triples of the source rows whose `y` cell
parses, in row order; an entry is the `x` cell with the `y` and the group cell. -/
def numericTriples {F : Type} (parseFloat : String → Option F)
    (entries : List (Cell × Cell × Cell)) : List (String × String × F) :=
  entries.filterMap (fun e =>
    (toNumber parseFloat e.2.1).map (fun v => (fmtV e.1, fmtV e.2.2, v)))

/-- The numbers of the triples with the x text `x` and the group text `g`, in
row order. -/
def valuesOfPair {F : Type} (triples : List (String × String × F)) (x g : String) : List F :=
  (triples.filter (fun t => t.1 = x ∧ t.2.1 = g)).map (fun t => t.2.2)

/-- The read `grouped[x][g]` of the nested map of `generateGroupedData`: the
empty slice when a key is missing. -/
def groupedAt {F : Type} (grouped : GoMap (GoMap (List F))) (x g : String) : List F :=
  (GoMap.get? ((GoMap.get? grouped x).getD []) g).getD []

/-- The update of one iteration of the first pass of `generateGroupedData`, on
the triple of a row whose `y` cell parsed. -/
def groupInsert {F : Type} (st : GroupState F) (t : String × String × F) : GroupState F :=
  { grouped := GoMap.set st.grouped t.1
      (GoMap.set ((GoMap.get? st.grouped t.1).getD []) t.2.1
        ((GoMap.get? ((GoMap.get? st.grouped t.1).getD []) t.2.1).getD [] ++ [t.2.2])),
    groups := GoMap.set st.groups t.2.1 true }

/-- A dataset with the columns `x`, `g`, `y`: the group `G3` occurs only in a
row whose `y` cell does not parse. -/
def groupedDataset : Dataset ℚ :=
  { Columns := [ColumnInfo.mk "x" "string", ColumnInfo.mk "g" "string",
      ColumnInfo.mk "y" "number"],
    Rows := [[Cell.str "A", Cell.str "G1", Cell.str "1"],
      [Cell.str "A", Cell.str "G3", Cell.str "n/a"],
      [Cell.str "B", Cell.str "G2", Cell.str "2"],
      [Cell.str "A", Cell.str "G1", Cell.str "4"]],
    Summary := [] }

/-- A bar chart of `y` by `x`, grouped by `g`, with the given aggregate. -/
def groupedChart (aggregate : String) : ChartConfig :=
  { Typ := "bar", Title := "", X := "x", Y := "y", Y2 := "", Z := "", Category := "",
    Value := "", GroupBy := "g", Stacked := false, Aggregate := aggregate, Bins := 0,
    Columns := [] }

/-- The cell of a source row in the first column named `columnName`. -/
def rowCell {F : Type} (dataset : Dataset F) (columnName : String) (row : List Cell) : Cell :=
  row.getD ((dataset.Columns.map (fun c => c.Name)).indexOf columnName) Cell.null

/-- The combo row of a source row in the words of the specification: no row
when the `y` cell does not parse; otherwise the row with `x` holding the raw
cell and `y` the parsed number, in which the field `y2` is set to its parsed
number when `y2` names a column and the `y2` cell parses. -/
def comboRowSpec {F : Type} (parseFloat : String → Option F) (dataset : Dataset F)
    (chart : ChartConfig) (row : List Cell) : Option (ChartRow F) :=
  match parseFloat (fmtV (rowCell dataset chart.Y row)) with
  | none => none
  | some y =>
    let point : ChartRow F :=
      [(chart.X, (rowCell dataset chart.X row).toValue), (chart.Y, Value.num y)]
    if chart.Y2 ≠ "" ∧ chart.Y2 ∈ dataset.Columns.map (fun c => c.Name) then
      match parseFloat (fmtV (rowCell dataset chart.Y2 row)) with
      | some y2 => some (GoMap.set point chart.Y2 (Value.num y2))
      | none => some point
    else some point

/-- A combo chart on `x`, `y` and `y2`. -/
def comboChart (x y y2 : String) : ChartConfig :=
  { Typ := "combo", Title := "", X := x, Y := y, Y2 := y2, Z := "", Category := "", Value := "",
    GroupBy := "", Stacked := false, Aggregate := "", Bins := 0, Columns := [] }

/-- A dataset with the text column `t` and the columns `p` and `q` in which
some cells do not parse. -/
def comboDataset : Dataset ℚ :=
  { Columns := [ColumnInfo.mk "t" "string", ColumnInfo.mk "p" "number",
      ColumnInfo.mk "q" "number"],
    Rows := [[Cell.str "Jan", Cell.str "1", Cell.str "10"],
      [Cell.str "Feb", Cell.str "x", Cell.str "20"],
      [Cell.str "Mar", Cell.str "3", Cell.str "y"]],
    Summary := [] }

/-! ## The JSON block of a response (`extractJSON`, `gemini.go`)

A Go string is a byte sequence and the loop of `extractJSON` indexes bytes.
The bytes of the braces and of the fence marker are ASCII and never occur
inside a multi-byte character, so the search and the slices at these positions
are the same on the characters of the text. -/

/-- The library call `strings.TrimPrefix`. -/
def TrimPrefix (s pre : String) : String :=
  if pre.data.isPrefixOf s.data then String.mk (s.data.drop pre.data.length) else s

/-- The library call `strings.TrimSuffix`. -/
def TrimSuffix (s suf : String) : String :=
  if suf.data.isSuffixOf s.data then String.mk (s.data.take (s.data.length - suf.data.length))
  else s

/-- The first statements of `extractJSON`: trim, remove the markers of a
markdown code block, trim again. -/
def stripFences (text : String) : String :=
  let text := TrimSpace text
  let text := TrimPrefix text "\x60\x60\x60json"
  let text := TrimPrefix text "\x60\x60\x60"
  let text := TrimSuffix text "\x60\x60\x60"
  TrimSpace text

/-- The loop of `extractJSON` that looks for the matching closing brace, on the
text from index `i` on with the counter `braceCount`; `none` is `endIdx = -1`. -/
def findEnd : List Char → Int → Nat → Option Nat
  | [], _, _ => none
  | c :: rest, braceCount, i =>
    if c = '\x7b' then findEnd rest (braceCount + 1) (i + 1)
    else if c = '\x7d' then
      if braceCount - 1 = 0 then some (i + 1) else findEnd rest (braceCount - 1) (i + 1)
    else findEnd rest braceCount (i + 1)

/-- The method `extractJSON`. -/
def extractJSON (text : String) : String :=
  let text := stripFences text
  if '\x7b' ∉ text.data then text
  else
    let startIdx := text.data.indexOf '\x7b'
    match findEnd (text.data.drop startIdx) 0 startIdx with
    | some endIdx =>
      if endIdx > startIdx then String.mk ((text.data.take endIdx).drop startIdx)
      else String.mk (text.data.drop startIdx)
    | none => String.mk (text.data.drop startIdx)

/-- The end of the method `GenerateCharts`, from the response text of the
service on. `unmarshal` is the library call `json.Unmarshal` into the struct
with the field `charts`, followed by the read of that field; `clip` is the
byte slice `jsonText[:min(200, len(jsonText))]`. -/
def GenerateChartsDecode (unmarshal : String → Except String (List ChartConfig))
    (clip : String → String) (text : String) : Except String (List ChartConfig) :=
  let jsonText := extractJSON text
  if jsonText = "" then Except.error "no JSON found in response"
  else
    match unmarshal jsonText with
    | Except.error err =>
      Except.error ("invalid JSON response: " ++ err ++ ". Extracted text: " ++ clip jsonText)
    | Except.ok charts =>
      if charts.length = 0 then Except.error "no charts in JSON response"
      else Except.ok charts

/-- The brace depth of a text: its opening braces minus its closing braces. -/
def braceDepth (cs : List Char) : Int :=
  (cs.count '\x7b' : Int) - (cs.count '\x7d' : Int)

/-- A balanced block: a text that starts with an opening brace and ends with
the closing brace at which the brace depth returns to zero for the first
time, every brace of the text counted. -/
def IsBalancedBlock (obj : List Char) : Prop :=
  obj.head? = some '\x7b' ∧ braceDepth obj = 0 ∧
    ∀ n, n < obj.length → 0 < n → 0 < braceDepth (obj.take n)

instance (obj : List Char) : Decidable (IsBalancedBlock obj) := by
  unfold IsBalancedBlock
  infer_instance

/-! ## `float64` as IEEE-754 binary64

The definitions above read `float64` as an exact ordered field. This part has
the binary64 values themselves (NaN, the two infinities and the finite values,
with round-to-nearest-even arithmetic) and runs `calculateStats`,
`generateHistogramData`, `generateBoxplotData` and `calculateCorrelation` on
them, every operation rounded on its own, as the code is compiled for amd64
(no fused multiply-add). The two zeros are kept as one value: the sign of a
zero shows only in a quotient by zero and in printed text, which the
statements on these definitions do not involve. -/

/-- A `float64` value: NaN, an infinity with its sign, or a finite value, given
by the rational number it denotes. -/
inductive Binary64 where
  | nan : Binary64
  | inf (negative : Bool) : Binary64
  | fin (q : ℚ) : Binary64
deriving DecidableEq

namespace Binary64

/-- The loop that counts the halvings of `n` down to `1`. -/
def log2Loop : Nat → Nat → Nat
  | 0, _ => 0
  | fuel + 1, n => if 2 ≤ n then log2Loop fuel (n / 2) + 1 else 0

/-- The position of the leading bit of a positive `n`. -/
def log2 (n : Nat) : Nat :=
  log2Loop n n

/-- The integer square root bit by bit: bit `i` is added to the root `r` when
the square stays within `n`. -/
def sqrtBits (n : Nat) : Nat → Nat → Nat
  | 0, r => r
  | i + 1, r =>
    if (r + 2 ^ i) * (r + 2 ^ i) ≤ n then sqrtBits n i (r + 2 ^ i) else sqrtBits n i r

/-- The integer square root: the largest `k` with `k * k ≤ n`. -/
def natSqrt (n : Nat) : Nat :=
  sqrtBits n (log2 n / 2 + 1) 0

/-- The exponent `e` with `2 ^ e ≤ a / b < 2 ^ (e + 1)`, for positive `a`, `b`. -/
def floorLog2 (a b : Nat) : Int :=
  let e0 : Int := (log2 a : Int) - (log2 b : Int)
  if (if 0 ≤ e0 then b * 2 ^ e0.toNat ≤ a else b ≤ a * 2 ^ (-e0).toNat) then e0 else e0 - 1

/-- The value `m * 2 ^ u`. -/
def scaled (m : Nat) (u : Int) : ℚ :=
  if 0 ≤ u then mkRat (m * 2 ^ u.toNat : Nat) 1 else mkRat (m : Nat) (2 ^ (-u).toNat)

/-- The binary64 value nearest to `a / b` (positive), ties to the even
significand: 53 significant bits, exponents from `-1022` (below, the spacing
stays `2 ^ -1074`) to `1023` (above, the result is an infinity). -/
def roundPos (negative : Bool) (a b : Nat) : Binary64 :=
  let e := floorLog2 a b
  let u : Int := (if e < -1022 then -1022 else e) - 52
  let num := if 0 ≤ u then a else a * 2 ^ (-u).toNat
  let den := if 0 ≤ u then b * 2 ^ u.toNat else b
  let n := num / den
  let r := num % den
  let m := if den < 2 * r ∨ (2 * r = den ∧ n % 2 = 1) then n + 1 else n
  if 1024 - u < 0 ∨ 2 ^ (1024 - u).toNat ≤ m then inf negative
  else fin (if negative then -(scaled m u) else scaled m u)

/-- Rounding of an exact result to binary64. -/
def round (q : ℚ) : Binary64 :=
  if q.num = 0 then fin 0 else roundPos (decide (q.num < 0)) q.num.natAbs q.den

/-- The test `math.IsNaN`. -/
def isNaN : Binary64 → Bool
  | nan => true
  | _ => false

/-- The negation `-x`. -/
def neg : Binary64 → Binary64
  | nan => nan
  | inf s => inf (!s)
  | fin a => fin (-a)

/-- The sum `x + y`. -/
def add : Binary64 → Binary64 → Binary64
  | nan, _ => nan
  | _, nan => nan
  | inf s, inf t => if s = t then inf s else nan
  | inf s, fin _ => inf s
  | fin _, inf t => inf t
  | fin a, fin b => round (a + b)

/-- The difference `x - y`. -/
def sub (x y : Binary64) : Binary64 :=
  add x (neg y)

/-- The product `x * y`. -/
def mul : Binary64 → Binary64 → Binary64
  | nan, _ => nan
  | _, nan => nan
  | inf s, inf t => inf (s != t)
  | inf s, fin b => if b.num = 0 then nan else inf (s != decide (b.num < 0))
  | fin a, inf t => if a.num = 0 then nan else inf (decide (a.num < 0) != t)
  | fin a, fin b => round (a * b)

/-- The quotient `x / y`. -/
def div : Binary64 → Binary64 → Binary64
  | nan, _ => nan
  | _, nan => nan
  | inf _, inf _ => nan
  | inf s, fin b => inf (s != decide (b.num < 0))
  | fin _, inf _ => fin 0
  | fin a, fin b =>
    if b.num = 0 then (if a.num = 0 then nan else inf (decide (a.num < 0)))
    else round (a / b)

/-- The binary64 value nearest to the square root of `a / b` (positive). -/
def roundSqrt (a b : Nat) : Binary64 :=
  let u : Int := Int.fdiv (floorLog2 a b) 2 - 52
  let num := if 0 ≤ u then a else a * 2 ^ (2 * (-u).toNat)
  let den := if 0 ≤ u then b * 2 ^ (2 * u.toNat) else b
  let n := natSqrt (num / den)
  let half := (4 * n * n + 4 * n + 1) * den
  let m := if half < 4 * num ∨ (half = 4 * num ∧ n % 2 = 1) then n + 1 else n
  fin (scaled m u)

/-- The library call `math.Sqrt`. -/
def sqrt : Binary64 → Binary64
  | nan => nan
  | inf s => if s then nan else inf false
  | fin a =>
    if a.num < 0 then nan
    else if a.num = 0 then fin 0
    else roundSqrt a.num.natAbs a.den

/-- The comparison `x < y`: false when an operand is NaN. -/
def lt : Binary64 → Binary64 → Bool
  | nan, _ => false
  | _, nan => false
  | inf s, inf t => s && !t
  | inf s, fin _ => s
  | fin _, inf t => !t
  | fin a, fin b => decide (a < b)

/-- The comparison `x <= y`: false when an operand is NaN. -/
def le : Binary64 → Binary64 → Bool
  | nan, _ => false
  | _, nan => false
  | inf s, inf t => s || !t
  | inf s, fin _ => s
  | fin _, inf t => !t
  | fin a, fin b => decide (a ≤ b)

/-- The comparison `x == y`: false when an operand is NaN. -/
def eq : Binary64 → Binary64 → Bool
  | nan, _ => false
  | _, nan => false
  | inf s, inf t => s == t
  | fin a, fin b => decide (a = b)
  | _, _ => false

/-- The conversion `float64(n)` of an `int`. -/
def ofInt (n : Int) : Binary64 :=
  round (n : ℚ)

/-- The conversion `int(x)`: truncation toward zero; for NaN, an infinity or a
value outside the 64-bit range, the value amd64 yields. -/
def toInt : Binary64 → Int
  | fin a =>
    let t : Int := if a.num < 0 then -((a.num.natAbs / a.den : Nat) : Int)
      else ((a.num.natAbs / a.den : Nat) : Int)
    if -(2 ^ 63 : Int) ≤ t ∧ t < 2 ^ 63 then t else -(2 ^ 63 : Int)
  | _ => -(2 ^ 63 : Int)

instance : Add Binary64 := ⟨add⟩
instance : Sub Binary64 := ⟨sub⟩
instance : Mul Binary64 := ⟨mul⟩
instance : Div Binary64 := ⟨div⟩
instance : Neg Binary64 := ⟨neg⟩
instance : LT Binary64 := ⟨fun x y => lt x y = true⟩
instance : LE Binary64 := ⟨fun x y => le x y = true⟩
instance (x y : Binary64) : Decidable (x < y) := inferInstanceAs (Decidable (lt x y = true))
instance (x y : Binary64) : Decidable (x ≤ y) := inferInstanceAs (Decidable (le x y = true))
instance (n : Nat) : OfNat Binary64 n := ⟨ofInt n⟩
instance : NatCast Binary64 := ⟨fun n => ofInt n⟩

/-- The library call `strconv.ParseFloat(s, 64)` on the texts `NaN`, `Inf` and
`Infinity` (any case, the infinities with an optional sign) and on the plain
decimal literals of `parseDecimal`: the nearest binary64 value, and an error
when it is out of range. -/
def ParseFloat (s : String) : Option Binary64 :=
  let lower := s.data.map Char.toLower
  if lower = "nan".data then some nan
  else if lower = "inf".data ∨ lower = "+inf".data ∨ lower = "infinity".data ∨
      lower = "+infinity".data then some (inf false)
  else if lower = "-inf".data ∨ lower = "-infinity".data then some (inf true)
  else
    match parseDecimal s with
    | none => none
    | some q =>
      match round q with
      | fin v => some (fin v)
      | _ => none

/-- The order of `sort.Float64s`: `x < y || (isNaN(x) && !isNaN(y))`. -/
def sortLess (x y : Binary64) : Bool :=
  lt x y || (isNaN x && !isNaN y)

/-- The library call `sort.Float64s`: ascending order, NaN values first. -/
def sortFloat64s (numbers : List Binary64) : List Binary64 :=
  numbers.insertionSort (fun x y => sortLess y x = false)

/-- The element `numbers[i]` of a slice (read only at indices the guards keep in range). -/
def at_ (numbers : List Binary64) (i : Nat) : Binary64 :=
  numbers.getD i 0

/-- The loop `for _, n := range numbers { sum += n }`. -/
def sumLoop (numbers : List Binary64) : Binary64 :=
  numbers.foldl (fun sum n => sum + n) 0

/-- The library call `math.Pow(x, 2)`: the rounded product `x * x` (the scaling
by powers of two inside `math.Pow` is exact in the normal range). -/
def Pow2 (x : Binary64) : Binary64 :=
  x * x

/-- The loop `for _, n := range numbers { variance += math.Pow(n-mean, 2) }`. -/
def varianceLoop (numbers : List Binary64) (mean : Binary64) : Binary64 :=
  numbers.foldl (fun variance n => variance + Pow2 (n - mean)) 0

/-- The median computed by `calculateStats` from the sorted slice. -/
def medianOf (numbers : List Binary64) : Binary64 :=
  if numbers.length % 2 = 0 then
    (at_ numbers (numbers.length / 2 - 1) + at_ numbers (numbers.length / 2)) / 2
  else
    at_ numbers (numbers.length / 2)

/-- The function `(*Dataset).calculateStats` on binary64 values. -/
def calculateStats (columnName : String) (values : List Cell) : SummaryStats Binary64 :=
  let st := scanValues ParseFloat values
  if st.numbers.length > 0 then
    let numbers := sortFloat64s st.numbers
    let min := at_ numbers 0
    let max := at_ numbers (numbers.length - 1)
    let sum := sumLoop numbers
    let mean := sum / (numbers.length : Binary64)
    let median := medianOf numbers
    let variance := varianceLoop numbers mean
    let stdDev := sqrt (variance / (numbers.length : Binary64))
    { Min := some min, Max := some max, Mean := some mean, Median := some median,
      StdDev := some stdDev, UniqueCount := none,
      NullCount := st.nullCount, TotalCount := values.length }
  else
    { Min := none, Max := none, Mean := none, Median := none, StdDev := none,
      UniqueCount := some st.uniqueStrings.length,
      NullCount := st.nullCount, TotalCount := values.length }

/-- The loop of `generateHistogramData` that finds `min` and `max`. -/
def minMaxLoop (numbers : List Binary64) : Binary64 × Binary64 :=
  numbers.foldl
    (fun mm n => (if n < mm.1 then n else mm.1, if n > mm.2 then n else mm.2))
    (at_ numbers 0, at_ numbers 0)

/-- The clamped bin index computed for one value in `generateHistogramData`. -/
def binIndexOf (min binWidth : Binary64) (bins : Int) (n : Binary64) : Int :=
  let binIndex := toInt ((n - min) / binWidth)
  let binIndex := if binIndex ≥ bins then bins - 1 else binIndex
  if binIndex < 0 then 0 else binIndex

/-- The counting loop of `generateHistogramData`. -/
def countLoop (min binWidth : Binary64) (bins : Int) :
    List Nat → List Binary64 → Option (List Nat)
  | binCounts, [] => some binCounts
  | binCounts, n :: rest =>
    match incrAt binCounts (binIndexOf min binWidth bins n) with
    | none => none
    | some binCounts' => countLoop min binWidth bins binCounts' rest

/-- The row emitted for bin `i` by `generateHistogramData`; `fmtFixed2` is the
verb `%.2f` of `fmt.Sprintf`. -/
def histogramRow (fmtFixed2 : Binary64 → String) (min binWidth : Binary64)
    (binCounts : List Nat) (i : Nat) : ChartRow Binary64 :=
  let binStart := min + ofInt i * binWidth
  let binEnd := min + ofInt (i + 1 : Nat) * binWidth
  [("bin", Value.str (fmtFixed2 binStart ++ "-" ++ fmtFixed2 binEnd)),
    ("count", Value.int (binCounts.getD i 0 : Nat)),
    ("start", Value.num binStart),
    ("end", Value.num binEnd)]

/-- The largest length that `make([]int, n)` accepts on amd64: `maxAlloc` is
`2 ^ 48` bytes and an `int` has 8 bytes. -/
def maxIntSliceLen : Int :=
  2 ^ 45

/-- The method `generateHistogramData` on binary64 values. `make([]int, bins)`
panics on a negative length and on a length above `maxIntSliceLen`. (Below
that bound an allocation the machine cannot serve ends the process; such
lengths are not told apart here.) -/
def generateHistogramData (fmtFixed2 : Binary64 → String) (dataset : Dataset Binary64)
    (chart : ChartConfig) : Outcome (List (ChartRow Binary64)) :=
  let values := GetColumnData dataset chart.X
  let numbers := extractNumbers ParseFloat values
  if numbers.length = 0 then Outcome.ok []
  else
    let bins : Int := if chart.Bins = 0 then 20 else chart.Bins
    let min := (minMaxLoop numbers).1
    let max := (minMaxLoop numbers).2
    let binWidth := (max - min) / ofInt bins
    if bins < 0 ∨ maxIntSliceLen < bins then Outcome.panic "makeslice: len out of range"
    else
      match countLoop min binWidth bins (List.replicate bins.toNat 0) numbers with
      | none => Outcome.panic "index out of range"
      | some binCounts =>
        Outcome.ok ((List.range bins.toNat).map (histogramRow fmtFixed2 min binWidth binCounts))

/-- The computation of `generateBoxplotData` on the sorted slice `numbers`. -/
def boxplotValues (numbers : List Binary64) : BoxplotValues Binary64 :=
  let n := numbers.length
  let q1Idx := n / 4
  let medianIdx := n / 2
  let q3Idx := 3 * n / 4
  let q1 := at_ numbers q1Idx
  let median := at_ numbers medianIdx
  let q3 := at_ numbers q3Idx
  let iqr := q3 - q1
  let lowerFence := q1 - fin (3 / 2) * iqr
  let upperFence := q3 + fin (3 / 2) * iqr
  let outliers := numbers.filter (fun n => n < lowerFence ∨ n > upperFence)
  let minVal := numbers.foldl
    (fun minVal n => if n ≥ lowerFence ∧ n < minVal then n else minVal) (at_ numbers 0)
  let maxVal := numbers.foldl
    (fun maxVal n => if n ≤ upperFence ∧ n > maxVal then n else maxVal) (at_ numbers (n - 1))
  { minVal := minVal, q1 := q1, median := median, q3 := q3, maxVal := maxVal,
    outliers := outliers }

/-- The method `generateBoxplotData` on binary64 values. -/
def generateBoxplotData (dataset : Dataset Binary64) (chart : ChartConfig) :
    List (ChartRow Binary64) :=
  let values := GetColumnData dataset chart.Y
  let numbers := extractNumbers ParseFloat values
  if numbers.length = 0 then []
  else
    let b := boxplotValues (sortFloat64s numbers)
    [[("min", Value.num b.minVal), ("q1", Value.num b.q1), ("median", Value.num b.median),
      ("q3", Value.num b.q3), ("max", Value.num b.maxVal), ("outliers", Value.nums b.outliers)]]

/-- The method `calculateCorrelation` on binary64 values. -/
def calculateCorrelation (x y : List Binary64) : Binary64 :=
  if x.length ≠ y.length ∨ x.length = 0 then 0
  else
    let minLen := if y.length < x.length then y.length else x.length
    if minLen = 0 then 0
    else
      let sums := (List.range minLen).foldl
        (fun (s : Binary64 × Binary64) i => (s.1 + at_ x i, s.2 + at_ y i)) (0, 0)
      let meanX := sums.1 / (minLen : Binary64)
      let meanY := sums.2 / (minLen : Binary64)
      let acc := (List.range minLen).foldl
        (fun (a : Binary64 × Binary64 × Binary64) i =>
          (a.1 + (at_ x i - meanX) * (at_ y i - meanY),
            a.2.1 + (at_ x i - meanX) * (at_ x i - meanX),
            a.2.2 + (at_ y i - meanY) * (at_ y i - meanY)))
        (0, 0, 0)
      let denominator := sqrt (acc.2.1 * acc.2.2)
      if eq denominator 0 = true then 0 else acc.1 / denominator

end Binary64

/-- A dataset with the single column `v` holding the given texts. -/
def singleColumnDataset (cells : List String) : Dataset Binary64 :=
  { Columns := [ColumnInfo.mk "v" "number"],
    Rows := cells.map (fun s => [Cell.str s]),
    Summary := [] }

/-! # Theorems -/

/-! ## Lemmas on Go maps -/

theorem GoMap.keys_set {V : Type} (m : GoMap V) (k : String) (v : V) :
    GoMap.keys (GoMap.set m k v) =
      if k ∈ GoMap.keys m then GoMap.keys m else GoMap.keys m ++ [k] := by
  induction m with
  | nil => simp [GoMap.set, GoMap.keys]
  | cons e m ih =>
    obtain ⟨k', v'⟩ := e
    by_cases h : k' = k
    · subst h
      simp [GoMap.set, GoMap.keys]
    · have h' : ¬ k = k' := fun e => h e.symm
      simp only [GoMap.keys] at ih
      by_cases hm : k ∈ List.map Prod.fst m
      · simp [GoMap.set, GoMap.keys, h, h', hm, ih]
      · simp [GoMap.set, GoMap.keys, h, h', hm, ih]

theorem GoMap.mem_keys_set {V : Type} (m : GoMap V) (k : String) (v : V) (s : String) :
    s ∈ GoMap.keys (GoMap.set m k v) ↔ s ∈ GoMap.keys m ∨ s = k := by
  rw [GoMap.keys_set]
  by_cases h : k ∈ GoMap.keys m
  · simp only [h, if_true]
    constructor
    · intro hs; exact Or.inl hs
    · rintro (hs | rfl)
      · exact hs
      · exact h
  · simp [h]

theorem GoMap.nodup_keys_set {V : Type} (m : GoMap V) (k : String) (v : V)
    (h : (GoMap.keys m).Nodup) : (GoMap.keys (GoMap.set m k v)).Nodup := by
  rw [GoMap.keys_set]
  by_cases hk : k ∈ GoMap.keys m
  · simpa [hk] using h
  · simp only [hk, if_false]
    exact List.Nodup.append h (List.nodup_singleton k) (by simpa using hk)

theorem GoMap.length_eq_keys {V : Type} (m : GoMap V) : m.length = (GoMap.keys m).length := by
  simp [GoMap.keys]

/-! ## Lemmas on the scanning loop -/

theorem scan_nullCount {F : Type} (parseFloat : String → Option F) (values : List Cell)
    (st : ScanState F) :
    (values.foldl (scanStep parseFloat) st).nullCount =
      st.nullCount + values.countP (fun v => isNullText (fmtV v)) := by
  induction values generalizing st with
  | nil => simp
  | cons v vs ih =>
    rw [List.foldl_cons, ih]
    by_cases h : isNullText (fmtV v) = true
    · simp [scanStep, h, List.countP_cons]
      omega
    · cases hp : parseFloat (fmtV v) <;> simp [scanStep, h, hp, List.countP_cons]

theorem scan_numbers {F : Type} (parseFloat : String → Option F) (values : List Cell)
    (st : ScanState F) :
    (values.foldl (scanStep parseFloat) st).numbers =
      st.numbers ++ parsedNumbers parseFloat values := by
  induction values generalizing st with
  | nil => simp [parsedNumbers]
  | cons v vs ih =>
    rw [List.foldl_cons, ih]
    by_cases h : isNullText (fmtV v) = true
    · simp [scanStep, h, parsedNumbers, List.filterMap_cons]
    · cases hp : parseFloat (fmtV v) <;>
        simp [scanStep, h, hp, parsedNumbers, List.filterMap_cons]

theorem scan_mem_keys {F : Type} (parseFloat : String → Option F) (values : List Cell)
    (st : ScanState F) (s : String) :
    s ∈ GoMap.keys (values.foldl (scanStep parseFloat) st).uniqueStrings ↔
      s ∈ GoMap.keys st.uniqueStrings ∨ s ∈ nonNumericTexts parseFloat values := by
  induction values generalizing st with
  | nil => simp [nonNumericTexts]
  | cons v vs ih =>
    rw [List.foldl_cons, ih]
    by_cases h : isNullText (fmtV v) = true
    · simp [scanStep, h, nonNumericTexts, List.filter_cons]
    · cases hp : parseFloat (fmtV v)
      · simp [scanStep, h, hp, nonNumericTexts, List.filter_cons, GoMap.mem_keys_set, or_assoc]
      · simp [scanStep, h, hp, nonNumericTexts, List.filter_cons]

theorem scan_nodup_keys {F : Type} (parseFloat : String → Option F) (values : List Cell)
    (st : ScanState F) (hst : (GoMap.keys st.uniqueStrings).Nodup) :
    (GoMap.keys (values.foldl (scanStep parseFloat) st).uniqueStrings).Nodup := by
  induction values generalizing st with
  | nil => simpa using hst
  | cons v vs ih =>
    rw [List.foldl_cons]
    apply ih
    by_cases h : isNullText (fmtV v) = true
    · simpa [scanStep, h] using hst
    · cases hp : parseFloat (fmtV v)
      · simpa [scanStep, h, hp] using GoMap.nodup_keys_set _ _ _ hst
      · simpa [scanStep, h, hp] using hst

theorem scanValues_nullCount {F : Type} (parseFloat : String → Option F) (values : List Cell) :
    (scanValues parseFloat values).nullCount = values.countP (fun v => isNullText (fmtV v)) := by
  simp [scanValues, scan_nullCount]

theorem scanValues_numbers {F : Type} (parseFloat : String → Option F) (values : List Cell) :
    (scanValues parseFloat values).numbers = parsedNumbers parseFloat values := by
  simp [scanValues, scan_numbers]

theorem scanValues_unique_length {F : Type} (parseFloat : String → Option F)
    (values : List Cell) :
    (scanValues parseFloat values).uniqueStrings.length =
      (nonNumericTexts parseFloat values).dedup.length := by
  have hnd : (GoMap.keys (scanValues parseFloat values).uniqueStrings).Nodup :=
    scan_nodup_keys parseFloat values _ (by simp [GoMap.keys])
  have hmem : ∀ s, s ∈ GoMap.keys (scanValues parseFloat values).uniqueStrings ↔
      s ∈ (nonNumericTexts parseFloat values).dedup := by
    intro s
    rw [scanValues, scan_mem_keys, List.mem_dedup]
    simp [GoMap.keys]
  rw [GoMap.length_eq_keys]
  exact List.Perm.length_eq
    ((List.perm_ext_iff_of_nodup hnd (List.nodup_dedup _)).2 hmem)

/-- The three classes of cells partition a column. -/
theorem length_partition {F : Type} (parseFloat : String → Option F) (values : List Cell) :
    values.length = values.countP (fun v => isNullText (fmtV v))
      + (values.filter (fun v => !isNullText (fmtV v) && (parseFloat (fmtV v)).isSome)).length
      + (values.filter (fun v => !isNullText (fmtV v) && (parseFloat (fmtV v)).isNone)).length := by
  induction values with
  | nil => simp
  | cons v vs ih =>
    by_cases h : isNullText (fmtV v) = true
    · simp [List.countP_cons, List.filter_cons, h]
      omega
    · cases hp : parseFloat (fmtV v) <;>
        simp [List.countP_cons, List.filter_cons, h, hp] <;> omega

section StatsTheorems

variable {F : Type} [LinearOrderedField F]

theorem calculateStats_TotalCount (parseFloat : String → Option F) (sqrt : F → F)
    (columnName : String) (values : List Cell) :
    (calculateStats parseFloat sqrt columnName values).TotalCount = values.length := by
  unfold calculateStats
  simp only []
  split <;> rfl

theorem calculateStats_NullCount (parseFloat : String → Option F) (sqrt : F → F)
    (columnName : String) (values : List Cell) :
    (calculateStats parseFloat sqrt columnName values).NullCount =
      values.countP (fun v => isNullText (fmtV v)) := by
  unfold calculateStats
  simp only []
  split <;> exact scanValues_nullCount parseFloat values

/-- C1: for every column, `calculateStats` reports `TotalCount = NullCount +`
(number of non-null values that parse) `+` (number of non-null values that do
not parse); `NullCount` lies between `0` and `TotalCount`, and `TotalCount` is
the number of values. -/
theorem calculateStats_counts (parseFloat : String → Option F) (sqrt : F → F)
    (columnName : String) (values : List Cell) :
    (calculateStats parseFloat sqrt columnName values).TotalCount =
        (calculateStats parseFloat sqrt columnName values).NullCount
        + (values.filter
            (fun v => !isNullText (fmtV v) && (parseFloat (fmtV v)).isSome)).length
        + (values.filter
            (fun v => !isNullText (fmtV v) && (parseFloat (fmtV v)).isNone)).length
      ∧ 0 ≤ (calculateStats parseFloat sqrt columnName values).NullCount
      ∧ (calculateStats parseFloat sqrt columnName values).NullCount ≤
          (calculateStats parseFloat sqrt columnName values).TotalCount
      ∧ (calculateStats parseFloat sqrt columnName values).TotalCount = values.length := by
  rw [calculateStats_TotalCount, calculateStats_NullCount]
  refine ⟨length_partition parseFloat values, Nat.zero_le _, List.countP_le_length _, rfl⟩

theorem calculateStats_of_nil (parseFloat : String → Option F) (sqrt : F → F)
    (columnName : String) (values : List Cell) (h : parsedNumbers parseFloat values = []) :
    calculateStats parseFloat sqrt columnName values =
      { Min := none, Max := none, Mean := none, Median := none, StdDev := none,
        UniqueCount := some (nonNumericTexts parseFloat values).dedup.length,
        NullCount := values.countP (fun v => isNullText (fmtV v)),
        TotalCount := values.length } := by
  unfold calculateStats
  simp only [scanValues_numbers, scanValues_nullCount, scanValues_unique_length, h,
    List.length_nil, gt_iff_lt, lt_self_iff_false, if_false]

theorem calculateStats_of_ne_nil (parseFloat : String → Option F) (sqrt : F → F)
    (columnName : String) (values : List Cell) (h : parsedNumbers parseFloat values ≠ []) :
    calculateStats parseFloat sqrt columnName values =
      { Min := some (at_ (sortFloat64s (parsedNumbers parseFloat values)) 0),
        Max := some (at_ (sortFloat64s (parsedNumbers parseFloat values))
          ((sortFloat64s (parsedNumbers parseFloat values)).length - 1)),
        Mean := some (sumLoop (sortFloat64s (parsedNumbers parseFloat values)) /
          ((sortFloat64s (parsedNumbers parseFloat values)).length : F)),
        Median := some (medianOf (sortFloat64s (parsedNumbers parseFloat values))),
        StdDev := some (sqrt (varianceLoop (sortFloat64s (parsedNumbers parseFloat values))
            (sumLoop (sortFloat64s (parsedNumbers parseFloat values)) /
              ((sortFloat64s (parsedNumbers parseFloat values)).length : F)) /
          ((sortFloat64s (parsedNumbers parseFloat values)).length : F))),
        UniqueCount := none,
        NullCount := values.countP (fun v => isNullText (fmtV v)),
        TotalCount := values.length } := by
  have hpos : 0 < (parsedNumbers parseFloat values).length := List.length_pos.2 h
  unfold calculateStats
  simp only [scanValues_numbers, scanValues_nullCount, gt_iff_lt, hpos, if_true]

/-- Post-composing the parser with a map post-composes the parsed numbers. -/
theorem parsedNumbers_map {G H : Type} (parseFloat : String → Option G) (g : G → H)
    (values : List Cell) :
    parsedNumbers (fun s => (parseFloat s).map g) values =
      (parsedNumbers parseFloat values).map g := by
  induction values with
  | nil => simp [parsedNumbers]
  | cons v vs ih =>
    simp only [parsedNumbers] at ih
    by_cases h : isNullText (fmtV v) = true
    · simp [parsedNumbers, List.filterMap_cons, h, ih]
    · cases hp : parseFloat (fmtV v) <;>
        simp [parsedNumbers, List.filterMap_cons, h, hp, ih]

/-- Some non-null value parses exactly when the list of parsed numbers is not empty. -/
theorem parsedNumbers_ne_nil_iff {G : Type} (parseFloat : String → Option G)
    (values : List Cell) :
    parsedNumbers parseFloat values ≠ [] ↔
      ∃ v ∈ values, isNullText (fmtV v) = false ∧ (parseFloat (fmtV v)).isSome = true := by
  induction values with
  | nil => simp [parsedNumbers]
  | cons v vs ih =>
    simp only [parsedNumbers] at ih
    by_cases h : isNullText (fmtV v) = true
    · simp [parsedNumbers, List.filterMap_cons, h, ih]
    · cases hp : parseFloat (fmtV v) <;>
        simp [parsedNumbers, List.filterMap_cons, h, hp, ih]

/-- Without a parsed number, every non-null string form is a non-numeric text. -/
theorem nonNumericTexts_of_nil {G : Type} (parseFloat : String → Option G)
    (values : List Cell) (h : parsedNumbers parseFloat values = []) :
    nonNumericTexts parseFloat values = (values.map fmtV).filter (fun s => !isNullText s) := by
  induction values with
  | nil => simp [nonNumericTexts]
  | cons v vs ih =>
    simp only [nonNumericTexts] at ih
    by_cases hn : isNullText (fmtV v) = true
    · have hvs : parsedNumbers parseFloat vs = [] := by
        simpa [parsedNumbers, List.filterMap_cons, hn] using h
      simp [nonNumericTexts, List.filter_cons, hn, ih hvs]
    · cases hp : parseFloat (fmtV v) with
      | none =>
        have hvs : parsedNumbers parseFloat vs = [] := by
          simpa [parsedNumbers, List.filterMap_cons, hn, hp] using h
        simp [nonNumericTexts, List.filter_cons, hn, hp, ih hvs]
      | some x =>
        simp [parsedNumbers, List.filterMap_cons, hn, hp] at h

/-- C2: `calculateStats` fills exactly one stat group. When some non-null value
parses as a number, `Min`, `Max`, `Mean`, `Median` and `StdDev` are all present
and `UniqueCount` is absent; otherwise the five numeric fields are all absent
and `UniqueCount` is the number of distinct non-null string forms. -/
theorem calculateStats_one_group (parseFloat : String → Option F) (sqrt : F → F)
    (columnName : String) (values : List Cell) :
    ((∃ v ∈ values, isNullText (fmtV v) = false ∧ (parseFloat (fmtV v)).isSome = true) →
      (calculateStats parseFloat sqrt columnName values).Min.isSome = true ∧
      (calculateStats parseFloat sqrt columnName values).Max.isSome = true ∧
      (calculateStats parseFloat sqrt columnName values).Mean.isSome = true ∧
      (calculateStats parseFloat sqrt columnName values).Median.isSome = true ∧
      (calculateStats parseFloat sqrt columnName values).StdDev.isSome = true ∧
      (calculateStats parseFloat sqrt columnName values).UniqueCount = none) ∧
    ((¬ ∃ v ∈ values, isNullText (fmtV v) = false ∧ (parseFloat (fmtV v)).isSome = true) →
      (calculateStats parseFloat sqrt columnName values).Min = none ∧
      (calculateStats parseFloat sqrt columnName values).Max = none ∧
      (calculateStats parseFloat sqrt columnName values).Mean = none ∧
      (calculateStats parseFloat sqrt columnName values).Median = none ∧
      (calculateStats parseFloat sqrt columnName values).StdDev = none ∧
      (calculateStats parseFloat sqrt columnName values).UniqueCount =
        some ((values.map fmtV).filter (fun s => !isNullText s)).dedup.length) := by
  constructor
  · intro h
    have hne := (parsedNumbers_ne_nil_iff parseFloat values).2 h
    rw [calculateStats_of_ne_nil parseFloat sqrt columnName values hne]
    simp
  · intro h
    have hnil : parsedNumbers parseFloat values = [] := by
      by_contra hne
      exact h ((parsedNumbers_ne_nil_iff parseFloat values).1 hne)
    rw [calculateStats_of_nil parseFloat sqrt columnName values hnil,
      nonNumericTexts_of_nil parseFloat values hnil]
    simp

/-- C2, run on the mixed column `7, x, (empty), x` (numeric group only) and on
the text column `x, y, (empty), x` (two distinct texts). -/
theorem calculateStats_one_group_witness :
    ((calculateStats parseDecimal id "c"
        [Cell.str "7", Cell.str "x", Cell.str "", Cell.str "x"]).Min.isSome = true ∧
      (calculateStats parseDecimal id "c"
        [Cell.str "7", Cell.str "x", Cell.str "", Cell.str "x"]).UniqueCount = none) ∧
    (calculateStats parseDecimal id "c"
        [Cell.str "x", Cell.str "y", Cell.str "", Cell.str "x"]).UniqueCount = some 2 := by
  constructor
  · have h := (calculateStats_one_group parseDecimal id "c"
      [Cell.str "7", Cell.str "x", Cell.str "", Cell.str "x"]).1
      ⟨Cell.str "7", by simp, by decide, by decide⟩
    exact ⟨h.1, h.2.2.2.2.2⟩
  · have h := (calculateStats_one_group parseDecimal id "c"
      [Cell.str "x", Cell.str "y", Cell.str "", Cell.str "x"]).2 (by decide)
    rw [h.2.2.2.2.2]
    decide

/-- The null test accepts exactly the three literals. -/
theorem isNullText_iff (strVal : String) :
    isNullText strVal = true ↔ strVal = "" ∨ strVal = "null" ∨ strVal = "NULL" := by
  simp [isNullText, or_assoc]

/-- Removing every occurrence of a member lowers the number of distinct elements by one. -/
theorem dedup_length_filter_ne (l : List String) (s : String) (hs : s ∈ l) :
    l.dedup.length = (l.filter (fun t => decide (t ≠ s))).dedup.length + 1 := by
  rw [← List.card_toFinset, ← List.card_toFinset]
  have hnot : s ∉ (l.filter (fun t => decide (t ≠ s))).toFinset := by
    simp [List.mem_filter]
  have hins : l.toFinset = insert s (l.filter (fun t => decide (t ≠ s))).toFinset := by
    ext t
    by_cases ht : t = s
    · subst ht
      simp [hs]
    · simp [List.mem_filter, ht]
  rw [hins, Finset.card_insert_of_not_mem hnot]

theorem nonNumericTexts_filter_ne {G : Type} (parseFloat : String → Option G)
    (values : List Cell) (s : String) :
    nonNumericTexts parseFloat (values.filter (fun v => decide (fmtV v ≠ s))) =
      (nonNumericTexts parseFloat values).filter (fun t => decide (t ≠ s)) := by
  unfold nonNumericTexts
  have h1 : List.map fmtV (values.filter (fun v => decide (fmtV v ≠ s))) =
      (values.map fmtV).filter (fun t => decide (t ≠ s)) := by
    rw [List.filter_map]
    rfl
  rw [h1, List.filter_filter, List.filter_filter]
  congr 1
  funext t
  exact Bool.and_comm _ _

theorem parsedNumbers_filter_nil {G : Type} (parseFloat : String → Option G)
    (values : List Cell) (q : Cell → Bool) (h : parsedNumbers parseFloat values = []) :
    parsedNumbers parseFloat (values.filter q) = [] := by
  have hsub : (parsedNumbers parseFloat (values.filter q)).Sublist
      (parsedNumbers parseFloat values) :=
    List.Sublist.filterMap _ (List.filter_sublist values)
  rw [h] at hsub
  exact List.eq_nil_of_sublist_nil hsub

/-- C3: `NullCount` is the number of values whose string form is exactly `""`,
`"null"` or `"NULL"`. A text `s` that is none of the three and does not parse
(another casing such as `"Null"`) is not a null: the one-cell column `[s]` has
`NullCount = 0` and `UniqueCount = 1`, and in a column without numbers that
holds `s`, dropping the cells equal to `s` lowers `UniqueCount` by exactly one
and leaves `NullCount` unchanged. -/
theorem calculateStats_null_rule (parseFloat : String → Option F) (sqrt : F → F)
    (columnName : String) (values : List Cell) :
    (calculateStats parseFloat sqrt columnName values).NullCount =
      values.countP
        (fun v => decide (fmtV v = "" ∨ fmtV v = "null" ∨ fmtV v = "NULL")) ∧
    ∀ s : String, s ≠ "" → s ≠ "null" → s ≠ "NULL" → parseFloat s = none →
      (calculateStats parseFloat sqrt columnName [Cell.str s]).NullCount = 0 ∧
      (calculateStats parseFloat sqrt columnName [Cell.str s]).UniqueCount = some 1 ∧
      (s ∈ values.map fmtV →
        (¬ ∃ v ∈ values, isNullText (fmtV v) = false ∧ (parseFloat (fmtV v)).isSome = true) →
        ∃ n : Nat,
          (calculateStats parseFloat sqrt columnName
            (values.filter (fun v => decide (fmtV v ≠ s)))).UniqueCount = some n ∧
          (calculateStats parseFloat sqrt columnName values).UniqueCount = some (n + 1) ∧
          (calculateStats parseFloat sqrt columnName
            (values.filter (fun v => decide (fmtV v ≠ s)))).NullCount =
            (calculateStats parseFloat sqrt columnName values).NullCount) := by
  constructor
  · rw [calculateStats_NullCount]
    congr 1
    funext v
    by_cases h : isNullText (fmtV v) = true
    · rw [h]
      exact (decide_eq_true ((isNullText_iff _).1 h)).symm
    · have h' : ¬ (fmtV v = "" ∨ fmtV v = "null" ∨ fmtV v = "NULL") :=
        fun hc => h ((isNullText_iff _).2 hc)
      rw [Bool.not_eq_true] at h
      rw [h]
      exact (decide_eq_false h').symm
  · intro s h1 h2 h3 hp
    have hnull : isNullText s = false := by
      rw [← Bool.not_eq_true, isNullText_iff]
      rintro (h | h | h)
      · exact h1 h
      · exact h2 h
      · exact h3 h
    have hone : parsedNumbers parseFloat [Cell.str s] = [] := by
      simp [parsedNumbers, fmtV, hnull, hp]
    refine ⟨?_, ?_, ?_⟩
    · rw [calculateStats_NullCount]
      simp [fmtV, hnull]
    · rw [calculateStats_of_nil parseFloat sqrt columnName _ hone]
      simp [nonNumericTexts, fmtV, hnull, hp]
    · intro hmem hno
      have hnil : parsedNumbers parseFloat values = [] := by
        by_contra hne
        exact hno ((parsedNumbers_ne_nil_iff parseFloat values).1 hne)
      have hnil' := parsedNumbers_filter_nil parseFloat values
        (fun v => decide (fmtV v ≠ s)) hnil
      have hs : s ∈ nonNumericTexts parseFloat values := by
        simp only [nonNumericTexts, List.mem_filter]
        exact ⟨hmem, by simp [hnull, hp]⟩
      refine ⟨((nonNumericTexts parseFloat values).filter
        (fun t => decide (t ≠ s))).dedup.length, ?_, ?_, ?_⟩
      · rw [calculateStats_of_nil parseFloat sqrt columnName _ hnil',
          nonNumericTexts_filter_ne]
      · rw [calculateStats_of_nil parseFloat sqrt columnName _ hnil,
          dedup_length_filter_ne _ s hs]
      · rw [calculateStats_NullCount, calculateStats_NullCount, List.countP_filter]
        congr 1
        funext v
        by_cases hv : fmtV v = s
        · simp [hv, hnull]
        · simp [hv]

/-- C3, run with the decimal parser on the column `Null, null, nULL, Null`:
one null, and `"Null"` is one of the two distinct texts. -/
theorem calculateStats_null_rule_witness :
    (calculateStats parseDecimal id "c"
        [Cell.str "Null", Cell.str "null", Cell.str "nULL", Cell.str "Null"]).NullCount = 1 ∧
    (calculateStats parseDecimal id "c" [Cell.str "Null"]).NullCount = 0 ∧
    (calculateStats parseDecimal id "c" [Cell.str "Null"]).UniqueCount = some 1 ∧
    ∃ n : Nat,
      (calculateStats parseDecimal id "c"
        ([Cell.str "Null", Cell.str "null", Cell.str "nULL", Cell.str "Null"].filter
          (fun v => decide (fmtV v ≠ "Null")))).UniqueCount = some n ∧
      (calculateStats parseDecimal id "c"
        [Cell.str "Null", Cell.str "null", Cell.str "nULL", Cell.str "Null"]).UniqueCount =
        some (n + 1) ∧
      (calculateStats parseDecimal id "c"
        ([Cell.str "Null", Cell.str "null", Cell.str "nULL", Cell.str "Null"].filter
          (fun v => decide (fmtV v ≠ "Null")))).NullCount =
        (calculateStats parseDecimal id "c"
          [Cell.str "Null", Cell.str "null", Cell.str "nULL", Cell.str "Null"]).NullCount := by
  have h := calculateStats_null_rule parseDecimal id "c"
    [Cell.str "Null", Cell.str "null", Cell.str "nULL", Cell.str "Null"]
  have h2 := h.2 "Null" (by decide) (by decide) (by decide) (by decide)
  refine ⟨?_, h2.1, h2.2.1, h2.2.2 (by decide) (by decide)⟩
  rw [h.1]
  decide

/-- Reading a slice inside its bounds returns the stored element. -/
theorem getElem?_eq_at (l : List F) (i : Nat) (h : i < l.length) : l[i]? = some (at_ l i) := by
  simp [at_, List.getD_eq_getElem?_getD, List.getElem?_eq_getElem h]

/-- The sorted slice is the only ascending arrangement of the parsed numbers. -/
theorem sortFloat64s_unique (numbers sorted : List F) (hsorted : sorted.Sorted (· ≤ ·))
    (hperm : sorted.Perm numbers) : sortFloat64s numbers = sorted :=
  List.eq_of_perm_of_sorted
    ((List.perm_insertionSort (· ≤ ·) numbers).trans hperm.symm)
    (List.sorted_insertionSort (· ≤ ·) numbers) hsorted

theorem sortFloat64s_perm_congr (xs ys : List F) (h : xs.Perm ys) :
    sortFloat64s xs = sortFloat64s ys :=
  sortFloat64s_unique xs (sortFloat64s ys) (List.sorted_insertionSort (· ≤ ·) ys)
    ((List.perm_insertionSort (· ≤ ·) ys).trans h.symm)

theorem parsedNumbers_perm {G : Type} (parseFloat : String → Option G)
    (values values' : List Cell) (h : values'.Perm values) :
    (parsedNumbers parseFloat values').Perm (parsedNumbers parseFloat values) :=
  List.Perm.filterMap _ h

/-- C4: for a column with `n ≥ 1` parsed numbers and `sorted` their ascending
arrangement, `Median` is `sorted[n/2]` when `n` is odd and the average of
`sorted[n/2-1]` and `sorted[n/2]` when `n` is even; reordering the cells of the
column does not change it. -/
theorem calculateStats_median (parseFloat : String → Option F) (sqrt : F → F)
    (columnName : String) (values : List Cell) (sorted : List F)
    (hsorted : sorted.Sorted (· ≤ ·))
    (hperm : sorted.Perm (parsedNumbers parseFloat values))
    (hn : 1 ≤ sorted.length) :
    (sorted.length % 2 = 1 →
      ∃ m : F, sorted[sorted.length / 2]? = some m ∧
        (calculateStats parseFloat sqrt columnName values).Median = some m) ∧
    (sorted.length % 2 = 0 →
      ∃ a b : F, sorted[sorted.length / 2 - 1]? = some a ∧
        sorted[sorted.length / 2]? = some b ∧
        (calculateStats parseFloat sqrt columnName values).Median = some ((a + b) / 2)) ∧
    (∀ values' : List Cell, values'.Perm values →
      (calculateStats parseFloat sqrt columnName values').Median =
        (calculateStats parseFloat sqrt columnName values).Median) := by
  have hne : parsedNumbers parseFloat values ≠ [] := by
    intro h
    rw [h] at hperm
    have hlen := hperm.length_eq
    rw [List.length_nil] at hlen
    omega
  have hsort := sortFloat64s_unique _ sorted hsorted hperm
  refine ⟨?_, ?_, ?_⟩
  · intro hodd
    refine ⟨at_ sorted (sorted.length / 2), getElem?_eq_at _ _ (by omega), ?_⟩
    rw [calculateStats_of_ne_nil parseFloat sqrt columnName values hne, hsort]
    have h2 : ¬ sorted.length % 2 = 0 := by omega
    simp [medianOf, h2]
  · intro heven
    refine ⟨at_ sorted (sorted.length / 2 - 1), at_ sorted (sorted.length / 2),
      getElem?_eq_at _ _ (by omega), getElem?_eq_at _ _ (by omega), ?_⟩
    rw [calculateStats_of_ne_nil parseFloat sqrt columnName values hne, hsort]
    simp [medianOf, heven]
  · intro values' hp
    have hpn := parsedNumbers_perm parseFloat values values' hp
    have hne' : parsedNumbers parseFloat values' ≠ [] := by
      intro h
      rw [h] at hpn
      exact hne (List.Perm.nil_eq hpn).symm
    rw [calculateStats_of_ne_nil parseFloat sqrt columnName values hne,
      calculateStats_of_ne_nil parseFloat sqrt columnName values' hne',
      sortFloat64s_perm_congr _ _ hpn]

/-- C4, run with the decimal parser: the column `3, 1, 4, 2` has median `2.5`
and the column `2, x, 3, 1` has median `2`. -/
theorem calculateStats_median_witness :
    (calculateStats parseDecimal id "c"
      [Cell.str "3", Cell.str "1", Cell.str "4", Cell.str "2"]).Median = some (5 / 2) ∧
    (calculateStats parseDecimal id "c"
      [Cell.str "2", Cell.str "x", Cell.str "3", Cell.str "1"]).Median = some 2 := by
  constructor
  · obtain ⟨a, b, ha, hb, hm⟩ := (calculateStats_median parseDecimal id "c"
      [Cell.str "3", Cell.str "1", Cell.str "4", Cell.str "2"] [1, 2, 3, 4]
      (by decide!) (by decide!) (by decide)).2.1 (by decide)
    have ha' : a = 2 := by simpa using ha.symm
    have hb' : b = 3 := by simpa using hb.symm
    rw [hm, ha', hb']
    norm_num
  · obtain ⟨m, hm, hmed⟩ := (calculateStats_median parseDecimal id "c"
      [Cell.str "2", Cell.str "x", Cell.str "3", Cell.str "1"] [1, 2, 3]
      (by decide!) (by decide!) (by decide)).1 (by decide)
    have hm' : m = 2 := by simpa using hm.symm
    rw [hmed, hm']

/-- An accumulating loop over a slice is the sum of the accumulated terms. -/
theorem foldl_add_eq_sum (f : F → F) (l : List F) (acc : F) :
    l.foldl (fun a n => a + f n) acc = acc + (l.map f).sum := by
  induction l generalizing acc with
  | nil => simp
  | cons x xs ih => rw [List.foldl_cons, ih, List.map_cons, List.sum_cons, add_assoc]

theorem sumLoop_eq_sum (l : List F) : sumLoop l = l.sum := by
  have h := foldl_add_eq_sum (fun x => x) l 0
  simpa [sumLoop] using h

theorem varianceLoop_eq_sum (l : List F) (mean : F) :
    varianceLoop l mean = (l.map (fun x => (x - mean) ^ 2)).sum := by
  have h := foldl_add_eq_sum (fun x => (x - mean) ^ 2) l 0
  simpa [varianceLoop] using h

theorem sortFloat64s_perm (l : List F) : (sortFloat64s l).Perm l :=
  List.perm_insertionSort (· ≤ ·) l

theorem sortFloat64s_sum (l : List F) : (sortFloat64s l).sum = l.sum :=
  (sortFloat64s_perm l).sum_eq

theorem sortFloat64s_length (l : List F) : (sortFloat64s l).length = l.length :=
  (sortFloat64s_perm l).length_eq

/-- C5 (amended): over exact arithmetic (`float64` read as an ordered field: no
rounding, no NaN, no infinity), for a column with `N ≥ 1` parsed numbers `x_1..x_N`, with a square root that is non-negative and squares back
on non-negative arguments, `StdDev` is the population standard deviation: it
is non-negative and its square is `(1/N) * Σ (x_i - mean)^2`, where
`mean = (Σ x_i) / N` is the reported `Mean`; the numbers `2,4,4,4,5,5,7,9` in
any order give exactly `2`. -/
theorem calculateStats_stdDev (parseFloat : String → Option F) (sqrt : F → F)
    (hsqrt : ∀ x : F, 0 ≤ x → 0 ≤ sqrt x ∧ sqrt x ^ 2 = x)
    (columnName : String) (values : List Cell)
    (hN : 1 ≤ (parsedNumbers parseFloat values).length) :
    (∃ sd mean : F,
      (calculateStats parseFloat sqrt columnName values).StdDev = some sd ∧
      (calculateStats parseFloat sqrt columnName values).Mean = some mean ∧
      mean = (parsedNumbers parseFloat values).sum /
        ((parsedNumbers parseFloat values).length : F) ∧
      0 ≤ sd ∧
      sd ^ 2 = (1 / ((parsedNumbers parseFloat values).length : F)) *
        ((parsedNumbers parseFloat values).map (fun x => (x - mean) ^ 2)).sum) ∧
    ((parsedNumbers parseFloat values).Perm [2, 4, 4, 4, 5, 5, 7, 9] →
      (calculateStats parseFloat sqrt columnName values).StdDev = some 2) := by
  have hne : parsedNumbers parseFloat values ≠ [] := by
    intro h
    rw [h, List.length_nil] at hN
    omega
  have hpos : (0 : F) < ((parsedNumbers parseFloat values).length : F) := by
    exact_mod_cast hN
  have hvar : ∀ mean : F, 0 ≤
      ((parsedNumbers parseFloat values).map (fun x => (x - mean) ^ 2)).sum /
        ((parsedNumbers parseFloat values).length : F) := by
    intro mean
    apply div_nonneg _ hpos.le
    apply List.sum_nonneg
    intro y hy
    obtain ⟨x, _, rfl⟩ := List.mem_map.1 hy
    exact sq_nonneg _
  have hstats := calculateStats_of_ne_nil parseFloat sqrt columnName values hne
  have hsd : (calculateStats parseFloat sqrt columnName values).StdDev =
      some (sqrt (((parsedNumbers parseFloat values).map
        (fun x => (x - (parsedNumbers parseFloat values).sum /
          ((parsedNumbers parseFloat values).length : F)) ^ 2)).sum /
        ((parsedNumbers parseFloat values).length : F))) := by
    rw [hstats]
    simp only [sumLoop_eq_sum, varianceLoop_eq_sum, sortFloat64s_sum, sortFloat64s_length]
    rw [((sortFloat64s_perm (parsedNumbers parseFloat values)).map _).sum_eq]
  have hmean : (calculateStats parseFloat sqrt columnName values).Mean =
      some ((parsedNumbers parseFloat values).sum /
        ((parsedNumbers parseFloat values).length : F)) := by
    rw [hstats]
    simp only [sumLoop_eq_sum, sortFloat64s_sum, sortFloat64s_length]
  constructor
  · refine ⟨_, _, hsd, hmean, rfl, (hsqrt _ (hvar _)).1, ?_⟩
    rw [(hsqrt _ (hvar _)).2]
    ring
  · intro hperm
    have hlen : (parsedNumbers parseFloat values).length = 8 := by
      simpa using hperm.length_eq
    have hsum : (parsedNumbers parseFloat values).sum = 40 := by
      rw [hperm.sum_eq]
      norm_num
    have hsq : ((parsedNumbers parseFloat values).map (fun x => (x - (5 : F)) ^ 2)).sum = 32 := by
      rw [(hperm.map _).sum_eq]
      norm_num
    have hm : (parsedNumbers parseFloat values).sum /
        ((parsedNumbers parseFloat values).length : F) = 5 := by
      rw [hsum, hlen]
      norm_num
    have h4 := hsqrt (4 : F) (by norm_num)
    have hroot : sqrt (4 : F) = 2 := by
      have hprod : (sqrt (4 : F) - 2) * (sqrt (4 : F) + 2) = 0 := by
        have := h4.2
        ring_nf
        ring_nf at this
        linarith
      rcases mul_eq_zero.1 hprod with h | h
      · linarith
      · linarith [h4.1]
    rw [hsd, hm, hsq, hlen]
    have h32 : (32 : F) / ((8 : ℕ) : F) = 4 := by norm_num
    rw [h32, hroot]

/-- C5 (amended), run over the reals with `Real.sqrt` on the column
`2,4,4,4,5,5,7,9`. -/
theorem calculateStats_stdDev_witness :
    (calculateStats (fun s => (parseDecimal s).map (fun q : ℚ => (q : ℝ))) Real.sqrt "c"
      [Cell.str "2", Cell.str "4", Cell.str "4", Cell.str "4", Cell.str "5", Cell.str "5",
        Cell.str "7", Cell.str "9"]).StdDev = some 2 := by
  have hq : parsedNumbers parseDecimal
      [Cell.str "2", Cell.str "4", Cell.str "4", Cell.str "4", Cell.str "5", Cell.str "5",
        Cell.str "7", Cell.str "9"] = [2, 4, 4, 4, 5, 5, 7, 9] := by decide!
  have hr : parsedNumbers (fun s => (parseDecimal s).map (fun q : ℚ => (q : ℝ)))
      [Cell.str "2", Cell.str "4", Cell.str "4", Cell.str "4", Cell.str "5", Cell.str "5",
        Cell.str "7", Cell.str "9"] = [2, 4, 4, 4, 5, 5, 7, 9] := by
    rw [parsedNumbers_map, hq]
    simp
  exact (calculateStats_stdDev (fun s => (parseDecimal s).map (fun q : ℚ => (q : ℝ)))
    Real.sqrt (fun x hx => ⟨Real.sqrt_nonneg x, Real.sq_sqrt hx⟩) "c" _
    (by rw [hr]; simp)).2 (by rw [hr])

theorem at_mem (l : List F) (i : Nat) (h : i < l.length) : at_ l i ∈ l := by
  have hget := getElem?_eq_at l i h
  exact List.getElem?_mem hget

theorem sorted_at_le (l : List F) (hs : l.Sorted (· ≤ ·)) (i j : Nat) (hij : i ≤ j)
    (hj : j < l.length) : at_ l i ≤ at_ l j := by
  have hi : i < l.length := lt_of_le_of_lt hij hj
  have hrel := List.Sorted.rel_get_of_le hs (a := ⟨i, hi⟩) (b := ⟨j, hj⟩) hij
  have e1 : at_ l i = l.get ⟨i, hi⟩ := by
    simp [at_, List.getD_eq_getElem?_getD, List.getElem?_eq_getElem hi]
  have e2 : at_ l j = l.get ⟨j, hj⟩ := by
    simp [at_, List.getD_eq_getElem?_getD, List.getElem?_eq_getElem hj]
  rw [e1, e2]
  exact hrel

theorem mem_eq_at (l : List F) (x : F) (hx : x ∈ l) : ∃ i, i < l.length ∧ at_ l i = x := by
  obtain ⟨i, hi, rfl⟩ := List.getElem_of_mem hx
  refine ⟨i, hi, ?_⟩
  simp [at_, List.getD_eq_getElem?_getD, List.getElem?_eq_getElem hi]

/-- A filter that keeps every non-null parsable cell keeps the parsed numbers. -/
theorem parsedNumbers_filter {G : Type} (parseFloat : String → Option G)
    (values : List Cell) (q : Cell → Bool)
    (hq : ∀ v, isNullText (fmtV v) = false → (parseFloat (fmtV v)).isSome = true → q v = true) :
    parsedNumbers parseFloat (values.filter q) = parsedNumbers parseFloat values := by
  induction values with
  | nil => simp [parsedNumbers]
  | cons v vs ih =>
    simp only [parsedNumbers] at ih
    by_cases hv : q v = true
    · simp [parsedNumbers, List.filter_cons, hv, List.filterMap_cons, ih]
    · by_cases hn : isNullText (fmtV v) = true
      · simp [parsedNumbers, List.filter_cons, hv, List.filterMap_cons, hn, ih]
      · cases hp : parseFloat (fmtV v) with
        | none => simp [parsedNumbers, List.filter_cons, hv, List.filterMap_cons, hn, hp, ih]
        | some x =>
          exact absurd (hq v (by simpa using hn) (by simp [hp])) hv

/-- A filter that keeps every null cell keeps the number of null cells. -/
theorem countP_null_filter (values : List Cell) (q : Cell → Bool)
    (hq : ∀ v, isNullText (fmtV v) = true → q v = true) :
    (values.filter q).countP (fun v => isNullText (fmtV v)) =
      values.countP (fun v => isNullText (fmtV v)) := by
  rw [List.countP_filter]
  congr 1
  funext v
  by_cases hn : isNullText (fmtV v) = true
  · simp [hn, hq v hn]
  · simp [hn]

/-- The statistics of a column with a parsed number depend on the column only
through its parsed numbers, its null count and its length. -/
theorem calculateStats_congr (parseFloat : String → Option F) (sqrt : F → F)
    (columnName : String) (values values' : List Cell)
    (hnum : parsedNumbers parseFloat values' = parsedNumbers parseFloat values)
    (hne : parsedNumbers parseFloat values ≠ []) :
    (calculateStats parseFloat sqrt columnName values').Min =
      (calculateStats parseFloat sqrt columnName values).Min ∧
    (calculateStats parseFloat sqrt columnName values').Max =
      (calculateStats parseFloat sqrt columnName values).Max ∧
    (calculateStats parseFloat sqrt columnName values').Mean =
      (calculateStats parseFloat sqrt columnName values).Mean ∧
    (calculateStats parseFloat sqrt columnName values').Median =
      (calculateStats parseFloat sqrt columnName values).Median ∧
    (calculateStats parseFloat sqrt columnName values').StdDev =
      (calculateStats parseFloat sqrt columnName values).StdDev ∧
    (calculateStats parseFloat sqrt columnName values').UniqueCount =
      (calculateStats parseFloat sqrt columnName values).UniqueCount := by
  have hne' : parsedNumbers parseFloat values' ≠ [] := by rw [hnum]; exact hne
  rw [calculateStats_of_ne_nil parseFloat sqrt columnName values hne,
    calculateStats_of_ne_nil parseFloat sqrt columnName values' hne', hnum]
  simp

/-- C6 (amended): over exact arithmetic (`float64` read as an ordered field: no
rounding, no NaN, no infinity), for a column with at least one parsable value, `Min` and `Max` are the least and the greatest parsed number,
`Mean` is their arithmetic mean and
`UniqueCount` is absent; the five numeric fields equal those computed on the
sub-list of parsable cells; and two columns that differ only by non-numeric,
non-null text cells have the same statistics except for `TotalCount`. -/
theorem calculateStats_numeric_only (parseFloat : String → Option F) (sqrt : F → F)
    (columnName : String) (values : List Cell)
    (h : ∃ v ∈ values, isNullText (fmtV v) = false ∧ (parseFloat (fmtV v)).isSome = true) :
    (∃ mn mx : F,
      (calculateStats parseFloat sqrt columnName values).Min = some mn ∧
      mn ∈ parsedNumbers parseFloat values ∧
      (∀ x ∈ parsedNumbers parseFloat values, mn ≤ x) ∧
      (calculateStats parseFloat sqrt columnName values).Max = some mx ∧
      mx ∈ parsedNumbers parseFloat values ∧
      (∀ x ∈ parsedNumbers parseFloat values, x ≤ mx) ∧
      (calculateStats parseFloat sqrt columnName values).Mean =
        some ((parsedNumbers parseFloat values).sum /
          ((parsedNumbers parseFloat values).length : F))) ∧
    (calculateStats parseFloat sqrt columnName values).UniqueCount = none ∧
    ((calculateStats parseFloat sqrt columnName
        (values.filter
          (fun v => !isNullText (fmtV v) && (parseFloat (fmtV v)).isSome))).Min =
        (calculateStats parseFloat sqrt columnName values).Min ∧
      (calculateStats parseFloat sqrt columnName
        (values.filter
          (fun v => !isNullText (fmtV v) && (parseFloat (fmtV v)).isSome))).Max =
        (calculateStats parseFloat sqrt columnName values).Max ∧
      (calculateStats parseFloat sqrt columnName
        (values.filter
          (fun v => !isNullText (fmtV v) && (parseFloat (fmtV v)).isSome))).Mean =
        (calculateStats parseFloat sqrt columnName values).Mean ∧
      (calculateStats parseFloat sqrt columnName
        (values.filter
          (fun v => !isNullText (fmtV v) && (parseFloat (fmtV v)).isSome))).Median =
        (calculateStats parseFloat sqrt columnName values).Median ∧
      (calculateStats parseFloat sqrt columnName
        (values.filter
          (fun v => !isNullText (fmtV v) && (parseFloat (fmtV v)).isSome))).StdDev =
        (calculateStats parseFloat sqrt columnName values).StdDev) ∧
    (∀ values' : List Cell,
      values'.filter (fun v => isNullText (fmtV v) || (parseFloat (fmtV v)).isSome) =
        values.filter (fun v => isNullText (fmtV v) || (parseFloat (fmtV v)).isSome) →
      (calculateStats parseFloat sqrt columnName values').Min =
        (calculateStats parseFloat sqrt columnName values).Min ∧
      (calculateStats parseFloat sqrt columnName values').Max =
        (calculateStats parseFloat sqrt columnName values).Max ∧
      (calculateStats parseFloat sqrt columnName values').Mean =
        (calculateStats parseFloat sqrt columnName values).Mean ∧
      (calculateStats parseFloat sqrt columnName values').Median =
        (calculateStats parseFloat sqrt columnName values).Median ∧
      (calculateStats parseFloat sqrt columnName values').StdDev =
        (calculateStats parseFloat sqrt columnName values).StdDev ∧
      (calculateStats parseFloat sqrt columnName values').UniqueCount = none ∧
      (calculateStats parseFloat sqrt columnName values').NullCount =
        (calculateStats parseFloat sqrt columnName values).NullCount) := by
  have hne := (parsedNumbers_ne_nil_iff parseFloat values).2 h
  have hpos : 0 < (parsedNumbers parseFloat values).length := List.length_pos.2 hne
  have hstats := calculateStats_of_ne_nil parseFloat sqrt columnName values hne
  have hsorted : (sortFloat64s (parsedNumbers parseFloat values)).Sorted (· ≤ ·) :=
    List.sorted_insertionSort (· ≤ ·) _
  have hperm := sortFloat64s_perm (parsedNumbers parseFloat values)
  have hlen := sortFloat64s_length (parsedNumbers parseFloat values)
  have huniq : (calculateStats parseFloat sqrt columnName values).UniqueCount = none := by
    rw [hstats]
  refine ⟨⟨_, _, by rw [hstats], ?_, ?_, by rw [hstats], ?_, ?_, ?_⟩, huniq, ?_, ?_⟩
  · exact hperm.mem_iff.1 (at_mem _ _ (by omega))
  · intro x hx
    obtain ⟨i, hi, rfl⟩ := mem_eq_at _ x (hperm.mem_iff.2 hx)
    exact sorted_at_le _ hsorted 0 i (Nat.zero_le i) hi
  · exact hperm.mem_iff.1 (at_mem _ _ (by omega))
  · intro x hx
    obtain ⟨i, hi, rfl⟩ := mem_eq_at _ x (hperm.mem_iff.2 hx)
    exact sorted_at_le _ hsorted i _ (by omega) (by omega)
  · rw [hstats]
    simp only [sumLoop_eq_sum, sortFloat64s_sum, sortFloat64s_length]
  · have hsub := parsedNumbers_filter parseFloat values
      (fun v => !isNullText (fmtV v) && (parseFloat (fmtV v)).isSome)
      (fun v h1 h2 => by simp [h1, h2])
    have hc := calculateStats_congr parseFloat sqrt columnName values _ hsub hne
    exact ⟨hc.1, hc.2.1, hc.2.2.1, hc.2.2.2.1, hc.2.2.2.2.1⟩
  · intro values' hfil
    have h1 := parsedNumbers_filter parseFloat values
      (fun v => isNullText (fmtV v) || (parseFloat (fmtV v)).isSome)
      (fun v _ h2 => by simp [h2])
    have h2 := parsedNumbers_filter parseFloat values'
      (fun v => isNullText (fmtV v) || (parseFloat (fmtV v)).isSome)
      (fun v _ h2 => by simp [h2])
    have hnum : parsedNumbers parseFloat values' = parsedNumbers parseFloat values := by
      rw [← h1, ← h2, hfil]
    have hc := calculateStats_congr parseFloat sqrt columnName values values' hnum hne
    have n1 := countP_null_filter values
      (fun v => isNullText (fmtV v) || (parseFloat (fmtV v)).isSome)
      (fun v hv => by simp [hv])
    have n2 := countP_null_filter values'
      (fun v => isNullText (fmtV v) || (parseFloat (fmtV v)).isSome)
      (fun v hv => by simp [hv])
    refine ⟨hc.1, hc.2.1, hc.2.2.1, hc.2.2.2.1, hc.2.2.2.2.1, ?_, ?_⟩
    · rw [hc.2.2.2.2.2]
      exact huniq
    · rw [calculateStats_NullCount, calculateStats_NullCount, ← n1, ← n2, hfil]

/-- C6 (amended), run with the decimal parser on the mixed column
`3, x, 1, (empty), 2`:
`Min = 1`, `Max = 3`, `Mean = 2`, and dropping the text cell `x` changes no
field but `TotalCount`. -/
theorem calculateStats_numeric_only_witness :
    (calculateStats parseDecimal id "c"
      [Cell.str "3", Cell.str "x", Cell.str "1", Cell.str "", Cell.str "2"]).Mean = some 2 ∧
    (calculateStats parseDecimal id "c"
      [Cell.str "3", Cell.str "1", Cell.str "", Cell.str "2"]).Median =
      (calculateStats parseDecimal id "c"
        [Cell.str "3", Cell.str "x", Cell.str "1", Cell.str "", Cell.str "2"]).Median ∧
    (calculateStats parseDecimal id "c"
      [Cell.str "3", Cell.str "1", Cell.str "", Cell.str "2"]).NullCount =
      (calculateStats parseDecimal id "c"
        [Cell.str "3", Cell.str "x", Cell.str "1", Cell.str "", Cell.str "2"]).NullCount := by
  have h := calculateStats_numeric_only parseDecimal id "c"
    [Cell.str "3", Cell.str "x", Cell.str "1", Cell.str "", Cell.str "2"]
    ⟨Cell.str "3", by simp, by decide, by decide⟩
  obtain ⟨⟨mn, mx, _, _, _, _, _, _, hmean⟩, _, _, hins⟩ := h
  have h' := hins [Cell.str "3", Cell.str "1", Cell.str "", Cell.str "2"] (by decide)
  refine ⟨?_, h'.2.2.2.1, h'.2.2.2.2.2.2⟩
  rw [hmean]
  decide!

end StatsTheorems

/-! ## Lemmas on ingestion -/

theorem GoMap.get?_set_self {V : Type} (m : GoMap V) (k : String) (v : V) :
    GoMap.get? (GoMap.set m k v) k = some v := by
  induction m with
  | nil => simp [GoMap.set, GoMap.get?, List.lookup]
  | cons e m ih =>
    obtain ⟨k', v'⟩ := e
    by_cases h : k' = k
    · simp [GoMap.set, GoMap.get?, List.lookup, h]
    · have h' : (k == k') = false := by simpa using fun e => h e.symm
      simp only [GoMap.get?] at ih
      simp [GoMap.set, GoMap.get?, List.lookup, h, h', ih]

theorem GoMap.get?_set_ne {V : Type} (m : GoMap V) (k k₀ : String) (v : V) (hne : k₀ ≠ k) :
    GoMap.get? (GoMap.set m k v) k₀ = GoMap.get? m k₀ := by
  induction m with
  | nil =>
    have h' : (k₀ == k) = false := by simpa using hne
    simp [GoMap.set, GoMap.get?, List.lookup, h']
  | cons e m ih =>
    obtain ⟨k', v'⟩ := e
    simp only [GoMap.get?] at ih
    by_cases h : k' = k
    · subst h
      have h' : (k₀ == k') = false := by simpa using hne
      simp [GoMap.set, GoMap.get?, List.lookup, h']
    · by_cases h0 : k₀ = k'
      · subst h0
        simp [GoMap.set, GoMap.get?, List.lookup, h]
      · have h' : (k₀ == k') = false := by simpa using h0
        simp [GoMap.set, GoMap.get?, List.lookup, h, h', ih]

section IngestTheorems

variable {F : Type} [LinearOrderedField F]

theorem inferStep_Rows (parseFloat : String → Option F) (sqrt : F → F) (d : Dataset F)
    (colIdx : Nat) (col : ColumnInfo) :
    (inferStep parseFloat sqrt d colIdx col).Rows = d.Rows := rfl

theorem inferStep_Summary (parseFloat : String → Option F) (sqrt : F → F) (d : Dataset F)
    (colIdx : Nat) (col : ColumnInfo) :
    (inferStep parseFloat sqrt d colIdx col).Summary =
      GoMap.set d.Summary col.Name (columnStats parseFloat sqrt d.Rows colIdx col) := rfl

theorem inferStep_Columns (parseFloat : String → Option F) (sqrt : F → F) (d : Dataset F)
    (colIdx : Nat) (col : ColumnInfo) :
    (inferStep parseFloat sqrt d colIdx col).Columns =
      d.Columns.set colIdx
        { Name := col.Name,
          Typ := if (columnStats parseFloat sqrt d.Rows colIdx col).Mean.isSome then "number"
            else "string" } := by
  simp only [inferStep, columnStats]
  split <;> rfl

theorem inferLoop_Rows (parseFloat : String → Option F) (sqrt : F → F)
    (rest : List ColumnInfo) (d : Dataset F) (n : Nat) :
    (inferLoop parseFloat sqrt d n rest).Rows = d.Rows := by
  induction rest generalizing d n with
  | nil => rfl
  | cons col rest ih => rw [inferLoop, ih, inferStep_Rows]

theorem inferLoop_Columns (parseFloat : String → Option F) (sqrt : F → F)
    (rest : List ColumnInfo) (d : Dataset F) (pre : List ColumnInfo)
    (h : d.Columns = pre ++ rest) :
    (inferLoop parseFloat sqrt d pre.length rest).Columns =
      pre ++ typedFrom parseFloat sqrt d.Rows pre.length rest := by
  induction rest generalizing d pre with
  | nil => simpa [inferLoop, typedFrom] using h
  | cons col rest ih =>
    have hcols : (inferStep parseFloat sqrt d pre.length col).Columns =
        (pre ++ [ColumnInfo.mk col.Name
          (if (columnStats parseFloat sqrt d.Rows pre.length col).Mean.isSome
            then "number" else "string")]) ++ rest := by
      rw [inferStep_Columns, h]
      simp
    have hstep := ih (inferStep parseFloat sqrt d pre.length col) _ hcols
    rw [List.length_append, List.length_singleton] at hstep
    rw [inferLoop, hstep, inferStep_Rows]
    simp [typedFrom]

/-- A name borne by no remaining column keeps its summary entry through the loop. -/
theorem inferLoop_Summary_other (parseFloat : String → Option F) (sqrt : F → F)
    (rest : List ColumnInfo) (d : Dataset F) (n : Nat) (name : String)
    (h : ∀ c ∈ rest, c.Name ≠ name) :
    GoMap.get? (inferLoop parseFloat sqrt d n rest).Summary name = GoMap.get? d.Summary name := by
  induction rest generalizing d n with
  | nil => rfl
  | cons col rest ih =>
    rw [inferLoop, ih _ _ (fun c hc => h c (List.mem_cons_of_mem _ hc)), inferStep_Summary]
    exact GoMap.get?_set_ne _ _ _ _ (fun e => h col (List.mem_cons_self _ _) e.symm)

/-- After the loop the summary entry of a name is the statistics of the last
column bearing that name. -/
theorem inferLoop_Summary_last (parseFloat : String → Option F) (sqrt : F → F)
    (rest : List ColumnInfo) (d : Dataset F) (n k : Nat) (c : ColumnInfo)
    (hk : rest[k]? = some c)
    (hlast : ∀ j c', k < j → rest[j]? = some c' → c'.Name ≠ c.Name) :
    GoMap.get? (inferLoop parseFloat sqrt d n rest).Summary c.Name =
      some (columnStats parseFloat sqrt d.Rows (n + k) c) := by
  induction rest generalizing d n k with
  | nil => simp at hk
  | cons col rest ih =>
    cases k with
    | zero =>
      have hc : col = c := by simpa using hk
      subst hc
      have hother : ∀ c' ∈ rest, c'.Name ≠ col.Name := by
        intro c' hc'
        obtain ⟨j, hj, rfl⟩ := List.getElem_of_mem hc'
        exact hlast (j + 1) _ (Nat.succ_pos j) (by simp [List.getElem?_eq_getElem hj])
      rw [inferLoop, inferLoop_Summary_other _ _ _ _ _ _ hother, inferStep_Summary]
      exact GoMap.get?_set_self _ _ _
    | succ k =>
      have hk' : rest[k]? = some c := by simpa using hk
      have hlast' : ∀ j c', k < j → rest[j]? = some c' → c'.Name ≠ c.Name := by
        intro j c' hj hc'
        exact hlast (j + 1) c' (by omega) (by simpa using hc')
      rw [inferLoop, ih _ _ _ hk' hlast', inferStep_Rows]
      congr 2
      omega

theorem typedFrom_getElem? (parseFloat : String → Option F) (sqrt : F → F)
    (rows : List (List Cell)) (cols : List ColumnInfo) (n k : Nat) :
    (typedFrom parseFloat sqrt rows n cols)[k]? =
      (cols[k]?).map (fun col =>
        { Name := col.Name,
          Typ := if (columnStats parseFloat sqrt rows (n + k) col).Mean.isSome then "number"
            else "string" }) := by
  induction cols generalizing n k with
  | nil => simp [typedFrom]
  | cons col cols ih =>
    cases k with
    | zero => simp [typedFrom]
    | succ k =>
      simp only [typedFrom, List.getElem?_cons_succ, ih]
      congr 1
      funext col'
      have e : n + 1 + k = n + (k + 1) := by omega
      rw [e]

theorem typedFrom_names (parseFloat : String → Option F) (sqrt : F → F)
    (rows : List (List Cell)) (cols : List ColumnInfo) (n : Nat) :
    (typedFrom parseFloat sqrt rows n cols).map (fun c => c.Name) =
      cols.map (fun c => c.Name) := by
  induction cols generalizing n with
  | nil => simp [typedFrom]
  | cons col cols ih => simp [typedFrom, ih]

/-- The dataset `inferTypesAndStats` returns when there is a column and a row. -/
theorem inferTypesAndStats_Columns (parseFloat : String → Option F) (sqrt : F → F)
    (d : Dataset F) (hrows : d.Rows ≠ []) :
    (inferTypesAndStats parseFloat sqrt d).Columns =
      typedFrom parseFloat sqrt d.Rows 0 d.Columns := by
  unfold inferTypesAndStats
  by_cases hc : d.Columns = []
  · simp [hc, typedFrom]
  · have h1 : ¬ (d.Columns.length = 0 ∨ d.Rows.length = 0) := by
      simp [hc, hrows]
    rw [if_neg h1]
    have h := inferLoop_Columns parseFloat sqrt d.Columns d [] (by simp)
    simpa using h

theorem inferTypesAndStats_Rows (parseFloat : String → Option F) (sqrt : F → F)
    (d : Dataset F) : (inferTypesAndStats parseFloat sqrt d).Rows = d.Rows := by
  unfold inferTypesAndStats
  split
  · rfl
  · exact inferLoop_Rows _ _ _ _ _

theorem inferTypesAndStats_names (parseFloat : String → Option F) (sqrt : F → F)
    (d : Dataset F) :
    (inferTypesAndStats parseFloat sqrt d).Columns.map (fun c => c.Name) =
      d.Columns.map (fun c => c.Name) := by
  unfold inferTypesAndStats
  split
  · rfl
  · have h := inferLoop_Columns parseFloat sqrt d.Columns d [] (by simp)
    simp only [List.length_nil, List.nil_append] at h
    rw [h, typedFrom_names]

theorem inferTypesAndStats_Summary_last (parseFloat : String → Option F) (sqrt : F → F)
    (d : Dataset F) (hrows : d.Rows ≠ []) (k : Nat) (c : ColumnInfo)
    (hk : d.Columns[k]? = some c)
    (hlast : ∀ j c', k < j → d.Columns[j]? = some c' → c'.Name ≠ c.Name) :
    GoMap.get? (inferTypesAndStats parseFloat sqrt d).Summary c.Name =
      some (columnStats parseFloat sqrt d.Rows k c) := by
  unfold inferTypesAndStats
  have hc : d.Columns ≠ [] := by
    intro h
    rw [h] at hk
    simp at hk
  have h1 : ¬ (d.Columns.length = 0 ∨ d.Rows.length = 0) := by
    simp [hc, hrows]
  rw [if_neg h1]
  have h := inferLoop_Summary_last parseFloat sqrt d.Columns d 0 k c hk hlast
  simpa using h

/-- The inner CSV loop fills the next positions of the slice and keeps the rest. -/
theorem csvFill_ok (row : List String) (pre rest : List Cell)
    (h : row.length ≤ rest.length) :
    csvFill (pre ++ rest) pre.length row =
      Except.ok (pre ++ row.map cellOf ++ rest.drop row.length) := by
  induction row generalizing pre rest with
  | nil => simp [csvFill]
  | cons val row ih =>
    cases rest with
    | nil => simp at h
    | cons r rest =>
      have hlt : pre.length < (pre ++ r :: rest).length := by simp
      have hset : (pre ++ r :: rest).set pre.length (Cell.str (TrimSpace val)) =
          (pre ++ [cellOf val]) ++ rest := by
        simp [cellOf]
      have hlen : (pre ++ [cellOf val]).length = pre.length + 1 := by simp
      rw [csvFill, if_pos hlt, hset, ← hlen, ih _ _ (by simpa using h)]
      simp

/-- A record longer than the header makes the inner CSV loop panic. -/
theorem csvFill_panic (row : List String) (pre rest : List Cell)
    (h : rest.length < row.length) :
    csvFill (pre ++ rest) pre.length row = Except.error Failure.indexOutOfRange := by
  induction row generalizing pre rest with
  | nil => simp at h
  | cons val row ih =>
    cases rest with
    | nil => simp [csvFill]
    | cons r rest =>
      have hlt : pre.length < (pre ++ r :: rest).length := by simp
      have hset : (pre ++ r :: rest).set pre.length (Cell.str (TrimSpace val)) =
          (pre ++ [cellOf val]) ++ rest := by
        simp [cellOf]
      have hlen : (pre ++ [cellOf val]).length = pre.length + 1 := by simp
      rw [csvFill, if_pos hlt, hset, ← hlen, ih _ _ (by simpa using h)]

theorem csvRow_ok (k : Nat) (row : List String) (h : row.length ≤ k) :
    csvRow k row = Except.ok (row.map cellOf ++ List.replicate (k - row.length) Cell.null) := by
  have h' := csvFill_ok row [] (List.replicate k Cell.null) (by simpa using h)
  simpa [csvRow] using h'

theorem csvRow_exact (k : Nat) (row : List String) (h : row.length = k) :
    csvRow k row = Except.ok (row.map cellOf) := by
  rw [csvRow_ok k row (le_of_eq h), h]
  simp

theorem csvRows_exact (k : Nat) (rows : List (List String))
    (h : ∀ r ∈ rows, r.length = k) :
    csvRows k rows = Except.ok (rows.map (fun r => r.map cellOf)) := by
  induction rows with
  | nil => rfl
  | cons r rows ih =>
    rw [csvRows, csvRow_exact k r (h r (List.mem_cons_self _ _)),
      ih (fun r' hr' => h r' (List.mem_cons_of_mem _ hr'))]
    rfl

/-- The reader accepts exactly the record lists whose records all have the
field count of the first one. -/
theorem csvReadAll_ok_iff (lines records : List (List String)) :
    csvReadAll lines = Except.ok records ↔
      records = lines ∧ ∀ first rest, lines = first :: rest →
        ∀ r ∈ rest, r.length = first.length := by
  cases lines with
  | nil =>
    simp only [csvReadAll]
    constructor
    · intro h
      injection h with h
      exact ⟨h.symm, fun _ _ hl => by simp at hl⟩
    · rintro ⟨rfl, _⟩
      rfl
  | cons first rest =>
    simp only [csvReadAll]
    by_cases hall : rest.all (fun record => record.length == first.length) = true
    · rw [if_pos hall]
      constructor
      · intro h
        injection h with h
        refine ⟨h.symm, ?_⟩
        intro f r hl x hx
        injection hl with h1 h2
        subst h1
        subst h2
        have := List.all_eq_true.1 hall x hx
        simpa using this
      · rintro ⟨rfl, _⟩
        rfl
    · rw [if_neg hall]
      constructor
      · intro h
        cases h
      · rintro ⟨_, h⟩
        exfalso
        apply hall
        rw [List.all_eq_true]
        intro x hx
        simpa using h first rest rfl x hx

/-- A CSV source is ingested exactly when it has a header record and every
data record has the header's field count; the dataset is then determined. -/
theorem parseCSV_ok_iff (parseFloat : String → Option F) (sqrt : F → F)
    (lines : List (List String)) (d : Dataset F) :
    parseCSV parseFloat sqrt lines = Except.ok d ↔
      ∃ headers rows, lines = headers :: rows ∧
        (∀ r ∈ rows, r.length = headers.length) ∧
        d = inferTypesAndStats parseFloat sqrt
          { Columns := initColumns headers,
            Rows := rows.map (fun r => r.map cellOf),
            Summary := [] } := by
  cases lines with
  | nil =>
    simp [parseCSV, csvReadAll, parseCSVRecords]
  | cons headers rows =>
    by_cases hall : ∀ r ∈ rows, r.length = headers.length
    · have hread : csvReadAll (headers :: rows) = Except.ok (headers :: rows) :=
        (csvReadAll_ok_iff _ _).2 ⟨rfl, fun f r hl x hx => by
          injection hl with h1 h2
          subst h1
          subst h2
          exact hall x hx⟩
      simp only [parseCSV, hread, parseCSVRecords, csvRows_exact _ _ hall]
      constructor
      · intro h
        injection h with h
        exact ⟨headers, rows, rfl, hall, h.symm⟩
      · rintro ⟨h', r', hl, _, hd⟩
        injection hl with h1 h2
        subst h1
        subst h2
        rw [hd]
    · have hread : ∀ records, csvReadAll (headers :: rows) ≠ Except.ok records := by
        intro records hr
        exact hall (((csvReadAll_ok_iff _ _).1 hr).2 headers rows rfl)
      constructor
      · intro h
        exfalso
        simp only [parseCSV] at h
        cases hcase : csvReadAll (headers :: rows) with
        | error e => rw [hcase] at h; cases h
        | ok records => exact hread records hcase
      · rintro ⟨h', r', hl, hall', _⟩
        injection hl with h1 h2
        subst h1
        subst h2
        exact absurd hall' hall

/-- A workbook is ingested exactly when its first sheet has a non-empty name
and at least a header row; the dataset is then determined. -/
theorem parseExcel_ok_iff (parseFloat : String → Option F) (sqrt : F → F)
    (f : List Sheet) (d : Dataset F) :
    parseExcel parseFloat sqrt f = Except.ok d ↔
      ∃ name headers dataRows others, f = Sheet.mk name (headers :: dataRows) :: others ∧
        name ≠ "" ∧
        d = inferTypesAndStats parseFloat sqrt
          { Columns := initColumns headers,
            Rows := dataRows.map (excelRow headers.length),
            Summary := [] } := by
  cases f with
  | nil => simp [parseExcel, GetSheetName]
  | cons sheet others =>
    obtain ⟨name, rows⟩ := sheet
    by_cases hname : name = ""
    · subst hname
      constructor
      · intro h
        simp [parseExcel, GetSheetName] at h
      · rintro ⟨n', h', r', o', hf, hn, _⟩
        injection hf with h1 _
        injection h1 with h3 _
        exact absurd h3.symm hn
    · cases rows with
      | nil =>
        simp [parseExcel, GetSheetName, GetRows, hname]
      | cons headers dataRows =>
        simp only [parseExcel, GetSheetName, GetRows, List.get?_cons_zero, hname, if_false,
          List.find?_cons, beq_self_eq_true]
        constructor
        · intro h
          injection h with h
          exact ⟨name, headers, dataRows, others, rfl, hname, h.symm⟩
        · rintro ⟨n', h', r', o', hf, _, hd⟩
          injection hf with h1 h2
          injection h1 with h3 h4
          injection h4 with h5 h6
          subst h5
          subst h6
          rw [hd]

/-- The numeric fields of the statistics are present together or absent together. -/
theorem calculateStats_group_of_Mean (parseFloat : String → Option F) (sqrt : F → F)
    (columnName : String) (values : List Cell) :
    ((calculateStats parseFloat sqrt columnName values).Mean.isSome = true →
      (calculateStats parseFloat sqrt columnName values).Min.isSome = true ∧
      (calculateStats parseFloat sqrt columnName values).Max.isSome = true ∧
      (calculateStats parseFloat sqrt columnName values).Median.isSome = true ∧
      (calculateStats parseFloat sqrt columnName values).StdDev.isSome = true) ∧
    ((calculateStats parseFloat sqrt columnName values).Mean.isSome = false →
      (calculateStats parseFloat sqrt columnName values).Min = none ∧
      (calculateStats parseFloat sqrt columnName values).Max = none ∧
      (calculateStats parseFloat sqrt columnName values).Mean = none ∧
      (calculateStats parseFloat sqrt columnName values).Median = none ∧
      (calculateStats parseFloat sqrt columnName values).StdDev = none) := by
  by_cases hne : parsedNumbers parseFloat values = []
  · rw [calculateStats_of_nil parseFloat sqrt columnName values hne]
    simp
  · rw [calculateStats_of_ne_nil parseFloat sqrt columnName values hne]
    simp

/-- After type inference on a dataset with a row, the column at index `k` is
typed by its own statistics, and the summary entry under its name is those
statistics when no later column bears the same name. -/
theorem inferTypesAndStats_type_summary (parseFloat : String → Option F) (sqrt : F → F)
    (d₀ : Dataset F) (hrows : d₀.Rows ≠ []) (k : Nat) (c : ColumnInfo)
    (hk : (inferTypesAndStats parseFloat sqrt d₀).Columns[k]? = some c)
    (hlast : ∀ j c', k < j →
      (inferTypesAndStats parseFloat sqrt d₀).Columns[j]? = some c' → c'.Name ≠ c.Name) :
    ∃ stats : SummaryStats F,
      GoMap.get? (inferTypesAndStats parseFloat sqrt d₀).Summary c.Name = some stats ∧
      (c.Typ = "number" ↔
        (stats.Min.isSome = true ∧ stats.Max.isSome = true ∧ stats.Mean.isSome = true ∧
          stats.Median.isSome = true ∧ stats.StdDev.isSome = true)) ∧
      (c.Typ = "string" ↔
        (stats.Min = none ∧ stats.Max = none ∧ stats.Mean = none ∧
          stats.Median = none ∧ stats.StdDev = none)) := by
  rw [inferTypesAndStats_Columns parseFloat sqrt d₀ hrows, typedFrom_getElem?] at hk
  cases hcol : d₀.Columns[k]? with
  | none => rw [hcol] at hk; simp at hk
  | some col =>
    rw [hcol] at hk
    simp only [Option.map_some', Option.some.injEq, Nat.zero_add] at hk
    have hname : c.Name = col.Name := by rw [← hk]
    have hlast₀ : ∀ j c', k < j → d₀.Columns[j]? = some c' → c'.Name ≠ col.Name := by
      intro j c' hj hc'
      have h := hlast j
        (ColumnInfo.mk c'.Name
          (if (columnStats parseFloat sqrt d₀.Rows (0 + j) c').Mean.isSome then "number"
            else "string")) hj
        (by rw [inferTypesAndStats_Columns parseFloat sqrt d₀ hrows, typedFrom_getElem?, hc']
            rfl)
      rw [hname] at h
      exact h
    have hsum := inferTypesAndStats_Summary_last parseFloat sqrt d₀ hrows k col hcol hlast₀
    rw [← hname] at hsum
    have hg := calculateStats_group_of_Mean parseFloat sqrt col.Name (columnValues d₀.Rows k)
    have htyp : c.Typ =
        if (columnStats parseFloat sqrt d₀.Rows k col).Mean.isSome = true then "number"
        else "string" := by rw [← hk]
    refine ⟨columnStats parseFloat sqrt d₀.Rows k col, hsum, ?_, ?_⟩
    · by_cases hm : (columnStats parseFloat sqrt d₀.Rows k col).Mean.isSome = true
      · rw [htyp, if_pos hm]
        have h4 := hg.1 hm
        exact ⟨fun _ => ⟨h4.1, h4.2.1, hm, h4.2.2.1, h4.2.2.2⟩, fun _ => rfl⟩
      · rw [htyp, if_neg hm]
        exact ⟨fun h => absurd h (by decide), fun h => absurd h.2.2.1 hm⟩
    · by_cases hm : (columnStats parseFloat sqrt d₀.Rows k col).Mean.isSome = true
      · rw [htyp, if_pos hm]
        refine ⟨fun h => absurd h (by decide), fun h => ?_⟩
        rw [h.2.2.1] at hm
        exact absurd hm (by simp)
      · rw [htyp, if_neg hm]
        have hm' : (columnStats parseFloat sqrt d₀.Rows k col).Mean.isSome = false := by
          simpa using hm
        exact ⟨fun _ => hg.2 hm', fun _ => rfl⟩

/-- C7 (amended): in a dataset produced by either ingestion path with at least
one row, a column that is the last one bearing its name has type `number`
exactly when the summary entry stored under its name has the numeric group
populated, and type `string` exactly when that group is absent. -/
theorem column_type_matches_summary (parseFloat : String → Option F) (sqrt : F → F)
    (lines : List (List String)) (f : List Sheet) (d : Dataset F)
    (hd : parseCSV parseFloat sqrt lines = Except.ok d ∨
      parseExcel parseFloat sqrt f = Except.ok d)
    (hrows : d.Rows ≠ []) (k : Nat) (c : ColumnInfo) (hk : d.Columns[k]? = some c)
    (hlast : ∀ j c', k < j → d.Columns[j]? = some c' → c'.Name ≠ c.Name) :
    ∃ stats : SummaryStats F,
      GoMap.get? d.Summary c.Name = some stats ∧
      (c.Typ = "number" ↔
        (stats.Min.isSome = true ∧ stats.Max.isSome = true ∧ stats.Mean.isSome = true ∧
          stats.Median.isSome = true ∧ stats.StdDev.isSome = true)) ∧
      (c.Typ = "string" ↔
        (stats.Min = none ∧ stats.Max = none ∧ stats.Mean = none ∧
          stats.Median = none ∧ stats.StdDev = none)) := by
  rcases hd with hd | hd
  · obtain ⟨headers, rows, _, _, rfl⟩ := (parseCSV_ok_iff parseFloat sqrt lines d).1 hd
    rw [inferTypesAndStats_Rows] at hrows
    exact inferTypesAndStats_type_summary parseFloat sqrt _ hrows k c hk hlast
  · obtain ⟨name, headers, dataRows, others, _, _, rfl⟩ :=
      (parseExcel_ok_iff parseFloat sqrt f d).1 hd
    rw [inferTypesAndStats_Rows] at hrows
    exact inferTypesAndStats_type_summary parseFloat sqrt _ hrows k c hk hlast

/-- C7 as stated fails: with the header `a, a` and the row `1, x` the first
column is typed `number` while the summary entry under `a` is that of the
second column, whose numeric group is absent. -/
theorem column_type_summary_counterexample :
    ∃ d : Dataset ℚ, parseCSV parseDecimal id [["a", "a"], ["1", "x"]] = Except.ok d ∧
      ∃ c ∈ d.Columns, ∃ stats : SummaryStats ℚ,
        GoMap.get? d.Summary c.Name = some stats ∧ c.Typ = "number" ∧
        stats.Min = none ∧ stats.Max = none ∧ stats.Mean = none ∧
        stats.Median = none ∧ stats.StdDev = none := by
  refine ⟨{ Columns := [ColumnInfo.mk "a" "number", ColumnInfo.mk "a" "string"],
            Rows := [[Cell.str "1", Cell.str "x"]],
            Summary := [("a", SummaryStats.mk none none none none none (some 1) 0 1)] },
    by decide!, ColumnInfo.mk "a" "number", by simp, _, rfl, rfl, rfl, rfl, rfl, rfl, rfl⟩

/-- C7 (amended), run on the CSV source `a,b / 1,x`: column `a` is typed
`number` and its summary entry has a mean. -/
theorem column_type_matches_summary_witness :
    ∃ stats : SummaryStats ℚ,
      GoMap.get? (inferTypesAndStats parseDecimal id
        { Columns := initColumns ["a", "b"],
          Rows := [["1", "x"]].map (fun r => r.map cellOf),
          Summary := [] }).Summary "a" = some stats ∧
      stats.Mean.isSome = true := by
  have hd : parseCSV parseDecimal id [["a", "b"], ["1", "x"]] =
      Except.ok (inferTypesAndStats parseDecimal id
        { Columns := initColumns ["a", "b"],
          Rows := [["1", "x"]].map (fun r => r.map cellOf),
          Summary := [] }) :=
    (parseCSV_ok_iff parseDecimal id _ _).2 ⟨["a", "b"], [["1", "x"]], rfl, by decide, rfl⟩
  have hcols : (inferTypesAndStats parseDecimal id
        { Columns := initColumns ["a", "b"],
          Rows := [["1", "x"]].map (fun r => r.map cellOf),
          Summary := [] }).Columns = [ColumnInfo.mk "a" "number", ColumnInfo.mk "b" "string"] := by
    decide!
  obtain ⟨stats, hget, hnum, _⟩ := column_type_matches_summary parseDecimal id
    [["a", "b"], ["1", "x"]] [] _ (Or.inl hd)
    (by rw [inferTypesAndStats_Rows]; simp) 0 (ColumnInfo.mk "a" "number")
    (by rw [hcols]; rfl)
    (by
      rw [hcols]
      intro j c' hj hc'
      match j, hj, hc' with
      | 1, _, hc' =>
        have : c' = ColumnInfo.mk "b" "string" := by simpa using hc'.symm
        rw [this]
        decide
      | j + 2, _, hc' => simp at hc')
  exact ⟨stats, hget, (hnum.1 rfl).2.2.1⟩

theorem excelRow_length (k : Nat) (row : List String) : (excelRow k row).length = k := by
  simp [excelRow]

theorem excelRow_getElem? (k : Nat) (row : List String) (j : Nat) (hj : j < k) :
    (excelRow k row)[j]? =
      some (if j < row.length then cellOf (row.getD j "") else Cell.str "") := by
  simp [excelRow, List.getElem?_map, List.getElem?_range hj, cellOf]

/-- A spreadsheet row becomes its first `k` cells, trimmed, followed by empty
strings up to length `k`. -/
theorem excelRow_eq (k : Nat) (row : List String) :
    excelRow k row =
      (row.take k).map cellOf ++ List.replicate (k - row.length) (Cell.str "") := by
  apply List.ext_getElem?
  intro j
  by_cases hj : j < k
  · rw [excelRow_getElem? k row j hj]
    by_cases hr : j < row.length
    · have hlen : j < ((row.take k).map cellOf).length := by
        simp only [List.length_map, List.length_take]
        omega
      rw [if_pos hr, List.getElem?_append_left hlen]
      simp [List.getElem?_map, List.getElem?_take, hj, List.getElem?_eq_getElem hr,
        List.getD_eq_getElem?_getD]
    · have hlen : ((row.take k).map cellOf).length ≤ j := by
        simp only [List.length_map, List.length_take]
        omega
      rw [if_neg hr, List.getElem?_append_right hlen]
      have hlt : j - ((row.take k).map cellOf).length < k - row.length := by
        simp only [List.length_map, List.length_take]
        omega
      rw [List.getElem?_replicate, if_pos hlt]
  · have h1 : (excelRow k row).length ≤ j := by rw [excelRow_length]; omega
    have h2 : ((row.take k).map cellOf ++
        List.replicate (k - row.length) (Cell.str "")).length ≤ j := by
      simp only [List.length_append, List.length_map, List.length_take, List.length_replicate]
      omega
    rw [List.getElem?_eq_none h1, List.getElem?_eq_none h2]

/-- C8 (amended): ingestion returns an error when the source has no record at
all (not even a header) or, for a workbook, no first sheet or a first sheet
without rows; a source that is a header only is accepted and gives a dataset
with no rows, an empty summary and every column typed `string`; a source with
a header and data rows (of the header's field count for CSV) is accepted and
the dataset has one row per data row. -/
theorem ingest_errors (parseFloat : String → Option F) (sqrt : F → F) :
    parseCSV parseFloat sqrt [] = Except.error (Failure.error "empty CSV file") ∧
    (∀ f : List Sheet, GetSheetName f 0 = "" →
      parseExcel parseFloat sqrt f =
        Except.error (Failure.error "no sheets found in Excel file")) ∧
    (∀ (name : String) (others : List Sheet), name ≠ "" →
      parseExcel parseFloat sqrt (Sheet.mk name [] :: others) =
        Except.error (Failure.error "empty Excel file")) ∧
    (∀ headers : List String,
      parseCSV parseFloat sqrt [headers] =
        Except.ok { Columns := initColumns headers, Rows := [], Summary := [] }) ∧
    (∀ (name : String) (headers : List String) (others : List Sheet), name ≠ "" →
      parseExcel parseFloat sqrt (Sheet.mk name [headers] :: others) =
        Except.ok { Columns := initColumns headers, Rows := [], Summary := [] }) ∧
    (∀ (headers : List String) (rows : List (List String)),
      (∀ r ∈ rows, r.length = headers.length) →
      ∃ d : Dataset F, parseCSV parseFloat sqrt (headers :: rows) = Except.ok d ∧
        d.Rows.length = rows.length) ∧
    (∀ (name : String) (headers : List String) (dataRows : List (List String))
        (others : List Sheet), name ≠ "" →
      ∃ d : Dataset F,
        parseExcel parseFloat sqrt (Sheet.mk name (headers :: dataRows) :: others) =
          Except.ok d ∧
        d.Rows.length = dataRows.length) := by
  refine ⟨rfl, ?_, ?_, ?_, ?_, ?_, ?_⟩
  · intro f hf
    simp [parseExcel, hf]
  · intro name others hname
    simp [parseExcel, GetSheetName, GetRows, hname]
  · intro headers
    rw [parseCSV_ok_iff]
    refine ⟨headers, [], rfl, by simp, ?_⟩
    simp [inferTypesAndStats]
  · intro name headers others hname
    rw [parseExcel_ok_iff]
    refine ⟨name, headers, [], others, rfl, hname, ?_⟩
    simp [inferTypesAndStats]
  · intro headers rows hall
    refine ⟨_, (parseCSV_ok_iff parseFloat sqrt _ _).2 ⟨headers, rows, rfl, hall, rfl⟩, ?_⟩
    rw [inferTypesAndStats_Rows]
    simp
  · intro name headers dataRows others hname
    refine ⟨_, (parseExcel_ok_iff parseFloat sqrt _ _).2
      ⟨name, headers, dataRows, others, rfl, hname, rfl⟩, ?_⟩
    rw [inferTypesAndStats_Rows]
    simp

/-- C8 as stated fails: a CSV source and a workbook that consist of the header
row `a, b` only are ingested without error, and the dataset has no rows. -/
theorem ingest_header_only_counterexample :
    parseCSV parseDecimal id [["a", "b"]] =
      Except.ok { Columns := [ColumnInfo.mk "a" "string", ColumnInfo.mk "b" "string"],
                  Rows := [], Summary := [] } ∧
    parseExcel parseDecimal id [Sheet.mk "Sheet1" [["a", "b"]]] =
      Except.ok { Columns := [ColumnInfo.mk "a" "string", ColumnInfo.mk "b" "string"],
                  Rows := [], Summary := [] } := by
  constructor <;> decide!

/-- C8 (amended), run on the CSV source `a,b / 1,x / 2,y` and on a workbook
whose first sheet has a header and the ragged rows `1 / 2,y`. -/
theorem ingest_errors_witness :
    (∃ d : Dataset ℚ,
      parseCSV parseDecimal id [["a", "b"], ["1", "x"], ["2", "y"]] = Except.ok d ∧
      d.Rows.length = 2) ∧
    (∃ d : Dataset ℚ,
      parseExcel parseDecimal id [Sheet.mk "Sheet1" [["a", "b"], ["1"], ["2", "y"]]] =
        Except.ok d ∧
      d.Rows.length = 2) ∧
    parseExcel parseDecimal id [] =
      (Except.error (Failure.error "no sheets found in Excel file") :
        Except Failure (Dataset ℚ)) :=
  ⟨(ingest_errors parseDecimal id).2.2.2.2.2.1 ["a", "b"] [["1", "x"], ["2", "y"]]
      (by decide),
    (ingest_errors parseDecimal id).2.2.2.2.2.2 "Sheet1" ["a", "b"] [["1"], ["2", "y"]] []
      (by decide),
    (ingest_errors parseDecimal id).2.1 [] rfl⟩

/-- The rows of an ingested dataset: after a successful ingestion of a source
whose header has `k` names, the column names are the trimmed header names in
header order and every
row has exactly `k` cells. On the CSV path every data record has `k` fields
and is stored as its trimmed cells (no padding takes place); on the
spreadsheet path a row is stored as its first `k` trimmed cells followed by
empty strings for the missing trailing positions. -/
theorem ingest_row_shape (parseFloat : String → Option F) (sqrt : F → F) :
    (∀ (lines : List (List String)) (d : Dataset F),
      parseCSV parseFloat sqrt lines = Except.ok d →
      ∃ headers rows, lines = headers :: rows ∧
        d.Columns.map (fun c => c.Name) = headers.map TrimSpace ∧
        (∀ r ∈ rows, r.length = headers.length) ∧
        d.Rows = rows.map (fun r => r.map (fun val => Cell.str (TrimSpace val))) ∧
        (∀ row ∈ d.Rows, row.length = headers.length)) ∧
    (∀ (f : List Sheet) (d : Dataset F),
      parseExcel parseFloat sqrt f = Except.ok d →
      ∃ name headers dataRows others,
        f = Sheet.mk name (headers :: dataRows) :: others ∧
        d.Columns.map (fun c => c.Name) = headers.map TrimSpace ∧
        d.Rows = dataRows.map (fun r =>
          (r.take headers.length).map (fun val => Cell.str (TrimSpace val)) ++
            List.replicate (headers.length - r.length) (Cell.str "")) ∧
        (∀ row ∈ d.Rows, row.length = headers.length)) := by
  constructor
  · intro lines d hd
    obtain ⟨headers, rows, hl, hall, rfl⟩ := (parseCSV_ok_iff parseFloat sqrt lines d).1 hd
    refine ⟨headers, rows, hl, ?_, hall, ?_, ?_⟩
    · rw [inferTypesAndStats_names]
      simp [initColumns]
    · rw [inferTypesAndStats_Rows]
      rfl
    · rw [inferTypesAndStats_Rows]
      intro row hrow
      obtain ⟨r, hr, rfl⟩ := List.mem_map.1 hrow
      simpa using hall r hr
  · intro f d hd
    obtain ⟨name, headers, dataRows, others, hf, _, rfl⟩ :=
      (parseExcel_ok_iff parseFloat sqrt f d).1 hd
    refine ⟨name, headers, dataRows, others, hf, ?_, ?_, ?_⟩
    · rw [inferTypesAndStats_names]
      simp [initColumns]
    · rw [inferTypesAndStats_Rows]
      apply List.map_congr_left
      intro r _
      exact excelRow_eq headers.length r
    · rw [inferTypesAndStats_Rows]
      intro row hrow
      obtain ⟨r, _, rfl⟩ := List.mem_map.1 hrow
      exact excelRow_length _ _

/-- C9 fails on the CSV path: the CSV source `a,b / 1`, whose data record is one
field short, is rejected by the field-count check of the reader, so `parseCSV`
returns an error and no row padded with the empty string; `parseExcel` on a
sheet with the same header and the same short row returns the dataset with the
padded row `1, ""`. -/
theorem csv_short_row_rejected :
    parseCSV parseDecimal id [["a", "b"], ["1"]] =
      Except.error (Failure.error "wrong number of fields") ∧
    (parseExcel parseDecimal id [Sheet.mk "Sheet1" [["a", "b"], ["1"]]]).toOption.map
        (fun d => (d.Columns.map (fun c => c.Name), d.Rows)) =
      some (["a", "b"], [[Cell.str "1", Cell.str ""]]) := by
  refine ⟨by decide!, by decide!⟩

/-- The rows of an ingested dataset, on the CSV source `a , b / 1,x` and on a
workbook whose
first sheet has the header `a, b` and the short row `1`. -/
theorem ingest_row_shape_witness :
    (∃ d : Dataset ℚ,
      parseCSV parseDecimal id [["a ", " b"], [" 1", "x"]] = Except.ok d ∧
      d.Columns.map (fun c => c.Name) = ["a", "b"] ∧
      d.Rows = [[Cell.str "1", Cell.str "x"]]) ∧
    (∃ d : Dataset ℚ,
      parseExcel parseDecimal id [Sheet.mk "Sheet1" [["a", "b"], ["1"]]] = Except.ok d ∧
      d.Rows = [[Cell.str "1", Cell.str ""]]) := by
  constructor
  · obtain ⟨d, hd⟩ : ∃ d : Dataset ℚ,
        parseCSV parseDecimal id [["a ", " b"], [" 1", "x"]] = Except.ok d :=
      ⟨_, (parseCSV_ok_iff parseDecimal id _ _).2
        ⟨["a ", " b"], [[" 1", "x"]], rfl, by decide, rfl⟩⟩
    obtain ⟨headers, rows, hl, hnames, _, hrows, _⟩ :=
      (ingest_row_shape parseDecimal id).1 _ d hd
    injection hl with h1 h2
    subst h1
    subst h2
    refine ⟨d, hd, ?_, ?_⟩
    · rw [hnames]
      decide
    · rw [hrows]
      decide
  · obtain ⟨d, hd⟩ : ∃ d : Dataset ℚ,
        parseExcel parseDecimal id [Sheet.mk "Sheet1" [["a", "b"], ["1"]]] = Except.ok d :=
      ⟨_, (parseExcel_ok_iff parseDecimal id _ _).2
        ⟨"Sheet1", ["a", "b"], [["1"]], [], rfl, by decide, rfl⟩⟩
    obtain ⟨name, headers, dataRows, others, hf, _, hrows, _⟩ :=
      (ingest_row_shape parseDecimal id).2 _ d hd
    injection hf with h1 h2
    injection h1 with h3 h4
    injection h4 with h5 h6
    subst h5
    subst h6
    refine ⟨d, hd, ?_⟩
    rw [hrows]
    decide

end IngestTheorems

/-! ## Chart validation -/

theorem columnMapAt_set (m : GoMap Bool) (k k₀ : String) :
    columnMapAt (GoMap.set m k true) k₀ = if k₀ = k then true else columnMapAt m k₀ := by
  by_cases h : k₀ = k
  · subst h
    simp [columnMapAt, GoMap.get?_set_self]
  · simp [columnMapAt, GoMap.get?_set_ne _ _ _ _ h, h]

theorem columnMapAt_fold (cols : List ColumnInfo) (m : GoMap Bool) (k : String) :
    columnMapAt (cols.foldl (fun columnMap col => GoMap.set columnMap col.Name true) m) k = true ↔
      columnMapAt m k = true ∨ k ∈ cols.map (fun c => c.Name) := by
  induction cols generalizing m with
  | nil => simp
  | cons col cols ih =>
    rw [List.foldl_cons, ih, columnMapAt_set]
    by_cases h : k = col.Name
    · simp [h]
    · simp [h]

/-- A key is in `columnMap` exactly when it is the name of a dataset column. -/
theorem columnMapAt_build (cols : List ColumnInfo) (k : String) :
    columnMapAt (buildColumnMap cols) k = true ↔ k ∈ cols.map (fun c => c.Name) := by
  rw [buildColumnMap, columnMapAt_fold]
  simp [columnMapAt, GoMap.get?]

/-- One guard `if field != "" && !columnMap[field] { return false }` passes
exactly when the field checks out. -/
theorem guard_iff (cols : List ColumnInfo) (field : String) :
    ¬ (field ≠ "" ∧ (!columnMapAt (buildColumnMap cols) field) = true) ↔
      fieldOk (cols.map (fun c => c.Name)) field := by
  unfold fieldOk
  rw [← columnMapAt_build]
  by_cases h : field = ""
  · simp [h]
  · simp [h]

/-- The validator agrees with the validity the specification words. -/
theorem validateChartConfig_eq_spec {F : Type} (dataset : Dataset F) (chart : ChartConfig) :
    validateChartConfig dataset chart = true ↔
      specValid (dataset.Columns.map (fun c => c.Name)) chart := by
  have g := guard_iff dataset.Columns
  unfold validateChartConfig
  simp only []
  by_cases h1 : chart.Typ = "bar" ∨ chart.Typ = "line" ∨ chart.Typ = "area" ∨
      chart.Typ = "scatter" ∨ chart.Typ = "combo"
  · rw [if_pos h1]
    have hs : specValid (dataset.Columns.map (fun c => c.Name)) chart ↔
        (fieldOk (dataset.Columns.map (fun c => c.Name)) chart.X ∧
          fieldOk (dataset.Columns.map (fun c => c.Name)) chart.Y ∧
          fieldOk (dataset.Columns.map (fun c => c.Name)) chart.Y2 ∧
          fieldOk (dataset.Columns.map (fun c => c.Name)) chart.GroupBy) := by
      unfold specValid
      rcases h1 with h | h | h | h | h <;> simp [h]
    rw [hs, ← g, ← g, ← g, ← g]
    split_ifs <;> simp_all
  · rw [if_neg h1]
    by_cases h2 : chart.Typ = "pie"
    · rw [if_pos h2]
      have hs : specValid (dataset.Columns.map (fun c => c.Name)) chart ↔
          (fieldOk (dataset.Columns.map (fun c => c.Name)) chart.Category ∧
            fieldOk (dataset.Columns.map (fun c => c.Name)) chart.Value) := by
        unfold specValid
        simp [h2]
      rw [hs, ← g, ← g]
      split_ifs <;> simp_all
    · rw [if_neg h2]
      by_cases h3 : chart.Typ = "histogram"
      · rw [if_pos h3]
        have hs : specValid (dataset.Columns.map (fun c => c.Name)) chart ↔
            fieldOk (dataset.Columns.map (fun c => c.Name)) chart.X := by
          unfold specValid
          simp [h3]
        rw [hs, ← g]
        split_ifs <;> simp_all
      · rw [if_neg h3]
        by_cases h4 : chart.Typ = "boxplot"
        · rw [if_pos h4]
          have hs : specValid (dataset.Columns.map (fun c => c.Name)) chart ↔
              fieldOk (dataset.Columns.map (fun c => c.Name)) chart.Y := by
            unfold specValid
            simp [h4]
          rw [hs, ← g]
          split_ifs <;> simp_all
        · rw [if_neg h4]
          by_cases h5 : chart.Typ = "bubble"
          · rw [if_pos h5]
            have hs : specValid (dataset.Columns.map (fun c => c.Name)) chart ↔
                (fieldOk (dataset.Columns.map (fun c => c.Name)) chart.X ∧
                  fieldOk (dataset.Columns.map (fun c => c.Name)) chart.Y ∧
                  fieldOk (dataset.Columns.map (fun c => c.Name)) chart.Z) := by
              unfold specValid
              simp [h5]
            rw [hs, ← g, ← g, ← g]
            split_ifs <;> simp_all
          · rw [if_neg h5]
            by_cases h6 : chart.Typ = "correlation" ∨ chart.Typ = "heatmap"
            · rw [if_pos h6]
              have hs : specValid (dataset.Columns.map (fun c => c.Name)) chart ↔
                  (chart.Columns ≠ [] ∧
                    ∀ col ∈ chart.Columns, col ∈ dataset.Columns.map (fun c => c.Name)) := by
                unfold specValid
                rcases h6 with h | h <;> simp [h]
              rw [hs]
              by_cases hc : chart.Columns = []
              · simp [hc]
              · have hlen : ¬ chart.Columns.length = 0 := by
                  simpa using hc
                rw [if_neg hlen, List.all_eq_true]
                constructor
                · intro h
                  exact ⟨hc, fun col hcol =>
                    (columnMapAt_build dataset.Columns col).1 (h col hcol)⟩
                · intro h col hcol
                  exact (columnMapAt_build dataset.Columns col).2 (h.2 col hcol)
            · rw [if_neg h6]
              have hs : ¬ specValid (dataset.Columns.map (fun c => c.Name)) chart := by
                unfold specValid
                simp only [not_or] at h1 h6
                simp [h1, h2, h3, h4, h5, h6]
              simp [hs]

/-- C10: `validateChartConfig` returns `true` exactly when the chart type is
one of the enum names and the column fields the table lists for that type
check out (each is empty or an exact column name; for `correlation`/`heatmap`
the list is non-empty and every entry is a column name); a type string outside
the enum, such as `"Bar"` or the empty string, is rejected. -/
theorem validateChartConfig_spec {F : Type} (dataset : Dataset F) (chart : ChartConfig) :
    (validateChartConfig dataset chart = true ↔
      specValid (dataset.Columns.map (fun c => c.Name)) chart) ∧
    (chart.Typ ∉ chartTypeNames → validateChartConfig dataset chart = false) ∧
    (chart.Typ = "Bar" ∨ chart.Typ = "" → validateChartConfig dataset chart = false) := by
  have hiff := validateChartConfig_eq_spec dataset chart
  have hout : chart.Typ ∉ chartTypeNames → validateChartConfig dataset chart = false := by
    intro hn
    rw [← Bool.not_eq_true, hiff]
    simp only [chartTypeNames, List.mem_cons, List.mem_singleton, not_or, List.mem_nil_iff,
      or_false] at hn
    unfold specValid
    simp [hn]
  refine ⟨hiff, hout, ?_⟩
  intro h
  apply hout
  rcases h with h | h <;> rw [h] <;> decide

/-- C10, run on a dataset with the columns `a, b`: a `bar` chart on `x = a` is
accepted, the same chart on `x = A` or with the type `Bar` is rejected. -/
theorem validateChartConfig_spec_witness :
    validateChartConfig
      ({ Columns := [ColumnInfo.mk "a" "number", ColumnInfo.mk "b" "string"],
         Rows := [], Summary := [] } : Dataset ℚ)
      { Typ := "bar", Title := "", X := "a", Y := "", Y2 := "", Z := "", Category := "",
        Value := "", GroupBy := "", Stacked := false, Aggregate := "", Bins := 0,
        Columns := [] } = true ∧
    validateChartConfig
      ({ Columns := [ColumnInfo.mk "a" "number", ColumnInfo.mk "b" "string"],
         Rows := [], Summary := [] } : Dataset ℚ)
      { Typ := "bar", Title := "", X := "A", Y := "", Y2 := "", Z := "", Category := "",
        Value := "", GroupBy := "", Stacked := false, Aggregate := "", Bins := 0,
        Columns := [] } = false ∧
    validateChartConfig
      ({ Columns := [ColumnInfo.mk "a" "number", ColumnInfo.mk "b" "string"],
         Rows := [], Summary := [] } : Dataset ℚ)
      { Typ := "Bar", Title := "", X := "a", Y := "", Y2 := "", Z := "", Category := "",
        Value := "", GroupBy := "", Stacked := false, Aggregate := "", Bins := 0,
        Columns := [] } = false := by
  refine ⟨?_, ?_, ?_⟩
  · exact (validateChartConfig_spec _ _).1.2 (by decide)
  · rw [← Bool.not_eq_true, (validateChartConfig_spec _ _).1]
    decide
  · exact (validateChartConfig_spec _ _).2.2 (Or.inl rfl)

/-! ## The analysis flow -/

section EngineTheorems

variable {F : Type} [LinearOrderedField F] [FloorRing F]

/-- Every chart kept by the collecting loop is a proposal that passed the
validator, with the non-empty data the projection returned for it. -/
theorem collectValidCharts_mem (parseFloat : String → Option F) (sqrt : F → F)
    (fmtFixed2 : F → String) (dataset : Dataset F) (proposals : List ChartConfig)
    (valid : List (ChartOut F))
    (h : collectValidCharts parseFloat sqrt fmtFixed2 dataset proposals = Outcome.ok valid) :
    ∀ co ∈ valid, co.config ∈ proposals ∧ validateChartConfig dataset co.config = true ∧
      generateChartData parseFloat sqrt fmtFixed2 dataset co.config = Outcome.ok co.Data ∧
      co.Data ≠ [] := by
  induction proposals generalizing valid with
  | nil =>
    simp only [collectValidCharts] at h
    injection h with h
    subst h
    intro co hco
    cases hco
  | cons chart rest ih =>
    simp only [collectValidCharts] at h
    by_cases hv : validateChartConfig dataset chart = true
    · simp only [hv, Bool.not_true, Bool.false_eq_true, if_false] at h
      cases hg : generateChartData parseFloat sqrt fmtFixed2 dataset chart with
      | panic msg => rw [hg] at h; cases h
      | error msg => rw [hg] at h; cases h
      | ok data =>
        rw [hg] at h
        simp only [] at h
        by_cases hd : data.length = 0
        · rw [if_pos hd] at h
          intro co hco
          obtain ⟨h1, h2⟩ := ih valid h co hco
          exact ⟨List.mem_cons_of_mem _ h1, h2⟩
        · rw [if_neg hd] at h
          cases hr : collectValidCharts parseFloat sqrt fmtFixed2 dataset rest with
          | panic msg => rw [hr] at h; cases h
          | error msg => rw [hr] at h; cases h
          | ok more =>
            rw [hr] at h
            simp only [] at h
            injection h with h
            subst h
            intro co hco
            rcases List.mem_cons.1 hco with rfl | hco
            · have hne : data ≠ [] := fun e => hd (by rw [e]; rfl)
              exact ⟨List.mem_cons_self _ _, hv, hg, hne⟩
            · obtain ⟨h1, h2⟩ := ih more hr co hco
              exact ⟨List.mem_cons_of_mem _ h1, h2⟩
    · have hv' : validateChartConfig dataset chart = false := by simpa using hv
      simp only [hv', Bool.not_false, if_true] at h
      intro co hco
      obtain ⟨h1, h2⟩ := ih valid h co hco
      exact ⟨List.mem_cons_of_mem _ h1, h2⟩

/-- The charts of a result of the retry loop are charts of the incoming result
or validated proposals with non-empty data. -/
theorem retryLoop_charts (gemini : Gemini F) (parseFloat : String → Option F) (sqrt : F → F)
    (fmtFixed2 : F → String) (dataset : Dataset F) (prompt : String)
    (remaining attempt : Nat) (lastError : String) (result r : ProcessAnalysisResult F)
    (h : retryLoop gemini parseFloat sqrt fmtFixed2 dataset prompt remaining attempt lastError
      result = Outcome.ok r) :
    ∀ co ∈ r.Charts, co ∈ result.Charts ∨
      (validateChartConfig dataset co.config = true ∧
        generateChartData parseFloat sqrt fmtFixed2 dataset co.config = Outcome.ok co.Data ∧
        co.Data ≠ []) := by
  induction remaining generalizing attempt lastError result with
  | zero =>
    simp only [retryLoop] at h
    injection h with h
    subst h
    intro co hco
    exact Or.inl hco
  | succ remaining ih =>
    simp only [retryLoop] at h
    cases hg : gemini.GenerateCharts attempt dataset prompt lastError with
    | error err =>
      rw [hg] at h
      simp only [] at h
      by_cases ha : attempt < maxAttempts
      · rw [if_pos ha] at h
        intro co hco
        exact ih _ _ _ h co hco
      · rw [if_neg ha] at h
        injection h with h
        subst h
        intro co hco
        exact Or.inl hco
    | ok chartConfigs =>
      rw [hg] at h
      simp only [] at h
      cases hc : collectValidCharts parseFloat sqrt fmtFixed2 dataset chartConfigs with
      | panic msg => rw [hc] at h; cases h
      | error msg => rw [hc] at h; cases h
      | ok validCharts =>
        rw [hc] at h
        simp only [] at h
        by_cases hl : validCharts.length > 0
        · rw [if_pos hl] at h
          have hmem := collectValidCharts_mem parseFloat sqrt fmtFixed2 dataset chartConfigs
            validCharts hc
          by_cases he : validCharts.length = chartConfigs.length
          · rw [if_pos he] at h
            injection h with h
            subst h
            intro co hco
            exact Or.inr (hmem co hco).2
          · rw [if_neg he] at h
            injection h with h
            subst h
            intro co hco
            exact Or.inr (hmem co hco).2
        · rw [if_neg hl] at h
          by_cases ha : attempt < maxAttempts
          · rw [if_pos ha] at h
            intro co hco
            exact ih _ _ _ h co hco
          · rw [if_neg ha] at h
            intro co hco
            exact ih _ _ _ h co hco

/-- Every chart of an analysis result passed the validator and carries the
non-empty data of its projection. -/
theorem ProcessAnalysis_charts (gemini : Gemini F) (parseFloat : String → Option F)
    (sqrt : F → F) (fmtFixed2 : F → String) (dataset : Dataset F) (prompt : String)
    (r : ProcessAnalysisResult F)
    (h : ProcessAnalysis gemini parseFloat sqrt fmtFixed2 (some dataset) prompt = Outcome.ok r) :
    ∀ co ∈ r.Charts, validateChartConfig dataset co.config = true ∧
      generateChartData parseFloat sqrt fmtFixed2 dataset co.config = Outcome.ok co.Data ∧
      co.Data ≠ [] := by
  simp only [ProcessAnalysis] at h
  by_cases h1 : dataset.Rows.length = 0
  · rw [if_pos h1] at h
    cases h
  · rw [if_neg h1] at h
    by_cases h2 : prompt = ""
    · rw [if_pos h2] at h
      cases h
    · rw [if_neg h2] at h
      cases ha : gemini.Analyze dataset prompt with
      | error err => rw [ha] at h; cases h
      | ok insights =>
        rw [ha] at h
        simp only [] at h
        by_cases h3 : insights = ""
        · rw [if_pos h3] at h
          cases h
        · rw [if_neg h3] at h
          by_cases h4 : (!isChartGenerationFeasible dataset) = true
          · rw [if_pos h4] at h
            injection h with h
            subst h
            intro co hco
            cases hco
          · rw [if_neg h4] at h
            intro co hco
            rcases retryLoop_charts gemini parseFloat sqrt fmtFixed2 dataset prompt _ _ _ _ r h
              co hco with hin | hv
            · cases hin
            · exact hv

end EngineTheorems

/-- A chart with a checked field naming a missing column is not valid in the
words of the specification. -/
theorem not_specValid_of_checkedFieldMissing (names : List String) (chart : ChartConfig)
    (h : checkedFieldMissing names chart) : ¬ specValid names chart := by
  unfold checkedFieldMissing fieldMissing at h
  unfold specValid fieldOk
  rcases h with ⟨ht, hf⟩ | ⟨ht, hf⟩ | ⟨ht, hf⟩ | ⟨ht, hf⟩ | ⟨ht, hf⟩ | ⟨ht, col, hc, hn⟩
  · rcases ht with ht | ht | ht | ht | ht <;> simp only [ht] <;>
      rcases hf with hf | hf | hf | hf <;> simp [hf.1, hf.2]
  · simp only [ht]
    rcases hf with hf | hf <;> simp [hf.1, hf.2]
  · simp [ht, hf.1, hf.2]
  · simp [ht, hf.1, hf.2]
  · simp only [ht]
    rcases hf with hf | hf | hf <;> simp [hf.1, hf.2]
  · rcases ht with ht | ht <;> simp only [ht] <;> simp <;> intro _ <;> exact ⟨col, hc, hn⟩

/-- C11 (amended): for every dataset and every proposed chart of a known type
in which a column reference that the validator checks for that type (`x`, `y`,
`y2`, `groupBy` for bar/line/area/scatter/combo; `category`, `value` for pie;
`x` for histogram; `y` for boxplot; `x`, `y`, `z` for bubble; every entry of
`columns` for correlation/heatmap) names a column that does not exist, the
validator returns `false` and the chart is not among the charts of any
analysis result. -/
theorem missing_column_chart_dropped {F : Type} [LinearOrderedField F] [FloorRing F]
    (dataset : Dataset F) (chart : ChartConfig)
    (h : checkedFieldMissing (dataset.Columns.map (fun c => c.Name)) chart) :
    validateChartConfig dataset chart = false ∧
    ∀ (gemini : Gemini F) (parseFloat : String → Option F) (sqrt : F → F)
      (fmtFixed2 : F → String) (prompt : String) (r : ProcessAnalysisResult F),
      ProcessAnalysis gemini parseFloat sqrt fmtFixed2 (some dataset) prompt = Outcome.ok r →
      ∀ co ∈ r.Charts, co.config ≠ chart := by
  have hv : validateChartConfig dataset chart = false := by
    rw [← Bool.not_eq_true, validateChartConfig_eq_spec]
    exact not_specValid_of_checkedFieldMissing _ _ h
  refine ⟨hv, ?_⟩
  intro gemini parseFloat sqrt fmtFixed2 prompt r hr co hco hcfg
  have := (ProcessAnalysis_charts gemini parseFloat sqrt fmtFixed2 dataset prompt r hr co hco).1
  rw [hcfg, hv] at this
  cases this

/-- C11 as stated fails: a `pie` chart on the existing columns `c` and `v`
whose unused field `x` names the missing column `zzz` passes the validator and
is the chart of the analysis result. -/
theorem unchecked_field_counterexample :
    validateChartConfig sampleDataset (sampleChart "pie" "zzz" "" "" 0) = true ∧
    ProcessAnalysis (stubGemini [sampleChart "pie" "zzz" "" "" 0]) parseDecimal id
        (fun _ => "") (some sampleDataset) "share of v by c" =
      Outcome.ok
        { Insights := "insight",
          Charts := [ChartOut.mk (sampleChart "pie" "zzz" "" "" 0)
            [[("c", Value.str "A"), ("v", Value.num 3)]]],
          ChartStatus := "success", ChartMessage := "", RetryAttempts := 1 } := by
  constructor <;> decide!

/-- C11 (amended), run on the sample dataset: a `pie` chart whose `category`
names the missing column `zzz` is rejected and is not in the result of an
analysis that was offered it. -/
theorem missing_column_chart_dropped_witness :
    validateChartConfig sampleDataset
      { sampleChart "pie" "" "" "" 0 with Category := "zzz" } = false ∧
    ∀ r : ProcessAnalysisResult ℚ,
      ProcessAnalysis (stubGemini [{ sampleChart "pie" "" "" "" 0 with Category := "zzz" }])
        parseDecimal id (fun _ => "") (some sampleDataset) "share" = Outcome.ok r →
      ∀ co ∈ r.Charts, co.config ≠ { sampleChart "pie" "" "" "" 0 with Category := "zzz" } := by
  have h := missing_column_chart_dropped sampleDataset
    { sampleChart "pie" "" "" "" 0 with Category := "zzz" }
    (by decide)
  exact ⟨h.1, fun r hr => h.2 _ parseDecimal id (fun _ => "") "share" r hr⟩

/-! ## Column data and the XY projection -/

theorem toNumber_eq {F : Type} (parseFloat : String → Option F) (cell : Cell) :
    toNumber parseFloat cell = parseFloat (fmtV cell) := by
  cases cell <;> rfl

/-- The search loop returns the first index (counted from `i`) of the name. -/
theorem findColumn_eq (cols : List ColumnInfo) (columnName : String) (i : Nat)
    (h : columnName ∈ cols.map (fun c => c.Name)) :
    findColumn cols columnName i =
      some (i + (cols.map (fun c => c.Name)).indexOf columnName) := by
  induction cols generalizing i with
  | nil => simp at h
  | cons col rest ih =>
    by_cases hc : col.Name = columnName
    · simp [findColumn, hc, List.indexOf_cons_eq]
    · have hmem : columnName ∈ rest.map (fun c => c.Name) := by
        simp only [List.map_cons, List.mem_cons] at h
        rcases h with h | h
        · exact absurd h.symm hc
        · exact h
      simp only [findColumn, hc, if_false, List.map_cons]
      rw [ih (i + 1) hmem, List.indexOf_cons_ne _ hc]
      congr 1
      omega

theorem findColumn_none (cols : List ColumnInfo) (columnName : String) (i : Nat)
    (h : columnName ∉ cols.map (fun c => c.Name)) : findColumn cols columnName i = none := by
  induction cols generalizing i with
  | nil => rfl
  | cons col rest ih =>
    simp only [List.map_cons, List.mem_cons, not_or] at h
    have hc : ¬ col.Name = columnName := fun e => h.1 e.symm
    simp only [findColumn, hc, if_false]
    exact ih (i + 1) h.2

/-- In rows that reach index `colIdx` the column values are the cells at that index. -/
theorem columnValues_eq_map (rows : List (List Cell)) (colIdx : Nat)
    (h : ∀ row ∈ rows, colIdx < row.length) :
    columnValues rows colIdx = rows.map (fun row => row.getD colIdx Cell.null) := by
  induction rows with
  | nil => rfl
  | cons row rows ih =>
    have hrow : colIdx < row.length := h row (List.mem_cons_self _ _)
    have ih' := ih (fun r hr => h r (List.mem_cons_of_mem _ hr))
    simp only [columnValues] at ih'
    simp only [columnValues, List.filterMap_cons, hrow, if_true, List.map_cons]
    have e : row.get? colIdx = some (row.getD colIdx Cell.null) := by
      simp [List.getD_eq_getElem?_getD, List.getElem?_eq_getElem hrow]
    rw [e, ih']

/-- The column data of an existing column of a rectangular dataset: one cell
per row, read at the first index of the name. -/
theorem GetColumnData_eq {F : Type} (dataset : Dataset F) (columnName : String)
    (hrect : ∀ row ∈ dataset.Rows, row.length = dataset.Columns.length)
    (h : columnName ∈ dataset.Columns.map (fun c => c.Name)) :
    GetColumnData dataset columnName =
      dataset.Rows.map (fun row =>
        row.getD ((dataset.Columns.map (fun c => c.Name)).indexOf columnName) Cell.null) := by
  have hidx : (dataset.Columns.map (fun c => c.Name)).indexOf columnName <
      dataset.Columns.length := by
    have := List.indexOf_lt_length.2 h
    simpa using this
  simp only [GetColumnData, findColumn_eq _ _ 0 h, Nat.zero_add]
  exact columnValues_eq_map _ _ (fun row hrow => by rw [hrect row hrow]; exact hidx)

theorem GetColumnData_missing {F : Type} (dataset : Dataset F) (columnName : String)
    (h : columnName ∉ dataset.Columns.map (fun c => c.Name)) :
    GetColumnData dataset columnName = [] := by
  simp [GetColumnData, findColumn_none _ _ 0 h]

theorem xyPoint_get_y {F : Type} (parseFloat : String → Option F) (xCol yCol : String) (xVal yVal : Cell)
    (hsame : xCol = yCol → xVal = yVal) :
    GoMap.get? (xyPoint parseFloat xCol yCol xVal yVal) yCol =
      some (numberOrOriginal parseFloat yVal) := by
  unfold xyPoint numberOrOriginal
  cases hy : toNumber parseFloat yVal with
  | some y => simp only [GoMap.get?_set_self]
  | none =>
    cases hx : toNumber parseFloat xVal with
    | none => simp only [GoMap.get?_set_self]
    | some x =>
      by_cases hxy : yCol = xCol
      · rw [hsame hxy.symm, hy] at hx
        cases hx
      · simp only [GoMap.get?_set_ne _ _ _ _ hxy, GoMap.get?_set_self]

theorem xyPoint_get_x {F : Type} (parseFloat : String → Option F) (xCol yCol : String) (xVal yVal : Cell)
    (hsame : xCol = yCol → xVal = yVal) :
    GoMap.get? (xyPoint parseFloat xCol yCol xVal yVal) xCol =
      some (numberOrOriginal parseFloat xVal) := by
  by_cases hxy : xCol = yCol
  · have hv := hsame hxy
    rw [hv]
    have h := xyPoint_get_y parseFloat xCol yCol yVal yVal (fun _ => rfl)
    rw [← hxy] at h ⊢
    exact h
  · unfold xyPoint numberOrOriginal
    cases hy : toNumber parseFloat yVal <;> cases hx : toNumber parseFloat xVal <;>
      simp only [GoMap.get?_set_ne _ _ _ _ hxy, GoMap.get?_set_self]

theorem xyPoint_keys {F : Type} (parseFloat : String → Option F) (xCol yCol : String) (xVal yVal : Cell)
    (k : String) :
    k ∈ GoMap.keys (xyPoint parseFloat xCol yCol xVal yVal) ↔ k = xCol ∨ k = yCol := by
  unfold xyPoint
  cases hy : toNumber parseFloat yVal <;> cases hx : toNumber parseFloat xVal <;>
    simp only [GoMap.mem_keys_set] <;> simp [GoMap.keys] <;> tauto

/-- The XY projection of two existing columns of a rectangular dataset. -/
theorem generateXYData_eq {F : Type} [LinearOrderedField F] (parseFloat : String → Option F) (dataset : Dataset F)
    (xCol yCol : String)
    (hrect : ∀ row ∈ dataset.Rows, row.length = dataset.Columns.length)
    (hx : xCol ∈ dataset.Columns.map (fun c => c.Name))
    (hy : yCol ∈ dataset.Columns.map (fun c => c.Name)) :
    generateXYData parseFloat dataset xCol yCol =
      (dataset.Rows.take 100).map (fun row =>
        xyPoint parseFloat xCol yCol
          (row.getD ((dataset.Columns.map (fun c => c.Name)).indexOf xCol) Cell.null)
          (row.getD ((dataset.Columns.map (fun c => c.Name)).indexOf yCol) Cell.null)) := by
  unfold generateXYData
  rw [GetColumnData_eq dataset xCol hrect hx, GetColumnData_eq dataset yCol hrect hy]
  simp only [List.length_map, ne_eq, not_true_eq_false, if_false]
  rw [List.zip_map', List.map_take, List.map_map, ← List.map_take]
  rfl

/-- C13: for a bar/line/area chart with empty `groupBy` and `aggregate`, and for
every scatter chart, whose (non-empty) `x` and `y` name existing columns of a
dataset with `R` rows of full width, the projection has exactly `min R 100`
rows; its `i`-th row has no other keys than the `x` and `y` names and maps
them to the `i`-th source row's cells of these columns, each replaced by its
parsed number when it parses and left as the original value otherwise. -/
theorem xy_projection {F : Type} [LinearOrderedField F] [FloorRing F]
    (parseFloat : String → Option F) (sqrt : F → F) (fmtFixed2 : F → String)
    (dataset : Dataset F) (chart : ChartConfig)
    (hrect : ∀ row ∈ dataset.Rows, row.length = dataset.Columns.length)
    (hx : chart.X ≠ "") (hy : chart.Y ≠ "")
    (hxc : chart.X ∈ dataset.Columns.map (fun c => c.Name))
    (hyc : chart.Y ∈ dataset.Columns.map (fun c => c.Name))
    (htype : ((chart.Typ = "bar" ∨ chart.Typ = "line" ∨ chart.Typ = "area") ∧
        chart.GroupBy = "" ∧ chart.Aggregate = "") ∨ chart.Typ = "scatter") :
    ∃ data : List (ChartRow F),
      generateChartData parseFloat sqrt fmtFixed2 dataset chart = Outcome.ok data ∧
      data.length = min dataset.Rows.length 100 ∧
      ∀ i, i < min dataset.Rows.length 100 →
        ∃ (row : List Cell) (xCell yCell : Cell) (point : ChartRow F),
          dataset.Rows[i]? = some row ∧
          row[(dataset.Columns.map (fun c => c.Name)).indexOf chart.X]? = some xCell ∧
          row[(dataset.Columns.map (fun c => c.Name)).indexOf chart.Y]? = some yCell ∧
          data[i]? = some point ∧
          (∀ k, k ∈ GoMap.keys point ↔ k = chart.X ∨ k = chart.Y) ∧
          GoMap.get? point chart.X =
            some (match parseFloat (fmtV xCell) with
              | some v => Value.num v
              | none => xCell.toValue) ∧
          GoMap.get? point chart.Y =
            some (match parseFloat (fmtV yCell) with
              | some v => Value.num v
              | none => yCell.toValue) := by
  have hdata : generateChartData parseFloat sqrt fmtFixed2 dataset chart =
      Outcome.ok (generateXYData parseFloat dataset chart.X chart.Y) := by
    unfold generateChartData
    rcases htype with ⟨ht, hg, ha⟩ | ht
    · have ht' : chart.Typ = "bar" ∨ chart.Typ = "line" ∨ chart.Typ = "area" := ht
      simp [ht', hx, hy, hg, ha]
    · simp [ht, hx, hy]
  refine ⟨_, hdata, ?_, ?_⟩
  · rw [generateXYData_eq parseFloat dataset _ _ hrect hxc hyc]
    simp [Nat.min_comm]
  · intro i hi
    have hiR : i < dataset.Rows.length := lt_of_lt_of_le hi (Nat.min_le_left _ _)
    have hi100 : i < 100 := lt_of_lt_of_le hi (Nat.min_le_right _ _)
    have hrow : dataset.Rows[i] ∈ dataset.Rows := List.getElem_mem _
    have hlen := hrect _ hrow
    have hix : (dataset.Columns.map (fun c => c.Name)).indexOf chart.X <
        (dataset.Rows[i]).length := by
      rw [hlen]
      simpa using List.indexOf_lt_length.2 hxc
    have hiy : (dataset.Columns.map (fun c => c.Name)).indexOf chart.Y <
        (dataset.Rows[i]).length := by
      rw [hlen]
      simpa using List.indexOf_lt_length.2 hyc
    have hgx : (dataset.Rows[i]).getD
        ((dataset.Columns.map (fun c => c.Name)).indexOf chart.X) Cell.null =
        (dataset.Rows[i])[(dataset.Columns.map (fun c => c.Name)).indexOf chart.X] := by
      simp [List.getD_eq_getElem?_getD, List.getElem?_eq_getElem hix]
    have hgy : (dataset.Rows[i]).getD
        ((dataset.Columns.map (fun c => c.Name)).indexOf chart.Y) Cell.null =
        (dataset.Rows[i])[(dataset.Columns.map (fun c => c.Name)).indexOf chart.Y] := by
      simp [List.getD_eq_getElem?_getD, List.getElem?_eq_getElem hiy]
    have hsame : chart.X = chart.Y →
        (dataset.Rows[i])[(dataset.Columns.map (fun c => c.Name)).indexOf chart.X] =
        (dataset.Rows[i])[(dataset.Columns.map (fun c => c.Name)).indexOf chart.Y] := by
      intro e
      simp only [e]
    refine ⟨dataset.Rows[i], _, _,
      xyPoint parseFloat chart.X chart.Y
        ((dataset.Rows[i])[(dataset.Columns.map (fun c => c.Name)).indexOf chart.X])
        ((dataset.Rows[i])[(dataset.Columns.map (fun c => c.Name)).indexOf chart.Y]),
      List.getElem?_eq_getElem hiR,
      List.getElem?_eq_getElem hix, List.getElem?_eq_getElem hiy, ?_,
      xyPoint_keys parseFloat chart.X chart.Y _ _, ?_, ?_⟩
    · rw [generateXYData_eq parseFloat dataset _ _ hrect hxc hyc, List.getElem?_map,
        List.getElem?_take, if_pos hi100, List.getElem?_eq_getElem hiR, Option.map_some', hgx, hgy]
    · rw [xyPoint_get_x parseFloat _ _ _ _ hsame, numberOrOriginal, toNumber_eq]
    · rw [xyPoint_get_y parseFloat _ _ _ _ hsame, numberOrOriginal, toNumber_eq]

/-- C13, run on the sample dataset with a scatter chart on `x = c`, `y = v`:
three rows; the second keeps the texts `B` and `x`, the third holds the text
`A` and the number `2`. -/
theorem xy_projection_witness :
    ∃ data : List (ChartRow ℚ),
      generateChartData parseDecimal id (fun _ => "") sampleDataset
        (sampleChart "scatter" "c" "v" "sum" 0) = Outcome.ok data ∧
      data.length = 3 ∧
      data[1]? = some [("c", Value.str "B"), ("v", Value.str "x")] ∧
      data[2]? = some [("c", Value.str "A"), ("v", Value.num 2)] := by
  obtain ⟨data, hd, hlen, _⟩ := xy_projection parseDecimal id (fun _ => "") sampleDataset
    (sampleChart "scatter" "c" "v" "sum" 0) (by decide) (by decide) (by decide) (by decide)
    (by decide) (Or.inr rfl)
  have hval : generateChartData parseDecimal id (fun _ => "") sampleDataset
      (sampleChart "scatter" "c" "v" "sum" 0) =
      Outcome.ok [[("c", Value.str "A"), ("v", Value.num 1)],
        [("c", Value.str "B"), ("v", Value.str "x")],
        [("c", Value.str "A"), ("v", Value.num 2)]] := by decide!
  rw [hval] at hd
  injection hd with hd
  subst hd
  exact ⟨_, hval, hlen, rfl, rfl⟩

/-! ## Grouping by key (`generateAggregatedData`, `generatePieData`) -/

theorem GoMap.get?_isSome_iff {V : Type} (m : GoMap V) (k : String) :
    (GoMap.get? m k).isSome = true ↔ k ∈ GoMap.keys m := by
  induction m with
  | nil => simp [GoMap.get?, GoMap.keys, List.lookup]
  | cons e m ih =>
    obtain ⟨k', v'⟩ := e
    simp only [GoMap.get?, GoMap.keys] at ih
    by_cases h : k = k'
    · subst h
      simp [GoMap.get?, GoMap.keys, List.lookup]
    · have h' : (k == k') = false := by simpa using h
      simp [GoMap.get?, GoMap.keys, List.lookup, h', h, ih]

/-- In a map with distinct keys every entry is what the lookup of its key returns. -/
theorem GoMap.get?_of_mem {V : Type} (m : GoMap V) (e : String × V)
    (hnd : (GoMap.keys m).Nodup) (he : e ∈ m) : GoMap.get? m e.1 = some e.2 := by
  induction m with
  | nil => cases he
  | cons e' m ih =>
    obtain ⟨k', v'⟩ := e'
    simp only [GoMap.keys, List.map_cons, List.nodup_cons] at hnd
    rcases List.mem_cons.1 he with rfl | he
    · simp [GoMap.get?, List.lookup]
    · have hne : e.1 ≠ k' := by
        intro hk
        apply hnd.1
        rw [← hk]
        exact List.mem_map_of_mem Prod.fst he
      have h' : (e.1 == k') = false := by simpa using hne
      have := ih hnd.2 he
      simp only [GoMap.get?] at this
      simp [GoMap.get?, List.lookup, h', this]

section GroupingTheorems

variable {F : Type}

/-- The collecting step on a (key, number) pair. -/
theorem aggStep_fold_eq (parseFloat : String → Option F) (entries : List (Cell × Cell))
    (m : GoMap (List F)) :
    entries.foldl (aggStep parseFloat) m =
      (numericPairs parseFloat entries).foldl
        (fun m p => GoMap.set m p.1 ((GoMap.get? m p.1).getD [] ++ [p.2])) m := by
  induction entries generalizing m with
  | nil => rfl
  | cons e es ih =>
    cases hn : toNumber parseFloat e.2 with
    | none => simp [List.foldl_cons, aggStep, numericPairs, List.filterMap_cons, hn, ih]
    | some v => simp [List.foldl_cons, aggStep, numericPairs, List.filterMap_cons, hn, ih]

theorem groupFold_nodup (pairs : List (String × F)) (m : GoMap (List F))
    (h : (GoMap.keys m).Nodup) :
    (GoMap.keys (pairs.foldl
      (fun m p => GoMap.set m p.1 ((GoMap.get? m p.1).getD [] ++ [p.2])) m)).Nodup := by
  induction pairs generalizing m with
  | nil => exact h
  | cons p ps ih => exact ih _ (GoMap.nodup_keys_set _ _ _ h)

theorem groupFold_mem_keys (pairs : List (String × F)) (m : GoMap (List F)) (k : String) :
    k ∈ GoMap.keys (pairs.foldl
      (fun m p => GoMap.set m p.1 ((GoMap.get? m p.1).getD [] ++ [p.2])) m) ↔
      k ∈ GoMap.keys m ∨ k ∈ pairs.map Prod.fst := by
  induction pairs generalizing m with
  | nil => simp
  | cons p ps ih =>
    rw [List.foldl_cons, ih, GoMap.mem_keys_set]
    simp only [List.map_cons, List.mem_cons]
    tauto

theorem groupFold_get (pairs : List (String × F)) (m : GoMap (List F)) (k : String) :
    (GoMap.get? (pairs.foldl
      (fun m p => GoMap.set m p.1 ((GoMap.get? m p.1).getD [] ++ [p.2])) m) k).getD [] =
      (GoMap.get? m k).getD [] ++ valuesOf pairs k := by
  induction pairs generalizing m with
  | nil => simp [valuesOf]
  | cons p ps ih =>
    rw [List.foldl_cons, ih]
    by_cases hk : p.1 = k
    · subst hk
      simp [GoMap.get?_set_self, valuesOf, List.filter_cons]
    · have hk' : k ≠ p.1 := fun e => hk e.symm
      simp [GoMap.get?_set_ne _ _ _ _ hk', valuesOf, List.filter_cons, hk]

/-- The groups collected from the pairs: distinct keys, exactly the keys of the
pairs, each with its numbers in row order. -/
theorem groupFold_spec (pairs : List (String × F)) :
    (GoMap.keys (pairs.foldl
      (fun m p => GoMap.set m p.1 ((GoMap.get? m p.1).getD [] ++ [p.2])) [])).Nodup ∧
    (∀ k, k ∈ GoMap.keys (pairs.foldl
      (fun m p => GoMap.set m p.1 ((GoMap.get? m p.1).getD [] ++ [p.2])) []) ↔
        k ∈ pairs.map Prod.fst) ∧
    (∀ g ∈ pairs.foldl
      (fun (m : GoMap (List F)) p => GoMap.set m p.1 ((GoMap.get? m p.1).getD [] ++ [p.2])) [],
        g.2 = valuesOf pairs g.1 ∧ g.2 ≠ []) := by
  have hnd := groupFold_nodup pairs [] (by simp [GoMap.keys])
  have hmem : ∀ k, k ∈ GoMap.keys (pairs.foldl
      (fun m p => GoMap.set m p.1 ((GoMap.get? m p.1).getD [] ++ [p.2])) []) ↔
        k ∈ pairs.map Prod.fst := by
    intro k
    rw [groupFold_mem_keys]
    simp [GoMap.keys]
  refine ⟨hnd, hmem, ?_⟩
  intro g hg
  have hget := GoMap.get?_of_mem _ g hnd hg
  have hval := groupFold_get pairs [] g.1
  rw [hget] at hval
  have hval' : g.2 = valuesOf pairs g.1 := by
    simpa [GoMap.get?] using hval
  refine ⟨hval', ?_⟩
  have hk : g.1 ∈ pairs.map Prod.fst :=
    (hmem g.1).1 (List.mem_map_of_mem Prod.fst hg)
  obtain ⟨p, hp, hpk⟩ := List.mem_map.1 hk
  rw [hval']
  intro hnil
  have : p.2 ∈ valuesOf pairs g.1 := by
    simp only [valuesOf, List.mem_map, List.mem_filter]
    exact ⟨p, ⟨hp, by simpa using hpk⟩, rfl⟩
  rw [hnil] at this
  cases this

/-- A key has a pair exactly when some source row has that key text and a
value cell that parses. -/
theorem mem_numericPairs_keys (parseFloat : String → Option F) (entries : List (Cell × Cell))
    (k : String) :
    k ∈ (numericPairs parseFloat entries).map Prod.fst ↔
      ∃ e ∈ entries, fmtV e.1 = k ∧ (parseFloat (fmtV e.2)).isSome = true := by
  simp only [numericPairs, List.mem_map, List.mem_filterMap, toNumber_eq]
  constructor
  · rintro ⟨p, ⟨e, he, hp⟩, rfl⟩
    cases hn : parseFloat (fmtV e.2) with
    | none => rw [hn] at hp; cases hp
    | some v =>
      rw [hn] at hp
      simp only [Option.map_some', Option.some.injEq] at hp
      exact ⟨e, he, by rw [← hp], by rw [hn]; rfl⟩
  · rintro ⟨e, he, rfl, hs⟩
    cases hn : parseFloat (fmtV e.2) with
    | none => rw [hn] at hs; cases hs
    | some v => exact ⟨(fmtV e.1, v), ⟨e, he, by rw [hn]; rfl⟩, rfl⟩

end GroupingTheorems
section AggregateTheorems

variable {F : Type} [LinearOrderedField F]

/-- The running maximum of a loop is reached and bounds the seed and the slice. -/
theorem foldl_max_spec (l : List F) (init : F) :
    init ≤ l.foldl (fun result v => if v > result then v else result) init ∧
    (∀ v ∈ l, v ≤ l.foldl (fun result v => if v > result then v else result) init) ∧
    (l.foldl (fun result v => if v > result then v else result) init = init ∨
      l.foldl (fun result v => if v > result then v else result) init ∈ l) := by
  induction l generalizing init with
  | nil => simp
  | cons x xs ih =>
    rw [List.foldl_cons]
    obtain ⟨h1, h2, h3⟩ := ih (if x > init then x else init)
    have hinit : init ≤ (if x > init then x else init) := by
      split
      · exact le_of_lt ‹_›
      · exact le_refl _
    have hx : x ≤ (if x > init then x else init) := by
      split
      · exact le_refl _
      · exact not_lt.1 ‹_›
    refine ⟨le_trans hinit h1, ?_, ?_⟩
    · intro v hv
      rcases List.mem_cons.1 hv with rfl | hv
      · exact le_trans hx h1
      · exact h2 v hv
    · rcases h3 with h3 | h3
      · rw [h3]
        by_cases hgt : x > init
        · rw [if_pos hgt]
          exact Or.inr (List.mem_cons_self _ _)
        · rw [if_neg hgt]
          exact Or.inl rfl
      · exact Or.inr (List.mem_cons_of_mem _ h3)

/-- The running minimum of a loop is reached and bounds the seed and the slice. -/
theorem foldl_min_spec (l : List F) (init : F) :
    l.foldl (fun result v => if v < result then v else result) init ≤ init ∧
    (∀ v ∈ l, l.foldl (fun result v => if v < result then v else result) init ≤ v) ∧
    (l.foldl (fun result v => if v < result then v else result) init = init ∨
      l.foldl (fun result v => if v < result then v else result) init ∈ l) := by
  induction l generalizing init with
  | nil => simp
  | cons x xs ih =>
    rw [List.foldl_cons]
    obtain ⟨h1, h2, h3⟩ := ih (if x < init then x else init)
    have hinit : (if x < init then x else init) ≤ init := by
      split
      · exact le_of_lt ‹_›
      · exact le_refl _
    have hx : (if x < init then x else init) ≤ x := by
      split
      · exact le_refl _
      · exact not_lt.1 ‹_›
    refine ⟨le_trans h1 hinit, ?_, ?_⟩
    · intro v hv
      rcases List.mem_cons.1 hv with rfl | hv
      · exact le_trans h1 hx
      · exact h2 v hv
    · rcases h3 with h3 | h3
      · rw [h3]
        by_cases hlt : x < init
        · rw [if_pos hlt]
          exact Or.inr (List.mem_cons_self _ _)
        · rw [if_neg hlt]
          exact Or.inl rfl
      · exact Or.inr (List.mem_cons_of_mem _ h3)

/-- What the aggregation switch computes on a non-empty slice. -/
theorem applyAggregate_spec (aggregate : String) (values : List F) (hne : values ≠ []) :
    (aggregate = "sum" → applyAggregate aggregate values = values.sum) ∧
    (aggregate = "avg" → applyAggregate aggregate values = values.sum / (values.length : F)) ∧
    (aggregate = "count" → applyAggregate aggregate values = (values.length : F)) ∧
    (aggregate = "max" → applyAggregate aggregate values ∈ values ∧
      ∀ v ∈ values, v ≤ applyAggregate aggregate values) ∧
    (aggregate = "min" → applyAggregate aggregate values ∈ values ∧
      ∀ v ∈ values, applyAggregate aggregate values ≤ v) ∧
    (aggregate ≠ "sum" → aggregate ≠ "avg" → aggregate ≠ "count" → aggregate ≠ "max" →
      aggregate ≠ "min" → applyAggregate aggregate values = values.sum) := by
  have hpos : 0 < values.length := List.length_pos.2 hne
  have hseed : at_ values 0 ∈ values := at_mem values 0 hpos
  refine ⟨?_, ?_, ?_, ?_, ?_, ?_⟩
  · intro h
    simp [applyAggregate, h, sumLoop_eq_sum]
  · intro h
    simp [applyAggregate, h, sumLoop_eq_sum]
  · intro h
    simp [applyAggregate, h]
  · intro h
    have hs := foldl_max_spec values (at_ values 0)
    have e : applyAggregate aggregate values =
        values.foldl (fun result v => if v > result then v else result) (at_ values 0) := by
      simp [applyAggregate, h]
    rw [e]
    refine ⟨?_, hs.2.1⟩
    rcases hs.2.2 with h3 | h3
    · rw [h3]
      exact hseed
    · exact h3
  · intro h
    have hs := foldl_min_spec values (at_ values 0)
    have e : applyAggregate aggregate values =
        values.foldl (fun result v => if v < result then v else result) (at_ values 0) := by
      simp [applyAggregate, h]
    rw [e]
    refine ⟨?_, hs.2.1⟩
    rcases hs.2.2 with h3 | h3
    · rw [h3]
      exact hseed
    · exact h3
  · intro h1 h2 h3 h4 h5
    simp [applyAggregate, h1, h2, h3, h4, h5, sumLoop_eq_sum]

/-- C14 (amended): for a bar/line/area chart with `aggregate` set and `groupBy`
empty whose `x` and `y` name existing columns, the projection has exactly one
row per distinct x-value (string form) that occurs in a source row whose `y`
cell parses, with no cap on the number of rows; that row maps `x` to the
x-value and `y` to the aggregate of the numeric `y` values of the source rows
with that x-value: their sum, mean, count, greatest or least element for
`sum`, `avg`, `count`, `max`, `min`, and their sum for any other name. -/
theorem aggregated_projection [FloorRing F]
    (parseFloat : String → Option F) (sqrt : F → F) (fmtFixed2 : F → String)
    (dataset : Dataset F) (chart : ChartConfig)
    (hrect : ∀ row ∈ dataset.Rows, row.length = dataset.Columns.length)
    (hx : chart.X ≠ "") (hy : chart.Y ≠ "")
    (hxc : chart.X ∈ dataset.Columns.map (fun c => c.Name))
    (hyc : chart.Y ∈ dataset.Columns.map (fun c => c.Name))
    (htype : chart.Typ = "bar" ∨ chart.Typ = "line" ∨ chart.Typ = "area")
    (hg : chart.GroupBy = "") (ha : chart.Aggregate ≠ "") :
    ∃ groups : List (String × List F),
      generateChartData parseFloat sqrt fmtFixed2 dataset chart =
        Outcome.ok (groups.map (fun g =>
          GoMap.set (GoMap.set [] chart.X (Value.str g.1)) chart.Y
            (Value.num (applyAggregate chart.Aggregate g.2)))) ∧
      (groups.map Prod.fst).Nodup ∧
      (∀ k, k ∈ groups.map Prod.fst ↔
        ∃ e ∈ (columnCells dataset chart.X).zip (columnCells dataset chart.Y),
          fmtV e.1 = k ∧ (parseFloat (fmtV e.2)).isSome = true) ∧
      (∀ g ∈ groups,
        g.2 = valuesOf (numericPairs parseFloat
          ((columnCells dataset chart.X).zip (columnCells dataset chart.Y))) g.1 ∧
        g.2 ≠ [] ∧
        (chart.Aggregate = "sum" → applyAggregate chart.Aggregate g.2 = g.2.sum) ∧
        (chart.Aggregate = "avg" →
          applyAggregate chart.Aggregate g.2 = g.2.sum / (g.2.length : F)) ∧
        (chart.Aggregate = "count" → applyAggregate chart.Aggregate g.2 = (g.2.length : F)) ∧
        (chart.Aggregate = "max" → applyAggregate chart.Aggregate g.2 ∈ g.2 ∧
          ∀ v ∈ g.2, v ≤ applyAggregate chart.Aggregate g.2) ∧
        (chart.Aggregate = "min" → applyAggregate chart.Aggregate g.2 ∈ g.2 ∧
          ∀ v ∈ g.2, applyAggregate chart.Aggregate g.2 ≤ v) ∧
        (chart.Aggregate ≠ "sum" → chart.Aggregate ≠ "avg" → chart.Aggregate ≠ "count" →
          chart.Aggregate ≠ "max" → chart.Aggregate ≠ "min" →
          applyAggregate chart.Aggregate g.2 = g.2.sum)) := by
  have hspec := groupFold_spec (numericPairs parseFloat
    ((columnCells dataset chart.X).zip (columnCells dataset chart.Y)))
  refine ⟨_, ?_, hspec.1, ?_, ?_⟩
  · unfold generateChartData
    simp only [htype, if_true, hx, hy, hg, ha, ne_eq, not_false_eq_true, and_self,
      not_true_eq_false, if_false]
    unfold generateAggregatedData
    rw [GetColumnData_eq dataset _ hrect hxc, GetColumnData_eq dataset _ hrect hyc]
    simp only [List.length_map, ne_eq, not_true_eq_false, if_false]
    rw [aggStep_fold_eq]
    rfl
  · intro k
    have h := hspec.2.1 k
    simp only [GoMap.keys] at h
    rw [h, mem_numericPairs_keys]
  · intro g hgm
    obtain ⟨h1, h2⟩ := hspec.2.2 g hgm
    exact ⟨h1, h2, applyAggregate_spec chart.Aggregate g.2 h2⟩

/-- C14 as stated fails: on the sample dataset (x-values `A`, `B`, `A`; `y`
cells `1`, `x`, `2`) the `sum` projection has the single row of `A`; the
x-value `B`, whose only `y` cell does not parse, has no row. -/
theorem aggregated_missing_group_counterexample :
    generateChartData parseDecimal id (fun _ => "") sampleDataset
        (sampleChart "bar" "c" "v" "sum" 0) =
      Outcome.ok [[("c", Value.str "A"), ("v", Value.num 3)]] ∧
    (GetColumnData sampleDataset "c").map fmtV = ["A", "B", "A"] := by
  constructor <;> decide!

/-- C14 (amended), run on the sample dataset with `aggregate = avg`. -/
theorem aggregated_projection_witness :
    ∃ groups : List (String × List ℚ),
      generateChartData parseDecimal id (fun _ => "") sampleDataset
          (sampleChart "bar" "c" "v" "avg" 0) =
        Outcome.ok (groups.map (fun g =>
          GoMap.set (GoMap.set [] "c" (Value.str g.1)) "v"
            (Value.num (applyAggregate "avg" g.2)))) ∧
      (∀ g ∈ groups, applyAggregate "avg" g.2 = g.2.sum / (g.2.length : ℚ)) ∧
      generateChartData parseDecimal id (fun _ => "") sampleDataset
          (sampleChart "bar" "c" "v" "avg" 0) =
        Outcome.ok [[("c", Value.str "A"), ("v", Value.num (3 / 2))]] := by
  obtain ⟨groups, hd, _, _, hg⟩ := aggregated_projection parseDecimal id (fun _ => "")
    sampleDataset (sampleChart "bar" "c" "v" "avg" 0) (by decide) (by decide) (by decide)
    (by decide) (by decide) (Or.inl rfl) rfl (by decide)
  exact ⟨groups, hd, fun g hgm => (hg g hgm).2.2.2.1 rfl, by decide!⟩

end AggregateTheorems
section PieTheorems

variable {F : Type} [LinearOrderedField F]

theorem GoMap.get?_map_sum (m : GoMap (List F)) (k : String) :
    GoMap.get? (m.map (fun e => (e.1, e.2.sum))) k = (GoMap.get? m k).map List.sum := by
  induction m with
  | nil => rfl
  | cons e m ih =>
    obtain ⟨k', v'⟩ := e
    simp only [GoMap.get?] at ih
    by_cases h : k = k'
    · subst h
      simp [GoMap.get?, List.lookup]
    · have h' : (k == k') = false := by simpa using h
      simp [GoMap.get?, List.lookup, h', ih]

theorem GoMap.set_map_sum (m : GoMap (List F)) (k : String) (l : List F) :
    GoMap.set (m.map (fun e => (e.1, e.2.sum))) k l.sum =
      (GoMap.set m k l).map (fun e => (e.1, e.2.sum)) := by
  induction m with
  | nil => rfl
  | cons e m ih =>
    obtain ⟨k', v'⟩ := e
    by_cases h : k' = k
    · simp [GoMap.set, h]
    · simp only [List.map_cons, GoMap.set, h, if_false, ih]

/-- The summing step on a (key, number) pair. -/
theorem pieStep_fold_eq (parseFloat : String → Option F) (entries : List (Cell × Cell))
    (m : GoMap F) :
    entries.foldl (pieStep parseFloat) m =
      (numericPairs parseFloat entries).foldl
        (fun m p => GoMap.set m p.1 ((GoMap.get? m p.1).getD 0 + p.2)) m := by
  induction entries generalizing m with
  | nil => rfl
  | cons e es ih =>
    cases hn : toNumber parseFloat e.2 with
    | none => simp [List.foldl_cons, pieStep, numericPairs, List.filterMap_cons, hn, ih]
    | some v => simp [List.foldl_cons, pieStep, numericPairs, List.filterMap_cons, hn, ih]

/-- The running totals are the sums of the collected groups. -/
theorem sumFold_eq_map (pairs : List (String × F)) (m : GoMap (List F)) :
    pairs.foldl (fun m p => GoMap.set m p.1 ((GoMap.get? m p.1).getD 0 + p.2))
        (m.map (fun e => (e.1, e.2.sum))) =
      (pairs.foldl (fun m p => GoMap.set m p.1 ((GoMap.get? m p.1).getD [] ++ [p.2])) m).map
        (fun e => (e.1, e.2.sum)) := by
  induction pairs generalizing m with
  | nil => rfl
  | cons p ps ih =>
    rw [List.foldl_cons, List.foldl_cons, ← ih, ← GoMap.set_map_sum, GoMap.get?_map_sum]
    congr 2
    cases GoMap.get? m p.1 <;> simp

theorem sum_map_ite_eq (keys : List String) (hnd : keys.Nodup) (a : String) (x : F)
    (ha : a ∈ keys) : (keys.map (fun k => if a = k then x else 0)).sum = x := by
  induction keys with
  | nil => cases ha
  | cons k ks ih =>
    rw [List.nodup_cons] at hnd
    by_cases h : a = k
    · subst h
      have hz : (ks.map (fun k => if a = k then x else 0)) = ks.map (fun _ => (0 : F)) := by
        apply List.map_congr_left
        intro k hk
        have : a ≠ k := fun e => hnd.1 (e ▸ hk)
        simp [this]
      simp [hz]
    · have hm : a ∈ ks := by
        rcases List.mem_cons.1 ha with e | hm
        · exact absurd e h
        · exact hm
      simp [h, ih hnd.2 hm]

/-- The group sums over distinct keys covering the pairs add up to the sum of
all paired numbers. -/
theorem sum_valuesOf (keys : List String) (hnd : keys.Nodup) (pairs : List (String × F))
    (hcover : ∀ p ∈ pairs, p.1 ∈ keys) :
    (keys.map (fun k => (valuesOf pairs k).sum)).sum = (pairs.map Prod.snd).sum := by
  induction pairs with
  | nil => simp [valuesOf]
  | cons p ps ih =>
    have hstep : ∀ k, (valuesOf (p :: ps) k).sum =
        (if p.1 = k then p.2 else 0) + (valuesOf ps k).sum := by
      intro k
      by_cases h : p.1 = k
      · simp [valuesOf, List.filter_cons, h]
      · simp [valuesOf, List.filter_cons, h]
    simp only [hstep, List.sum_map_add, List.map_cons, List.sum_cons]
    rw [sum_map_ite_eq keys hnd p.1 p.2 (hcover p (List.mem_cons_self _ _)),
      ih (fun q hq => hcover q (List.mem_cons_of_mem _ hq))]

/-- C15 (amended): for the pie projection with `category` and `value` naming
existing columns, the output has exactly one row per distinct category string
that occurs in a source row whose value cell parses (no cap on the number of
rows); that row maps the category name to the category and the value name to
the sum of the parsable value cells of the rows with that category; the
output values total the sum of all parsable value cells. -/
theorem pie_projection [FloorRing F]
    (parseFloat : String → Option F) (sqrt : F → F) (fmtFixed2 : F → String)
    (dataset : Dataset F) (chart : ChartConfig)
    (hrect : ∀ row ∈ dataset.Rows, row.length = dataset.Columns.length)
    (hc : chart.Category ≠ "") (hv : chart.Value ≠ "")
    (hcc : chart.Category ∈ dataset.Columns.map (fun c => c.Name))
    (hvc : chart.Value ∈ dataset.Columns.map (fun c => c.Name))
    (htype : chart.Typ = "pie") :
    ∃ groups : List (String × List F),
      generateChartData parseFloat sqrt fmtFixed2 dataset chart =
        Outcome.ok (groups.map (fun g =>
          GoMap.set (GoMap.set [] chart.Category (Value.str g.1)) chart.Value
            (Value.num g.2.sum))) ∧
      (groups.map Prod.fst).Nodup ∧
      (∀ k, k ∈ groups.map Prod.fst ↔
        ∃ e ∈ (columnCells dataset chart.Category).zip (columnCells dataset chart.Value),
          fmtV e.1 = k ∧ (parseFloat (fmtV e.2)).isSome = true) ∧
      (∀ g ∈ groups,
        g.2 = valuesOf (numericPairs parseFloat
          ((columnCells dataset chart.Category).zip (columnCells dataset chart.Value))) g.1 ∧
        g.2 ≠ []) ∧
      (groups.map (fun g => g.2.sum)).sum =
        ((numericPairs parseFloat
          ((columnCells dataset chart.Category).zip
            (columnCells dataset chart.Value))).map Prod.snd).sum := by
  have hspec := groupFold_spec (numericPairs parseFloat
    ((columnCells dataset chart.Category).zip (columnCells dataset chart.Value)))
  have hkeys : ∀ k, k ∈ List.map Prod.fst
      ((numericPairs parseFloat
        ((columnCells dataset chart.Category).zip (columnCells dataset chart.Value))).foldl
        (fun (m : GoMap (List F)) p =>
          GoMap.set m p.1 ((GoMap.get? m p.1).getD [] ++ [p.2])) []) ↔
      k ∈ (numericPairs parseFloat
        ((columnCells dataset chart.Category).zip
          (columnCells dataset chart.Value))).map Prod.fst := hspec.2.1
  refine ⟨_, ?_, hspec.1, ?_, ?_, ?_⟩
  · unfold generateChartData
    have ht1 : ¬ (chart.Typ = "bar" ∨ chart.Typ = "line" ∨ chart.Typ = "area") := by
      rw [htype]
      decide
    have ht2 : ¬ chart.Typ = "scatter" := by rw [htype]; decide
    have ht3 : ¬ chart.Typ = "bubble" := by rw [htype]; decide
    simp only [ht1, ht2, ht3, htype, if_true, if_false, hc, hv, ne_eq, not_false_eq_true,
      and_self]
    unfold generatePieData
    rw [GetColumnData_eq dataset _ hrect hcc, GetColumnData_eq dataset _ hrect hvc]
    simp only [List.length_map, ne_eq, not_true_eq_false, if_false]
    rw [pieStep_fold_eq]
    have h := sumFold_eq_map (numericPairs parseFloat
      ((columnCells dataset chart.Category).zip (columnCells dataset chart.Value))) []
    simp only [List.map_nil] at h
    simp only [columnCells] at h
    rw [h, List.map_map]
    rfl
  · intro k
    rw [hkeys k, mem_numericPairs_keys]
  · intro g hgm
    exact hspec.2.2 g hgm
  · have hcover : ∀ p ∈ numericPairs parseFloat
        ((columnCells dataset chart.Category).zip (columnCells dataset chart.Value)),
        p.1 ∈ List.map Prod.fst
          ((numericPairs parseFloat
            ((columnCells dataset chart.Category).zip (columnCells dataset chart.Value))).foldl
            (fun (m : GoMap (List F)) p =>
              GoMap.set m p.1 ((GoMap.get? m p.1).getD [] ++ [p.2])) []) := by
      intro p hp
      exact (hkeys p.1).2 (List.mem_map_of_mem Prod.fst hp)
    rw [← sum_valuesOf _ hspec.1 _ hcover]
    simp only [GoMap.keys, List.map_map]
    congr 1
    apply List.map_congr_left
    intro g hgm
    simp only [Function.comp]
    rw [← (hspec.2.2 g hgm).1]

/-- C15 as stated fails: on the sample dataset (categories `A`, `B`, `A`; value
cells `1`, `x`, `2`) the pie projection has the single row of `A`; the
category `B`, whose only value cell does not parse, has no row. -/
theorem pie_missing_category_counterexample :
    generateChartData parseDecimal id (fun _ => "") sampleDataset
        (sampleChart "pie" "" "" "" 0) =
      Outcome.ok [[("c", Value.str "A"), ("v", Value.num 3)]] ∧
    (GetColumnData sampleDataset "c").map fmtV = ["A", "B", "A"] := by
  constructor <;> decide!

/-- C15 (amended), run on the sample dataset: the values of the output rows
total `3`, the sum of the parsable value cells `1` and `2`. -/
theorem pie_projection_witness :
    ∃ groups : List (String × List ℚ),
      generateChartData parseDecimal id (fun _ => "") sampleDataset
          (sampleChart "pie" "" "" "" 0) =
        Outcome.ok (groups.map (fun g =>
          GoMap.set (GoMap.set [] "c" (Value.str g.1)) "v" (Value.num g.2.sum))) ∧
      (groups.map (fun g => g.2.sum)).sum = 3 := by
  obtain ⟨groups, hd, _, _, _, hsum⟩ := pie_projection parseDecimal id (fun _ => "")
    sampleDataset (sampleChart "pie" "" "" "" 0) (by decide) (by decide) (by decide)
    (by decide) (by decide) rfl
  refine ⟨groups, hd, ?_⟩
  rw [hsum]
  decide!

end PieTheorems

/-! ## The histogram projection -/

/-- The bins partition the values: the per-bin counts add up to their number. -/
theorem sum_bin_counts {α : Type} (f : α → Int) (numbers : List α) (b : Nat)
    (h : ∀ n ∈ numbers, 0 ≤ f n ∧ f n < (b : Int)) :
    ((List.range b).map
      (fun (i : Nat) => (numbers.filter (fun n => f n = (i : Int))).length)).sum =
      numbers.length := by
  induction numbers with
  | nil => simp
  | cons n rest ih =>
    obtain ⟨h0, hlt⟩ := h n (List.mem_cons_self _ _)
    have hstep : ∀ i : Nat, ((n :: rest).filter (fun n => f n = (i : Int))).length =
        (if (f n).toNat = i then 1 else 0) +
          (rest.filter (fun n => f n = (i : Int))).length := by
      intro i
      by_cases hi : f n = (i : Int)
      · have : (f n).toNat = i := by omega
        simp [List.filter_cons, hi, this]
        omega
      · have : ¬ (f n).toNat = i := by omega
        simp [List.filter_cons, hi, this]
    have hmap : (List.range b).map
        (fun (i : Nat) => ((n :: rest).filter (fun n => f n = (i : Int))).length) =
        (List.range b).map (fun (i : Nat) => (if (f n).toNat = i then 1 else 0) +
          (rest.filter (fun n => f n = (i : Int))).length) :=
      List.map_congr_left (fun i _ => hstep i)
    rw [hmap, List.sum_map_add, ih (fun m hm => h m (List.mem_cons_of_mem _ hm))]
    have hone : ((List.range b).map (fun i => if (f n).toNat = i then 1 else 0)).sum = 1 := by
      have hmem : (f n).toNat ∈ List.range b := by
        rw [List.mem_range]
        omega
      have hnd : (List.range b).Nodup := List.nodup_range b
      generalize List.range b = l at hmem hnd
      induction l with
      | nil => cases hmem
      | cons k ks ihk =>
        rw [List.nodup_cons] at hnd
        by_cases hk : (f n).toNat = k
        · have hz : ks.map (fun i => if (f n).toNat = i then 1 else 0) =
              ks.map (fun _ => 0) := by
            apply List.map_congr_left
            intro i hi
            have : ¬ (f n).toNat = i := fun e => hnd.1 (hk ▸ e ▸ hi)
            simp [this]
          simp [hk, hz]
          rw [← hk, hz]
          simp
        · have hm : (f n).toNat ∈ ks := by
            rcases List.mem_cons.1 hmem with e | hm
            · exact absurd e hk
            · exact hm
          simp [hk, ihk hm hnd.2]
    rw [hone, List.length_cons]
    omega

/-- The loop that finds `min` and `max` returns a least and a greatest element. -/
theorem minMaxLoop_spec {F : Type} [LinearOrderedField F] (numbers : List F) (hne : numbers ≠ []) :
    ((minMaxLoop numbers).1 ∈ numbers ∧ ∀ v ∈ numbers, (minMaxLoop numbers).1 ≤ v) ∧
    ((minMaxLoop numbers).2 ∈ numbers ∧ ∀ v ∈ numbers, v ≤ (minMaxLoop numbers).2) := by
  have hpair : ∀ (l : List F) (a b : F),
      l.foldl (fun (mm : F × F) n =>
        (if n < mm.1 then n else mm.1, if n > mm.2 then n else mm.2)) (a, b) =
      (l.foldl (fun result v => if v < result then v else result) a,
        l.foldl (fun result v => if v > result then v else result) b) := by
    intro l
    induction l with
    | nil => intro a b; rfl
    | cons x xs ih => intro a b; simp only [List.foldl_cons, ih]
  have hpos : 0 < numbers.length := List.length_pos.2 hne
  have hseed : at_ numbers 0 ∈ numbers := at_mem numbers 0 hpos
  have hmin := foldl_min_spec numbers (at_ numbers 0)
  have hmax := foldl_max_spec numbers (at_ numbers 0)
  unfold minMaxLoop
  rw [hpair]
  refine ⟨⟨?_, hmin.2.1⟩, ⟨?_, hmax.2.1⟩⟩
  · rcases hmin.2.2 with h | h
    · simp only [h]; exact hseed
    · exact h
  · rcases hmax.2.2 with h | h
    · simp only [h]; exact hseed
    · exact h

section HistogramTheorems

variable {F : Type} [LinearOrderedField F] [FloorRing F]

/-- With at least one bin the clamped index lies in `[0, bins - 1]`. -/
theorem binIndexOf_range (mn w : F) (bins : Int) (hb : 1 ≤ bins) (n : F) :
    0 ≤ binIndexOf mn w bins n ∧ binIndexOf mn w bins n ≤ bins - 1 := by
  unfold binIndexOf
  simp only []
  split_ifs <;> omega

/-- For a value not below `mn` and a positive width the clamped index is the
floor of the quotient, capped at `bins - 1`. -/
theorem binIndexOf_eq_min (mn w : F) (bins : Int) (hb : 1 ≤ bins) (n : F) (hn : mn ≤ n)
    (hw : 0 < w) : binIndexOf mn w bins n = min ⌊(n - mn) / w⌋ (bins - 1) := by
  have hq : 0 ≤ (n - mn) / w := div_nonneg (sub_nonneg.2 hn) hw.le
  have hfl : 0 ≤ ⌊(n - mn) / w⌋ := Int.floor_nonneg.2 hq
  unfold binIndexOf truncInt
  simp only [hq, if_true]
  by_cases hge : ⌊(n - mn) / w⌋ ≥ bins
  · rw [if_pos hge]
    have h0 : ¬ (bins - 1 < 0) := by omega
    rw [if_neg h0]
    omega
  · rw [if_neg hge]
    have h0 : ¬ (⌊(n - mn) / w⌋ < 0) := by omega
    rw [if_neg h0]
    omega

theorem getD_set (l : List Nat) (i j x : Nat) (hi : i < l.length) :
    (l.set i x).getD j 0 = if j = i then x else l.getD j 0 := by
  simp only [List.getD_eq_getElem?_getD, List.getElem?_set]
  by_cases h : i = j
  · subst h
    simp [hi]
  · have h' : ¬ j = i := fun e => h e.symm
    simp [h, h']

/-- The counting loop does not leave the slice when every index is in range,
and it adds to each bin the number of values with that index. -/
theorem countLoop_spec (mn w : F) (bins : Int) (numbers : List F) (counts₀ : List Nat)
    (h : ∀ n ∈ numbers, 0 ≤ binIndexOf mn w bins n ∧
      (binIndexOf mn w bins n).toNat < counts₀.length) :
    ∃ counts, countLoop mn w bins counts₀ numbers = some counts ∧
      counts.length = counts₀.length ∧
      ∀ i : Nat, counts.getD i 0 = counts₀.getD i 0 +
        (numbers.filter (fun n => binIndexOf mn w bins n = (i : Int))).length := by
  induction numbers generalizing counts₀ with
  | nil => exact ⟨counts₀, rfl, rfl, fun i => by simp⟩
  | cons n rest ih =>
    obtain ⟨h0, hlt⟩ := h n (List.mem_cons_self _ _)
    have hincr : incrAt counts₀ (binIndexOf mn w bins n) =
        some (counts₀.set (binIndexOf mn w bins n).toNat
          (counts₀.getD (binIndexOf mn w bins n).toNat 0 + 1)) := by
      simp [incrAt, h0, hlt]
    obtain ⟨counts, hc, hlen, hget⟩ := ih
      (counts₀.set (binIndexOf mn w bins n).toNat
        (counts₀.getD (binIndexOf mn w bins n).toNat 0 + 1))
      (fun m hm => by
        rw [List.length_set]
        exact h m (List.mem_cons_of_mem _ hm))
    refine ⟨counts, ?_, ?_, ?_⟩
    · simp only [countLoop, hincr]
      exact hc
    · rw [hlen, List.length_set]
    · intro i
      rw [hget i, getD_set _ _ _ _ hlt]
      by_cases hi : i = (binIndexOf mn w bins n).toNat
      · have hi' : binIndexOf mn w bins n = (i : Int) := by omega
        have hf : (n :: rest).filter (fun n => binIndexOf mn w bins n = (i : Int)) =
            n :: rest.filter (fun n => binIndexOf mn w bins n = (i : Int)) := by
          rw [List.filter_cons]
          simp [hi']
        rw [if_pos hi, hf, List.length_cons, ← hi]
        omega
      · have hi' : ¬ binIndexOf mn w bins n = (i : Int) := by omega
        have hf : (n :: rest).filter (fun n => binIndexOf mn w bins n = (i : Int)) =
            rest.filter (fun n => binIndexOf mn w bins n = (i : Int)) := by
          rw [List.filter_cons]
          simp [hi']
        rw [if_neg hi, hf]

/-- With at least one bin the histogram is computed without a panic: one row
per bin, with the count of the values whose clamped index is that bin. -/
theorem generateHistogramData_ok (parseFloat : String → Option F) (fmtFixed2 : F → String)
    (dataset : Dataset F) (chart : ChartConfig)
    (hnum : extractNumbers parseFloat (GetColumnData dataset chart.X) ≠ [])
    (hB : 1 ≤ (if chart.Bins = 0 then (20 : Int) else chart.Bins)) :
    ∃ binCounts : List Nat,
      generateHistogramData parseFloat fmtFixed2 dataset chart =
        Outcome.ok ((List.range (if chart.Bins = 0 then (20 : Int) else chart.Bins).toNat).map
          (histogramRow fmtFixed2
            (minMaxLoop (extractNumbers parseFloat (GetColumnData dataset chart.X))).1
            (((minMaxLoop (extractNumbers parseFloat (GetColumnData dataset chart.X))).2 -
              (minMaxLoop (extractNumbers parseFloat (GetColumnData dataset chart.X))).1) /
              ((if chart.Bins = 0 then (20 : Int) else chart.Bins : Int) : F))
            binCounts)) ∧
      ∀ i : Nat, binCounts.getD i 0 =
        ((extractNumbers parseFloat (GetColumnData dataset chart.X)).filter
          (fun n => binIndexOf
            (minMaxLoop (extractNumbers parseFloat (GetColumnData dataset chart.X))).1
            (((minMaxLoop (extractNumbers parseFloat (GetColumnData dataset chart.X))).2 -
              (minMaxLoop (extractNumbers parseFloat (GetColumnData dataset chart.X))).1) /
              ((if chart.Bins = 0 then (20 : Int) else chart.Bins : Int) : F))
            (if chart.Bins = 0 then (20 : Int) else chart.Bins) n = (i : Int))).length := by
  generalize hbins : (if chart.Bins = 0 then (20 : Int) else chart.Bins) = bins at hB ⊢
  generalize hnums : extractNumbers parseFloat (GetColumnData dataset chart.X) = numbers at hnum ⊢
  obtain ⟨counts, hc, _, hget⟩ := countLoop_spec (minMaxLoop numbers).1
    (((minMaxLoop numbers).2 - (minMaxLoop numbers).1) / (bins : F)) bins numbers
    (List.replicate bins.toNat 0)
    (fun n _ => by
      have hr := binIndexOf_range (minMaxLoop numbers).1
        (((minMaxLoop numbers).2 - (minMaxLoop numbers).1) / (bins : F)) bins hB n
      rw [List.length_replicate]
      omega)
  refine ⟨counts, ?_, ?_⟩
  · have hlen : ¬ numbers.length = 0 := by
      intro h
      exact hnum (List.length_eq_zero.1 h)
    have hneg : ¬ bins < 0 := by omega
    simp only [generateHistogramData, hnums, hbins, hlen, hneg, if_false, hc]
  · intro i
    rw [hget i]
    have hz : (List.replicate bins.toNat 0).getD i 0 = 0 := by
      rw [List.getD_eq_getElem?_getD, List.getElem?_replicate]
      split <;> rfl
    rw [hz, Nat.zero_add]

/-- Every chart whose `bins` is not negative is projected without a panic. -/
theorem generateChartData_ok_of_bins_nonneg (parseFloat : String → Option F) (sqrt : F → F)
    (fmtFixed2 : F → String) (dataset : Dataset F) (chart : ChartConfig)
    (hbins : 0 ≤ chart.Bins) :
    ∃ data, generateChartData parseFloat sqrt fmtFixed2 dataset chart = Outcome.ok data := by
  have hH : ∃ data, generateHistogramData parseFloat fmtFixed2 dataset chart =
      Outcome.ok data := by
    by_cases hnum : extractNumbers parseFloat (GetColumnData dataset chart.X) = []
    · exact ⟨[], by simp [generateHistogramData, hnum]⟩
    · have hB : 1 ≤ (if chart.Bins = 0 then (20 : Int) else chart.Bins) := by
        split_ifs <;> omega
      obtain ⟨counts, hc, _⟩ := generateHistogramData_ok parseFloat fmtFixed2 dataset chart
        hnum hB
      exact ⟨_, hc⟩
  unfold generateChartData
  repeat' split
  all_goals first
    | exact ⟨_, rfl⟩
    | exact hH

end HistogramTheorems
section HistogramClaim

variable {F : Type} [LinearOrderedField F] [FloorRing F]

/-- C16 (amended): over exact arithmetic (`float64` read as an ordered field
with an exact floor), for a histogram chart on `x`,
with no numeric value the output is empty; with at least one numeric value,
`B = bins` (20 when `bins` is 0),
`B ≥ 1`, `mn` and `mx` the least and greatest numeric value and `mx > mn`, the
output has exactly `B` rows in ascending bin order; with `w = (mx - mn) / B`,
row `i` has `start = mn + i*w`, `end = mn + (i+1)*w`, the label made of both
formatted to two decimals, and as `count` the number of numeric values `v`
with `min(floor((v - mn) / w), B - 1) = i`; the counts sum to the number of
numeric values. -/
theorem histogram_projection (parseFloat : String → Option F) (sqrt : F → F)
    (fmtFixed2 : F → String) (dataset : Dataset F) (chart : ChartConfig)
    (htype : chart.Typ = "histogram") (hx : chart.X ≠ "") :
    (extractNumbers parseFloat (GetColumnData dataset chart.X) = [] →
      generateChartData parseFloat sqrt fmtFixed2 dataset chart = Outcome.ok []) ∧
    ∀ (B : Int) (mn mx : F),
      B = (if chart.Bins = 0 then 20 else chart.Bins) → 1 ≤ B →
      mn ∈ extractNumbers parseFloat (GetColumnData dataset chart.X) →
      (∀ v ∈ extractNumbers parseFloat (GetColumnData dataset chart.X), mn ≤ v) →
      mx ∈ extractNumbers parseFloat (GetColumnData dataset chart.X) →
      (∀ v ∈ extractNumbers parseFloat (GetColumnData dataset chart.X), v ≤ mx) →
      mn < mx →
      ∃ data : List (ChartRow F),
        generateChartData parseFloat sqrt fmtFixed2 dataset chart = Outcome.ok data ∧
        data.length = B.toNat ∧
        (∀ i : Nat, i < B.toNat →
          data[i]? = some
            [("bin", Value.str (fmtFixed2 (mn + (i : F) * ((mx - mn) / (B : F))) ++ "-" ++
                fmtFixed2 (mn + ((i : F) + 1) * ((mx - mn) / (B : F))))),
              ("count", Value.int
                (((extractNumbers parseFloat (GetColumnData dataset chart.X)).filter
                  (fun v => min ⌊(v - mn) / ((mx - mn) / (B : F))⌋ (B - 1) = (i : Int))).length :
                    Nat)),
              ("start", Value.num (mn + (i : F) * ((mx - mn) / (B : F)))),
              ("end", Value.num (mn + ((i : F) + 1) * ((mx - mn) / (B : F))))]) ∧
        ((List.range B.toNat).map (fun (i : Nat) =>
          ((extractNumbers parseFloat (GetColumnData dataset chart.X)).filter
            (fun v => min ⌊(v - mn) / ((mx - mn) / (B : F))⌋ (B - 1) = (i : Int))).length)).sum =
          (extractNumbers parseFloat (GetColumnData dataset chart.X)).length := by
  have hgen : generateChartData parseFloat sqrt fmtFixed2 dataset chart =
      generateHistogramData parseFloat fmtFixed2 dataset chart := by
    unfold generateChartData
    have ht1 : ¬ (chart.Typ = "bar" ∨ chart.Typ = "line" ∨ chart.Typ = "area") := by
      rw [htype]; decide
    have ht2 : ¬ chart.Typ = "scatter" := by rw [htype]; decide
    have ht3 : ¬ chart.Typ = "bubble" := by rw [htype]; decide
    have ht4 : ¬ chart.Typ = "pie" := by rw [htype]; decide
    have ht5 : ¬ chart.Typ = "combo" := by rw [htype]; decide
    rw [if_neg ht1, if_neg ht2, if_neg ht3, if_neg ht4, if_neg ht5, if_pos htype, if_pos hx]
  constructor
  · intro hnil
    rw [hgen]
    simp [generateHistogramData, hnil]
  · intro B mn mx hB hB1 hmn hmnle hmx hmxle hlt
    have hnum : extractNumbers parseFloat (GetColumnData dataset chart.X) ≠ [] := by
      intro h
      rw [h] at hmn
      cases hmn
    obtain ⟨binCounts, hd, hget⟩ := generateHistogramData_ok parseFloat fmtFixed2 dataset chart
      hnum (by rw [← hB]; exact hB1)
    have hmm := minMaxLoop_spec _ hnum
    have e1 : (minMaxLoop (extractNumbers parseFloat (GetColumnData dataset chart.X))).1 = mn :=
      le_antisymm (hmm.1.2 mn hmn) (hmnle _ hmm.1.1)
    have e2 : (minMaxLoop (extractNumbers parseFloat (GetColumnData dataset chart.X))).2 = mx :=
      le_antisymm (hmxle _ hmm.2.1) (hmm.2.2 mx hmx)
    rw [e1, e2, ← hB] at hd
    simp only [e1, e2, ← hB] at hget
    have hBpos : (0 : F) < (B : F) := by exact_mod_cast (by omega : (0 : Int) < B)
    have hw : 0 < (mx - mn) / (B : F) := div_pos (sub_pos.2 hlt) hBpos
    have hcount : ∀ i : Nat, binCounts.getD i 0 =
        ((extractNumbers parseFloat (GetColumnData dataset chart.X)).filter
          (fun v => min ⌊(v - mn) / ((mx - mn) / (B : F))⌋ (B - 1) = (i : Int))).length := by
      intro i
      rw [hget i]
      congr 1
      apply List.filter_congr
      intro v hv
      rw [binIndexOf_eq_min mn _ B hB1 v (hmnle v hv) hw]
    refine ⟨_, by rw [hgen]; exact hd, by simp, ?_, ?_⟩
    · intro i hi
      rw [List.getElem?_map, List.getElem?_range hi]
      simp only [Option.map_some', histogramRow, hcount i, Nat.cast_add, Nat.cast_one]
    · have hsum := sum_bin_counts
        (fun v => binIndexOf mn ((mx - mn) / (B : F)) B v)
        (extractNumbers parseFloat (GetColumnData dataset chart.X)) B.toNat
        (fun v _ => by
          have hr := binIndexOf_range mn ((mx - mn) / (B : F)) B hB1 v
          constructor
          · exact hr.1
          · have : ((B.toNat : Nat) : Int) = B := Int.toNat_of_nonneg (by omega)
            simp only []
            omega)
      rw [← hsum]
      congr 1
      apply List.map_congr_left
      intro i _
      rw [← hcount i, hget i]

/-- C16 (amended), run on the values `0..99` with `bins = 10`: ten rows,
width `9.9`,
every count is 10 (the label formatter is a stub). -/
theorem histogram_projection_witness :
    (∃ data : List (ChartRow ℚ),
      generateChartData parseDecimal id (fun _ => "") rangeDataset
        (sampleChart "histogram" "n" "" "" 10) = Outcome.ok data ∧
      data.length = 10) ∧
    generateChartData parseDecimal id (fun _ => "") rangeDataset
        (sampleChart "histogram" "n" "" "" 10) =
      Outcome.ok ((List.range 10).map (fun (i : Nat) =>
        [("bin", Value.str "-"), ("count", Value.int 10),
          ("start", Value.num ((i : ℚ) * (99 / 10))),
          ("end", Value.num (((i : ℚ) + 1) * (99 / 10)))])) := by
  constructor
  · obtain ⟨data, hd, hlen, _, _⟩ := (histogram_projection parseDecimal id (fun _ => "")
      rangeDataset (sampleChart "histogram" "n" "" "" 10) rfl
      (by decide)).2 10 0 99 (by decide) (by decide) (by decide!) (by decide!) (by decide!)
      (by decide!) (by decide!)
    exact ⟨data, hd, hlen⟩
  · decide!

end HistogramClaim

/-- C12 fails on the code: a histogram chart with `bins = -1` on the numeric
column `v` of the sample dataset makes `make([]int, bins)` panic. -/
theorem histogram_negative_bins_panics :
    generateChartData parseDecimal id (fun _ => "") sampleDataset
        (sampleChart "histogram" "v" "" "" (-1)) =
      Outcome.panic "makeslice: len out of range" := by
  decide!

/-! ## The boxplot projection -/

section BoxplotTheorems

variable {F : Type} [LinearOrderedField F] [FloorRing F]

/-- The dispatcher on a boxplot chart with `y` set. -/
theorem generateChartData_boxplot (parseFloat : String → Option F) (sqrt : F → F)
    (fmtFixed2 : F → String) (dataset : Dataset F) (chart : ChartConfig)
    (htype : chart.Typ = "boxplot") (hy : chart.Y ≠ "") :
    generateChartData parseFloat sqrt fmtFixed2 dataset chart =
      Outcome.ok (generateBoxplotData parseFloat dataset chart) := by
  unfold generateChartData
  have ht1 : ¬ (chart.Typ = "bar" ∨ chart.Typ = "line" ∨ chart.Typ = "area") := by
    rw [htype]; decide
  have ht2 : ¬ chart.Typ = "scatter" := by rw [htype]; decide
  have ht3 : ¬ chart.Typ = "bubble" := by rw [htype]; decide
  have ht4 : ¬ chart.Typ = "pie" := by rw [htype]; decide
  have ht5 : ¬ chart.Typ = "combo" := by rw [htype]; decide
  have ht6 : ¬ chart.Typ = "histogram" := by rw [htype]; decide
  rw [if_neg ht1, if_neg ht2, if_neg ht3, if_neg ht4, if_neg ht5, if_neg ht6, if_pos htype,
    if_pos hy]

/-- The quartiles over a linear order (`float64` read as an ordered field: no
NaN): for a boxplot chart on a column with `n ≥ 1` numeric values and `sorted`
their ascending arrangement, the indices `n/4`, `n/2` and `3n/4` are
within range and the single output row has `q1 = sorted[n/4]`,
`median = sorted[n/2]`, `q3 = sorted[3n/4]`, with `q1 ≤ median ≤ q3`. -/
theorem boxplot_quartiles (parseFloat : String → Option F) (sqrt : F → F)
    (fmtFixed2 : F → String) (dataset : Dataset F) (chart : ChartConfig)
    (htype : chart.Typ = "boxplot") (hy : chart.Y ≠ "") (sorted : List F)
    (hsorted : sorted.Sorted (· ≤ ·))
    (hperm : sorted.Perm (extractNumbers parseFloat (GetColumnData dataset chart.Y)))
    (hn : 1 ≤ sorted.length) :
    sorted.length / 4 < sorted.length ∧ sorted.length / 2 < sorted.length ∧
    3 * sorted.length / 4 < sorted.length ∧
    ∃ (q1 median q3 minVal maxVal : F) (outliers : List F),
      sorted[sorted.length / 4]? = some q1 ∧
      sorted[sorted.length / 2]? = some median ∧
      sorted[3 * sorted.length / 4]? = some q3 ∧
      generateChartData parseFloat sqrt fmtFixed2 dataset chart =
        Outcome.ok [[("min", Value.num minVal), ("q1", Value.num q1),
          ("median", Value.num median), ("q3", Value.num q3), ("max", Value.num maxVal),
          ("outliers", Value.nums outliers)]] ∧
      q1 ≤ median ∧ median ≤ q3 := by
  have h1 : sorted.length / 4 < sorted.length := by omega
  have h2 : sorted.length / 2 < sorted.length := by omega
  have h3 : 3 * sorted.length / 4 < sorted.length := by omega
  have hsort := sortFloat64s_unique _ sorted hsorted hperm
  have hlen : ¬ (extractNumbers parseFloat (GetColumnData dataset chart.Y)).length = 0 := by
    rw [← hperm.length_eq]
    omega
  refine ⟨h1, h2, h3, at_ sorted (sorted.length / 4), at_ sorted (sorted.length / 2),
    at_ sorted (3 * sorted.length / 4), (boxplotValues sorted).minVal,
    (boxplotValues sorted).maxVal, (boxplotValues sorted).outliers,
    getElem?_eq_at _ _ h1, getElem?_eq_at _ _ h2, getElem?_eq_at _ _ h3, ?_, ?_, ?_⟩
  · rw [generateChartData_boxplot parseFloat sqrt fmtFixed2 dataset chart htype hy]
    simp only [generateBoxplotData, hlen, if_false, hsort]
    rfl
  · exact sorted_at_le sorted hsorted _ _ (by omega) h2
  · exact sorted_at_le sorted hsorted _ _ (by omega) h3

/-- The quartiles, run on the values `3, 1, 2, 8, 5, 4, 7, 6` (sorted: `1..8`):
the row
has `q1 = 3`, `median = 5`, `q3 = 7`. -/
theorem boxplot_quartiles_witness :
    (∃ (q1 median q3 minVal maxVal : ℚ) (outliers : List ℚ),
      ([1, 2, 3, 4, 5, 6, 7, 8] : List ℚ)[2]? = some q1 ∧
      ([1, 2, 3, 4, 5, 6, 7, 8] : List ℚ)[4]? = some median ∧
      ([1, 2, 3, 4, 5, 6, 7, 8] : List ℚ)[6]? = some q3 ∧
      generateChartData parseDecimal id (fun _ => "") eightDataset
          (sampleChart "boxplot" "" "y" "" 0) =
        Outcome.ok [[("min", Value.num minVal), ("q1", Value.num q1),
          ("median", Value.num median), ("q3", Value.num q3), ("max", Value.num maxVal),
          ("outliers", Value.nums outliers)]]) ∧
    generateChartData parseDecimal id (fun _ => "") eightDataset
        (sampleChart "boxplot" "" "y" "" 0) =
      Outcome.ok [[("min", Value.num 1), ("q1", Value.num 3), ("median", Value.num 5),
        ("q3", Value.num 7), ("max", Value.num 8), ("outliers", Value.nums [])]] := by
  constructor
  · obtain ⟨_, _, _, q1, median, q3, minVal, maxVal, outliers, h1, h2, h3, hd, _, _⟩ :=
      boxplot_quartiles parseDecimal id (fun _ => "") eightDataset
        (sampleChart "boxplot" "" "y" "" 0) rfl (by decide) [1, 2, 3, 4, 5, 6, 7, 8]
        (by decide!) (by decide!) (by decide)
    exact ⟨q1, median, q3, minVal, maxVal, outliers, h1, h2, h3, hd⟩
  · decide!

end BoxplotTheorems

/-- The seed of the minimum loop is the least value, so no in-fence value ever
replaces it; likewise for the maximum: the reported `min` and `max` are the
extremes of all values. -/
theorem boxplotValues_min_max {F : Type} [LinearOrderedField F] (sorted : List F) (hsorted : sorted.Sorted (· ≤ ·))
    (hn : 1 ≤ sorted.length) :
    (boxplotValues sorted).minVal = at_ sorted 0 ∧
    (boxplotValues sorted).maxVal = at_ sorted (sorted.length - 1) := by
  have hmin : ∀ (l : List F) (lo seed : F), (∀ v ∈ l, seed ≤ v) →
      l.foldl (fun minVal n => if n ≥ lo ∧ n < minVal then n else minVal) seed = seed := by
    intro l lo seed
    induction l with
    | nil => intro _; rfl
    | cons x xs ih =>
      intro h
      have hx : ¬ (x ≥ lo ∧ x < seed) := fun hc =>
        absurd hc.2 (not_lt.2 (h x (List.mem_cons_self _ _)))
      rw [List.foldl_cons, if_neg hx]
      exact ih (fun v hv => h v (List.mem_cons_of_mem _ hv))
  have hmax : ∀ (l : List F) (hi seed : F), (∀ v ∈ l, v ≤ seed) →
      l.foldl (fun maxVal n => if n ≤ hi ∧ n > maxVal then n else maxVal) seed = seed := by
    intro l hi seed
    induction l with
    | nil => intro _; rfl
    | cons x xs ih =>
      intro h
      have hx : ¬ (x ≤ hi ∧ x > seed) := fun hc =>
        absurd hc.2 (not_lt.2 (h x (List.mem_cons_self _ _)))
      rw [List.foldl_cons, if_neg hx]
      exact ih (fun v hv => h v (List.mem_cons_of_mem _ hv))
  constructor
  · exact hmin sorted _ _ (fun v hv => by
      obtain ⟨i, hi, rfl⟩ := mem_eq_at sorted v hv
      exact sorted_at_le sorted hsorted 0 i (Nat.zero_le i) hi)
  · exact hmax sorted _ _ (fun v hv => by
      obtain ⟨i, hi, rfl⟩ := mem_eq_at sorted v hv
      exact sorted_at_le sorted hsorted i _ (by omega) (by omega))

/-- C18 fails on the code: for the values `1, 10, 11, 12, 13, 100` the fences
are `5.5` and `17.5`, the outliers are `1` and `100`, and the reported `min`
and `max` are `1` and `100`, the two outliers, not the in-fence extremes `10`
and `13`. -/
theorem boxplot_min_max_outliers :
    generateChartData parseDecimal id (fun _ => "") outlierDataset
        (sampleChart "boxplot" "" "y" "" 0) =
      Outcome.ok [[("min", Value.num 1), ("q1", Value.num 10), ("median", Value.num 12),
        ("q3", Value.num 13), ("max", Value.num 100), ("outliers", Value.nums [1, 100])]] := by
  decide!

/-! ## The correlation coefficient -/

theorem zip_map_fst {F : Type} (g : F → F) (x y : List F) (h : x.length = y.length) :
    (x.zip y).map (fun p => g p.1) = x.map g := by
  have : (x.zip y).map (fun p => g p.1) = ((x.zip y).map Prod.fst).map g := by
    rw [List.map_map]
    rfl
  rw [this, List.map_fst_zip]
  omega

theorem zip_map_snd {F : Type} (g : F → F) (x y : List F) (h : x.length = y.length) :
    (x.zip y).map (fun p => g p.2) = y.map g := by
  have : (x.zip y).map (fun p => g p.2) = ((x.zip y).map Prod.snd).map g := by
    rw [List.map_map]
    rfl
  rw [this, List.map_snd_zip]
  omega

section CorrelationTheorems

variable {F : Type} [LinearOrderedField F]

theorem foldl_add_map_sum {α : Type} (f : α → F) (l : List α) (acc : F) :
    l.foldl (fun a i => a + f i) acc = acc + (l.map f).sum := by
  induction l generalizing acc with
  | nil => simp
  | cons x xs ih => rw [List.foldl_cons, ih, List.map_cons, List.sum_cons, add_assoc]

theorem foldl_pair_sum {α : Type} (f g : α → F) (l : List α) (a b : F) :
    l.foldl (fun (s : F × F) i => (s.1 + f i, s.2 + g i)) (a, b) =
      (a + (l.map f).sum, b + (l.map g).sum) := by
  induction l generalizing a b with
  | nil => simp
  | cons x xs ih =>
    rw [List.foldl_cons, ih]
    simp [add_assoc]

theorem foldl_triple_sum {α : Type} (f g h : α → F) (l : List α) (a b c : F) :
    l.foldl (fun (s : F × F × F) i => (s.1 + f i, s.2.1 + g i, s.2.2 + h i)) (a, b, c) =
      (a + (l.map f).sum, b + (l.map g).sum, c + (l.map h).sum) := by
  induction l generalizing a b c with
  | nil => simp
  | cons x xs ih =>
    rw [List.foldl_cons, ih]
    simp [add_assoc]

/-- Reading two slices of equal length by index is reading their zip. -/
theorem range_map_at (k : F → F → F) (x y : List F) (h : x.length = y.length) :
    (List.range x.length).map (fun i => k (at_ x i) (at_ y i)) =
      (x.zip y).map (fun p => k p.1 p.2) := by
  apply List.ext_getElem
  · simp [h]
  · intro i h1 h2
    have hx : i < x.length := by simpa using h1
    have hy : i < y.length := by rw [← h]; exact hx
    simp [at_, List.getD_eq_getElem?_getD, List.getElem?_eq_getElem hx,
      List.getElem?_eq_getElem hy]

/-- The coefficient computed on two non-empty lists of equal length. -/
theorem calculateCorrelation_of_len (sqrt : F → F) (x y : List F)
    (h : x.length = y.length) (hpos : x.length ≠ 0) :
    calculateCorrelation sqrt x y =
      if sqrt (sqSum x * sqSum y) = 0 then 0 else covSum x y / sqrt (sqSum x * sqSum y) := by
  have hmin : (if y.length < x.length then y.length else x.length) = x.length := by
    rw [if_neg (by omega)]
  have hguard : ¬ (x.length ≠ y.length ∨ x.length = 0) := by
    rintro (h1 | h1)
    · exact h1 h
    · exact hpos h1
  have hsumx : ((List.range x.length).map (fun i => at_ x i)).sum = x.sum := by
    have := range_map_at (fun a _ => a) x y h
    rw [this, zip_map_fst (fun a => a) x y h, List.map_id']
  have hsumy : ((List.range x.length).map (fun i => at_ y i)).sum = y.sum := by
    have := range_map_at (fun _ b => b) x y h
    rw [this, zip_map_snd (fun b => b) x y h, List.map_id']
  have hmx : x.sum / (x.length : F) = meanOf x := rfl
  have hmy : y.sum / (x.length : F) = meanOf y := by rw [h]; rfl
  unfold calculateCorrelation
  rw [if_neg hguard]
  simp only [hmin, if_neg hpos, foldl_pair_sum, foldl_triple_sum, zero_add, hsumx, hsumy, hmx,
    hmy]
  rw [range_map_at (fun a b => (a - meanOf x) * (b - meanOf y)) x y h,
    range_map_at (fun a _ => (a - meanOf x) * (a - meanOf x)) x y h,
    range_map_at (fun _ b => (b - meanOf y) * (b - meanOf y)) x y h,
    zip_map_fst (fun a => (a - meanOf x) * (a - meanOf x)) x y h,
    zip_map_snd (fun b => (b - meanOf y) * (b - meanOf y)) x y h]
  rfl

theorem sqSum_nonneg (x : List F) : 0 ≤ sqSum x := by
  unfold sqSum
  apply List.sum_nonneg
  intro t ht
  obtain ⟨v, _, rfl⟩ := List.mem_map.1 ht
  exact mul_self_nonneg _

theorem sum_eq_zero_of_nonneg (l : List F) (hnn : ∀ t ∈ l, 0 ≤ t) (hs : l.sum = 0) :
    ∀ t ∈ l, t = 0 := by
  induction l with
  | nil => intro t ht; cases ht
  | cons a as ih =>
    have ha : 0 ≤ a := hnn a (List.mem_cons_self _ _)
    have has : 0 ≤ as.sum := List.sum_nonneg (fun t ht => hnn t (List.mem_cons_of_mem _ ht))
    rw [List.sum_cons] at hs
    have ha0 : a = 0 := by linarith
    have hs0 : as.sum = 0 := by linarith
    intro t ht
    rcases List.mem_cons.1 ht with rfl | ht
    · exact ha0
    · exact ih (fun t ht => hnn t (List.mem_cons_of_mem _ ht)) hs0 t ht

/-- The mean of a list whose elements all equal `a`. -/
theorem meanOf_const (x : List F) (a : F) (hne : x ≠ []) (h : ∀ v ∈ x, v = a) :
    meanOf x = a := by
  have hsum : x.sum = (x.length : F) * a := by
    clear hne
    induction x with
    | nil => simp
    | cons v vs ih =>
      rw [List.sum_cons, ih (fun w hw => h w (List.mem_cons_of_mem _ hw)),
        h v (List.mem_cons_self _ _), List.length_cons]
      push_cast
      ring
  have hlen : (x.length : F) ≠ 0 := by
    have : 0 < x.length := List.length_pos.2 hne
    exact_mod_cast this.ne'
  unfold meanOf
  rw [hsum]
  field_simp

/-- A list has zero variance exactly when all its elements are equal. -/
theorem sqSum_eq_zero_iff (x : List F) : sqSum x = 0 ↔ ∀ a ∈ x, ∀ b ∈ x, a = b := by
  constructor
  · intro h a ha b hb
    have hz := sum_eq_zero_of_nonneg _
      (fun t ht => by
        obtain ⟨v, _, rfl⟩ := List.mem_map.1 ht
        exact mul_self_nonneg _) h
    have hv : ∀ v ∈ x, v = meanOf x := by
      intro v hv
      have := hz _ (List.mem_map_of_mem (fun v => (v - meanOf x) * (v - meanOf x)) hv)
      have h0 : v - meanOf x = 0 := mul_self_eq_zero.1 this
      linarith
    rw [hv a ha, hv b hb]
  · intro h
    by_cases hne : x = []
    · simp [hne, sqSum]
    · obtain ⟨a, ha⟩ := List.exists_mem_of_ne_nil x hne
      have hm := meanOf_const x a hne (fun v hv => h v hv a ha)
      unfold sqSum
      apply List.sum_eq_zero
      intro t ht
      obtain ⟨v, hv, rfl⟩ := List.mem_map.1 ht
      rw [hm, h v hv a ha]
      ring

/-- A square root that is non-negative and squares back vanishes only at zero. -/
theorem sqrt_eq_zero_iff (sqrt : F → F)
    (hsqrt : ∀ t : F, 0 ≤ t → 0 ≤ sqrt t ∧ sqrt t ^ 2 = t) (p : F) (hp : 0 ≤ p) :
    sqrt p = 0 ↔ p = 0 := by
  have h := (hsqrt p hp).2
  constructor
  · intro h0
    rw [h0] at h
    rw [← h]
    ring
  · intro h0
    subst h0
    exact (pow_eq_zero_iff two_ne_zero).1 h

/-- C20 (amended): over exact arithmetic (`float64` read as an ordered field:
no rounding, no NaN, no infinity), with a square root that is non-negative
and squares back, `calculateCorrelation` equals the reference definition (0
for an empty list,
lists of different lengths or a list of zero variance, otherwise
`Σ(dx·dy) / sqrt(Σdx²·Σdy²)`); a list has zero variance exactly when all its
elements are equal; and in the remaining case the divisor is not zero. -/
theorem calculateCorrelation_eq_ref (sqrt : F → F)
    (hsqrt : ∀ t : F, 0 ≤ t → 0 ≤ sqrt t ∧ sqrt t ^ 2 = t) (x y : List F) :
    calculateCorrelation sqrt x y = correlationRef sqrt x y ∧
    (sqSum x = 0 ↔ ∀ a ∈ x, ∀ b ∈ x, a = b) ∧
    (sqSum y = 0 ↔ ∀ a ∈ y, ∀ b ∈ y, a = b) ∧
    (sqSum x ≠ 0 → sqSum y ≠ 0 → sqrt (sqSum x * sqSum y) ≠ 0) := by
  have hprod : 0 ≤ sqSum x * sqSum y := mul_nonneg (sqSum_nonneg x) (sqSum_nonneg y)
  have hdiv : sqSum x ≠ 0 → sqSum y ≠ 0 → sqrt (sqSum x * sqSum y) ≠ 0 := by
    intro hx hy h0
    have := (sqrt_eq_zero_iff sqrt hsqrt _ hprod).1 h0
    rcases mul_eq_zero.1 this with h | h
    · exact hx h
    · exact hy h
  refine ⟨?_, sqSum_eq_zero_iff x, sqSum_eq_zero_iff y, hdiv⟩
  unfold correlationRef
  by_cases hlen : x.length = y.length
  · by_cases hpos : x.length = 0
    · have hg : x.length ≠ y.length ∨ x.length = 0 := Or.inr hpos
      unfold calculateCorrelation
      rw [if_pos hg, if_pos (Or.inl hpos)]
    · rw [calculateCorrelation_of_len sqrt x y hlen hpos]
      have hposy : ¬ y.length = 0 := by omega
      by_cases hz : sqSum x = 0 ∨ sqSum y = 0
      · have h0 : sqrt (sqSum x * sqSum y) = 0 := by
          apply (sqrt_eq_zero_iff sqrt hsqrt _ hprod).2
          rcases hz with hz | hz <;> simp [hz]
        rw [if_pos h0, if_pos (Or.inr (Or.inr (Or.inr hz)))]
      · have hx : sqSum x ≠ 0 := fun e => hz (Or.inl e)
        have hy : sqSum y ≠ 0 := fun e => hz (Or.inr e)
        rw [if_neg (hdiv hx hy)]
        have hcond : ¬ (x.length = 0 ∨ y.length = 0 ∨ x.length ≠ y.length ∨
            sqSum x = 0 ∨ sqSum y = 0) := by
          rintro (h | h | h | h | h)
          · exact hpos h
          · exact hposy h
          · exact h hlen
          · exact hx h
          · exact hy h
        rw [if_neg hcond]
  · have hg : x.length ≠ y.length ∨ x.length = 0 := Or.inl hlen
    have hcond : x.length = 0 ∨ y.length = 0 ∨ x.length ≠ y.length ∨
        sqSum x = 0 ∨ sqSum y = 0 := Or.inr (Or.inr (Or.inl hlen))
    rw [if_pos hcond]
    unfold calculateCorrelation
    rw [if_pos hg]

end CorrelationTheorems
section CorrelationClaims

variable {F : Type} [LinearOrderedField F]

/-- C20 (amended), run over the reals with `Real.sqrt`: against the
constant list
`5, 5, 5` the coefficient of `1, 2, 3` is `0`. -/
theorem calculateCorrelation_eq_ref_witness :
    calculateCorrelation Real.sqrt [1, 2, 3] [5, 5, 5] = 0 := by
  have h := calculateCorrelation_eq_ref Real.sqrt
    (fun t ht => ⟨Real.sqrt_nonneg t, Real.sq_sqrt ht⟩) [1, 2, 3] [5, 5, 5]
  have hy : sqSum ([5, 5, 5] : List ℝ) = 0 := by
    rw [h.2.2.1]
    intro a ha b hb
    simp only [List.mem_cons, List.mem_singleton, List.not_mem_nil, or_false, or_self] at ha hb
    rw [ha, hb]
  rw [h.1, correlationRef, if_pos (Or.inr (Or.inr (Or.inr (Or.inr hy))))]

/-- A non-negative number is the square root of its square. -/
theorem sqrt_sq_of_nonneg (sqrt : F → F)
    (hsqrt : ∀ t : F, 0 ≤ t → 0 ≤ sqrt t ∧ sqrt t ^ 2 = t) (t : F) (ht : 0 ≤ t) :
    sqrt (t ^ 2) = t := by
  obtain ⟨h1, h2⟩ := hsqrt (t ^ 2) (sq_nonneg t)
  have hprod : (sqrt (t ^ 2) - t) * (sqrt (t ^ 2) + t) = 0 := by
    have : (sqrt (t ^ 2) - t) * (sqrt (t ^ 2) + t) = sqrt (t ^ 2) ^ 2 - t ^ 2 := by ring
    rw [this, h2, sub_self]
  rcases mul_eq_zero.1 hprod with h | h
  · linarith
  · have h0 : t = 0 := by linarith
    have hs : sqrt (t ^ 2) = 0 := by linarith
    rw [hs, h0]

theorem meanOf_affine (x : List F) (a b : F) (hne : x ≠ []) :
    meanOf (x.map (fun v => a * v + b)) = a * meanOf x + b := by
  have hsum : (x.map (fun v => a * v + b)).sum = a * x.sum + (x.length : F) * b := by
    clear hne
    induction x with
    | nil => simp
    | cons v vs ih =>
      rw [List.map_cons, List.sum_cons, ih, List.sum_cons, List.length_cons]
      push_cast
      ring
  have hlen : (x.length : F) ≠ 0 := by
    have : 0 < x.length := List.length_pos.2 hne
    exact_mod_cast this.ne'
  unfold meanOf
  rw [hsum, List.length_map]
  field_simp
  ring

theorem sqSum_affine (x : List F) (a b : F) (hne : x ≠ []) :
    sqSum (x.map (fun v => a * v + b)) = a ^ 2 * sqSum x := by
  unfold sqSum
  rw [meanOf_affine x a b hne, List.map_map, ← List.sum_map_mul_left]
  congr 1
  apply List.map_congr_left
  intro v _
  simp only [Function.comp]
  ring

theorem covSum_affine (x : List F) (a b : F) (hne : x ≠ []) :
    covSum x (x.map (fun v => a * v + b)) = a * sqSum x := by
  have hz : x.zip (x.map (fun v => a * v + b)) = x.map (fun v => (v, a * v + b)) := by
    have h := List.zip_map' (fun v : F => v) (fun v => a * v + b) x
    rw [List.map_id'] at h
    exact h
  unfold covSum sqSum
  rw [meanOf_affine x a b hne, hz, List.map_map, ← List.sum_map_mul_left]
  congr 1
  apply List.map_congr_left
  intro v _
  simp only [Function.comp]
  ring

/-- C19: with a square root that is non-negative and squares back, for a list
`x` that is not constant and `y = a*x + b` elementwise, the coefficient is
exactly `1` when `a > 0` and exactly `-1` when `a < 0`. -/
theorem correlation_linear (sqrt : F → F)
    (hsqrt : ∀ t : F, 0 ≤ t → 0 ≤ sqrt t ∧ sqrt t ^ 2 = t) (x : List F) (a b : F)
    (hx : ∃ u ∈ x, ∃ v ∈ x, u ≠ v) :
    (0 < a → calculateCorrelation sqrt x (x.map (fun v => a * v + b)) = 1) ∧
    (a < 0 → calculateCorrelation sqrt x (x.map (fun v => a * v + b)) = -1) := by
  obtain ⟨u, hu, v, hv, huv⟩ := hx
  have hne : x ≠ [] := List.ne_nil_of_mem hu
  have hpos : x.length ≠ 0 := fun h => hne (List.length_eq_zero.1 h)
  have hS0 : sqSum x ≠ 0 := fun h => huv ((sqSum_eq_zero_iff x).1 h u hu v hv)
  have hS : 0 < sqSum x := lt_of_le_of_ne (sqSum_nonneg x) (Ne.symm hS0)
  have hform := calculateCorrelation_of_len sqrt x (x.map (fun v => a * v + b))
    (by rw [List.length_map]) hpos
  rw [sqSum_affine x a b hne, covSum_affine x a b hne] at hform
  have hsq : sqSum x * (a ^ 2 * sqSum x) = (|a| * sqSum x) ^ 2 := by
    rw [mul_pow, sq_abs]
    ring
  have hroot : sqrt (sqSum x * (a ^ 2 * sqSum x)) = |a| * sqSum x := by
    rw [hsq]
    exact sqrt_sq_of_nonneg sqrt hsqrt _ (mul_nonneg (abs_nonneg a) hS.le)
  rw [hroot] at hform
  constructor
  · intro ha
    have hne0 : |a| * sqSum x ≠ 0 := by
      rw [abs_of_pos ha]
      exact mul_ne_zero ha.ne' hS0
    rw [hform, if_neg hne0, abs_of_pos ha]
    exact div_self (mul_ne_zero ha.ne' hS0)
  · intro ha
    have hne0 : |a| * sqSum x ≠ 0 := by
      rw [abs_of_neg ha]
      exact mul_ne_zero (neg_ne_zero.2 ha.ne) hS0
    rw [hform, if_neg hne0, abs_of_neg ha]
    have hd : a * sqSum x ≠ 0 := mul_ne_zero ha.ne hS0
    rw [neg_mul, div_neg, div_self hd]

/-- C19, run over the reals with `Real.sqrt`: `([1,2,3], [2,4,6])` gives `1`
and `([1,2,3], [6,4,2])` gives `-1`. -/
theorem correlation_linear_witness :
    calculateCorrelation Real.sqrt [1, 2, 3] [2, 4, 6] = 1 ∧
    calculateCorrelation Real.sqrt [1, 2, 3] [6, 4, 2] = -1 := by
  have hx : ∃ u ∈ ([1, 2, 3] : List ℝ), ∃ v ∈ ([1, 2, 3] : List ℝ), u ≠ v :=
    ⟨1, by simp, 2, by simp, by norm_num⟩
  have h1 := (correlation_linear Real.sqrt
    (fun t ht => ⟨Real.sqrt_nonneg t, Real.sq_sqrt ht⟩) [1, 2, 3] 2 0 hx).1 (by norm_num)
  have h2 := (correlation_linear Real.sqrt
    (fun t ht => ⟨Real.sqrt_nonneg t, Real.sq_sqrt ht⟩) [1, 2, 3] (-2) 8 hx).2 (by norm_num)
  have e1 : ([1, 2, 3] : List ℝ).map (fun v => 2 * v + 0) = [2, 4, 6] := by
    simp only [List.map_cons, List.map_nil]
    norm_num
  have e2 : ([1, 2, 3] : List ℝ).map (fun v => -2 * v + 8) = [6, 4, 2] := by
    simp only [List.map_cons, List.map_nil]
    norm_num
  rw [e1] at h1
  rw [e2] at h2
  exact ⟨h1, h2⟩

end CorrelationClaims

/-! ## Bounds and symmetry of the correlation coefficient -/

section CorrelationBounds

variable {F : Type} [LinearOrderedField F]

/-- The sum over a list as a sum over its positions. -/
theorem list_sum_map_eq_finsum {α : Type} (f : α → F) (l : List α) :
    (l.map f).sum = ∑ i : Fin l.length, f (l.get i) := by
  rw [← List.sum_ofFn]
  congr 1
  apply List.ext_get
  · simp
  · intro n h1 h2
    simp

/-- The Cauchy-Schwarz inequality for the sums taken over a list. -/
theorem list_sum_mul_sq_le {α : Type} (f g : α → F) (l : List α) :
    (l.map (fun p => f p * g p)).sum ^ 2 ≤
      (l.map (fun p => f p * f p)).sum * (l.map (fun p => g p * g p)).sum := by
  rw [list_sum_map_eq_finsum, list_sum_map_eq_finsum, list_sum_map_eq_finsum]
  have h := Finset.sum_mul_sq_le_sq_mul_sq (Finset.univ : Finset (Fin l.length))
    (fun i => f (l.get i)) (fun i => g (l.get i))
  simpa [pow_two] using h

/-- The squared sum of paired deviations is at most the product of the two sums
of squared deviations. -/
theorem covSum_sq_le (x y : List F) (h : x.length = y.length) :
    covSum x y ^ 2 ≤ sqSum x * sqSum y := by
  have hc := list_sum_mul_sq_le (fun p : F × F => p.1 - meanOf x) (fun p => p.2 - meanOf y)
    (x.zip y)
  have hx := zip_map_fst (fun a => (a - meanOf x) * (a - meanOf x)) x y h
  have hy := zip_map_snd (fun b => (b - meanOf y) * (b - meanOf y)) x y h
  simp only [] at hx hy
  rw [hx, hy] at hc
  exact hc

theorem covSum_comm (x y : List F) : covSum x y = covSum y x := by
  unfold covSum
  rw [← List.zip_swap x y, List.map_map]
  congr 1
  apply List.map_congr_left
  intro p _
  simp only [Function.comp, Prod.fst_swap, Prod.snd_swap]
  ring

/-- The coefficient does not depend on the order of its two arguments. -/
theorem calculateCorrelation_comm (sqrt : F → F) (x y : List F) :
    calculateCorrelation sqrt x y = calculateCorrelation sqrt y x := by
  by_cases hlen : x.length = y.length
  · by_cases hpos : x.length = 0
    · have hg : x.length ≠ y.length ∨ x.length = 0 := Or.inr hpos
      have hg' : y.length ≠ x.length ∨ y.length = 0 := Or.inr (by omega)
      unfold calculateCorrelation
      rw [if_pos hg, if_pos hg']
    · rw [calculateCorrelation_of_len sqrt x y hlen hpos,
        calculateCorrelation_of_len sqrt y x hlen.symm (by omega), covSum_comm x y,
        mul_comm (sqSum x) (sqSum y)]
  · have hg : x.length ≠ y.length ∨ x.length = 0 := Or.inl hlen
    have hg' : y.length ≠ x.length ∨ y.length = 0 := Or.inl (fun e => hlen e.symm)
    unfold calculateCorrelation
    rw [if_pos hg, if_pos hg']

/-- With a square root that is non-negative and squares back, the coefficient
has absolute value at most one. -/
theorem calculateCorrelation_abs_le (sqrt : F → F)
    (hsqrt : ∀ t : F, 0 ≤ t → 0 ≤ sqrt t ∧ sqrt t ^ 2 = t) (x y : List F) :
    |calculateCorrelation sqrt x y| ≤ 1 := by
  by_cases hlen : x.length = y.length
  · by_cases hpos : x.length = 0
    · have hg : x.length ≠ y.length ∨ x.length = 0 := Or.inr hpos
      unfold calculateCorrelation
      rw [if_pos hg]
      simp
    · rw [calculateCorrelation_of_len sqrt x y hlen hpos]
      have hprod : 0 ≤ sqSum x * sqSum y := mul_nonneg (sqSum_nonneg x) (sqSum_nonneg y)
      obtain ⟨hs0, hs2⟩ := hsqrt _ hprod
      by_cases hz : sqrt (sqSum x * sqSum y) = 0
      · rw [if_pos hz]
        simp
      · rw [if_neg hz]
        have hspos : 0 < sqrt (sqSum x * sqSum y) := lt_of_le_of_ne hs0 (Ne.symm hz)
        have hcs : covSum x y ^ 2 ≤ sqrt (sqSum x * sqSum y) ^ 2 := by
          rw [hs2]
          exact covSum_sq_le x y hlen
        have habs : |covSum x y| ≤ sqrt (sqSum x * sqSum y) := abs_le_of_sq_le_sq hcs hs0
        rw [abs_div, abs_of_pos hspos]
        exact (div_le_one hspos).2 habs
  · have hg : x.length ≠ y.length ∨ x.length = 0 := Or.inl hlen
    unfold calculateCorrelation
    rw [if_pos hg]
    simp

end CorrelationBounds


/-! ## The correlation matrix (`generateCorrelationData`) -/

/-- Looking up a key after a loop of assignments `m[c] = v c`. -/
theorem foldl_set_get? {V : Type} (v : String → V) (cols : List String) (init : GoMap V)
    (k : String) :
    GoMap.get? (cols.foldl (fun m c => GoMap.set m c (v c)) init) k =
      if k ∈ cols then some (v k) else GoMap.get? init k := by
  induction cols generalizing init with
  | nil => simp
  | cons c cs ih =>
    rw [List.foldl_cons, ih]
    by_cases hk : k ∈ cs
    · simp [hk]
    · by_cases hc : k = c
      · subst hc
        simp [hk, GoMap.get?_set_self]
      · simp [hk, hc, GoMap.get?_set_ne _ _ _ _ hc]

theorem foldl_set_mem_keys {V : Type} (v : String → V) (cols : List String) (init : GoMap V)
    (k : String) :
    k ∈ GoMap.keys (cols.foldl (fun m c => GoMap.set m c (v c)) init) ↔
      k ∈ GoMap.keys init ∨ k ∈ cols := by
  induction cols generalizing init with
  | nil => simp
  | cons c cs ih =>
    rw [List.foldl_cons, ih, GoMap.mem_keys_set]
    simp only [List.mem_cons]
    tauto

section CorrelationMatrix

variable {F : Type} [LinearOrderedField F]

/-- The rows of the correlation matrix, with each coefficient written on the
numeric values extracted from the two columns. -/
theorem generateCorrelationData_eq (parseFloat : String → Option F) (sqrt : F → F)
    (dataset : Dataset F) (chart : ChartConfig) (hne : chart.Columns ≠ []) :
    generateCorrelationData parseFloat sqrt dataset chart =
      chart.Columns.map (fun col1 =>
        chart.Columns.foldl
          (fun (row : ChartRow F) col2 =>
            GoMap.set row col2 (Value.num (calculateCorrelation sqrt
              (extractNumbers parseFloat (GetColumnData dataset col1))
              (extractNumbers parseFloat (GetColumnData dataset col2)))))
          (GoMap.set [] "column" (Value.str col1))) := by
  have hlen : ¬ chart.Columns.length = 0 := fun h => hne (List.length_eq_zero.1 h)
  have hget : ∀ c ∈ chart.Columns,
      (GoMap.get? (chart.Columns.foldl
        (fun (m : GoMap (List F)) colName =>
          GoMap.set m colName (extractNumbers parseFloat (GetColumnData dataset colName))) [])
        c).getD [] = extractNumbers parseFloat (GetColumnData dataset c) := by
    intro c hc
    rw [foldl_set_get? (fun colName => extractNumbers parseFloat (GetColumnData dataset colName)),
      if_pos hc]
    rfl
  unfold generateCorrelationData
  rw [if_neg hlen]
  apply List.map_congr_left
  intro col1 h1
  apply List.foldl_ext
  intro row col2 h2
  rw [hget col1 h1, hget col2 h2]

theorem covSum_self (x : List F) : covSum x x = sqSum x := by
  have hz : x.zip x = x.map (fun v => (v, v)) := by
    have h := List.zip_map' (fun v : F => v) (fun v => v) x
    rw [List.map_id'] at h
    exact h
  unfold covSum sqSum
  rw [hz, List.map_map]
  rfl

/-- The coefficient of a list against itself: `1`, and `0` when the list is
empty or constant. -/
theorem calculateCorrelation_self (sqrt : F → F)
    (hsqrt : ∀ t : F, 0 ≤ t → 0 ≤ sqrt t ∧ sqrt t ^ 2 = t) (x : List F) :
    calculateCorrelation sqrt x x = if sqSum x = 0 then 0 else 1 := by
  by_cases hpos : x.length = 0
  · have hx : x = [] := List.length_eq_zero.1 hpos
    have hg : x.length ≠ x.length ∨ x.length = 0 := Or.inr hpos
    have hs : sqSum x = 0 := by rw [hx]; simp [sqSum]
    unfold calculateCorrelation
    rw [if_pos hg, if_pos hs]
  · rw [calculateCorrelation_of_len sqrt x x rfl hpos, covSum_self]
    have hroot : sqrt (sqSum x * sqSum x) = sqSum x := by
      rw [← pow_two]
      exact sqrt_sq_of_nonneg sqrt hsqrt _ (sqSum_nonneg x)
    rw [hroot]
    by_cases hs : sqSum x = 0
    · rw [if_pos hs, if_pos hs]
    · rw [if_neg hs, if_neg hs, div_self hs]

theorem calculateCorrelation_of_length_ne (sqrt : F → F) (x y : List F)
    (h : x.length ≠ y.length) : calculateCorrelation sqrt x y = 0 := by
  unfold calculateCorrelation
  rw [if_pos (Or.inl h)]

end CorrelationMatrix

/-- The dispatcher on a correlation or heatmap chart with named columns. -/
theorem generateChartData_correlation {F : Type} [LinearOrderedField F] [FloorRing F]
    (parseFloat : String → Option F) (sqrt : F → F) (fmtFixed2 : F → String)
    (dataset : Dataset F) (chart : ChartConfig)
    (htype : chart.Typ = "correlation" ∨ chart.Typ = "heatmap") (hne : chart.Columns ≠ []) :
    generateChartData parseFloat sqrt fmtFixed2 dataset chart =
      Outcome.ok (generateCorrelationData parseFloat sqrt dataset chart) := by
  have hlen : chart.Columns.length > 0 := List.length_pos.2 hne
  have ht1 : ¬ (chart.Typ = "bar" ∨ chart.Typ = "line" ∨ chart.Typ = "area") := by
    rcases htype with h | h <;> rw [h] <;> decide
  have ht2 : ¬ chart.Typ = "scatter" := by rcases htype with h | h <;> rw [h] <;> decide
  have ht3 : ¬ chart.Typ = "bubble" := by rcases htype with h | h <;> rw [h] <;> decide
  have ht4 : ¬ chart.Typ = "pie" := by rcases htype with h | h <;> rw [h] <;> decide
  have ht5 : ¬ chart.Typ = "combo" := by rcases htype with h | h <;> rw [h] <;> decide
  have ht6 : ¬ chart.Typ = "histogram" := by rcases htype with h | h <;> rw [h] <;> decide
  have ht7 : ¬ chart.Typ = "boxplot" := by rcases htype with h | h <;> rw [h] <;> decide
  unfold generateChartData
  rw [if_neg ht1, if_neg ht2, if_neg ht3, if_neg ht4, if_neg ht5, if_neg ht6, if_neg ht7,
    if_pos htype, if_pos hlen]

section CorrelationSelf

variable {F : Type} [LinearOrderedField F]

/-- The coefficient of an empty list against any list is `0`, by the guard on
the lengths. -/
theorem calculateCorrelation_nil_left (sqrt : F → F) (y : List F) :
    calculateCorrelation sqrt [] y = 0 := by
  have hg : ([] : List F).length ≠ y.length ∨ ([] : List F).length = 0 := Or.inr rfl
  unfold calculateCorrelation
  rw [if_pos hg]

/-- The coefficient of a list against itself is `1` when its squared
deviations do not sum to zero, for a square root with `sqrt (t * t) = t` on
non-negative `t`. -/
theorem calculateCorrelation_self_eq_one (sqrt : F → F)
    (hsqrt : ∀ t : F, 0 ≤ t → sqrt (t * t) = t) (x : List F) (hs : sqSum x ≠ 0) :
    calculateCorrelation sqrt x x = 1 := by
  have hpos : x.length ≠ 0 := by
    intro h
    have hx : x = [] := List.length_eq_zero.1 h
    apply hs
    rw [hx]
    simp [sqSum]
  rw [calculateCorrelation_of_len sqrt x x rfl hpos, covSum_self,
    hsqrt _ (sqSum_nonneg x), if_neg hs, div_self hs]

end CorrelationSelf

/-- C21 (amended): for a correlation or heatmap chart with a non-empty `columns`
list, the projection has one row per entry of `columns`, in that order; the
row of a column stores the column's name under `column` (when no listed column
is itself named `column`), has no other keys than `column` and the listed
names, and stores under every listed name the coefficient of the two columns'
extracted numbers; under its own name it stores `0` when the column has no
numeric value, and, over an exact ordered field with a square root that
satisfies `sqrt (t * t) = t` for `t ≥ 0`, `1` when the column has two
different numeric values. -/
theorem correlation_matrix_rows {F : Type} [LinearOrderedField F] [FloorRing F]
    (parseFloat : String → Option F) (sqrt : F → F) (fmtFixed2 : F → String)
    (dataset : Dataset F) (chart : ChartConfig)
    (htype : chart.Typ = "correlation" ∨ chart.Typ = "heatmap") (hne : chart.Columns ≠ []) :
    ∃ data : List (ChartRow F),
      generateChartData parseFloat sqrt fmtFixed2 dataset chart = Outcome.ok data ∧
      data.length = chart.Columns.length ∧
      ∀ (i : Nat) (col1 : String), chart.Columns[i]? = some col1 →
        ∃ row : ChartRow F, data[i]? = some row ∧
          ("column" ∉ chart.Columns → GoMap.get? row "column" = some (Value.str col1)) ∧
          (∀ k, k ∈ GoMap.keys row ↔ k = "column" ∨ k ∈ chart.Columns) ∧
          (∀ col2 ∈ chart.Columns, GoMap.get? row col2 =
            some (Value.num (calculateCorrelation sqrt
              (extractNumbers parseFloat (GetColumnData dataset col1))
              (extractNumbers parseFloat (GetColumnData dataset col2))))) ∧
          (extractNumbers parseFloat (GetColumnData dataset col1) = [] →
            GoMap.get? row col1 = some (Value.num 0)) ∧
          ((∀ t : F, 0 ≤ t → sqrt (t * t) = t) →
            (∃ a ∈ extractNumbers parseFloat (GetColumnData dataset col1),
              ∃ b ∈ extractNumbers parseFloat (GetColumnData dataset col1), a ≠ b) →
            GoMap.get? row col1 = some (Value.num 1)) := by
  refine ⟨_, generateChartData_correlation parseFloat sqrt fmtFixed2 dataset chart htype hne,
    ?_, ?_⟩
  · rw [generateCorrelationData_eq parseFloat sqrt dataset chart hne, List.length_map]
  · intro i col1 hi
    have hmem : col1 ∈ chart.Columns := List.getElem?_mem hi
    have hcoef : ∀ col2 ∈ chart.Columns,
        GoMap.get? (chart.Columns.foldl
          (fun (row : ChartRow F) col2 =>
            GoMap.set row col2 (Value.num (calculateCorrelation sqrt
              (extractNumbers parseFloat (GetColumnData dataset col1))
              (extractNumbers parseFloat (GetColumnData dataset col2)))))
          (GoMap.set [] "column" (Value.str col1))) col2 =
        some (Value.num (calculateCorrelation sqrt
          (extractNumbers parseFloat (GetColumnData dataset col1))
          (extractNumbers parseFloat (GetColumnData dataset col2)))) := by
      intro col2 h2
      rw [foldl_set_get? (fun col2 => Value.num (calculateCorrelation sqrt
        (extractNumbers parseFloat (GetColumnData dataset col1))
        (extractNumbers parseFloat (GetColumnData dataset col2)))), if_pos h2]
    refine ⟨_, ?_, ?_, ?_, hcoef, ?_, ?_⟩
    · rw [generateCorrelationData_eq parseFloat sqrt dataset chart hne, List.getElem?_map, hi]
      rfl
    · intro hcol
      rw [foldl_set_get? (fun col2 => Value.num (calculateCorrelation sqrt
        (extractNumbers parseFloat (GetColumnData dataset col1))
        (extractNumbers parseFloat (GetColumnData dataset col2)))), if_neg hcol,
        GoMap.get?_set_self]
    · intro k
      rw [foldl_set_mem_keys (fun col2 => Value.num (calculateCorrelation sqrt
        (extractNumbers parseFloat (GetColumnData dataset col1))
        (extractNumbers parseFloat (GetColumnData dataset col2)))), GoMap.mem_keys_set]
      simp [GoMap.keys]
    · intro hnil
      rw [hcoef col1 hmem, hnil, calculateCorrelation_nil_left]
    · intro hsqrt hdiff
      rw [hcoef col1 hmem, calculateCorrelation_self_eq_one sqrt hsqrt]
      intro hs
      obtain ⟨a, ha, b, hb, hab⟩ := hdiff
      exact hab ((sqSum_eq_zero_iff _).1 hs a ha b hb)

/-- The numbers the parser reads in `F` are the rational numbers it reads, cast. -/
theorem extractNumbers_parseDecimalIn (F : Type) [DivisionRing F] (cells : List Cell) :
    extractNumbers (parseDecimalIn F) cells =
      (extractNumbers parseDecimal cells).map (fun (q : ℚ) => (q : F)) := by
  unfold extractNumbers
  rw [List.map_filterMap]
  apply List.filterMap_congr
  intro c _
  cases c <;> rfl

theorem threeColumnDataset_a (F : Type) :
    GetColumnData (threeColumnDataset F) "a" = [Cell.str "1", Cell.str "2", Cell.str "3"] := by
  rfl

theorem threeColumnDataset_b (F : Type) :
    GetColumnData (threeColumnDataset F) "b" = [Cell.str "2", Cell.str "x", Cell.str "6"] := by
  rfl

theorem threeColumnDataset_k (F : Type) :
    GetColumnData (threeColumnDataset F) "k" = [Cell.str "5", Cell.str "5", Cell.str "5"] := by
  rfl

theorem threeColumnDataset_numbers :
    extractNumbers (parseDecimalIn ℝ) (GetColumnData (threeColumnDataset ℝ) "a") = [1, 2, 3] ∧
    extractNumbers (parseDecimalIn ℝ) (GetColumnData (threeColumnDataset ℝ) "b") = [2, 6] ∧
    extractNumbers (parseDecimalIn ℝ) (GetColumnData (threeColumnDataset ℝ) "k") = [5, 5, 5] := by
  have ha : extractNumbers parseDecimal [Cell.str "1", Cell.str "2", Cell.str "3"] =
      [1, 2, 3] := by decide!
  have hb : extractNumbers parseDecimal [Cell.str "2", Cell.str "x", Cell.str "6"] =
      [2, 6] := by decide!
  have hk : extractNumbers parseDecimal [Cell.str "5", Cell.str "5", Cell.str "5"] =
      [5, 5, 5] := by decide!
  rw [threeColumnDataset_a, threeColumnDataset_b, threeColumnDataset_k,
    extractNumbers_parseDecimalIn, extractNumbers_parseDecimalIn, extractNumbers_parseDecimalIn,
    ha, hb, hk]
  simp

theorem textAndNumberDataset_numbers :
    extractNumbers (parseDecimalIn ℝ) (GetColumnData (textAndNumberDataset ℝ) "c") = [] ∧
    extractNumbers (parseDecimalIn ℝ) (GetColumnData (textAndNumberDataset ℝ) "v") = [1, 2] := by
  have hc : GetColumnData (textAndNumberDataset ℝ) "c" =
      [Cell.str "A", Cell.str "B", Cell.str "A"] := rfl
  have hv : GetColumnData (textAndNumberDataset ℝ) "v" =
      [Cell.str "1", Cell.str "x", Cell.str "2"] := rfl
  have h1 : extractNumbers parseDecimal [Cell.str "A", Cell.str "B", Cell.str "A"] = [] := by
    decide!
  have h2 : extractNumbers parseDecimal [Cell.str "1", Cell.str "x", Cell.str "2"] =
      [1, 2] := by decide!
  rw [hc, hv, extractNumbers_parseDecimalIn, extractNumbers_parseDecimalIn, h1, h2]
  simp

/-- C21 as stated fails: the correlation projection on the existing text
column `c` (cells `A, B, A`, no numeric value) stores `0` as the coefficient
of `c` against itself, by the guard on empty lists; and on the existing column
`k`, whose cells are `5, 5, 5`, it stores `0` as well, by the guard on a zero
denominator. -/
theorem self_correlation_counterexample :
    generateChartData (parseDecimalIn ℝ) Real.sqrt (fun _ => "") (textAndNumberDataset ℝ)
        (correlationChart "correlation" ["c"]) =
      Outcome.ok [[("column", Value.str "c"), ("c", Value.num 0)]] ∧
    generateChartData (parseDecimalIn ℝ) Real.sqrt (fun _ => "") (threeColumnDataset ℝ)
        (correlationChart "correlation" ["k"]) =
      Outcome.ok [[("column", Value.str "k"), ("k", Value.num 0)]] := by
  constructor
  · rw [generateChartData_correlation _ _ _ _ _ (Or.inl rfl) (by decide),
      generateCorrelationData_eq _ _ _ _ (by decide)]
    simp only [correlationChart, List.map_cons, List.map_nil, List.foldl_cons, List.foldl_nil,
      textAndNumberDataset_numbers.1, calculateCorrelation_nil_left]
    rfl
  · have hs : calculateCorrelation Real.sqrt ([5, 5, 5] : List ℝ) [5, 5, 5] = 0 := by
      rw [calculateCorrelation_self Real.sqrt
        (fun t ht => ⟨Real.sqrt_nonneg t, Real.sq_sqrt ht⟩), if_pos]
      rw [sqSum_eq_zero_iff]
      intro a ha b hb
      simp only [List.mem_cons, List.mem_singleton, List.not_mem_nil, or_false, or_self] at ha hb
      rw [ha, hb]
    rw [generateChartData_correlation _ _ _ _ _ (Or.inl rfl) (by decide),
      generateCorrelationData_eq _ _ _ _ (by decide)]
    simp only [correlationChart, List.map_cons, List.map_nil, List.foldl_cons, List.foldl_nil,
      threeColumnDataset_numbers.2.2, hs]
    rfl

/-- C21 (amended), run over the reals on the columns `v` and `c` of the dataset
with the rows `(A, 1)`, `(B, x)`, `(A, 2)`: two rows, the first stores `1`
under `v`, the second stores `0` under `c`. -/
theorem correlation_matrix_rows_witness :
    ∃ data : List (ChartRow ℝ),
      generateChartData (parseDecimalIn ℝ) Real.sqrt (fun _ => "") (textAndNumberDataset ℝ)
        (correlationChart "heatmap" ["v", "c"]) = Outcome.ok data ∧
      data.length = 2 ∧
      (∃ row, data[0]? = some row ∧ GoMap.get? row "column" = some (Value.str "v") ∧
        GoMap.get? row "v" = some (Value.num 1)) ∧
      (∃ row, data[1]? = some row ∧ GoMap.get? row "column" = some (Value.str "c") ∧
        GoMap.get? row "c" = some (Value.num 0)) := by
  obtain ⟨data, hd, hlen, hrows⟩ := correlation_matrix_rows (parseDecimalIn ℝ) Real.sqrt
    (fun _ => "") (textAndNumberDataset ℝ)
    (correlationChart "heatmap" ["v", "c"]) (Or.inr rfl) (by decide)
  refine ⟨data, hd, hlen, ?_, ?_⟩
  · obtain ⟨row, h0, hc, _, _, _, hself⟩ := hrows 0 "v" rfl
    refine ⟨row, h0, hc (by decide), ?_⟩
    apply hself (fun t ht => Real.sqrt_mul_self ht)
    rw [textAndNumberDataset_numbers.2]
    exact ⟨1, by simp, 2, by simp, by norm_num⟩
  · obtain ⟨row, h1, hc, _, _, hzero, _⟩ := hrows 1 "c" rfl
    exact ⟨row, h1, hc (by decide), hzero textAndNumberDataset_numbers.1⟩

/-- The coefficient stored in the row of the `i`-th named column under a named
column. -/
theorem correlationData_coefficient {F : Type} [LinearOrderedField F]
    (parseFloat : String → Option F) (sqrt : F → F) (dataset : Dataset F) (chart : ChartConfig)
    (i : Nat) (colA colB : String) (hA : chart.Columns[i]? = some colA)
    (hB : colB ∈ chart.Columns) :
    ∃ row : ChartRow F,
      (generateCorrelationData parseFloat sqrt dataset chart)[i]? = some row ∧
      GoMap.get? row colB = some (Value.num (calculateCorrelation sqrt
        (extractNumbers parseFloat (GetColumnData dataset colA))
        (extractNumbers parseFloat (GetColumnData dataset colB)))) := by
  have hne : chart.Columns ≠ [] := List.ne_nil_of_mem hB
  refine ⟨chart.Columns.foldl
    (fun (row : ChartRow F) col2 =>
      GoMap.set row col2 (Value.num (calculateCorrelation sqrt
        (extractNumbers parseFloat (GetColumnData dataset colA))
        (extractNumbers parseFloat (GetColumnData dataset col2)))))
    (GoMap.set [] "column" (Value.str colA)), ?_, ?_⟩
  · rw [generateCorrelationData_eq parseFloat sqrt dataset chart hne, List.getElem?_map, hA]
    rfl
  · rw [foldl_set_get? (fun col2 => Value.num (calculateCorrelation sqrt
      (extractNumbers parseFloat (GetColumnData dataset colA))
      (extractNumbers parseFloat (GetColumnData dataset col2)))), if_pos hB]

/-- C28 (amended): in the correlation/heatmap projection the coefficient stored
in the row of a named column `A` under a named column `B` is `0` when the two
independently extracted numeric lists have different lengths; when they have
the same non-zero length it is Pearson's r of the two extracted lists paired by
position, `Σ(dx·dy) / sqrt(Σdx²·Σdy²)`, and `0` when that divisor is `0`. -/
theorem correlation_filtered_pairing {F : Type} [LinearOrderedField F] [FloorRing F]
    (parseFloat : String → Option F) (sqrt : F → F) (fmtFixed2 : F → String)
    (dataset : Dataset F) (chart : ChartConfig)
    (htype : chart.Typ = "correlation" ∨ chart.Typ = "heatmap")
    (i : Nat) (colA colB : String) (hA : chart.Columns[i]? = some colA)
    (hB : colB ∈ chart.Columns) :
    ∃ (data : List (ChartRow F)) (row : ChartRow F),
      generateChartData parseFloat sqrt fmtFixed2 dataset chart = Outcome.ok data ∧
      data[i]? = some row ∧
      ((extractNumbers parseFloat (GetColumnData dataset colA)).length ≠
          (extractNumbers parseFloat (GetColumnData dataset colB)).length →
        GoMap.get? row colB = some (Value.num 0)) ∧
      ((extractNumbers parseFloat (GetColumnData dataset colA)).length =
          (extractNumbers parseFloat (GetColumnData dataset colB)).length →
        (extractNumbers parseFloat (GetColumnData dataset colA)).length ≠ 0 →
        GoMap.get? row colB = some (Value.num
          (if sqrt (sqSum (extractNumbers parseFloat (GetColumnData dataset colA)) *
              sqSum (extractNumbers parseFloat (GetColumnData dataset colB))) = 0 then 0
            else covSum (extractNumbers parseFloat (GetColumnData dataset colA))
                (extractNumbers parseFloat (GetColumnData dataset colB)) /
              sqrt (sqSum (extractNumbers parseFloat (GetColumnData dataset colA)) *
                sqSum (extractNumbers parseFloat (GetColumnData dataset colB)))))) := by
  have hne : chart.Columns ≠ [] := List.ne_nil_of_mem hB
  obtain ⟨row, hrow, hget⟩ := correlationData_coefficient parseFloat sqrt dataset chart i colA
    colB hA hB
  refine ⟨_, row, generateChartData_correlation parseFloat sqrt fmtFixed2 dataset chart htype
    hne, hrow, ?_, ?_⟩
  · intro hlen
    rw [hget, calculateCorrelation_of_length_ne sqrt _ _ hlen]
  · intro hlen hpos
    rw [hget, calculateCorrelation_of_len sqrt _ _ hlen hpos]

/-- C28 as stated fails: the extracted numbers of `a` are `1, 2, 3` and those
of `b` are `2, 6`; the projection stores the coefficient `0` for the pair,
while Pearson's r over the first two positions of the two lists is `1`
(over the reals with `Real.sqrt`). -/
theorem unequal_lengths_counterexample :
    extractNumbers (parseDecimalIn ℝ) (GetColumnData (threeColumnDataset ℝ) "a") = [1, 2, 3] ∧
    extractNumbers (parseDecimalIn ℝ) (GetColumnData (threeColumnDataset ℝ) "b") = [2, 6] ∧
    (∃ (data : List (ChartRow ℝ)) (row : ChartRow ℝ),
      generateChartData (parseDecimalIn ℝ) Real.sqrt (fun _ => "") (threeColumnDataset ℝ)
        (correlationChart "correlation" ["a", "b"]) = Outcome.ok data ∧
      data[0]? = some row ∧ GoMap.get? row "b" = some (Value.num 0)) ∧
    calculateCorrelation Real.sqrt (([1, 2, 3] : List ℝ).take 2) (([2, 6] : List ℝ).take 2) =
      1 := by
  refine ⟨threeColumnDataset_numbers.1, threeColumnDataset_numbers.2.1, ?_, ?_⟩
  · obtain ⟨row, hrow, hget⟩ := correlationData_coefficient (parseDecimalIn ℝ) Real.sqrt
      (threeColumnDataset ℝ) (correlationChart "correlation" ["a", "b"]) 0 "a" "b" rfl
      (by decide)
    refine ⟨_, row, generateChartData_correlation _ _ _ _ _ (Or.inl rfl) (by decide), hrow, ?_⟩
    rw [hget, threeColumnDataset_numbers.1, threeColumnDataset_numbers.2.1,
      calculateCorrelation_of_length_ne Real.sqrt _ _ (by decide)]
  · have hx : sqSum ([1, 2] : List ℝ) * sqSum ([2, 6] : List ℝ) = 2 ^ 2 := by
      norm_num [sqSum, meanOf]
    have hc : covSum ([1, 2] : List ℝ) [2, 6] = 2 := by
      norm_num [covSum, meanOf]
    have ht : (([1, 2, 3] : List ℝ).take 2) = [1, 2] := rfl
    have ht' : (([2, 6] : List ℝ).take 2) = [2, 6] := rfl
    rw [ht, ht', calculateCorrelation_of_len Real.sqrt [1, 2] [2, 6] rfl (by decide), hx, hc,
      Real.sqrt_sq (by norm_num)]
    norm_num

/-- C28 (amended), run over the reals on the columns `a` and `b` of the
three-column dataset: the extracted lists have lengths 3 and 2 and the stored
coefficient is `0`. -/
theorem correlation_filtered_pairing_witness :
    ∃ (data : List (ChartRow ℝ)) (row : ChartRow ℝ),
      generateChartData (parseDecimalIn ℝ) Real.sqrt (fun _ => "") (threeColumnDataset ℝ)
        (correlationChart "heatmap" ["a", "b"]) = Outcome.ok data ∧
      data[0]? = some row ∧ GoMap.get? row "b" = some (Value.num 0) := by
  obtain ⟨data, row, hd, hrow, hne, _⟩ := correlation_filtered_pairing (parseDecimalIn ℝ)
    Real.sqrt (fun _ => "") (threeColumnDataset ℝ) (correlationChart "heatmap" ["a", "b"])
    (Or.inr rfl) 0 "a" "b" rfl (by decide)
  refine ⟨data, row, hd, hrow, hne ?_⟩
  rw [threeColumnDataset_numbers.1, threeColumnDataset_numbers.2.1]
  decide

/-- C30: with a square root that is non-negative and squares back (exact real
arithmetic), for all lists `x` and `y` the value `calculateCorrelation x y`
lies in the closed interval from `-1` to `1` and equals
`calculateCorrelation y x`; hence in the correlation matrix the entry of the
`i`-th named column under the `j`-th and the entry of the `j`-th under the
`i`-th are one number of that interval. -/
theorem correlation_range_symmetric {F : Type} [LinearOrderedField F] (sqrt : F → F)
    (hsqrt : ∀ t : F, 0 ≤ t → 0 ≤ sqrt t ∧ sqrt t ^ 2 = t) :
    (∀ x y : List F, -1 ≤ calculateCorrelation sqrt x y ∧ calculateCorrelation sqrt x y ≤ 1 ∧
      calculateCorrelation sqrt x y = calculateCorrelation sqrt y x) ∧
    (∀ (parseFloat : String → Option F) (dataset : Dataset F) (chart : ChartConfig)
      (i j : Nat) (colA colB : String),
      chart.Columns[i]? = some colA → chart.Columns[j]? = some colB →
      ∃ (rowA rowB : ChartRow F) (r : F),
        (generateCorrelationData parseFloat sqrt dataset chart)[i]? = some rowA ∧
        (generateCorrelationData parseFloat sqrt dataset chart)[j]? = some rowB ∧
        GoMap.get? rowA colB = some (Value.num r) ∧
        GoMap.get? rowB colA = some (Value.num r) ∧ -1 ≤ r ∧ r ≤ 1) := by
  have hall : ∀ x y : List F, -1 ≤ calculateCorrelation sqrt x y ∧
      calculateCorrelation sqrt x y ≤ 1 ∧
      calculateCorrelation sqrt x y = calculateCorrelation sqrt y x := by
    intro x y
    have h := abs_le.1 (calculateCorrelation_abs_le sqrt hsqrt x y)
    exact ⟨h.1, h.2, calculateCorrelation_comm sqrt x y⟩
  refine ⟨hall, ?_⟩
  intro parseFloat dataset chart i j colA colB hA hB
  obtain ⟨rowA, hrA, hgA⟩ := correlationData_coefficient parseFloat sqrt dataset chart i colA
    colB hA (List.getElem?_mem hB)
  obtain ⟨rowB, hrB, hgB⟩ := correlationData_coefficient parseFloat sqrt dataset chart j colB
    colA hB (List.getElem?_mem hA)
  refine ⟨rowA, rowB, _, hrA, hrB, hgA, ?_, (hall _ _).1, (hall _ _).2.1⟩
  rw [hgB, calculateCorrelation_comm]

/-- C30, run over the reals with `Real.sqrt` on the lists `1, 2, 4` and
`3, 1, 2`. -/
theorem correlation_range_symmetric_witness :
    -1 ≤ calculateCorrelation Real.sqrt [1, 2, 4] [3, 1, 2] ∧
    calculateCorrelation Real.sqrt [1, 2, 4] [3, 1, 2] ≤ 1 ∧
    calculateCorrelation Real.sqrt [1, 2, 4] [3, 1, 2] =
      calculateCorrelation Real.sqrt [3, 1, 2] [1, 2, 4] :=
  (correlation_range_symmetric Real.sqrt
    (fun t ht => ⟨Real.sqrt_nonneg t, Real.sq_sqrt ht⟩)).1 [1, 2, 4] [3, 1, 2]

/-! ## The retry loop and its calls -/

section TraceTheorems

variable {F : Type} [LinearOrderedField F] [FloorRing F]

/-- The outcome of the logged loop is the outcome of the loop. -/
theorem retryLoopTrace_fst (gemini : Gemini F) (parseFloat : String → Option F) (sqrt : F → F)
    (fmtFixed2 : F → String) (dataset : Dataset F) (prompt : String)
    (remaining attempt : Nat) (lastError : String) (result : ProcessAnalysisResult F) :
    (retryLoopTrace gemini parseFloat sqrt fmtFixed2 dataset prompt remaining attempt lastError
      result).1 =
    retryLoop gemini parseFloat sqrt fmtFixed2 dataset prompt remaining attempt lastError
      result := by
  induction remaining generalizing attempt lastError result with
  | zero => rfl
  | succ remaining ih =>
    simp only [retryLoopTrace, retryLoop]
    cases hg : gemini.GenerateCharts attempt dataset prompt lastError with
    | error err =>
      simp only []
      by_cases ha : attempt < maxAttempts
      · rw [if_pos ha, if_pos ha]
        exact ih _ _ _
      · rw [if_neg ha, if_neg ha]
    | ok chartConfigs =>
      simp only []
      cases hc : collectValidCharts parseFloat sqrt fmtFixed2 dataset chartConfigs with
      | panic msg => rfl
      | error msg => rfl
      | ok validCharts =>
        simp only []
        by_cases hl : validCharts.length > 0
        · rw [if_pos hl, if_pos hl]
          by_cases he : validCharts.length = chartConfigs.length
          · rw [if_pos he, if_pos he]
          · rw [if_neg he, if_neg he]
        · rw [if_neg hl, if_neg hl]
          by_cases ha : attempt < maxAttempts
          · rw [if_pos ha, if_pos ha]
            exact ih _ _ _
          · rw [if_neg ha, if_neg ha]
            exact ih _ _ _

/-- The outcome of the logged analysis is the outcome of `ProcessAnalysis`. -/
theorem ProcessAnalysisTrace_fst (gemini : Gemini F) (parseFloat : String → Option F)
    (sqrt : F → F) (fmtFixed2 : F → String) (dataset : Option (Dataset F)) (prompt : String) :
    (ProcessAnalysisTrace gemini parseFloat sqrt fmtFixed2 dataset prompt).1 =
      ProcessAnalysis gemini parseFloat sqrt fmtFixed2 dataset prompt := by
  cases dataset with
  | none => rfl
  | some dataset =>
    simp only [ProcessAnalysisTrace, ProcessAnalysis]
    by_cases h1 : dataset.Rows.length = 0
    · rw [if_pos h1, if_pos h1]
    · rw [if_neg h1, if_neg h1]
      by_cases h2 : prompt = ""
      · rw [if_pos h2, if_pos h2]
      · rw [if_neg h2, if_neg h2]
        cases ha : gemini.Analyze dataset prompt with
        | error err => rfl
        | ok insights =>
          simp only []
          by_cases h3 : insights = ""
          · rw [if_pos h3, if_pos h3]
          · rw [if_neg h3, if_neg h3]
            by_cases h4 : (!isChartGenerationFeasible dataset) = true
            · rw [if_pos h4, if_pos h4]
            · rw [if_neg h4, if_neg h4]
              exact retryLoopTrace_fst _ _ _ _ _ _ _ _ _ _

end TraceTheorems

section LoopTheorems

variable {F : Type} [LinearOrderedField F] [FloorRing F]

/-- No projection returns an `error`: it returns data or panics. -/
theorem generateChartData_ne_error (parseFloat : String → Option F) (sqrt : F → F)
    (fmtFixed2 : F → String) (dataset : Dataset F) (chart : ChartConfig) (msg : String) :
    generateChartData parseFloat sqrt fmtFixed2 dataset chart ≠ Outcome.error msg := by
  have hH : generateHistogramData parseFloat fmtFixed2 dataset chart ≠ Outcome.error msg := by
    unfold generateHistogramData
    simp only []
    repeat' split
    all_goals (intro h; cases h)
  unfold generateChartData
  repeat' split
  all_goals first
    | exact hH
    | (intro h; cases h)

/-- The collecting loop never returns an `error`. -/
theorem collectValidCharts_ne_error (parseFloat : String → Option F) (sqrt : F → F)
    (fmtFixed2 : F → String) (dataset : Dataset F) (proposals : List ChartConfig)
    (msg : String) :
    collectValidCharts parseFloat sqrt fmtFixed2 dataset proposals ≠ Outcome.error msg := by
  induction proposals generalizing msg with
  | nil => intro h; cases h
  | cons chart rest ih =>
    simp only [collectValidCharts]
    split
    · exact ih msg
    · cases hg : generateChartData parseFloat sqrt fmtFixed2 dataset chart with
      | panic m => intro h; cases h
      | error m => exact absurd hg (generateChartData_ne_error _ _ _ _ _ _)
      | ok data =>
        simp only []
        split
        · exact ih msg
        · cases hr : collectValidCharts parseFloat sqrt fmtFixed2 dataset rest with
          | panic m => intro h; cases h
          | error m => exact absurd hr (ih m)
          | ok more => intro h; cases h

/-- An attempt that leaves a surviving chart does not fail. -/
theorem not_attemptFails_of_survives (gemini : Gemini F) (parseFloat : String → Option F)
    (sqrt : F → F) (fmtFixed2 : F → String) (dataset : Dataset F) (prompt : String)
    (call : Nat × String)
    (hs : attemptSurvives gemini parseFloat sqrt fmtFixed2 dataset prompt call) :
    ¬ attemptFails gemini parseFloat sqrt fmtFixed2 dataset prompt call := by
  obtain ⟨proposals, valid, hg, hc, hne⟩ := hs
  rintro (⟨err, he⟩ | ⟨proposals', hg', hc'⟩)
  · rw [hg] at he
    cases he
  · rw [hg] at hg'
    injection hg' with hg'
    subst hg'
    rw [hc] at hc'
    injection hc' with hc'
    exact hne hc'

/-- One iteration of the logged loop, entered at `attempt` with `remaining`
more iterations allowed after it (`attempt + remaining = maxAttempts`): the
attempt leaves survivors and the loop returns them; or the projection of a
proposed chart panics; or the attempt fails and the loop goes on. -/
theorem retryLoopTrace_step (gemini : Gemini F) (parseFloat : String → Option F)
    (sqrt : F → F) (fmtFixed2 : F → String) (dataset : Dataset F) (prompt : String)
    (remaining attempt : Nat) (lastError : String) (result : ProcessAnalysisResult F)
    (hinv : attempt + remaining = maxAttempts) :
    (∃ proposals valid,
      gemini.GenerateCharts attempt dataset prompt lastError = Except.ok proposals ∧
      collectValidCharts parseFloat sqrt fmtFixed2 dataset proposals = Outcome.ok valid ∧
      valid ≠ [] ∧
      retryLoopTrace gemini parseFloat sqrt fmtFixed2 dataset prompt (remaining + 1) attempt
          lastError result =
        (Outcome.ok
          { Insights := result.Insights,
            Charts := valid,
            ChartStatus := if valid.length = proposals.length then "success" else "partial",
            ChartMessage :=
              if valid.length = proposals.length then result.ChartMessage
              else "Generated " ++ Nat.repr valid.length ++ " out of " ++
                Nat.repr proposals.length ++ " requested charts",
            RetryAttempts := attempt },
          [(attempt, lastError)])) ∨
    (∃ proposals msg,
      gemini.GenerateCharts attempt dataset prompt lastError = Except.ok proposals ∧
      collectValidCharts parseFloat sqrt fmtFixed2 dataset proposals = Outcome.panic msg ∧
      retryLoopTrace gemini parseFloat sqrt fmtFixed2 dataset prompt (remaining + 1) attempt
          lastError result = (Outcome.panic msg, [(attempt, lastError)])) ∨
    (attemptFails gemini parseFloat sqrt fmtFixed2 dataset prompt (attempt, lastError) ∧
      ∃ feedback,
        retryLoopTrace gemini parseFloat sqrt fmtFixed2 dataset prompt (remaining + 1) attempt
            lastError result =
          ((retryLoopTrace gemini parseFloat sqrt fmtFixed2 dataset prompt remaining
              (attempt + 1) feedback { result with RetryAttempts := attempt }).1,
            (attempt, lastError) ::
              (retryLoopTrace gemini parseFloat sqrt fmtFixed2 dataset prompt remaining
                (attempt + 1) feedback { result with RetryAttempts := attempt }).2)) := by
  cases hg : gemini.GenerateCharts attempt dataset prompt lastError with
  | error err =>
    refine Or.inr (Or.inr ⟨Or.inl ⟨err, hg⟩, ?_⟩)
    by_cases ha : attempt < maxAttempts
    · refine ⟨if strContains err "JSON" || strContains err "json" then
          "Previous response did NOT include valid graph JSON. Error: " ++ err ++
            ". You MUST return ONLY valid JSON in the exact format specified, with no explanations, markdown, or code blocks."
        else err, ?_⟩
      simp only [retryLoopTrace, hg, if_pos ha]
    · have hr : remaining = 0 := by
        have := hinv
        unfold maxAttempts at this ha
        omega
      subst hr
      refine ⟨lastError, ?_⟩
      simp only [retryLoopTrace, hg, if_neg ha]
  | ok proposals =>
    cases hc : collectValidCharts parseFloat sqrt fmtFixed2 dataset proposals with
    | panic msg =>
      refine Or.inr (Or.inl ⟨proposals, msg, rfl, hc, ?_⟩)
      simp only [retryLoopTrace, hg, hc]
    | error msg => exact absurd hc (collectValidCharts_ne_error _ _ _ _ _ _)
    | ok valid =>
      by_cases hl : valid.length > 0
      · have hne : valid ≠ [] := List.length_pos.1 hl
        refine Or.inl ⟨proposals, valid, rfl, hc, hne, ?_⟩
        by_cases he : valid.length = proposals.length
        · simp only [retryLoopTrace, hg, hc, if_pos hl, if_pos he]
        · simp only [retryLoopTrace, hg, hc, if_pos hl, if_neg he]
      · have hnil : valid = [] := by
          cases valid with
          | nil => rfl
          | cons a as => exact absurd (Nat.succ_pos _) hl
        subst hnil
        refine Or.inr (Or.inr ⟨Or.inr ⟨proposals, hg, hc⟩, ?_⟩)
        by_cases ha : attempt < maxAttempts
        · refine ⟨"No valid charts were generated. Please ensure column names match the schema exactly and chart types are appropriate for the data.", ?_⟩
          simp only [retryLoopTrace, hg, hc, if_neg hl, if_pos ha]
        · refine ⟨lastError, ?_⟩
          simp only [retryLoopTrace, hg, hc, if_neg hl, if_neg ha]

end LoopTheorems

section LoopSpec

variable {F : Type} [LinearOrderedField F] [FloorRing F]

/-- The shape of a run of the logged loop entered at `attempt` with `remaining`
iterations allowed (`attempt + remaining = maxAttempts + 1`): at most
`remaining` calls, numbered consecutively from `attempt`; no returned `error`;
a returned result keeps the insights, has one of the three loop statuses, and
its `RetryAttempts` is the number of the last call. -/
theorem retryLoopTrace_shape (gemini : Gemini F) (parseFloat : String → Option F)
    (sqrt : F → F) (fmtFixed2 : F → String) (dataset : Dataset F) (prompt : String)
    (remaining attempt : Nat) (lastError : String) (result : ProcessAnalysisResult F)
    (hinv : attempt + remaining = maxAttempts + 1) :
    (retryLoopTrace gemini parseFloat sqrt fmtFixed2 dataset prompt remaining attempt lastError
      result).2.length ≤ remaining ∧
    (retryLoopTrace gemini parseFloat sqrt fmtFixed2 dataset prompt remaining attempt lastError
      result).2.map Prod.fst =
      List.range' attempt (retryLoopTrace gemini parseFloat sqrt fmtFixed2 dataset prompt
        remaining attempt lastError result).2.length ∧
    (∀ msg, (retryLoopTrace gemini parseFloat sqrt fmtFixed2 dataset prompt remaining attempt
      lastError result).1 ≠ Outcome.error msg) ∧
    (∀ r, (retryLoopTrace gemini parseFloat sqrt fmtFixed2 dataset prompt remaining attempt
        lastError result).1 = Outcome.ok r →
      r.Insights = result.Insights ∧
      ((retryLoopTrace gemini parseFloat sqrt fmtFixed2 dataset prompt remaining attempt
        lastError result).2 = [] → r.RetryAttempts = result.RetryAttempts) ∧
      ((retryLoopTrace gemini parseFloat sqrt fmtFixed2 dataset prompt remaining attempt
        lastError result).2 ≠ [] →
        r.RetryAttempts + 1 = attempt + (retryLoopTrace gemini parseFloat sqrt fmtFixed2
          dataset prompt remaining attempt lastError result).2.length) ∧
      (r.ChartStatus = "success" ∨ r.ChartStatus = "partial" ∨ r.ChartStatus = "failed")) := by
  induction remaining generalizing attempt lastError result with
  | zero =>
    refine ⟨le_refl _, rfl, ?_, ?_⟩
    · intro msg h
      cases h
    · intro r h
      simp only [retryLoopTrace] at h
      injection h with h
      subst h
      exact ⟨rfl, fun _ => rfl, fun h => absurd rfl h, Or.inr (Or.inr rfl)⟩
  | succ remaining ih =>
    have hinv' : attempt + remaining = maxAttempts := by omega
    rcases retryLoopTrace_step gemini parseFloat sqrt fmtFixed2 dataset prompt remaining attempt
        lastError result hinv' with
      ⟨proposals, valid, hg, hc, hne, ht⟩ | ⟨proposals, msg, hg, hc, ht⟩ | ⟨hf, feedback, ht⟩
    · rw [ht]
      refine ⟨by simp, by simp, ?_, ?_⟩
      · intro msg h
        cases h
      · intro r h
        injection h with h
        subst h
        refine ⟨rfl, (fun h => by cases h), (fun _ => rfl), ?_⟩
        by_cases he : valid.length = proposals.length
        · exact Or.inl (by simp [he])
        · exact Or.inr (Or.inl (by simp [he]))
    · rw [ht]
      refine ⟨by simp, by simp, ?_, ?_⟩
      · intro m h
        cases h
      · intro r h
        cases h
    · obtain ⟨h1, h2, h3, h4⟩ := ih (attempt + 1) feedback
        { result with RetryAttempts := attempt } (by omega)
      rw [ht]
      refine ⟨by simpa using h1, ?_, h3, ?_⟩
      · simp only [List.map_cons, List.length_cons, List.range'_succ]
        rw [h2]
      · intro r h
        obtain ⟨g1, g2, g3, g4⟩ := h4 r h
        refine ⟨g1, (fun h => by cases h), (fun _ => ?_), g4⟩
        simp only [List.length_cons]
        by_cases hnil : (retryLoopTrace gemini parseFloat sqrt fmtFixed2 dataset prompt
            remaining (attempt + 1) feedback { result with RetryAttempts := attempt }).2 = []
        · rw [g2 hnil, hnil]
          rfl
        · have := g3 hnil
          omega

end LoopSpec

section LoopStops

variable {F : Type} [LinearOrderedField F] [FloorRing F]

/-- The logged loop stops at the first attempt that leaves a surviving chart:
such a call is the last call, every call before the last one fails, and the
loop returns the survivors of that call with their status and message. -/
theorem retryLoopTrace_stops (gemini : Gemini F) (parseFloat : String → Option F)
    (sqrt : F → F) (fmtFixed2 : F → String) (dataset : Dataset F) (prompt : String)
    (remaining attempt : Nat) (lastError : String) (result : ProcessAnalysisResult F)
    (hinv : attempt + remaining = maxAttempts + 1) :
    (∀ (i : Nat) (c : Nat × String),
      (retryLoopTrace gemini parseFloat sqrt fmtFixed2 dataset prompt remaining attempt
        lastError result).2[i]? = some c →
      attemptSurvives gemini parseFloat sqrt fmtFixed2 dataset prompt c →
      i + 1 = (retryLoopTrace gemini parseFloat sqrt fmtFixed2 dataset prompt remaining attempt
        lastError result).2.length) ∧
    (∀ (i : Nat) (c : Nat × String),
      (retryLoopTrace gemini parseFloat sqrt fmtFixed2 dataset prompt remaining attempt
        lastError result).2[i]? = some c →
      i + 1 < (retryLoopTrace gemini parseFloat sqrt fmtFixed2 dataset prompt remaining attempt
        lastError result).2.length →
      attemptFails gemini parseFloat sqrt fmtFixed2 dataset prompt c) ∧
    (∀ c ∈ (retryLoopTrace gemini parseFloat sqrt fmtFixed2 dataset prompt remaining attempt
        lastError result).2,
      ∀ proposals valid,
        gemini.GenerateCharts c.1 dataset prompt c.2 = Except.ok proposals →
        collectValidCharts parseFloat sqrt fmtFixed2 dataset proposals = Outcome.ok valid →
        valid ≠ [] →
        (retryLoopTrace gemini parseFloat sqrt fmtFixed2 dataset prompt remaining attempt
          lastError result).1 =
          Outcome.ok
            { Insights := result.Insights,
              Charts := valid,
              ChartStatus := if valid.length = proposals.length then "success" else "partial",
              ChartMessage :=
                if valid.length = proposals.length then result.ChartMessage
                else "Generated " ++ Nat.repr valid.length ++ " out of " ++
                  Nat.repr proposals.length ++ " requested charts",
              RetryAttempts := c.1 }) := by
  induction remaining generalizing attempt lastError result with
  | zero =>
    refine ⟨?_, ?_, ?_⟩
    · intro i c h
      simp [retryLoopTrace] at h
    · intro i c h
      simp [retryLoopTrace] at h
    · intro c h
      simp [retryLoopTrace] at h
  | succ remaining ih =>
    have hinv' : attempt + remaining = maxAttempts := by omega
    rcases retryLoopTrace_step gemini parseFloat sqrt fmtFixed2 dataset prompt remaining attempt
        lastError result hinv' with
      ⟨proposals, valid, hg, hc, hne, ht⟩ | ⟨proposals, msg, hg, hc, ht⟩ | ⟨hf, feedback, ht⟩
    · rw [ht]
      refine ⟨?_, ?_, ?_⟩
      · intro i c h _
        cases i with
        | zero => rfl
        | succ i => simp at h
      · intro i c _ h
        simp at h
      · intro c hmem proposals' valid' hg' hc' _
        simp only [List.mem_singleton] at hmem
        subst hmem
        rw [hg] at hg'
        injection hg' with hg'
        subst hg'
        rw [hc] at hc'
        injection hc' with hc'
        subst hc'
        rfl
    · rw [ht]
      refine ⟨?_, ?_, ?_⟩
      · intro i c h _
        cases i with
        | zero => rfl
        | succ i => simp at h
      · intro i c _ h
        simp at h
      · intro c hmem proposals' valid' hg' hc' _
        simp only [List.mem_singleton] at hmem
        subst hmem
        rw [hg] at hg'
        injection hg' with hg'
        subst hg'
        rw [hc] at hc'
        cases hc'
    · obtain ⟨h1, h2, h3⟩ := ih (attempt + 1) feedback
        { result with RetryAttempts := attempt } (by omega)
      rw [ht]
      refine ⟨?_, ?_, ?_⟩
      · intro i c h hs
        cases i with
        | zero =>
          simp only [List.getElem?_cons_zero, Option.some.injEq] at h
          subst h
          exact absurd hf (not_attemptFails_of_survives _ _ _ _ _ _ _ hs)
        | succ i =>
          simp only [List.getElem?_cons_succ] at h
          simp only [List.length_cons]
          rw [← h1 i c h hs]
      · intro i c h hlt
        cases i with
        | zero =>
          simp only [List.getElem?_cons_zero, Option.some.injEq] at h
          subst h
          exact hf
        | succ i =>
          simp only [List.getElem?_cons_succ] at h
          simp only [List.length_cons] at hlt
          exact h2 i c h (by omega)
      · intro c hmem proposals valid hg hc hne
        rcases List.mem_cons.1 hmem with rfl | hmem
        · exact absurd hf (not_attemptFails_of_survives _ _ _ _ _ _ _
            ⟨proposals, valid, hg, hc, hne⟩)
        · exact h3 c hmem proposals valid hg hc hne

/-- When every attempt made fails, the logged loop uses all the iterations it
is allowed and returns the `failed` status with the generic message. -/
theorem retryLoopTrace_exhausted (gemini : Gemini F) (parseFloat : String → Option F)
    (sqrt : F → F) (fmtFixed2 : F → String) (dataset : Dataset F) (prompt : String)
    (remaining attempt : Nat) (lastError : String) (result : ProcessAnalysisResult F)
    (hinv : attempt + remaining = maxAttempts + 1)
    (hfail : ∀ c ∈ (retryLoopTrace gemini parseFloat sqrt fmtFixed2 dataset prompt remaining
      attempt lastError result).2,
      attemptFails gemini parseFloat sqrt fmtFixed2 dataset prompt c) :
    (retryLoopTrace gemini parseFloat sqrt fmtFixed2 dataset prompt remaining attempt lastError
      result).1 =
      Outcome.ok
        { Insights := result.Insights,
          Charts := result.Charts,
          ChartStatus := "failed",
          ChartMessage := failedMessage,
          RetryAttempts := if remaining = 0 then result.RetryAttempts else maxAttempts } ∧
    (retryLoopTrace gemini parseFloat sqrt fmtFixed2 dataset prompt remaining attempt lastError
      result).2.length = remaining := by
  induction remaining generalizing attempt lastError result with
  | zero => exact ⟨rfl, rfl⟩
  | succ remaining ih =>
    have hinv' : attempt + remaining = maxAttempts := by omega
    rcases retryLoopTrace_step gemini parseFloat sqrt fmtFixed2 dataset prompt remaining attempt
        lastError result hinv' with
      ⟨proposals, valid, hg, hc, hne, ht⟩ | ⟨proposals, msg, hg, hc, ht⟩ | ⟨hf, feedback, ht⟩
    · rw [ht] at hfail
      exact absurd (hfail _ (List.mem_singleton.2 rfl))
        (not_attemptFails_of_survives _ _ _ _ _ _ _ ⟨proposals, valid, hg, hc, hne⟩)
    · rw [ht] at hfail
      rcases hfail _ (List.mem_singleton.2 rfl) with ⟨err, he⟩ | ⟨proposals', hg', hc'⟩
      · rw [hg] at he
        cases he
      · rw [hg] at hg'
        injection hg' with hg'
        subst hg'
        rw [hc] at hc'
        cases hc'
    · rw [ht] at hfail ⊢
      obtain ⟨g1, g2⟩ := ih (attempt + 1) feedback { result with RetryAttempts := attempt }
        (by omega) (fun c hc => hfail c (List.mem_cons_of_mem _ hc))
      refine ⟨?_, by simp [g2]⟩
      simp only [g1]
      by_cases hr : remaining = 0
      · have ha : attempt = maxAttempts := by omega
        simp [hr, ha]
      · simp [hr]

end LoopStops

section AnalysisTheorems

variable {F : Type} [LinearOrderedField F] [FloorRing F]

/-- The logged analysis on inputs that pass the checks, the insight step and
the feasibility gate is the logged loop started at attempt 1. -/
theorem ProcessAnalysisTrace_entered (gemini : Gemini F) (parseFloat : String → Option F)
    (sqrt : F → F) (fmtFixed2 : F → String) (dataset : Dataset F) (prompt insights : String)
    (hrows : dataset.Rows.length ≠ 0) (hp : prompt ≠ "")
    (hi : gemini.Analyze dataset prompt = Except.ok insights) (hne : insights ≠ "")
    (hf : isChartGenerationFeasible dataset = true) :
    ProcessAnalysisTrace gemini parseFloat sqrt fmtFixed2 (some dataset) prompt =
      retryLoopTrace gemini parseFloat sqrt fmtFixed2 dataset prompt maxAttempts 1 ""
        { Insights := insights, Charts := [], ChartStatus := "failed", ChartMessage := "",
          RetryAttempts := 0 } := by
  have hf' : ¬ (!isChartGenerationFeasible dataset) = true := by simp [hf]
  simp only [ProcessAnalysisTrace, if_neg hrows, if_neg hp, hi, if_neg hne, if_neg hf']

/-- The logged analysis makes a call only on inputs that pass the checks, the
insight step and the feasibility gate. -/
theorem ProcessAnalysisTrace_calls_ne_nil (gemini : Gemini F) (parseFloat : String → Option F)
    (sqrt : F → F) (fmtFixed2 : F → String) (dataset : Dataset F) (prompt : String)
    (h : (ProcessAnalysisTrace gemini parseFloat sqrt fmtFixed2 (some dataset) prompt).2 ≠ []) :
    ∃ insights, dataset.Rows.length ≠ 0 ∧ prompt ≠ "" ∧
      gemini.Analyze dataset prompt = Except.ok insights ∧ insights ≠ "" ∧
      isChartGenerationFeasible dataset = true := by
  simp only [ProcessAnalysisTrace] at h
  by_cases h1 : dataset.Rows.length = 0
  · rw [if_pos h1] at h
    exact absurd rfl h
  · rw [if_neg h1] at h
    by_cases h2 : prompt = ""
    · rw [if_pos h2] at h
      exact absurd rfl h
    · rw [if_neg h2] at h
      cases ha : gemini.Analyze dataset prompt with
      | error err =>
        rw [ha] at h
        exact absurd rfl h
      | ok insights =>
        rw [ha] at h
        simp only [] at h
        by_cases h3 : insights = ""
        · rw [if_pos h3] at h
          exact absurd rfl h
        · rw [if_neg h3] at h
          by_cases h4 : (!isChartGenerationFeasible dataset) = true
          · rw [if_pos h4] at h
            exact absurd rfl h
          · exact ⟨insights, h1, h2, rfl, h3, by simpa using h4⟩

/-- What the collecting loop returns when no projection of a validated
proposal panics: the survivors in the words of the specification. -/
theorem collectValidCharts_eq_specSurvivors (parseFloat : String → Option F) (sqrt : F → F)
    (fmtFixed2 : F → String) (dataset : Dataset F) (proposals : List ChartConfig)
    (hproj : ∀ chart ∈ proposals, validateChartConfig dataset chart = true →
      ∃ data, generateChartData parseFloat sqrt fmtFixed2 dataset chart = Outcome.ok data) :
    collectValidCharts parseFloat sqrt fmtFixed2 dataset proposals =
      Outcome.ok (specSurvivors parseFloat sqrt fmtFixed2 dataset proposals) := by
  induction proposals with
  | nil => rfl
  | cons chart rest ih =>
    have ih' := ih (fun c hc => hproj c (List.mem_cons_of_mem _ hc))
    by_cases hv : validateChartConfig dataset chart = true
    · obtain ⟨data, hd⟩ := hproj chart (List.mem_cons_self _ _) hv
      unfold specSurvivors at ih' ⊢
      rw [List.filterMap_cons]
      simp only [collectValidCharts, hv, hd, Bool.not_true, Bool.false_eq_true, if_false,
        if_true]
      by_cases hl : data.length = 0
      · simp only [if_pos hl]
        exact ih'
      · simp only [if_neg hl, ih']
    · have hv' : validateChartConfig dataset chart = false := by simpa using hv
      unfold specSurvivors at ih' ⊢
      rw [List.filterMap_cons]
      simp only [collectValidCharts, hv', Bool.not_false, Bool.false_eq_true, if_false, if_true]
      exact ih'

end AnalysisTheorems

section AnalysisOutcome

variable {F : Type} [LinearOrderedField F] [FloorRing F]

/-- The logged analysis either enters the retry loop, or makes no call and
returns an error or the `not_feasible` result. -/
theorem ProcessAnalysisTrace_cases (gemini : Gemini F) (parseFloat : String → Option F)
    (sqrt : F → F) (fmtFixed2 : F → String) (dataset : Dataset F) (prompt : String) :
    (∃ insights, dataset.Rows.length ≠ 0 ∧ prompt ≠ "" ∧
      gemini.Analyze dataset prompt = Except.ok insights ∧ insights ≠ "" ∧
      isChartGenerationFeasible dataset = true) ∨
    ((ProcessAnalysisTrace gemini parseFloat sqrt fmtFixed2 (some dataset) prompt).2 = [] ∧
      ∀ r, (ProcessAnalysisTrace gemini parseFloat sqrt fmtFixed2 (some dataset) prompt).1 =
          Outcome.ok r →
        ∃ insights, gemini.Analyze dataset prompt = Except.ok insights ∧
          r = notFeasibleResult F insights) := by
  by_cases hnil : (ProcessAnalysisTrace gemini parseFloat sqrt fmtFixed2 (some dataset)
      prompt).2 = []
  · by_cases h1 : dataset.Rows.length = 0
    · refine Or.inr ⟨hnil, ?_⟩
      intro r h
      simp only [ProcessAnalysisTrace, if_pos h1] at h
      cases h
    · by_cases h2 : prompt = ""
      · refine Or.inr ⟨hnil, ?_⟩
        intro r h
        simp only [ProcessAnalysisTrace, if_neg h1, if_pos h2] at h
        cases h
      · cases ha : gemini.Analyze dataset prompt with
        | error err =>
          refine Or.inr ⟨hnil, ?_⟩
          intro r h
          simp only [ProcessAnalysisTrace, if_neg h1, if_neg h2, ha] at h
          cases h
        | ok insights =>
          by_cases h3 : insights = ""
          · refine Or.inr ⟨hnil, ?_⟩
            intro r h
            simp only [ProcessAnalysisTrace, if_neg h1, if_neg h2, ha, if_pos h3] at h
            cases h
          · by_cases h4 : (!isChartGenerationFeasible dataset) = true
            · refine Or.inr ⟨hnil, ?_⟩
              intro r h
              simp only [ProcessAnalysisTrace, if_neg h1, if_neg h2, ha, if_neg h3,
                if_pos h4] at h
              injection h with h
              exact ⟨insights, rfl, h.symm⟩
            · exact Or.inl ⟨insights, h1, h2, rfl, h3, by simpa using h4⟩
  · exact Or.inl (ProcessAnalysisTrace_calls_ne_nil gemini parseFloat sqrt fmtFixed2 dataset
      prompt hnil)

/-- `ProcessAnalysis` returns an error exactly when the dataset is missing or
has no row, the prompt is empty, or the insight call fails or returns the
empty text. -/
theorem ProcessAnalysis_error_iff (gemini : Gemini F) (parseFloat : String → Option F)
    (sqrt : F → F) (fmtFixed2 : F → String) (dataset : Option (Dataset F)) (prompt : String) :
    (∃ msg, ProcessAnalysis gemini parseFloat sqrt fmtFixed2 dataset prompt =
      Outcome.error msg) ↔
    (dataset = none ∨ ∃ ds, dataset = some ds ∧
      (ds.Rows.length = 0 ∨ prompt = "" ∨
        (∃ err, gemini.Analyze ds prompt = Except.error err) ∨
        gemini.Analyze ds prompt = Except.ok "")) := by
  cases dataset with
  | none => exact ⟨fun _ => Or.inl rfl, fun _ => ⟨_, rfl⟩⟩
  | some ds =>
    by_cases h1 : ds.Rows.length = 0
    · exact ⟨fun _ => Or.inr ⟨ds, rfl, Or.inl h1⟩,
        fun _ => ⟨"dataset is empty", by simp only [ProcessAnalysis, if_pos h1]⟩⟩
    · by_cases h2 : prompt = ""
      · exact ⟨fun _ => Or.inr ⟨ds, rfl, Or.inr (Or.inl h2)⟩,
          fun _ => ⟨"prompt cannot be empty",
            by simp only [ProcessAnalysis, if_neg h1, if_pos h2]⟩⟩
      · cases ha : gemini.Analyze ds prompt with
        | error err =>
          exact ⟨fun _ => Or.inr ⟨ds, rfl, Or.inr (Or.inr (Or.inl ⟨err, ha⟩))⟩,
            fun _ => ⟨"analysis step failed: " ++ err,
              by simp only [ProcessAnalysis, if_neg h1, if_neg h2, ha]⟩⟩
        | ok insights =>
          by_cases h3 : insights = ""
          · subst h3
            exact ⟨fun _ => Or.inr ⟨ds, rfl, Or.inr (Or.inr (Or.inr ha))⟩,
              fun _ => ⟨"analysis step returned empty insights",
                by simp only [ProcessAnalysis, if_neg h1, if_neg h2, ha, if_true]⟩⟩
          · constructor
            · rintro ⟨msg, hm⟩
              exfalso
              by_cases h4 : (!isChartGenerationFeasible ds) = true
              · simp only [ProcessAnalysis, if_neg h1, if_neg h2, ha, if_neg h3,
                  if_pos h4] at hm
                cases hm
              · simp only [ProcessAnalysis, if_neg h1, if_neg h2, ha, if_neg h3,
                  if_neg h4] at hm
                rw [← retryLoopTrace_fst] at hm
                exact (retryLoopTrace_shape gemini parseFloat sqrt fmtFixed2 ds prompt
                  maxAttempts 1 "" _ (by decide)).2.2.1 msg hm
            · rintro (h | ⟨ds', hds, h⟩)
              · cases h
              · injection hds with hds
                subst hds
                rcases h with h | h | ⟨err, h⟩ | h
                · exact absurd h h1
                · exact absurd h h2
                · rw [ha] at h
                  cases h
                · rw [ha] at h
                  injection h with h
                  exact absurd h h3

/-- When no proposal carries a negative `bins`, the collecting loop returns. -/
theorem collectValidCharts_ok_of_bins_nonneg (parseFloat : String → Option F) (sqrt : F → F)
    (fmtFixed2 : F → String) (dataset : Dataset F) (proposals : List ChartConfig)
    (hbins : ∀ chart ∈ proposals, 0 ≤ chart.Bins) :
    collectValidCharts parseFloat sqrt fmtFixed2 dataset proposals =
      Outcome.ok (specSurvivors parseFloat sqrt fmtFixed2 dataset proposals) :=
  collectValidCharts_eq_specSurvivors parseFloat sqrt fmtFixed2 dataset proposals
    (fun chart hc _ =>
      generateChartData_ok_of_bins_nonneg parseFloat sqrt fmtFixed2 dataset chart
        (hbins chart hc))

/-- When the service never proposes a negative `bins`, the logged loop returns
a result. -/
theorem retryLoopTrace_ok_of_bins_nonneg (gemini : Gemini F) (parseFloat : String → Option F)
    (sqrt : F → F) (fmtFixed2 : F → String) (dataset : Dataset F) (prompt : String)
    (hbins : ∀ attempt feedback proposals,
      gemini.GenerateCharts attempt dataset prompt feedback = Except.ok proposals →
      ∀ chart ∈ proposals, 0 ≤ chart.Bins)
    (remaining attempt : Nat) (lastError : String) (result : ProcessAnalysisResult F)
    (hinv : attempt + remaining = maxAttempts + 1) :
    ∃ r, (retryLoopTrace gemini parseFloat sqrt fmtFixed2 dataset prompt remaining attempt
      lastError result).1 = Outcome.ok r := by
  induction remaining generalizing attempt lastError result with
  | zero => exact ⟨_, rfl⟩
  | succ remaining ih =>
    have hinv' : attempt + remaining = maxAttempts := by omega
    rcases retryLoopTrace_step gemini parseFloat sqrt fmtFixed2 dataset prompt remaining attempt
        lastError result hinv' with
      ⟨proposals, valid, hg, hc, hne, ht⟩ | ⟨proposals, msg, hg, hc, ht⟩ | ⟨hf, feedback, ht⟩
    · exact ⟨_, by rw [ht]⟩
    · rw [collectValidCharts_ok_of_bins_nonneg parseFloat sqrt fmtFixed2 dataset proposals
        (hbins _ _ _ hg)] at hc
      cases hc
    · rw [ht]
      exact ih (attempt + 1) feedback _ (by omega)

/-- On a dataset with a row, a non-empty prompt and a non-empty insight,
`ProcessAnalysis` returns a result with the insight and one of the four
statuses, or a projection panics; it returns a result whenever the service
never proposes a negative `bins`. -/
theorem ProcessAnalysis_result_or_panic (gemini : Gemini F) (parseFloat : String → Option F)
    (sqrt : F → F) (fmtFixed2 : F → String) (dataset : Dataset F) (prompt insights : String)
    (hrows : dataset.Rows.length ≠ 0) (hp : prompt ≠ "")
    (hi : gemini.Analyze dataset prompt = Except.ok insights) (hne : insights ≠ "") :
    ((∃ r, ProcessAnalysis gemini parseFloat sqrt fmtFixed2 (some dataset) prompt =
        Outcome.ok r ∧ r.Insights = insights ∧
        (r.ChartStatus = "success" ∨ r.ChartStatus = "partial" ∨ r.ChartStatus = "failed" ∨
          r.ChartStatus = "not_feasible")) ∨
      ∃ msg, ProcessAnalysis gemini parseFloat sqrt fmtFixed2 (some dataset) prompt =
        Outcome.panic msg) ∧
    ((∀ attempt feedback proposals,
        gemini.GenerateCharts attempt dataset prompt feedback = Except.ok proposals →
        ∀ chart ∈ proposals, 0 ≤ chart.Bins) →
      ∃ r, ProcessAnalysis gemini parseFloat sqrt fmtFixed2 (some dataset) prompt =
        Outcome.ok r) := by
  by_cases h4 : (!isChartGenerationFeasible dataset) = true
  · have hpa : ProcessAnalysis gemini parseFloat sqrt fmtFixed2 (some dataset) prompt =
        Outcome.ok (notFeasibleResult F insights) := by
      simp only [ProcessAnalysis, if_neg hrows, if_neg hp, hi, if_neg hne, if_pos h4]
      rfl
    exact ⟨Or.inl ⟨_, hpa, rfl, Or.inr (Or.inr (Or.inr rfl))⟩, fun _ => ⟨_, hpa⟩⟩
  · have hpa : ProcessAnalysis gemini parseFloat sqrt fmtFixed2 (some dataset) prompt =
        (retryLoopTrace gemini parseFloat sqrt fmtFixed2 dataset prompt maxAttempts 1 ""
          (ProcessAnalysisResult.mk insights [] "failed" "" 0)).1 := by
      rw [retryLoopTrace_fst]
      simp only [ProcessAnalysis, if_neg hrows, if_neg hp, hi, if_neg hne, if_neg h4]
    obtain ⟨_, _, hnoerr, hok⟩ := retryLoopTrace_shape gemini parseFloat sqrt fmtFixed2 dataset
      prompt maxAttempts 1 ""
      (ProcessAnalysisResult.mk insights [] "failed" "" 0) (by decide)
    refine ⟨?_, ?_⟩
    · rw [hpa]
      cases ht : (retryLoopTrace gemini parseFloat sqrt fmtFixed2 dataset prompt maxAttempts 1
          "" (ProcessAnalysisResult.mk insights [] "failed" "" 0)).1 with
      | ok r =>
        obtain ⟨g1, _, _, g4⟩ := hok r ht
        refine Or.inl ⟨r, rfl, g1, ?_⟩
        rcases g4 with g | g | g
        · exact Or.inl g
        · exact Or.inr (Or.inl g)
        · exact Or.inr (Or.inr (Or.inl g))
      | error msg => exact absurd ht (hnoerr msg)
      | panic msg => exact Or.inr ⟨msg, rfl⟩
    · intro hbins
      rw [hpa]
      exact retryLoopTrace_ok_of_bins_nonneg gemini parseFloat sqrt fmtFixed2 dataset prompt
        hbins maxAttempts 1 "" _ (by decide)

end AnalysisOutcome

/-- C22 fails on the code: on the sample dataset, with a non-empty prompt and
an insight, a proposed histogram chart with `bins = -1` makes
`ProcessAnalysis` panic; it returns neither a result nor an error. -/
theorem analysis_panics_on_negative_bins :
    ProcessAnalysis (stubGemini [sampleChart "histogram" "v" "" "" (-1)]) parseDecimal id
        (fun _ => "") (some sampleDataset) "distribution of v" =
      Outcome.panic "makeslice: len out of range" := by
  decide!

/-- C23 (amended): `ProcessAnalysis` on a dataset without rows returns the
error `dataset is empty` and makes no chart proposal call; on a dataset with
exactly one row, with a non-empty prompt and a non-empty insight, whatever the
columns, it returns the `not_feasible` result with the fixed message, no
charts and `RetryAttempts = 0`, and makes no chart proposal call. -/
theorem single_row_not_feasible {F : Type} [LinearOrderedField F] [FloorRing F]
    (gemini : Gemini F) (parseFloat : String → Option F) (sqrt : F → F)
    (fmtFixed2 : F → String) (dataset : Dataset F) (prompt : String) :
    (dataset.Rows.length = 0 →
      ProcessAnalysis gemini parseFloat sqrt fmtFixed2 (some dataset) prompt =
        Outcome.error "dataset is empty" ∧
      (ProcessAnalysisTrace gemini parseFloat sqrt fmtFixed2 (some dataset) prompt).2 = []) ∧
    (dataset.Rows.length = 1 → prompt ≠ "" →
      ∀ insights, gemini.Analyze dataset prompt = Except.ok insights → insights ≠ "" →
        ProcessAnalysis gemini parseFloat sqrt fmtFixed2 (some dataset) prompt =
          Outcome.ok (notFeasibleResult F insights) ∧
        (ProcessAnalysisTrace gemini parseFloat sqrt fmtFixed2 (some dataset) prompt).2 =
          []) := by
  constructor
  · intro h0
    constructor
    · simp only [ProcessAnalysis, if_pos h0]
    · simp only [ProcessAnalysisTrace, if_pos h0]
  · intro h1 hp insights hi hne
    have hrows : ¬ dataset.Rows.length = 0 := by omega
    have hf : (!isChartGenerationFeasible dataset) = true := by
      simp [isChartGenerationFeasible, h1]
    constructor
    · simp only [ProcessAnalysis, if_neg hrows, if_neg hp, hi, if_neg hne, if_pos hf]
      rfl
    · simp only [ProcessAnalysisTrace, if_neg hrows, if_neg hp, hi, if_neg hne, if_pos hf]

/-- C23 as stated fails: on a dataset with zero rows `ProcessAnalysis` returns
an error, not a result with the status `not_feasible`. -/
theorem zero_rows_counterexample :
    ProcessAnalysis (stubGemini [sampleChart "pie" "" "" "" 0]) parseDecimal id (fun _ => "")
        (some noRowDataset) "share of v by c" =
      Outcome.error "dataset is empty" := by
  decide!

/-- C23 (amended), run on the one-row dataset with a service that would
propose a valid pie chart. -/
theorem single_row_not_feasible_witness :
    ProcessAnalysis (stubGemini [sampleChart "pie" "" "" "" 0]) parseDecimal id (fun _ => "")
        (some oneRowDataset) "share of v by c" =
      Outcome.ok (notFeasibleResult ℚ "insight") ∧
    (ProcessAnalysisTrace (stubGemini [sampleChart "pie" "" "" "" 0]) parseDecimal id
      (fun _ => "") (some oneRowDataset) "share of v by c").2 = [] :=
  (single_row_not_feasible (stubGemini [sampleChart "pie" "" "" "" 0]) parseDecimal id
    (fun _ => "") oneRowDataset "share of v by c").2 rfl (by decide) "insight" rfl (by decide)

/-- The retry loop, for every behaviour of the chart proposal service:
`ProcessAnalysis` calls the service at most 3 times, the calls being the
attempts 1, 2, ... in order; a
returned result reports the number of calls made as `RetryAttempts`; a call
that leaves a surviving chart is the last call, and every call before the last
one fails (it errors or leaves no surviving chart); and when the retry loop is
entered (a dataset that passes the feasibility gate, a non-empty prompt and a
non-empty insight) and every call made fails, exactly 3 calls are made and the
result has the status `failed`, `RetryAttempts = 3`, no charts and the fixed
generic message. -/
theorem retry_budget {F : Type} [LinearOrderedField F] [FloorRing F]
    (gemini : Gemini F) (parseFloat : String → Option F) (sqrt : F → F)
    (fmtFixed2 : F → String) (dataset : Dataset F) (prompt : String) :
    (ProcessAnalysisTrace gemini parseFloat sqrt fmtFixed2 (some dataset) prompt).2.length ≤ 3 ∧
    (ProcessAnalysisTrace gemini parseFloat sqrt fmtFixed2 (some dataset) prompt).2.map
        Prod.fst =
      List.range' 1
        (ProcessAnalysisTrace gemini parseFloat sqrt fmtFixed2 (some dataset) prompt).2.length ∧
    (∀ r, ProcessAnalysis gemini parseFloat sqrt fmtFixed2 (some dataset) prompt =
        Outcome.ok r →
      r.RetryAttempts =
        (ProcessAnalysisTrace gemini parseFloat sqrt fmtFixed2 (some dataset)
          prompt).2.length) ∧
    (∀ (i : Nat) (c : Nat × String),
      (ProcessAnalysisTrace gemini parseFloat sqrt fmtFixed2 (some dataset) prompt).2[i]? =
        some c →
      attemptSurvives gemini parseFloat sqrt fmtFixed2 dataset prompt c →
      i + 1 =
        (ProcessAnalysisTrace gemini parseFloat sqrt fmtFixed2 (some dataset)
          prompt).2.length) ∧
    (∀ (i : Nat) (c : Nat × String),
      (ProcessAnalysisTrace gemini parseFloat sqrt fmtFixed2 (some dataset) prompt).2[i]? =
        some c →
      i + 1 <
        (ProcessAnalysisTrace gemini parseFloat sqrt fmtFixed2 (some dataset)
          prompt).2.length →
      attemptFails gemini parseFloat sqrt fmtFixed2 dataset prompt c) ∧
    (∀ insights, dataset.Rows.length ≠ 0 → prompt ≠ "" →
      gemini.Analyze dataset prompt = Except.ok insights → insights ≠ "" →
      isChartGenerationFeasible dataset = true →
      (∀ c ∈ (ProcessAnalysisTrace gemini parseFloat sqrt fmtFixed2 (some dataset) prompt).2,
        attemptFails gemini parseFloat sqrt fmtFixed2 dataset prompt c) →
      (ProcessAnalysisTrace gemini parseFloat sqrt fmtFixed2 (some dataset) prompt).2.length =
        3 ∧
      ProcessAnalysis gemini parseFloat sqrt fmtFixed2 (some dataset) prompt =
        Outcome.ok
          { Insights := insights, Charts := [], ChartStatus := "failed",
            ChartMessage := failedMessage, RetryAttempts := 3 }) := by
  rcases ProcessAnalysisTrace_cases gemini parseFloat sqrt fmtFixed2 dataset prompt with
    ⟨insights, hrows, hp, hi, hne, hf⟩ | ⟨hnil, hres⟩
  · have hent := ProcessAnalysisTrace_entered gemini parseFloat sqrt fmtFixed2 dataset prompt
      insights hrows hp hi hne hf
    have hinv : 1 + maxAttempts = maxAttempts + 1 := by decide
    obtain ⟨s1, s2, _, s4⟩ := retryLoopTrace_shape gemini parseFloat sqrt fmtFixed2 dataset
      prompt maxAttempts 1 "" (ProcessAnalysisResult.mk insights [] "failed" "" 0) hinv
    obtain ⟨t1, t2, _⟩ := retryLoopTrace_stops gemini parseFloat sqrt fmtFixed2 dataset
      prompt maxAttempts 1 "" (ProcessAnalysisResult.mk insights [] "failed" "" 0) hinv
    rw [← ProcessAnalysisTrace_fst, hent]
    refine ⟨s1, s2, ?_, t1, t2, ?_⟩
    · intro r hr
      obtain ⟨_, g2, g3, _⟩ := s4 r hr
      by_cases hnil : (retryLoopTrace gemini parseFloat sqrt fmtFixed2 dataset prompt
          maxAttempts 1 "" (ProcessAnalysisResult.mk insights [] "failed" "" 0)).2 = []
      · rw [g2 hnil, hnil]
        rfl
      · have := g3 hnil
        omega
    · intro insights' _ _ hi' _ _ hfail
      rw [hi] at hi'
      injection hi' with hi'
      subst hi'
      obtain ⟨e1, e2⟩ := retryLoopTrace_exhausted gemini parseFloat sqrt fmtFixed2 dataset
        prompt maxAttempts 1 "" (ProcessAnalysisResult.mk insights [] "failed" "" 0) hinv hfail
      exact ⟨e2, e1⟩
  · rw [← ProcessAnalysisTrace_fst, hnil]
    refine ⟨by simp, rfl, ?_, ?_, ?_, ?_⟩
    · intro r hr
      obtain ⟨insights, _, hr'⟩ := hres r hr
      rw [hr']
      rfl
    · intro i c h
      simp at h
    · intro i c h
      simp at h
    · intro insights hrows hp hi hne hf _
      have hent := ProcessAnalysisTrace_entered gemini parseFloat sqrt fmtFixed2 dataset prompt
        insights hrows hp hi hne hf
      have hinv : 1 + maxAttempts = maxAttempts + 1 := by decide
      have hfail : ∀ c ∈ (retryLoopTrace gemini parseFloat sqrt fmtFixed2 dataset prompt
          maxAttempts 1 "" (ProcessAnalysisResult.mk insights [] "failed" "" 0)).2,
          attemptFails gemini parseFloat sqrt fmtFixed2 dataset prompt c := by
        rw [← hent, hnil]
        intro c hc
        cases hc
      obtain ⟨_, e2⟩ := retryLoopTrace_exhausted gemini parseFloat sqrt fmtFixed2 dataset
        prompt maxAttempts 1 "" (ProcessAnalysisResult.mk insights [] "failed" "" 0) hinv hfail
      rw [← hent, hnil] at e2
      cases e2

/-- The retry loop, run on the sample dataset with a service that proposes, at
every
attempt, one chart on a missing column: three calls, numbered 1, 2, 3, and the
`failed` result with `RetryAttempts = 3`. -/
theorem retry_budget_witness :
    (ProcessAnalysisTrace (stubGemini [sampleChart "bar" "zzz" "v" "" 0]) parseDecimal id
      (fun _ => "") (some sampleDataset) "v by zzz").2.length = 3 ∧
    (ProcessAnalysisTrace (stubGemini [sampleChart "bar" "zzz" "v" "" 0]) parseDecimal id
      (fun _ => "") (some sampleDataset) "v by zzz").2.map Prod.fst = [1, 2, 3] ∧
    ProcessAnalysis (stubGemini [sampleChart "bar" "zzz" "v" "" 0]) parseDecimal id
        (fun _ => "") (some sampleDataset) "v by zzz" =
      Outcome.ok
        { Insights := "insight", Charts := [], ChartStatus := "failed",
          ChartMessage := failedMessage, RetryAttempts := 3 } := by
  have h := (retry_budget (stubGemini [sampleChart "bar" "zzz" "v" "" 0]) parseDecimal id
    (fun _ => "") sampleDataset "v by zzz").2.2.2.2.2 "insight" (by decide) (by decide) rfl
    (by decide) (by decide)
    (fun c _ => Or.inr ⟨[sampleChart "bar" "zzz" "v" "" 0], rfl, by decide!⟩)
  refine ⟨h.1, ?_, h.2⟩
  decide!

/-- The result of a surviving attempt: let a call of the chart proposal service
made by `ProcessAnalysis` return `M` proposed charts of which `N ≥ 1` survive (no projection of a
validated proposal panicking). Then that call is the last call and every call
before it fails; `ProcessAnalysis` returns a result whose charts are exactly
the proposed charts that pass the validator and have a non-empty projection, in
proposal order, each with the data of its projection; the status is `success`
with an empty message when `N = M`, and otherwise `partial` with the message
`Generated N out of M requested charts`; `RetryAttempts` is the number of that
attempt. -/
theorem surviving_attempt_result {F : Type} [LinearOrderedField F] [FloorRing F]
    (gemini : Gemini F) (parseFloat : String → Option F) (sqrt : F → F)
    (fmtFixed2 : F → String) (dataset : Dataset F) (prompt : String)
    (i : Nat) (call : Nat × String) (proposals : List ChartConfig)
    (hcall : (ProcessAnalysisTrace gemini parseFloat sqrt fmtFixed2 (some dataset)
      prompt).2[i]? = some call)
    (hg : gemini.GenerateCharts call.1 dataset prompt call.2 = Except.ok proposals)
    (hproj : ∀ chart ∈ proposals, validateChartConfig dataset chart = true →
      ∃ data, generateChartData parseFloat sqrt fmtFixed2 dataset chart = Outcome.ok data)
    (hN : specSurvivors parseFloat sqrt fmtFixed2 dataset proposals ≠ []) :
    ∃ insights, gemini.Analyze dataset prompt = Except.ok insights ∧
      ProcessAnalysis gemini parseFloat sqrt fmtFixed2 (some dataset) prompt =
        Outcome.ok (survivingResult insights
          (specSurvivors parseFloat sqrt fmtFixed2 dataset proposals) proposals.length
          call.1) ∧
      call.1 = i + 1 ∧
      i + 1 = (ProcessAnalysisTrace gemini parseFloat sqrt fmtFixed2 (some dataset)
        prompt).2.length ∧
      ∀ (j : Nat) (c : Nat × String), j < i →
        (ProcessAnalysisTrace gemini parseFloat sqrt fmtFixed2 (some dataset) prompt).2[j]? =
          some c →
        attemptFails gemini parseFloat sqrt fmtFixed2 dataset prompt c := by
  have hmem : call ∈ (ProcessAnalysisTrace gemini parseFloat sqrt fmtFixed2 (some dataset)
      prompt).2 := List.getElem?_mem hcall
  obtain ⟨insights, hrows, hp, hi, hne, hf⟩ := ProcessAnalysisTrace_calls_ne_nil gemini
    parseFloat sqrt fmtFixed2 dataset prompt (List.ne_nil_of_mem hmem)
  have hent := ProcessAnalysisTrace_entered gemini parseFloat sqrt fmtFixed2 dataset prompt
    insights hrows hp hi hne hf
  have hinv : 1 + maxAttempts = maxAttempts + 1 := by decide
  have hc := collectValidCharts_eq_specSurvivors parseFloat sqrt fmtFixed2 dataset proposals
    hproj
  obtain ⟨_, s2, _, _⟩ := retryLoopTrace_shape gemini parseFloat sqrt fmtFixed2 dataset
    prompt maxAttempts 1 "" (ProcessAnalysisResult.mk insights [] "failed" "" 0) hinv
  obtain ⟨t1, t2, t3⟩ := retryLoopTrace_stops gemini parseFloat sqrt fmtFixed2 dataset
    prompt maxAttempts 1 "" (ProcessAnalysisResult.mk insights [] "failed" "" 0) hinv
  rw [hent] at hcall hmem
  have hlast := t1 i call hcall ⟨proposals, _, hg, hc, hN⟩
  refine ⟨insights, hi, ?_, ?_, ?_, ?_⟩
  · rw [← ProcessAnalysisTrace_fst, hent, t3 call hmem proposals _ hg hc hN]
    rfl
  · have hnum : ((retryLoopTrace gemini parseFloat sqrt fmtFixed2 dataset prompt maxAttempts 1
        "" (ProcessAnalysisResult.mk insights [] "failed" "" 0)).2.map Prod.fst)[i]? =
        some call.1 := by
      rw [List.getElem?_map, hcall]
      rfl
    rw [s2, List.getElem?_range' ] at hnum
    · injection hnum with hnum
      omega
    · omega
  · rw [hent]
    exact hlast
  · intro j c hj hcj
    rw [hent] at hcj
    exact t2 j c hcj (by omega)

/-- A surviving attempt, run on the sample dataset with a service whose first
attempt errors
and whose second attempt proposes a valid pie chart and a bar chart on a
missing column: the result of the second attempt is `partial` with the pie
chart and the message `Generated 1 out of 2 requested charts`. -/
theorem surviving_attempt_result_witness :
    (∃ insights, (flakyGemini [sampleChart "pie" "" "" "" 0,
          sampleChart "bar" "zzz" "v" "" 0]).Analyze sampleDataset "share of v by c" =
        Except.ok insights ∧
      ProcessAnalysis (flakyGemini [sampleChart "pie" "" "" "" 0,
          sampleChart "bar" "zzz" "v" "" 0]) parseDecimal id (fun _ => "")
          (some sampleDataset) "share of v by c" =
        Outcome.ok (survivingResult insights
          (specSurvivors parseDecimal id (fun _ => "") sampleDataset
            [sampleChart "pie" "" "" "" 0, sampleChart "bar" "zzz" "v" "" 0]) 2 2)) ∧
    ProcessAnalysis (flakyGemini [sampleChart "pie" "" "" "" 0,
        sampleChart "bar" "zzz" "v" "" 0]) parseDecimal id (fun _ => "")
        (some sampleDataset) "share of v by c" =
      Outcome.ok
        { Insights := "insight",
          Charts := [ChartOut.mk (sampleChart "pie" "" "" "" 0)
            [[("c", Value.str "A"), ("v", Value.num 3)]]],
          ChartStatus := "partial",
          ChartMessage := "Generated 1 out of 2 requested charts",
          RetryAttempts := 2 } := by
  constructor
  · obtain ⟨insights, h1, h2, _⟩ := surviving_attempt_result
      (flakyGemini [sampleChart "pie" "" "" "" 0, sampleChart "bar" "zzz" "v" "" 0])
      parseDecimal id (fun _ => "") sampleDataset "share of v by c" 1
      (2, "Previous response did NOT include valid graph JSON. Error: invalid JSON response. You MUST return ONLY valid JSON in the exact format specified, with no explanations, markdown, or code blocks.")
      [sampleChart "pie" "" "" "" 0, sampleChart "bar" "zzz" "v" "" 0]
      (by decide!) rfl
      (fun chart hc _ => generateChartData_ok_of_bins_nonneg parseDecimal id (fun _ => "")
        sampleDataset chart (by
          simp only [List.mem_cons, List.mem_singleton, List.not_mem_nil, or_false] at hc
          rcases hc with rfl | rfl <;> decide))
      (by decide!)
    exact ⟨insights, h1, h2⟩
  · decide!

/-- C24 fails on the code: on the sample dataset, with a service that proposes
at every attempt a histogram chart with `bins = -1`, `ProcessAnalysis` makes
one call of the service and panics in the projection; it makes no second or
third call and returns no result, so no `failed` status and no
`RetryAttempts`. -/
theorem retry_loop_panics_on_negative_bins :
    ProcessAnalysisTrace (stubGemini [sampleChart "histogram" "v" "" "" (-1)]) parseDecimal id
        (fun _ => "") (some sampleDataset) "distribution of v" =
      (Outcome.panic "makeslice: len out of range", [(1, "")]) := by
  decide!

/-- C25 fails on the code: on the sample dataset, with a service that proposes
a pie chart and a histogram chart with `bins = -1`, both proposals pass the
validator and the pie chart has a non-empty projection, so one of two
proposals survives; `ProcessAnalysis` panics in the projection of the
histogram and returns no `partial` result. -/
theorem surviving_chart_lost_on_negative_bins :
    validateChartConfig sampleDataset (sampleChart "pie" "" "" "" 0) = true ∧
    generateChartData parseDecimal id (fun _ => "") sampleDataset
        (sampleChart "pie" "" "" "" 0) =
      Outcome.ok [[("c", Value.str "A"), ("v", Value.num 3)]] ∧
    validateChartConfig sampleDataset (sampleChart "histogram" "v" "" "" (-1)) = true ∧
    ProcessAnalysis
        (stubGemini [sampleChart "pie" "" "" "" 0, sampleChart "histogram" "v" "" "" (-1)])
        parseDecimal id (fun _ => "") (some sampleDataset) "share of v by c" =
      Outcome.panic "makeslice: len out of range" := by
  refine ⟨by decide!, by decide!, by decide!, by decide!⟩

/-! ## The grouped projection (`generateGroupedData`) -/

section GroupedTheorems

variable {F : Type}

/-- The first pass of `generateGroupedData` on the triples of the rows whose
`y` cell parses. -/
theorem groupStep_fold_eq (parseFloat : String → Option F)
    (entries : List (Cell × Cell × Cell)) (st : GroupState F) :
    entries.foldl (groupStep parseFloat) st =
      (numericTriples parseFloat entries).foldl groupInsert st := by
  induction entries generalizing st with
  | nil => rfl
  | cons e es ih =>
    cases hn : toNumber parseFloat e.2.1 with
    | none => simp [List.foldl_cons, groupStep, numericTriples, List.filterMap_cons, hn, ih]
    | some v =>
      simp [List.foldl_cons, groupStep, numericTriples, List.filterMap_cons, hn, ih,
        groupInsert]

/-- The state after the first pass: both maps have distinct keys, the keys are
the x texts and the group texts of the triples, and `grouped[x][g]` holds the
numbers of the pair in row order. -/
theorem groupInsert_fold_spec (triples : List (String × String × F)) (st : GroupState F)
    (h1 : (GoMap.keys st.grouped).Nodup) (h2 : (GoMap.keys st.groups).Nodup) :
    (GoMap.keys (triples.foldl groupInsert st).grouped).Nodup ∧
    (GoMap.keys (triples.foldl groupInsert st).groups).Nodup ∧
    (∀ k, k ∈ GoMap.keys (triples.foldl groupInsert st).grouped ↔
      k ∈ GoMap.keys st.grouped ∨ k ∈ triples.map (fun t => t.1)) ∧
    (∀ k, k ∈ GoMap.keys (triples.foldl groupInsert st).groups ↔
      k ∈ GoMap.keys st.groups ∨ k ∈ triples.map (fun t => t.2.1)) ∧
    (∀ x g, groupedAt (triples.foldl groupInsert st).grouped x g =
      groupedAt st.grouped x g ++ valuesOfPair triples x g) := by
  induction triples generalizing st with
  | nil =>
    refine ⟨h1, h2, ?_, ?_, ?_⟩
    · intro k; simp
    · intro k; simp
    · intro x g; simp [valuesOfPair]
  | cons t ts ih =>
    rw [List.foldl_cons]
    obtain ⟨i1, i2, i3, i4, i5⟩ := ih (groupInsert st t) (GoMap.nodup_keys_set _ _ _ h1)
      (GoMap.nodup_keys_set _ _ _ h2)
    refine ⟨i1, i2, ?_, ?_, ?_⟩
    · intro k
      rw [i3 k, groupInsert, GoMap.mem_keys_set]
      simp only [List.map_cons, List.mem_cons]
      tauto
    · intro k
      rw [i4 k, groupInsert, GoMap.mem_keys_set]
      simp only [List.map_cons, List.mem_cons]
      tauto
    · intro x g
      rw [i5 x g]
      by_cases hx : x = t.1
      · subst hx
        by_cases hg : g = t.2.1
        · subst hg
          simp [groupInsert, groupedAt, GoMap.get?_set_self, valuesOfPair, List.filter_cons]
        · have hg' : ¬ t.2.1 = g := fun e => hg e.symm
          simp [groupInsert, groupedAt, GoMap.get?_set_self, GoMap.get?_set_ne _ _ _ _ hg,
            valuesOfPair, List.filter_cons, hg']
      · have hx' : ¬ t.1 = x := fun e => hx e.symm
        simp [groupInsert, groupedAt, GoMap.get?_set_ne _ _ _ _ hx, valuesOfPair,
          List.filter_cons, hx']

end GroupedTheorems

/-- The point of one x-value, with the value of each group written as one
assignment. -/
theorem groupPoint_eq {F : Type} [LinearOrderedField F] (chart : ChartConfig)
    (groupList : List String) (xVal : String) (groupMap : GoMap (List F)) :
    groupPoint chart groupList xVal groupMap =
      groupList.foldl
        (fun (point : ChartRow F) g =>
          GoMap.set point g
            (if ((GoMap.get? groupMap g).getD []).length = 0 then Value.int 0
              else Value.num (applyAggregate chart.Aggregate ((GoMap.get? groupMap g).getD []))))
        (GoMap.set [] chart.X (Value.str xVal)) := by
  unfold groupPoint
  congr 1
  funext point g
  simp only []
  split <;> rfl

/-- The dispatcher on a bar, line or area chart with `groupBy` set. -/
theorem generateChartData_grouped {F : Type} [LinearOrderedField F] [FloorRing F]
    (parseFloat : String → Option F) (sqrt : F → F) (fmtFixed2 : F → String)
    (dataset : Dataset F) (chart : ChartConfig)
    (htype : chart.Typ = "bar" ∨ chart.Typ = "line" ∨ chart.Typ = "area")
    (hx : chart.X ≠ "") (hy : chart.Y ≠ "") (hg : chart.GroupBy ≠ "") :
    generateChartData parseFloat sqrt fmtFixed2 dataset chart =
      Outcome.ok (generateGroupedData parseFloat dataset chart) := by
  unfold generateChartData
  rw [if_pos htype, if_pos ⟨hx, hy⟩, if_pos hg]

/-- C26 (amended): for a bar/line/area chart with `groupBy` set whose `x`, `y`
and `groupBy` name existing columns of a dataset with rows of full width, let
the triples be the (x-value, group-value, number) of the source rows whose `y`
cell parses. The projection has one row per distinct x-value of the triples and
one field per distinct group-value of the triples (a group-value that occurs
only in rows whose `y` does not parse has no field). The row of an x-value has
no other keys than `x` and these group-values; it stores the x-value under `x`
(when no group-value equals the name `x`), and under each group-value the
aggregate of the numbers of that (x-value, group-value) pair, or the integer 0
when the pair has no number. The aggregate is the sum, mean, count, greatest or
least element for `sum`, `avg`, `count`, `max`, `min`, and the sum for the
empty or any other name. -/
theorem grouped_projection {F : Type} [LinearOrderedField F] [FloorRing F]
    (parseFloat : String → Option F) (sqrt : F → F) (fmtFixed2 : F → String)
    (dataset : Dataset F) (chart : ChartConfig)
    (hrect : ∀ row ∈ dataset.Rows, row.length = dataset.Columns.length)
    (hx : chart.X ≠ "") (hy : chart.Y ≠ "") (hg : chart.GroupBy ≠ "")
    (hxc : chart.X ∈ dataset.Columns.map (fun c => c.Name))
    (hyc : chart.Y ∈ dataset.Columns.map (fun c => c.Name))
    (hgc : chart.GroupBy ∈ dataset.Columns.map (fun c => c.Name))
    (htype : chart.Typ = "bar" ∨ chart.Typ = "line" ∨ chart.Typ = "area") :
    ∃ (grouped : GoMap (GoMap (List F))) (groupList : List String),
      generateChartData parseFloat sqrt fmtFixed2 dataset chart =
        Outcome.ok (grouped.map (fun e => groupPoint chart groupList e.1 e.2)) ∧
      (grouped.map Prod.fst).Nodup ∧
      (∀ k, k ∈ grouped.map Prod.fst ↔
        k ∈ (numericTriples parseFloat ((columnCells dataset chart.X).zip
          ((columnCells dataset chart.Y).zip (columnCells dataset chart.GroupBy)))).map
            (fun t => t.1)) ∧
      groupList.Nodup ∧
      (∀ g, g ∈ groupList ↔
        g ∈ (numericTriples parseFloat ((columnCells dataset chart.X).zip
          ((columnCells dataset chart.Y).zip (columnCells dataset chart.GroupBy)))).map
            (fun t => t.2.1)) ∧
      (∀ e ∈ grouped,
        (∀ k, k ∈ GoMap.keys (groupPoint chart groupList e.1 e.2) ↔
          k = chart.X ∨ k ∈ groupList) ∧
        (chart.X ∉ groupList →
          GoMap.get? (groupPoint chart groupList e.1 e.2) chart.X = some (Value.str e.1)) ∧
        ∀ g ∈ groupList,
          GoMap.get? (groupPoint chart groupList e.1 e.2) g =
            some (if (valuesOfPair (numericTriples parseFloat ((columnCells dataset chart.X).zip
                ((columnCells dataset chart.Y).zip (columnCells dataset chart.GroupBy))))
                e.1 g).length = 0 then Value.int 0
              else Value.num (applyAggregate chart.Aggregate
                (valuesOfPair (numericTriples parseFloat ((columnCells dataset chart.X).zip
                  ((columnCells dataset chart.Y).zip (columnCells dataset chart.GroupBy))))
                  e.1 g)))) ∧
      ∀ values : List F, values ≠ [] →
        (chart.Aggregate = "sum" → applyAggregate chart.Aggregate values = values.sum) ∧
        (chart.Aggregate = "avg" →
          applyAggregate chart.Aggregate values = values.sum / (values.length : F)) ∧
        (chart.Aggregate = "count" →
          applyAggregate chart.Aggregate values = (values.length : F)) ∧
        (chart.Aggregate = "max" → applyAggregate chart.Aggregate values ∈ values ∧
          ∀ v ∈ values, v ≤ applyAggregate chart.Aggregate values) ∧
        (chart.Aggregate = "min" → applyAggregate chart.Aggregate values ∈ values ∧
          ∀ v ∈ values, applyAggregate chart.Aggregate values ≤ v) ∧
        (chart.Aggregate ≠ "sum" → chart.Aggregate ≠ "avg" → chart.Aggregate ≠ "count" →
          chart.Aggregate ≠ "max" → chart.Aggregate ≠ "min" →
          applyAggregate chart.Aggregate values = values.sum) := by
  obtain ⟨s1, s2, s3, s4, s5⟩ := groupInsert_fold_spec
    (numericTriples parseFloat ((columnCells dataset chart.X).zip
      ((columnCells dataset chart.Y).zip (columnCells dataset chart.GroupBy))))
    ({ grouped := [], groups := [] } : GroupState F) (by simp [GoMap.keys])
    (by simp [GoMap.keys])
  refine ⟨_, _, ?_, s1, ?_, s2, ?_, ?_, fun values hne =>
    applyAggregate_spec chart.Aggregate values hne⟩
  · rw [generateChartData_grouped parseFloat sqrt fmtFixed2 dataset chart htype hx hy hg]
    unfold generateGroupedData
    rw [GetColumnData_eq dataset _ hrect hxc, GetColumnData_eq dataset _ hrect hyc,
      GetColumnData_eq dataset _ hrect hgc]
    simp only [List.length_map, ne_eq, not_true_eq_false, or_self, if_false]
    rw [groupStep_fold_eq]
    rfl
  · intro k
    have := s3 k
    simp only [GoMap.keys] at this
    rw [this]
    simp
  · intro g
    rw [s4 g]
    simp [GoMap.keys]
  · intro e he
    have hget : GoMap.get? _ e.1 = some e.2 := GoMap.get?_of_mem _ e s1 he
    have hval : ∀ g, (GoMap.get? e.2 g).getD [] =
        valuesOfPair (numericTriples parseFloat ((columnCells dataset chart.X).zip
          ((columnCells dataset chart.Y).zip (columnCells dataset chart.GroupBy)))) e.1 g := by
      intro g
      have h5 := s5 e.1 g
      simp only [groupedAt, hget, Option.getD_some] at h5
      rw [h5]
      simp [GoMap.get?]
    rw [groupPoint_eq]
    refine ⟨?_, ?_, ?_⟩
    · intro k
      rw [foldl_set_mem_keys (fun g =>
        if ((GoMap.get? e.2 g).getD []).length = 0 then (Value.int 0 : Value F)
        else Value.num (applyAggregate chart.Aggregate ((GoMap.get? e.2 g).getD []))),
        GoMap.mem_keys_set]
      simp [GoMap.keys]
    · intro hX
      rw [foldl_set_get? (fun g =>
        if ((GoMap.get? e.2 g).getD []).length = 0 then (Value.int 0 : Value F)
        else Value.num (applyAggregate chart.Aggregate ((GoMap.get? e.2 g).getD []))),
        if_neg hX, GoMap.get?_set_self]
    · intro g hgl
      rw [foldl_set_get? (fun g =>
        if ((GoMap.get? e.2 g).getD []).length = 0 then (Value.int 0 : Value F)
        else Value.num (applyAggregate chart.Aggregate ((GoMap.get? e.2 g).getD []))),
        if_pos hgl, hval g]

/-- C26 as stated fails: in the grouped dataset the group `G3` occurs only in a
row whose `y` cell does not parse; the rows of the projection hold the fields
`G1` and `G2` and no field `G3`. -/
theorem grouped_missing_group_counterexample :
    generateChartData parseDecimal id (fun _ => "") groupedDataset (groupedChart "sum") =
      Outcome.ok [[("x", Value.str "A"), ("G1", Value.num 5), ("G2", Value.int 0)],
        [("x", Value.str "B"), ("G1", Value.int 0), ("G2", Value.num 2)]] ∧
    (GetColumnData groupedDataset "g").map fmtV = ["G1", "G3", "G2", "G1"] := by
  constructor <;> decide!

/-- C26 (amended), run on the grouped dataset with `aggregate = avg`: the pair
`(A, G1)` has the numbers `1, 4` and holds their mean; the pairs without a
number hold the integer `0`. -/
theorem grouped_projection_witness :
    ∃ (grouped : GoMap (GoMap (List ℚ))) (groupList : List String),
      generateChartData parseDecimal id (fun _ => "") groupedDataset (groupedChart "avg") =
        Outcome.ok (grouped.map (fun e => groupPoint (groupedChart "avg") groupList e.1 e.2)) ∧
      groupList.Nodup ∧
      generateChartData parseDecimal id (fun _ => "") groupedDataset (groupedChart "avg") =
        Outcome.ok [[("x", Value.str "A"), ("G1", Value.num (5 / 2)), ("G2", Value.int 0)],
          [("x", Value.str "B"), ("G1", Value.int 0), ("G2", Value.num 2)]] := by
  obtain ⟨grouped, groupList, hd, _, _, hnd, _⟩ := grouped_projection parseDecimal id
    (fun _ => "") groupedDataset (groupedChart "avg") (by decide) (by decide) (by decide)
    (by decide) (by decide) (by decide) (by decide) (Or.inl rfl)
  exact ⟨grouped, groupList, hd, hnd, by decide!⟩

/-! ## The combo projection (`generateComboData`) -/

/-- A numbered filter whose function does not depend on the number where the
number is the position of the element. -/
theorem enumFrom_filterMap_congr {α β : Type} (f : Nat × α → Option β) (g : α → Option β)
    (l : List α) (n : Nat) (h : ∀ (i : Nat) (a : α), l[i]? = some a → f (n + i, a) = g a) :
    (l.enumFrom n).filterMap f = l.filterMap g := by
  induction l generalizing n with
  | nil => rfl
  | cons a as ih =>
    have h0 : f (n, a) = g a := h 0 a (by simp)
    have ih' := ih (n + 1) (fun i b hb => by
      have := h (i + 1) b (by simpa using hb)
      rw [← this]
      congr 2
      omega)
    rw [List.enumFrom_cons, List.filterMap_cons, List.filterMap_cons, h0, ih']

theorem generateChartData_combo {F : Type} [LinearOrderedField F] [FloorRing F]
    (parseFloat : String → Option F) (sqrt : F → F) (fmtFixed2 : F → String)
    (dataset : Dataset F) (chart : ChartConfig) (htype : chart.Typ = "combo")
    (hx : chart.X ≠ "") (hy : chart.Y ≠ "") :
    generateChartData parseFloat sqrt fmtFixed2 dataset chart =
      Outcome.ok (generateComboData parseFloat dataset chart) := by
  have ht1 : ¬ (chart.Typ = "bar" ∨ chart.Typ = "line" ∨ chart.Typ = "area") := by
    rw [htype]; decide
  have ht2 : ¬ chart.Typ = "scatter" := by rw [htype]; decide
  have ht3 : ¬ chart.Typ = "bubble" := by rw [htype]; decide
  have ht4 : ¬ chart.Typ = "pie" := by rw [htype]; decide
  unfold generateChartData
  rw [if_neg ht1, if_neg ht2, if_neg ht3, if_neg ht4, if_pos htype, if_pos ⟨hx, hy⟩]

/-- The combo projection of a rectangular dataset, row by row. -/
theorem generateComboData_eq {F : Type} [LinearOrderedField F]
    (parseFloat : String → Option F) (dataset : Dataset F) (chart : ChartConfig)
    (hrect : ∀ row ∈ dataset.Rows, row.length = dataset.Columns.length)
    (hxc : chart.X ∈ dataset.Columns.map (fun c => c.Name))
    (hyc : chart.Y ∈ dataset.Columns.map (fun c => c.Name))
    (hxy : chart.X ≠ chart.Y) :
    generateComboData parseFloat dataset chart =
      (dataset.Rows.take 100).filterMap (comboRowSpec parseFloat dataset chart) := by
  have hzip : ((GetColumnData dataset chart.X).zip (GetColumnData dataset chart.Y)).take 100 =
      (dataset.Rows.take 100).map (fun row =>
        (rowCell dataset chart.X row, rowCell dataset chart.Y row)) := by
    rw [GetColumnData_eq dataset _ hrect hxc, GetColumnData_eq dataset _ hrect hyc,
      List.zip_map', List.map_take]
    rfl
  have hlen : ¬ (GetColumnData dataset chart.X).length ≠ (GetColumnData dataset chart.Y).length := by
    rw [GetColumnData_eq dataset _ hrect hxc, GetColumnData_eq dataset _ hrect hyc]
    simp
  unfold generateComboData
  simp only [if_neg hlen, hzip]
  rw [List.enum, List.enumFrom_map, List.filterMap_map]
  apply enumFrom_filterMap_congr
  intro i row hi
  have hi' : dataset.Rows[i]? = some row := by
    rw [List.getElem?_take] at hi
    split at hi
    · exact hi
    · cases hi
  simp only [Function.comp, Prod.map, id, Nat.zero_add, comboRowSpec, toNumber_eq]
  cases hyp : parseFloat (fmtV (rowCell dataset chart.Y row)) with
  | none => rfl
  | some y =>
    simp only []
    have hbase : GoMap.set (GoMap.set ([] : ChartRow F) chart.X (rowCell dataset chart.X row).toValue)
        chart.Y (Value.num y) =
        [(chart.X, (rowCell dataset chart.X row).toValue), (chart.Y, Value.num y)] := by
      simp [GoMap.set, hxy]
    rw [hbase]
    by_cases h2 : chart.Y2 = ""
    · have hn : ¬ (chart.Y2 ≠ "" ∧ chart.Y2 ∈ dataset.Columns.map (fun c => c.Name)) :=
        fun h => h.1 h2
      rw [if_neg (fun h => h h2), if_neg hn]
    · by_cases h2c : chart.Y2 ∈ dataset.Columns.map (fun c => c.Name)
      · have hget : (GetColumnData dataset chart.Y2).get? i =
            some (rowCell dataset chart.Y2 row) := by
          rw [GetColumnData_eq dataset _ hrect h2c, List.get?_eq_getElem?, List.getElem?_map, hi']
          rfl
        rw [if_pos h2, if_pos ⟨h2, h2c⟩, hget]
      · have hget : (GetColumnData dataset chart.Y2).get? i = none := by
          rw [GetColumnData_missing dataset _ h2c]
          rfl
        have hn : ¬ (chart.Y2 ≠ "" ∧ chart.Y2 ∈ dataset.Columns.map (fun c => c.Name)) :=
          fun h => h2c h.2
        rw [if_pos h2, if_neg hn, hget]

/-- C27 (amended): for a combo chart whose `x` and `y` (non-empty) name
different existing columns of a dataset with rows of full width, and whose
`y2` is not the name of the `x` column: the projection is, in source order,
the row `{x, y, y2?}` of each of the first 100 source rows whose `y` cell
parses as a number, and of no other row, so it has at most 100 rows; in such a
row `x` holds the raw cell, `y` the parsed number, and the key `y2` is present
exactly when `y2` names a column and that row's `y2` cell parses, holding the
parsed number. -/
theorem combo_projection {F : Type} [LinearOrderedField F] [FloorRing F]
    (parseFloat : String → Option F) (sqrt : F → F) (fmtFixed2 : F → String)
    (dataset : Dataset F) (chart : ChartConfig)
    (hrect : ∀ row ∈ dataset.Rows, row.length = dataset.Columns.length)
    (htype : chart.Typ = "combo") (hx : chart.X ≠ "") (hy : chart.Y ≠ "")
    (hxc : chart.X ∈ dataset.Columns.map (fun c => c.Name))
    (hyc : chart.Y ∈ dataset.Columns.map (fun c => c.Name))
    (hxy : chart.X ≠ chart.Y) (h2x : chart.Y2 ≠ chart.X) :
    ∃ data : List (ChartRow F),
      generateChartData parseFloat sqrt fmtFixed2 dataset chart = Outcome.ok data ∧
      data = (dataset.Rows.take 100).filterMap (comboRowSpec parseFloat dataset chart) ∧
      data.length ≤ 100 ∧
      (∀ row, (comboRowSpec parseFloat dataset chart row).isSome = true ↔
        (parseFloat (fmtV (rowCell dataset chart.Y row))).isSome = true) ∧
      ∀ row point, comboRowSpec parseFloat dataset chart row = some point →
        GoMap.get? point chart.X = some (rowCell dataset chart.X row).toValue ∧
        (∃ y, parseFloat (fmtV (rowCell dataset chart.Y row)) = some y ∧
          GoMap.get? point chart.Y = some (Value.num y)) ∧
        (∀ k, k ∈ GoMap.keys point → k = chart.X ∨ k = chart.Y ∨ k = chart.Y2) ∧
        (chart.Y2 ∈ GoMap.keys point ↔
          chart.Y2 ≠ "" ∧ chart.Y2 ∈ dataset.Columns.map (fun c => c.Name) ∧
            (parseFloat (fmtV (rowCell dataset chart.Y2 row))).isSome = true) ∧
        ∀ y2, chart.Y2 ≠ "" → chart.Y2 ∈ dataset.Columns.map (fun c => c.Name) →
          parseFloat (fmtV (rowCell dataset chart.Y2 row)) = some y2 →
          GoMap.get? point chart.Y2 = some (Value.num y2) := by
  have hyx : chart.Y ≠ chart.X := fun e => hxy e.symm
  refine ⟨_, generateChartData_combo parseFloat sqrt fmtFixed2 dataset chart htype hx hy,
    generateComboData_eq parseFloat dataset chart hrect hxc hyc hxy, ?_, ?_, ?_⟩
  · rw [generateComboData_eq parseFloat dataset chart hrect hxc hyc hxy]
    refine le_trans (List.length_filterMap_le _ _) ?_
    rw [List.length_take]
    exact Nat.min_le_left _ _
  · intro row
    unfold comboRowSpec
    cases parseFloat (fmtV (rowCell dataset chart.Y row)) with
    | none => simp
    | some y =>
      simp only [Option.isSome_some, iff_true]
      split
      · split <;> rfl
      · rfl
  · intro row point hpoint
    unfold comboRowSpec at hpoint
    cases hyp : parseFloat (fmtV (rowCell dataset chart.Y row)) with
    | none =>
      rw [hyp] at hpoint
      cases hpoint
    | some y =>
      rw [hyp] at hpoint
      have hgx : GoMap.get? ([(chart.X, (rowCell dataset chart.X row).toValue),
          (chart.Y, Value.num y)] : ChartRow F) chart.X =
          some (rowCell dataset chart.X row).toValue := by
        simp [GoMap.get?, List.lookup]
      have hgy : GoMap.get? ([(chart.X, (rowCell dataset chart.X row).toValue),
          (chart.Y, Value.num y)] : ChartRow F) chart.Y = some (Value.num y) := by
        have b : (chart.Y == chart.X) = false := by simpa using hyx
        simp [GoMap.get?, List.lookup, b]
      have hkeys : GoMap.keys ([(chart.X, (rowCell dataset chart.X row).toValue),
          (chart.Y, Value.num y)] : ChartRow F) = [chart.X, chart.Y] := rfl
      by_cases hc : chart.Y2 ≠ "" ∧ chart.Y2 ∈ dataset.Columns.map (fun c => c.Name)
      · cases hp2 : parseFloat (fmtV (rowCell dataset chart.Y2 row)) with
        | none =>
          simp only [if_pos hc, hp2, Option.some.injEq] at hpoint
          subst hpoint
          have hnk : chart.Y2 ∉ GoMap.keys ([(chart.X, (rowCell dataset chart.X row).toValue),
              (chart.Y, Value.num y)] : ChartRow F) := by
            rw [hkeys]
            intro hmem
            simp only [List.mem_cons, List.mem_singleton, List.not_mem_nil, or_false] at hmem
            rcases hmem with e | e
            · exact h2x e
            · rw [e, hyp] at hp2
              cases hp2
          refine ⟨hgx, ⟨y, rfl, hgy⟩, ?_, ?_, ?_⟩
          · intro k hk
            rw [hkeys] at hk
            simp only [List.mem_cons, List.mem_singleton, List.not_mem_nil, or_false] at hk
            rcases hk with e | e
            · exact Or.inl e
            · exact Or.inr (Or.inl e)
          · constructor
            · intro h
              exact absurd h hnk
            · intro h
              simp at h
          · intro y2 _ _ h
            cases h
        | some y2 =>
          simp only [if_pos hc, hp2, Option.some.injEq] at hpoint
          subst hpoint
          refine ⟨?_, ⟨y, rfl, ?_⟩, ?_, ?_, ?_⟩
          · rw [GoMap.get?_set_ne _ _ _ _ (fun e => h2x e.symm)]
            exact hgx
          · by_cases e : chart.Y2 = chart.Y
            · have hyy : y2 = y := by
                rw [e, hyp] at hp2
                injection hp2 with hp2
                exact hp2.symm
              rw [hyy, e]
              exact GoMap.get?_set_self _ _ _
            · rw [GoMap.get?_set_ne _ _ _ _ (fun e' => e e'.symm)]
              exact hgy
          · intro k hk
            rw [GoMap.mem_keys_set, hkeys] at hk
            simp only [List.mem_cons, List.mem_singleton, List.not_mem_nil, or_false] at hk
            rcases hk with (e | e) | e
            · exact Or.inl e
            · exact Or.inr (Or.inl e)
            · exact Or.inr (Or.inr e)
          · constructor
            · intro _
              exact ⟨hc.1, hc.2, by simp⟩
            · intro _
              rw [GoMap.mem_keys_set]
              exact Or.inr rfl
          · intro z _ _ h
            injection h with h
            rw [← h]
            exact GoMap.get?_set_self _ _ _
      · simp only [if_neg hc, Option.some.injEq] at hpoint
        subst hpoint
        have hnk : chart.Y2 ∉ GoMap.keys ([(chart.X, (rowCell dataset chart.X row).toValue),
            (chart.Y, Value.num y)] : ChartRow F) := by
          rw [hkeys]
          intro hmem
          simp only [List.mem_cons, List.mem_singleton, List.not_mem_nil, or_false] at hmem
          have hin : chart.Y2 ∈ dataset.Columns.map (fun c => c.Name) := by
            rcases hmem with e | e
            · rw [e]; exact hxc
            · rw [e]; exact hyc
          have hne : chart.Y2 ≠ "" := by
            rcases hmem with e | e
            · rw [e]; exact hx
            · rw [e]; exact hy
          exact hc ⟨hne, hin⟩
        refine ⟨hgx, ⟨y, rfl, hgy⟩, ?_, ?_, ?_⟩
        · intro k hk
          rw [hkeys] at hk
          simp only [List.mem_cons, List.mem_singleton, List.not_mem_nil, or_false] at hk
          rcases hk with e | e
          · exact Or.inl e
          · exact Or.inr (Or.inl e)
        · constructor
          · intro h
            exact absurd h hnk
          · intro h
            exact absurd ⟨h.1, h.2.1⟩ hc
        · intro y2 h1 h2 _
          exact absurd ⟨h1, h2⟩ hc

/-- C27 as stated fails when two fields of the chart share a key: on the rows
`(Jan, 1, 10)`, `(Feb, x, 20)`, `(Mar, 3, y)` the combo chart `x = p`, `y = q`,
`y2 = p` gives a first row in which `p` holds the number `1`, not the raw cell
`"1"`; and with `x = y = p` every row has the single key `p`, holding the
parsed number. -/
theorem combo_key_collision_counterexample :
    generateChartData parseDecimal id (fun _ => "") comboDataset (comboChart "p" "q" "p") =
      Outcome.ok [[("p", Value.num 1), ("q", Value.num 10)],
        [("p", Value.str "x"), ("q", Value.num 20)]] ∧
    generateChartData parseDecimal id (fun _ => "") comboDataset (comboChart "p" "p" "") =
      Outcome.ok [[("p", Value.num 1)], [("p", Value.num 3)]] := by
  constructor <;> decide!

/-- C27 (amended), run on a dataset with the rows `(Jan, 1, 10)`, `(Feb, x, 20)`,
`(Mar, 3, y)` and the combo chart `x = t`, `y = p`, `y2 = q`: the second row is
dropped and the third has no `q`. -/
theorem combo_projection_witness :
    ∃ data : List (ChartRow ℚ),
      generateChartData parseDecimal id (fun _ => "") comboDataset (comboChart "t" "p" "q") =
        Outcome.ok data ∧
      data = [[("t", Value.str "Jan"), ("p", Value.num 1), ("q", Value.num 10)],
        [("t", Value.str "Mar"), ("p", Value.num 3)]] := by
  obtain ⟨data, hd, hspec, _⟩ := combo_projection parseDecimal id (fun _ => "") comboDataset
    (comboChart "t" "p" "q") (by decide) rfl (by decide) (by decide) (by decide) (by decide)
    (by decide) (by decide)
  refine ⟨data, hd, ?_⟩
  rw [hspec]
  decide!

/-! ## The JSON block of a response -/

theorem braceDepth_nil : braceDepth [] = 0 := by
  simp [braceDepth]

theorem braceDepth_cons (c : Char) (cs : List Char) :
    braceDepth (c :: cs) =
      (if c = '\x7b' then 1 else if c = '\x7d' then -1 else 0) + braceDepth cs := by
  unfold braceDepth
  by_cases h1 : c = '\x7b'
  · subst h1
    have hne : ('\x7d' : Char) ≠ '\x7b' := by decide
    rw [List.count_cons_self, List.count_cons_of_ne hne, if_pos rfl]
    push_cast
    ring
  · by_cases h2 : c = '\x7d'
    · subst h2
      have hne : ('\x7b' : Char) ≠ '\x7d' := by decide
      rw [List.count_cons_self, List.count_cons_of_ne hne, if_neg h1, if_pos rfl]
      push_cast
      ring
    · rw [List.count_cons_of_ne (fun e => h1 e.symm), List.count_cons_of_ne (fun e => h2 e.symm),
        if_neg h1, if_neg h2]
      ring

/-- The scanning loop stops right after a text on which the counter first
returns to zero. -/
theorem findEnd_block (l suf : List Char) (braceCount : Int) (i : Nat)
    (hne : l ≠ []) (htotal : braceCount + braceDepth l = 0)
    (hpos : ∀ n, n < l.length → 0 < n → 0 < braceCount + braceDepth (l.take n))
    (hc : 0 ≤ braceCount) (hstart : braceCount = 0 → l.head? = some '\x7b') :
    findEnd (l ++ suf) braceCount i = some (i + l.length) := by
  induction l generalizing braceCount i with
  | nil => exact absurd rfl hne
  | cons c rest ih =>
    have hrest : ∀ n, n < rest.length → 0 < n →
        0 < braceCount + (if c = '\x7b' then 1 else if c = '\x7d' then -1 else 0) +
          braceDepth (rest.take n) := by
      intro n hn h0
      have := hpos (n + 1) (by simpa using hn) (Nat.succ_pos n)
      rw [List.take_succ_cons, braceDepth_cons] at this
      linarith
    have hone : rest ≠ [] →
        0 < braceCount + (if c = '\x7b' then 1 else if c = '\x7d' then -1 else 0) := by
      intro hr
      have hlen : 1 < (c :: rest).length := by
        have := List.length_pos.2 hr
        simp only [List.length_cons]
        omega
      have := hpos 1 hlen Nat.one_pos
      rw [List.take_succ_cons, List.take_zero, braceDepth_cons, braceDepth_nil] at this
      linarith
    rw [braceDepth_cons] at htotal
    rw [List.cons_append, findEnd]
    by_cases h1 : c = '\x7b'
    · rw [if_pos h1] at htotal
      simp only [if_pos h1] at hrest
      have hrne : rest ≠ [] := by
        intro e
        rw [e, braceDepth_nil] at htotal
        omega
      rw [if_pos h1, ih (braceCount + 1) (i + 1) hrne (by linarith) hrest (by omega)
        (fun h0 => by omega)]
      simp only [List.length_cons]
      congr 1
      omega
    · have hcne : braceCount ≠ 0 := by
        intro h0
        have := hstart h0
        simp only [List.head?_cons, Option.some.injEq] at this
        exact h1 this
      rw [if_neg h1]
      by_cases h2 : c = '\x7d'
      · rw [if_neg h1, if_pos h2] at htotal
        simp only [if_neg h1, if_pos h2] at hrest hone
        rw [if_pos h2]
        by_cases hz : braceCount - 1 = 0
        · have hrnil : rest = [] := by
            by_contra hr
            have := hone hr
            omega
          rw [if_pos hz, hrnil]
          rfl
        · have hrne : rest ≠ [] := by
            intro e
            rw [e, braceDepth_nil] at htotal
            omega
          rw [if_neg hz, ih (braceCount - 1) (i + 1) hrne (by linarith)
            (fun n hn h0 => by have := hrest n hn h0; linarith) (by omega)
            (fun h0 => absurd h0 hz)]
          simp only [List.length_cons]
          congr 1
          omega
      · rw [if_neg h1, if_neg h2] at htotal
        simp only [if_neg h1, if_neg h2] at hrest
        have hrne : rest ≠ [] := by
          intro e
          rw [e, braceDepth_nil] at htotal
          omega
        rw [if_neg h2, ih braceCount (i + 1) hrne (by linarith)
          (fun n hn h0 => by have := hrest n hn h0; linarith) hc
          (fun h0 => absurd h0 hcne)]
        simp only [List.length_cons]
        congr 1
        omega

/-- The text without a brace is returned as it is. -/
theorem extractJSON_of_no_brace (text : String) (h : '\x7b' ∉ (stripFences text).data) :
    extractJSON text = stripFences text := by
  unfold extractJSON
  dsimp only
  rw [if_pos h]

/-- The balanced block that follows a brace-free start of the cleaned text is
what `extractJSON` returns. -/
theorem extractJSON_of_block (text : String) (pre obj suf : List Char)
    (htext : (stripFences text).data = pre ++ obj ++ suf) (hpre : '\x7b' ∉ pre)
    (hobj : IsBalancedBlock obj) : (extractJSON text).data = obj := by
  obtain ⟨hhead, hdepth, hpos⟩ := hobj
  have hne : obj ≠ [] := by
    intro e
    rw [e] at hhead
    cases hhead
  have hmem : '\x7b' ∈ obj := by
    cases obj with
    | nil => exact absurd rfl hne
    | cons c rest =>
      simp only [List.head?_cons, Option.some.injEq] at hhead
      rw [hhead]
      exact List.mem_cons_self _ _
  have hin : ¬ '\x7b' ∉ (stripFences text).data := by
    rw [htext]
    simp [hmem]
  have hidx : (stripFences text).data.indexOf '\x7b' = pre.length := by
    rw [htext, List.append_assoc, List.indexOf_append_of_not_mem hpre]
    cases obj with
    | nil => exact absurd rfl hne
    | cons c rest =>
      simp only [List.head?_cons, Option.some.injEq] at hhead
      rw [hhead, List.cons_append, List.indexOf_cons_self]
      rfl
  have hdrop : (stripFences text).data.drop pre.length = obj ++ suf := by
    rw [htext, List.append_assoc, List.drop_left]
  have hend := findEnd_block obj suf 0 pre.length hne (by rw [hdepth]; rfl)
    (fun n hn h0 => by have := hpos n hn h0; linarith) (le_refl _) (fun _ => hhead)
  have hgt : pre.length + obj.length > pre.length := by
    have := List.length_pos.2 hne
    omega
  unfold extractJSON
  dsimp only
  rw [if_neg hin, hidx, hdrop, hend]
  dsimp only
  rw [if_pos hgt, htext]
  have : pre.length + obj.length = (pre ++ obj).length := by simp
  rw [this, List.take_left, List.drop_left]

/-- C29 (amended): `extractJSON` returns the first balanced brace block of the
response. After trimming white space and removing a leading fence marker
(with or without `json`) and a trailing fence marker, if the text is
`pre ++ obj ++ suf` where `pre` contains no opening brace and `obj` starts
with an opening brace and ends with the closing brace at which the brace
count, taken over every brace character of the text (also those inside string
literals), first returns to zero, the result is exactly `obj`. When the cleaned
text contains no opening brace it is returned as it is, and the chart proposal
fails with an error for every decoder that yields a non-empty chart list only
from a text containing an opening brace. -/
theorem extractJSON_balanced_block (text : String) :
    (∀ pre obj suf : List Char, (stripFences text).data = pre ++ obj ++ suf →
      '\x7b' ∉ pre → IsBalancedBlock obj → (extractJSON text).data = obj) ∧
    ('\x7b' ∉ (stripFences text).data →
      extractJSON text = stripFences text ∧
      ∀ (unmarshal : String → Except String (List ChartConfig)) (clip : String → String),
        (∀ s charts, unmarshal s = Except.ok charts → charts ≠ [] → '\x7b' ∈ s.data) →
        ∃ err, GenerateChartsDecode unmarshal clip text = Except.error err) := by
  refine ⟨fun pre obj suf h1 h2 h3 => extractJSON_of_block text pre obj suf h1 h2 h3, ?_⟩
  intro h
  have he := extractJSON_of_no_brace text h
  refine ⟨he, ?_⟩
  intro unmarshal clip hun
  unfold GenerateChartsDecode
  dsimp only
  rw [he]
  by_cases hempty : stripFences text = ""
  · exact ⟨_, if_pos hempty⟩
  · rw [if_neg hempty]
    cases hu : unmarshal (stripFences text) with
    | error err => exact ⟨_, rfl⟩
    | ok charts =>
      dsimp only
      by_cases hl : charts.length = 0
      · exact ⟨_, if_pos hl⟩
      · exfalso
        have hne : charts ≠ [] := fun e => hl (by rw [e]; rfl)
        exact h (hun _ charts hu hne)

/-- C29 as stated fails: the response is the well-formed JSON object
`{"title":"a } b"}`, whose string value contains a closing brace; `extractJSON`
stops at that brace and returns `{"title":"a }`. -/
theorem brace_in_string_counterexample :
    extractJSON "\x7b\"title\":\"a \x7d b\"\x7d" = "\x7b\"title\":\"a \x7d" := by
  decide

/-- C29 (amended), run on a fenced response: the block between the fence
markers is returned; and a response without a brace makes the chart proposal
fail. -/
theorem extractJSON_balanced_block_witness :
    (extractJSON "\x60\x60\x60json\n\x7b\"charts\":[\x7b\"type\":\"pie\"\x7d]\x7d\n\x60\x60\x60").data =
      "\x7b\"charts\":[\x7b\"type\":\"pie\"\x7d]\x7d".data ∧
    ∃ err, GenerateChartsDecode (fun _ => Except.error "unexpected token") (fun s => s)
      "I cannot produce a chart." = Except.error err := by
  constructor
  · exact (extractJSON_balanced_block
      "\x60\x60\x60json\n\x7b\"charts\":[\x7b\"type\":\"pie\"\x7d]\x7d\n\x60\x60\x60").1 []
      "\x7b\"charts\":[\x7b\"type\":\"pie\"\x7d]\x7d".data [] (by decide) (by decide) (by decide)
  · exact ((extractJSON_balanced_block "I cannot produce a chart.").2 (by decide)).2
      (fun _ => Except.error "unexpected token") (fun s => s)
      (fun s charts h _ => by cases h)

/-! ## `float64` values: order, quartiles and the effects of rounding -/

namespace Binary64

theorem log2Loop_spec (fuel n : Nat) (hn : 0 < n) (hf : n < 2 ^ fuel) :
    2 ^ log2Loop fuel n ≤ n ∧ n < 2 ^ (log2Loop fuel n + 1) := by
  induction fuel generalizing n with
  | zero => simp at hf; omega
  | succ fuel ih =>
    unfold log2Loop
    by_cases h2 : 2 ≤ n
    · rw [if_pos h2]
      have hpos : 0 < n / 2 := Nat.div_pos h2 (by norm_num)
      have hlt : n / 2 < 2 ^ fuel := by
        rw [Nat.div_lt_iff_lt_mul (by norm_num)]
        rw [pow_succ] at hf
        exact hf
      obtain ⟨h1, h3⟩ := ih (n / 2) hpos hlt
      constructor
      · rw [pow_succ]
        have := Nat.div_mul_le_self n 2
        nlinarith
      · rw [pow_succ]
        have := Nat.lt_div_mul_add (a := n) (b := 2) (by norm_num)
        omega
    · rw [if_neg h2]
      have : n = 1 := by omega
      subst this
      simp

/-- The leading bit: `2 ^ log2 n ≤ n < 2 ^ (log2 n + 1)`. -/
theorem log2_spec (n : Nat) (hn : 0 < n) : 2 ^ log2 n ≤ n ∧ n < 2 ^ (log2 n + 1) :=
  log2Loop_spec n n hn (Nat.lt_two_pow n)

theorem sqrtBits_spec (n i r : Nat) (h1 : r * r ≤ n) (h2 : n < (r + 2 ^ i) * (r + 2 ^ i)) :
    sqrtBits n i r * sqrtBits n i r ≤ n ∧ n < (sqrtBits n i r + 1) * (sqrtBits n i r + 1) := by
  induction i generalizing r with
  | zero => exact ⟨h1, by simpa using h2⟩
  | succ i ih =>
    unfold sqrtBits
    by_cases h : (r + 2 ^ i) * (r + 2 ^ i) ≤ n
    · rw [if_pos h]
      apply ih _ h
      have e : r + 2 ^ i + 2 ^ i = r + 2 ^ (i + 1) := by rw [pow_succ]; ring
      rw [e]
      exact h2
    · rw [if_neg h]
      exact ih r h1 (by omega)

/-- The integer square root: `natSqrt n ^ 2 ≤ n < (natSqrt n + 1) ^ 2`. -/
theorem natSqrt_spec (n : Nat) :
    natSqrt n * natSqrt n ≤ n ∧ n < (natSqrt n + 1) * (natSqrt n + 1) := by
  unfold natSqrt
  apply sqrtBits_spec
  · simp
  · rcases Nat.eq_zero_or_pos n with h | h
    · subst h
      simp
    · have := (log2_spec n h).2
      have h2 : 2 ^ (log2 n + 1) ≤ 2 ^ (log2 n / 2 + 1) * 2 ^ (log2 n / 2 + 1) := by
        rw [← pow_add]
        apply Nat.pow_le_pow_right (by norm_num)
        omega
      simp only [Nat.zero_add]
      omega

/-- Known binary64 values: the nearest values to `1/10` and `1/3`, the ties
`2 ^ 53 + 1` and `2 ^ 53 + 3` going to the even significand, the largest finite
value and the overflow threshold `2 ^ 1024 - 2 ^ 970`, the smallest positive
value and the tie `2 ^ -1075` below it, the parsed `0.1`, `0.2`, `0.3`, and the
rounded results of `0.1 + 0.2`, `0.3 - 0.1`, `0.1 * 0.1`, `1 / 0.1` and of the
square roots of `2` and `0.1`. -/
theorem binary64_known_values :
    round (1 / 10) = fin (3602879701896397 / 36028797018963968) ∧
    round (1 / 3) = fin (6004799503160661 / 18014398509481984) ∧
    round (2 ^ 53 + 1) = fin (2 ^ 53) ∧
    round (2 ^ 53 + 3) = fin (2 ^ 53 + 4) ∧
    round (2 ^ 1024 - 2 ^ 970 - 1) = fin (2 ^ 1024 - 2 ^ 971) ∧
    round (2 ^ 1024 - 2 ^ 970) = inf false ∧
    round (-(2 ^ 1024)) = inf true ∧
    round (mkRat 3 (2 ^ 1076)) = fin (mkRat 1 (2 ^ 1074)) ∧
    round (mkRat 1 (2 ^ 1075)) = fin 0 ∧
    ParseFloat "0.1" = some (fin (3602879701896397 / 36028797018963968)) ∧
    ParseFloat "0.2" = some (fin (3602879701896397 / 18014398509481984)) ∧
    ParseFloat "0.3" = some (fin (5404319552844595 / 18014398509481984)) ∧
    fin (3602879701896397 / 36028797018963968) + fin (3602879701896397 / 18014398509481984) =
      fin (1351079888211149 / 4503599627370496) ∧
    fin (5404319552844595 / 18014398509481984) - fin (3602879701896397 / 36028797018963968) =
      fin (7205759403792793 / 36028797018963968) ∧
    fin (3602879701896397 / 36028797018963968) * fin (3602879701896397 / 36028797018963968) =
      fin (1441151880758559 / 144115188075855872) ∧
    fin 1 / fin (3602879701896397 / 36028797018963968) = fin 10 ∧
    sqrt (fin 2) = fin (6369051672525773 / 4503599627370496) ∧
    sqrt (fin (3602879701896397 / 36028797018963968)) =
      fin (5696652996790543 / 18014398509481984) := by
  refine ⟨by decide!, by decide!, by decide!, by decide!, by decide!, by decide!, by decide!,
    by decide!, by decide!, by decide!, by decide!, by decide!, by decide!, by decide!,
    by decide!, by decide!, by decide!, by decide!⟩

theorem lt_asymm_false (x y : Binary64) (h : lt x y = true) : lt y x = false := by
  cases x with
  | nan => simp [lt] at h
  | inf s =>
    cases y with
    | nan => simp [lt] at h
    | inf t => cases s <;> cases t <;> simp [lt] at h ⊢
    | fin b => cases s <;> simp [lt] at h ⊢
  | fin a =>
    cases y with
    | nan => simp [lt] at h
    | inf t => cases t <;> simp [lt] at h ⊢
    | fin b =>
      simp only [lt, decide_eq_true_eq] at h
      simp only [lt, decide_eq_false_iff_not, not_lt]
      exact le_of_lt h

/-- On values that are not NaN, `x <= y` holds exactly when `y < x` does not. -/
theorem le_iff_not_lt (x y : Binary64) (hx : isNaN x = false) (hy : isNaN y = false) :
    le x y = true ↔ lt y x = false := by
  cases x with
  | nan => simp [isNaN] at hx
  | inf s =>
    cases y with
    | nan => simp [isNaN] at hy
    | inf t => cases s <;> cases t <;> simp [lt, le]
    | fin b => cases s <;> simp [lt, le]
  | fin a =>
    cases y with
    | nan => simp [isNaN] at hy
    | inf t => cases t <;> simp [lt, le]
    | fin b => simp [lt, le]

theorem le_trans_of_not_nan (x y z : Binary64) (hxy : le x y = true) (hyz : le y z = true) :
    le x z = true := by
  cases x with
  | nan => simp [le] at hxy
  | inf s =>
    cases y with
    | nan => simp [le] at hxy
    | inf t =>
      cases z with
      | nan => simp [le] at hyz
      | inf r => cases s <;> cases t <;> cases r <;> simp [le] at hxy hyz ⊢
      | fin c => cases s <;> cases t <;> simp [le] at hxy hyz ⊢
    | fin b =>
      cases z with
      | nan => simp [le] at hyz
      | inf r => cases s <;> cases r <;> simp [le] at hxy hyz ⊢
      | fin c => cases s <;> simp [le] at hxy hyz ⊢
  | fin a =>
    cases y with
    | nan => simp [le] at hxy
    | inf t =>
      cases z with
      | nan => simp [le] at hyz
      | inf r => cases t <;> cases r <;> simp [le] at hxy hyz ⊢
      | fin c => cases t <;> simp [le] at hxy hyz ⊢
    | fin b =>
      cases z with
      | nan => simp [le] at hyz
      | inf r => cases r <;> simp [le] at hxy hyz ⊢
      | fin c =>
        simp only [le, decide_eq_true_eq] at hxy hyz ⊢
        exact hxy.trans hyz


theorem le_refl_of_not_nan (x : Binary64) (hx : isNaN x = false) : le x x = true := by
  cases x with
  | nan => simp [isNaN] at hx
  | inf s => cases s <;> simp [le]
  | fin a => simp [le]

theorem lt_nan_left (y : Binary64) : lt nan y = false := by
  cases y <;> rfl

theorem lt_nan_right (x : Binary64) : lt x nan = false := by
  cases x <;> rfl

/-- The order of `sort.Float64s`, read as "not after": `y` is not less than `x`. -/
theorem sortLess_eq_false_iff (x y : Binary64) :
    sortLess y x = false ↔ lt y x = false ∧ (isNaN y = true → isNaN x = true) := by
  unfold sortLess
  cases hlt : lt y x <;> cases hy : isNaN y <;> cases hx : isNaN x <;> simp

theorem sortLess_total (x y : Binary64) : sortLess y x = false ∨ sortLess x y = false := by
  rw [sortLess_eq_false_iff, sortLess_eq_false_iff]
  cases hx : isNaN x with
  | true =>
    left
    have : x = nan := by cases x <;> simp [isNaN] at hx ⊢
    subst this
    exact ⟨lt_nan_right y, fun _ => rfl⟩
  | false =>
    cases hy : isNaN y with
    | true =>
      right
      have : y = nan := by cases y <;> simp [isNaN] at hy ⊢
      subst this
      exact ⟨lt_nan_right x, fun _ => rfl⟩
    | false =>
      cases hlt : lt y x with
      | false => exact Or.inl ⟨rfl, fun h => by cases h⟩
      | true => exact Or.inr ⟨lt_asymm_false y x hlt, fun h => by cases h⟩

theorem sortLess_trans (x y z : Binary64) (hxy : sortLess y x = false)
    (hyz : sortLess z y = false) : sortLess z x = false := by
  rw [sortLess_eq_false_iff] at hxy hyz ⊢
  cases hz : isNaN z with
  | true =>
    have hyn := hyz.2 hz
    have hxn := hxy.2 hyn
    have : x = nan := by cases x <;> simp [isNaN] at hxn ⊢
    subst this
    exact ⟨lt_nan_right z, fun _ => rfl⟩
  | false =>
    refine ⟨?_, fun h => by cases h⟩
    cases hx : isNaN x with
    | true =>
      have : x = nan := by cases x <;> simp [isNaN] at hx ⊢
      subst this
      exact lt_nan_right z
    | false =>
      have hy : isNaN y = false := by
        cases hyn : isNaN y with
        | false => rfl
        | true =>
          have := hxy.2 hyn
          rw [hx] at this
          cases this
      have h1 := (le_iff_not_lt x y hx hy).2 hxy.1
      have h2 := (le_iff_not_lt y z hy hz).2 hyz.1
      exact (le_iff_not_lt x z hx hz).1 (le_trans_of_not_nan x y z h1 h2)

instance sortRel_isTotal : IsTotal Binary64 (fun x y => sortLess y x = false) :=
  ⟨sortLess_total⟩

instance sortRel_isTrans : IsTrans Binary64 (fun x y => sortLess y x = false) :=
  ⟨sortLess_trans⟩

theorem sortFloat64s_sorted (numbers : List Binary64) :
    (sortFloat64s numbers).Sorted (fun x y => sortLess y x = false) :=
  List.sorted_insertionSort _ numbers

theorem sortFloat64s_perm_b64 (numbers : List Binary64) : (sortFloat64s numbers).Perm numbers :=
  List.perm_insertionSort _ numbers

theorem getElem?_eq_at_b64 (l : List Binary64) (i : Nat) (h : i < l.length) :
    l[i]? = some (at_ l i) := by
  simp [at_, List.getD_eq_getElem?_getD, List.getElem?_eq_getElem h]

/-- In a slice sorted by `sort.Float64s` that holds no NaN, an element is `<=`
every later one. -/
theorem sorted_at_le_b64 (l : List Binary64)
    (hs : l.Sorted (fun x y => sortLess y x = false)) (hnan : ∀ x ∈ l, isNaN x = false)
    (i j : Nat) (hij : i ≤ j) (hj : j < l.length) : at_ l i ≤ at_ l j := by
  have hi : i < l.length := lt_of_le_of_lt hij hj
  have hxi : at_ l i ∈ l := List.getElem?_mem (getElem?_eq_at_b64 l i hi)
  have hxj : at_ l j ∈ l := List.getElem?_mem (getElem?_eq_at_b64 l j hj)
  show le (at_ l i) (at_ l j) = true
  rcases Nat.eq_or_lt_of_le hij with h | h
  · subst h
    exact le_refl_of_not_nan _ (hnan _ hxi)
  · have hrel : sortLess (l.get ⟨j, hj⟩) (l.get ⟨i, hi⟩) = false :=
      List.Sorted.rel_get_of_lt hs (a := ⟨i, hi⟩) (b := ⟨j, hj⟩) h
    have e1 : at_ l i = l.get ⟨i, hi⟩ := by
      simp [at_, List.getD_eq_getElem?_getD, List.getElem?_eq_getElem hi]
    have e2 : at_ l j = l.get ⟨j, hj⟩ := by
      simp [at_, List.getD_eq_getElem?_getD, List.getElem?_eq_getElem hj]
    rw [← e1, ← e2] at hrel
    exact (le_iff_not_lt _ _ (hnan _ hxi) (hnan _ hxj)).2
      ((sortLess_eq_false_iff _ _).1 hrel).1

end Binary64

/-- C17 (amended): for the boxplot projection on a column with `n ≥ 1` numeric
`float64` values, with `sorted` the slice ordered by `sort.Float64s` (a
rearrangement of the values in which no value is less than an earlier one, NaN
counting as less than every number): the indices `n/4`, `n/2` and `3n/4` are
within range, the single output row has `q1 = sorted[n/4]`,
`median = sorted[n/2]` and `q3 = sorted[3n/4]`, and `q1 ≤ median ≤ q3` when
none of the values is NaN. -/
theorem boxplot_quartiles_binary64 (dataset : Dataset Binary64) (chart : ChartConfig)
    (hn : 1 ≤ (extractNumbers Binary64.ParseFloat (GetColumnData dataset chart.Y)).length) :
    ∃ sorted : List Binary64,
      sorted = Binary64.sortFloat64s
        (extractNumbers Binary64.ParseFloat (GetColumnData dataset chart.Y)) ∧
      sorted.Perm (extractNumbers Binary64.ParseFloat (GetColumnData dataset chart.Y)) ∧
      sorted.Sorted (fun x y => Binary64.sortLess y x = false) ∧
      sorted.length / 4 < sorted.length ∧ sorted.length / 2 < sorted.length ∧
      3 * sorted.length / 4 < sorted.length ∧
      ∃ (q1 median q3 minVal maxVal : Binary64) (outliers : List Binary64),
        sorted[sorted.length / 4]? = some q1 ∧
        sorted[sorted.length / 2]? = some median ∧
        sorted[3 * sorted.length / 4]? = some q3 ∧
        Binary64.generateBoxplotData dataset chart =
          [[("min", Value.num minVal), ("q1", Value.num q1), ("median", Value.num median),
            ("q3", Value.num q3), ("max", Value.num maxVal),
            ("outliers", Value.nums outliers)]] ∧
        ((∀ x ∈ extractNumbers Binary64.ParseFloat (GetColumnData dataset chart.Y),
            Binary64.isNaN x = false) →
          q1 ≤ median ∧ median ≤ q3) := by
  have hperm := Binary64.sortFloat64s_perm_b64
    (extractNumbers Binary64.ParseFloat (GetColumnData dataset chart.Y))
  have hsorted := Binary64.sortFloat64s_sorted
    (extractNumbers Binary64.ParseFloat (GetColumnData dataset chart.Y))
  have hlen : 1 ≤ (Binary64.sortFloat64s
      (extractNumbers Binary64.ParseFloat (GetColumnData dataset chart.Y))).length := by
    rw [hperm.length_eq]
    exact hn
  have h1 : (Binary64.sortFloat64s
      (extractNumbers Binary64.ParseFloat (GetColumnData dataset chart.Y))).length / 4 <
      (Binary64.sortFloat64s
        (extractNumbers Binary64.ParseFloat (GetColumnData dataset chart.Y))).length := by
    omega
  have h2 : (Binary64.sortFloat64s
      (extractNumbers Binary64.ParseFloat (GetColumnData dataset chart.Y))).length / 2 <
      (Binary64.sortFloat64s
        (extractNumbers Binary64.ParseFloat (GetColumnData dataset chart.Y))).length := by
    omega
  have h3 : 3 * (Binary64.sortFloat64s
      (extractNumbers Binary64.ParseFloat (GetColumnData dataset chart.Y))).length / 4 <
      (Binary64.sortFloat64s
        (extractNumbers Binary64.ParseFloat (GetColumnData dataset chart.Y))).length := by
    omega
  have hne : ¬ (extractNumbers Binary64.ParseFloat (GetColumnData dataset chart.Y)).length = 0 := by
    omega
  refine ⟨_, rfl, hperm, hsorted, h1, h2, h3,
    (Binary64.boxplotValues (Binary64.sortFloat64s
      (extractNumbers Binary64.ParseFloat (GetColumnData dataset chart.Y)))).q1,
    (Binary64.boxplotValues (Binary64.sortFloat64s
      (extractNumbers Binary64.ParseFloat (GetColumnData dataset chart.Y)))).median,
    (Binary64.boxplotValues (Binary64.sortFloat64s
      (extractNumbers Binary64.ParseFloat (GetColumnData dataset chart.Y)))).q3,
    (Binary64.boxplotValues (Binary64.sortFloat64s
      (extractNumbers Binary64.ParseFloat (GetColumnData dataset chart.Y)))).minVal,
    (Binary64.boxplotValues (Binary64.sortFloat64s
      (extractNumbers Binary64.ParseFloat (GetColumnData dataset chart.Y)))).maxVal,
    (Binary64.boxplotValues (Binary64.sortFloat64s
      (extractNumbers Binary64.ParseFloat (GetColumnData dataset chart.Y)))).outliers,
    Binary64.getElem?_eq_at_b64 _ _ h1, Binary64.getElem?_eq_at_b64 _ _ h2,
    Binary64.getElem?_eq_at_b64 _ _ h3, ?_, ?_⟩
  · simp only [Binary64.generateBoxplotData, hne, if_false]
  · intro hnan
    have hnan' : ∀ x ∈ Binary64.sortFloat64s
        (extractNumbers Binary64.ParseFloat (GetColumnData dataset chart.Y)),
        Binary64.isNaN x = false := fun x hx => hnan x (hperm.mem_iff.1 hx)
    exact ⟨Binary64.sorted_at_le_b64 _ hsorted hnan' _ _ (by omega) h2,
      Binary64.sorted_at_le_b64 _ hsorted hnan' _ _ (by omega) h3⟩

/-- C17 as stated fails on `float64` values: on the column `NaN, 1, 2` the
boxplot row has `q1 = NaN`, `median = 1`, `q3 = 2`, and `q1 <= median` is
false. -/
theorem boxplot_nan_counterexample :
    Binary64.generateBoxplotData (singleColumnDataset ["NaN", "1", "2"])
        (sampleChart "boxplot" "" "v" "" 0) =
      [[("min", Value.num Binary64.nan), ("q1", Value.num Binary64.nan),
        ("median", Value.num (Binary64.fin 1)), ("q3", Value.num (Binary64.fin 2)),
        ("max", Value.num (Binary64.fin 2)), ("outliers", Value.nums [])]] ∧
    ¬ (Binary64.nan ≤ Binary64.fin 1) := by
  constructor
  · decide!
  · decide

/-- C17 (amended), run on the column `3, 1, 2, 8, 5, 4, 7, 6`: the row has
`q1 = 3`, `median = 5`, `q3 = 7`. -/
theorem boxplot_quartiles_binary64_witness :
    Binary64.generateBoxplotData
        (singleColumnDataset ["3", "1", "2", "8", "5", "4", "7", "6"])
        (sampleChart "boxplot" "" "v" "" 0) =
      [[("min", Value.num (Binary64.fin 1)), ("q1", Value.num (Binary64.fin 3)),
        ("median", Value.num (Binary64.fin 5)), ("q3", Value.num (Binary64.fin 7)),
        ("max", Value.num (Binary64.fin 8)), ("outliers", Value.nums [])]] ∧
    (Binary64.fin 3 ≤ Binary64.fin 5 ∧ Binary64.fin 5 ≤ Binary64.fin 7) := by
  have hnum : extractNumbers Binary64.ParseFloat (GetColumnData
      (singleColumnDataset ["3", "1", "2", "8", "5", "4", "7", "6"])
      (sampleChart "boxplot" "" "v" "" 0).Y) =
      [Binary64.fin 3, Binary64.fin 1, Binary64.fin 2, Binary64.fin 8, Binary64.fin 5,
        Binary64.fin 4, Binary64.fin 7, Binary64.fin 6] := by decide!
  obtain ⟨sorted, hs, _, _, _, _, _, q1, median, q3, minVal, maxVal, outliers, hq1, hmed, hq3,
    hrow, hord⟩ := boxplot_quartiles_binary64
      (singleColumnDataset ["3", "1", "2", "8", "5", "4", "7", "6"])
      (sampleChart "boxplot" "" "v" "" 0) (by rw [hnum]; decide)
  have hsorted : sorted = [Binary64.fin 1, Binary64.fin 2, Binary64.fin 3, Binary64.fin 4,
      Binary64.fin 5, Binary64.fin 6, Binary64.fin 7, Binary64.fin 8] := by
    rw [hs, hnum]
    decide!
  subst hsorted
  have e1 : q1 = Binary64.fin 3 := by
    have : some (Binary64.fin 3) = some q1 := hq1
    injection this with this
    exact this.symm
  have e2 : median = Binary64.fin 5 := by
    have : some (Binary64.fin 5) = some median := hmed
    injection this with this
    exact this.symm
  have e3 : q3 = Binary64.fin 7 := by
    have : some (Binary64.fin 7) = some q3 := hq3
    injection this with this
    exact this.symm
  subst e1 e2 e3
  refine ⟨by decide!, hord ?_⟩
  rw [hnum]
  decide


/-- C5 as stated fails on `float64` values. A column with the cell `NaN`, or
with the cells `Inf`, `1`, has `StdDev = NaN`, and `0 <= NaN` is false. For the
cells `0.1`, `0.2`, `0.4` the reported `Mean` and `StdDev` are rounded values:
the square of `StdDev` is not the mean of the squared deviations of the three
parsed numbers, neither from the reported mean nor from their exact mean. -/
theorem stdDev_binary64_counterexample :
    (Binary64.calculateStats "c" [Cell.str "NaN"]).StdDev = some Binary64.nan ∧
    (Binary64.calculateStats "c" [Cell.str "Inf", Cell.str "1"]).StdDev = some Binary64.nan ∧
    ¬ ((0 : Binary64) ≤ Binary64.nan) ∧
    parsedNumbers Binary64.ParseFloat [Cell.str "0.1", Cell.str "0.2", Cell.str "0.4"] =
      [Binary64.fin (3602879701896397 / 36028797018963968),
        Binary64.fin (3602879701896397 / 18014398509481984),
        Binary64.fin (3602879701896397 / 9007199254740992)] ∧
    (Binary64.calculateStats "c" [Cell.str "0.1", Cell.str "0.2", Cell.str "0.4"]).Mean =
      some (Binary64.fin (8406719304424927 / 36028797018963968)) ∧
    (Binary64.calculateStats "c" [Cell.str "0.1", Cell.str "0.2", Cell.str "0.4"]).StdDev =
      some (Binary64.fin (4493580483419517 / 36028797018963968)) ∧
    (4493580483419517 / 36028797018963968 : ℚ) ^ 2 ≠
      1 / 3 * ((3602879701896397 / 36028797018963968 - 8406719304424927 / 36028797018963968) ^ 2 +
        (3602879701896397 / 18014398509481984 - 8406719304424927 / 36028797018963968) ^ 2 +
        (3602879701896397 / 9007199254740992 - 8406719304424927 / 36028797018963968) ^ 2) ∧
    (4493580483419517 / 36028797018963968 : ℚ) ^ 2 ≠
      1 / 3 * ((3602879701896397 / 36028797018963968 -
            (3602879701896397 / 36028797018963968 + 3602879701896397 / 18014398509481984 +
              3602879701896397 / 9007199254740992) / 3) ^ 2 +
        (3602879701896397 / 18014398509481984 -
            (3602879701896397 / 36028797018963968 + 3602879701896397 / 18014398509481984 +
              3602879701896397 / 9007199254740992) / 3) ^ 2 +
        (3602879701896397 / 9007199254740992 -
            (3602879701896397 / 36028797018963968 + 3602879701896397 / 18014398509481984 +
              3602879701896397 / 9007199254740992) / 3) ^ 2) := by
  refine ⟨by decide!, by decide!, by decide, by decide!, by decide!, by decide!, ?_, ?_⟩
  · norm_num
  · norm_num

/-- C6 as stated fails on `float64` values. On the cells `NaN`, `1`, `2` the
parsed numbers are NaN, 1, 2, the sorted slice starts with NaN and the reported
`Min` and `Mean` are NaN: `Min` is not below the parsed number `1`. On the
cells `0.1`, `0.2` the reported `Mean` is the rounded value
`0.15000000000000002`, not the arithmetic mean of the two parsed numbers. -/
theorem numeric_stats_binary64_counterexample :
    parsedNumbers Binary64.ParseFloat [Cell.str "NaN", Cell.str "1", Cell.str "2"] =
      [Binary64.nan, Binary64.fin 1, Binary64.fin 2] ∧
    (Binary64.calculateStats "c" [Cell.str "NaN", Cell.str "1", Cell.str "2"]).Min =
      some Binary64.nan ∧
    (Binary64.calculateStats "c" [Cell.str "NaN", Cell.str "1", Cell.str "2"]).Mean =
      some Binary64.nan ∧
    ¬ (Binary64.nan ≤ Binary64.fin 1) ∧
    parsedNumbers Binary64.ParseFloat [Cell.str "0.1", Cell.str "0.2"] =
      [Binary64.fin (3602879701896397 / 36028797018963968),
        Binary64.fin (3602879701896397 / 18014398509481984)] ∧
    (Binary64.calculateStats "c" [Cell.str "0.1", Cell.str "0.2"]).Mean =
      some (Binary64.fin (1351079888211149 / 9007199254740992)) ∧
    (1351079888211149 / 9007199254740992 : ℚ) ≠
      (3602879701896397 / 36028797018963968 + 3602879701896397 / 18014398509481984) / 2 := by
  refine ⟨by decide!, by decide!, by decide!, by decide, by decide!, by decide!, ?_⟩
  norm_num

/-- C16 as stated fails on `float64` values. For the column `0`, `0.3`, `3` and
`bins = 10` the code computes the width and the quotient in binary64: the
parsed `0.3` divided by the rounded width is exactly `1` and is counted in row
1, while the exact quotient `(v - min) / w` with `w = (max - min) / 10` is
below `1`, so the claim counts it in row 0; and the `start` of row 1 is the
rounded width, not `min + 1 * w`. With `bins = 2 ^ 62` the slice of counters
cannot be made and the projection panics. -/
theorem histogram_binary64_counterexample :
    extractNumbers Binary64.ParseFloat
        (GetColumnData (singleColumnDataset ["0", "0.3", "3"]) "v") =
      [Binary64.fin 0, Binary64.fin (5404319552844595 / 18014398509481984), Binary64.fin 3] ∧
    (match Binary64.generateHistogramData (fun _ => "") (singleColumnDataset ["0", "0.3", "3"])
        (sampleChart "histogram" "v" "" "" 10) with
      | Outcome.ok rows => rows.map (fun r => (GoMap.get? r "count", GoMap.get? r "start"))
      | _ => []) =
      [(some (Value.int 1), some (Value.num (Binary64.fin 0))),
       (some (Value.int 1), some (Value.num (Binary64.fin (5404319552844595 / 18014398509481984)))),
       (some (Value.int 0), some (Value.num (Binary64.fin (5404319552844595 / 9007199254740992)))),
       (some (Value.int 0), some (Value.num (Binary64.fin (2026619832316723 / 2251799813685248)))),
       (some (Value.int 0), some (Value.num (Binary64.fin (5404319552844595 / 4503599627370496)))),
       (some (Value.int 0), some (Value.num (Binary64.fin (3 / 2)))),
       (some (Value.int 0), some (Value.num (Binary64.fin (2026619832316723 / 1125899906842624)))),
       (some (Value.int 0), some (Value.num (Binary64.fin (4728779608739021 / 2251799813685248)))),
       (some (Value.int 0), some (Value.num (Binary64.fin (5404319552844595 / 2251799813685248)))),
       (some (Value.int 1), some (Value.num (Binary64.fin (6079859496950169 / 2251799813685248))))] ∧
    min ⌊((5404319552844595 / 18014398509481984 : ℚ) - 0) / ((3 - 0) / 10)⌋ (10 - 1) = 0 ∧
    (5404319552844595 / 18014398509481984 : ℚ) ≠ 0 + 1 * ((3 - 0) / 10) ∧
    Binary64.generateHistogramData (fun _ => "") (singleColumnDataset ["0", "0.3", "3"])
        (sampleChart "histogram" "v" "" "" 4611686018427387904) =
      Outcome.panic "makeslice: len out of range" := by
  refine ⟨by decide!, by decide!, ?_, ?_, by decide!⟩
  · have h : ⌊((5404319552844595 / 18014398509481984 : ℚ) - 0) / ((3 - 0) / 10)⌋ = 0 := by
      rw [Int.floor_eq_iff]
      constructor <;> norm_num
    rw [h]
    decide
  · norm_num

/-- C20 as stated fails on `float64` values. The three parsed cells `0.1` are
equal, but their rounded mean is `0.10000000000000002`, the deviations are not
zero and the zero-denominator guard does not fire: the coefficient of the list
against itself is `1`, and against `1, 2, 4` it is about `1.19e-16`, where the
reference definition gives `0` for a list of equal elements. -/
theorem correlation_binary64_counterexample :
    extractNumbers Binary64.ParseFloat [Cell.str "0.1", Cell.str "0.1", Cell.str "0.1"] =
      [Binary64.fin (3602879701896397 / 36028797018963968),
        Binary64.fin (3602879701896397 / 36028797018963968),
        Binary64.fin (3602879701896397 / 36028797018963968)] ∧
    Binary64.calculateCorrelation
        (extractNumbers Binary64.ParseFloat [Cell.str "0.1", Cell.str "0.1", Cell.str "0.1"])
        (extractNumbers Binary64.ParseFloat [Cell.str "0.1", Cell.str "0.1", Cell.str "0.1"]) =
      Binary64.fin 1 ∧
    Binary64.calculateCorrelation
        (extractNumbers Binary64.ParseFloat [Cell.str "1", Cell.str "2", Cell.str "4"])
        (extractNumbers Binary64.ParseFloat [Cell.str "0.1", Cell.str "0.1", Cell.str "0.1"]) =
      Binary64.fin (2407275258974741 / 20282409603651670423947251286016) := by
  refine ⟨by decide!, by decide!, by decide!⟩

/-- The examples of the specification, run on binary64 values: the standard
deviation of `2,4,4,4,5,5,7,9` is `2`, and the coefficients of `1,2,3` against
`2,4,6`, `6,4,2` and `5,5,5` are `1`, `-1` and `0`. -/
theorem spec_examples_binary64 :
    (Binary64.calculateStats "c" [Cell.str "2", Cell.str "4", Cell.str "4", Cell.str "4",
      Cell.str "5", Cell.str "5", Cell.str "7", Cell.str "9"]).StdDev =
      some (Binary64.fin 2) ∧
    Binary64.calculateCorrelation [Binary64.fin 1, Binary64.fin 2, Binary64.fin 3]
      [Binary64.fin 2, Binary64.fin 4, Binary64.fin 6] = Binary64.fin 1 ∧
    Binary64.calculateCorrelation [Binary64.fin 1, Binary64.fin 2, Binary64.fin 3]
      [Binary64.fin 6, Binary64.fin 4, Binary64.fin 2] = Binary64.fin (-1) ∧
    Binary64.calculateCorrelation [Binary64.fin 1, Binary64.fin 2, Binary64.fin 3]
      [Binary64.fin 5, Binary64.fin 5, Binary64.fin 5] = Binary64.fin 0 := by
  refine ⟨by decide!, by decide!, by decide!, by decide!⟩

end DataAnalyzer
